import Mathlib

/-!
# atomix: a shallow embedding of the atomic primitives and placement helpers

The development follows the Go sources of the package:

* `internal/arch/generic.go` : the portable definition of every primitive.  The four
  ordering variants of a primitive have one sequential meaning, so a cell accessed by a
  single goroutine is a value and every operation is a function from the cell before
  the call to the result and the cell after it.
* `uint128.go`, `int128.go`, `int32.go`, ... : the typed wrappers.
* `order_*.go` : the `MemoryOrder` dispatch methods.
* `align.go` : the feasibility tests and the placement functions.

Conventions.
* `uint64`, `uintptr` are natural numbers reduced modulo `2^64`; `int64`, `int` are
  integers wrapped into `[-2^63, 2^63)`; 32-bit types likewise with `2^32`.
  The targets of the package (amd64, arm64, riscv64, loong64) are 64-bit, so `int` and
  `uintptr` are 64 bits wide.
* A `for { ... }` retry loop takes a `fuel : Nat` bounding the number of iterations and
  returns `none` when the fuel is exhausted.
* A function that can panic returns `Except String _`, the string being the panic
  message.
-/

namespace Atomix

/-! ## Machine words -/

/-- Conversion `uint32(x)` of an `int32` value: the same 32 bits read unsigned. -/
def toU32 (x : Int) : Nat := (x % 2 ^ 32).toNat

/-- Conversion `int32(n)` of a `uint32` value: the same 32 bits read in two's complement. -/
def toI32 (n : Nat) : Int :=
  if n % 2 ^ 32 < 2 ^ 31 then ((n % 2 ^ 32 : Nat) : Int) else ((n % 2 ^ 32 : Nat) : Int) - 2 ^ 32

/-- Conversion `uint64(x)` of an `int64` value: the same 64 bits read unsigned. -/
def toU64 (x : Int) : Nat := (x % 2 ^ 64).toNat

/-- Conversion `int64(n)` of a `uint64` value: the same 64 bits read in two's complement. -/
def toI64 (n : Nat) : Int :=
  if n % 2 ^ 64 < 2 ^ 63 then ((n % 2 ^ 64 : Nat) : Int) else ((n % 2 ^ 64 : Nat) : Int) - 2 ^ 64

/-- The range of `int32`. -/
def IsI32 (x : Int) : Prop := -(2 ^ 31) ≤ x ∧ x < 2 ^ 31

instance (x : Int) : Decidable (IsI32 x) := by unfold IsI32; infer_instance

/-- The range of `int64`. -/
def IsI64 (x : Int) : Prop := -(2 ^ 63) ≤ x ∧ x < 2 ^ 63

instance (x : Int) : Decidable (IsI64 x) := by unfold IsI64; infer_instance

/-- Addition of `uint32` values: `a + b` in Go. -/
def addU32 (a b : Nat) : Nat := (a + b) % 2 ^ 32

/-- Subtraction of `uint32` values: `a - b` in Go (wraps below zero). -/
def subU32 (a b : Nat) : Nat := (a + (2 ^ 32 - b % 2 ^ 32)) % 2 ^ 32

/-- Bitwise complement of a `uint32` value: `^a` in Go. -/
def notU32 (a : Nat) : Nat := 2 ^ 32 - 1 - a % 2 ^ 32

/-- Bitwise and, or, exclusive or of `uint32` values: `a & b`, `a | b`, `a ^ b` in Go. -/
def andU32 (a b : Nat) : Nat := a &&& b
@[inherit_doc andU32]
def orU32 (a b : Nat) : Nat := a ||| b
@[inherit_doc andU32]
def xorU32 (a b : Nat) : Nat := a ^^^ b

/-- Addition of `uint64` (and, the targets being 64-bit, `uintptr`) values: `a + b` in Go. -/
def addU64 (a b : Nat) : Nat := (a + b) % 2 ^ 64

/-- Subtraction of `uint64` values: `a - b` in Go (wraps below zero). -/
def subU64 (a b : Nat) : Nat := (a + (2 ^ 64 - b % 2 ^ 64)) % 2 ^ 64

/-- Bitwise complement of a `uint64` value: `^a` in Go. -/
def notU64 (a : Nat) : Nat := 2 ^ 64 - 1 - a % 2 ^ 64

/-- Bitwise and, or, exclusive or of `uint64` values: `a & b`, `a | b`, `a ^ b` in Go. -/
def andU64 (a b : Nat) : Nat := a &&& b
@[inherit_doc andU64]
def orU64 (a b : Nat) : Nat := a ||| b
@[inherit_doc andU64]
def xorU64 (a b : Nat) : Nat := a ^^^ b

/-- Addition of `int32` values: `a + b` in Go, wrapping in two's complement. -/
def addI32 (a b : Int) : Int := (a + b + 2 ^ 31) % 2 ^ 32 - 2 ^ 31

/-- Negation of an `int32` value: `-a` in Go, wrapping in two's complement. -/
def negI32 (a : Int) : Int := (-a + 2 ^ 31) % 2 ^ 32 - 2 ^ 31

/-- Bitwise and, or, exclusive or of `int32` values, on their two's-complement bits. -/
def andI32 (a b : Int) : Int := toI32 (toU32 a &&& toU32 b)
@[inherit_doc andI32]
def orI32 (a b : Int) : Int := toI32 (toU32 a ||| toU32 b)
@[inherit_doc andI32]
def xorI32 (a b : Int) : Int := toI32 (toU32 a ^^^ toU32 b)

/-- Addition of `int64` values: `a + b` in Go, wrapping in two's complement. -/
def addI64 (a b : Int) : Int := (a + b + 2 ^ 63) % 2 ^ 64 - 2 ^ 63

/-- Negation of an `int64` value: `-a` in Go, wrapping in two's complement. -/
def negI64 (a : Int) : Int := (-a + 2 ^ 63) % 2 ^ 64 - 2 ^ 63

/-- Bitwise and, or, exclusive or of `int64` values, on their two's-complement bits. -/
def andI64 (a b : Int) : Int := toI64 (toU64 a &&& toU64 b)
@[inherit_doc andI64]
def orI64 (a b : Int) : Int := toI64 (toU64 a ||| toU64 b)
@[inherit_doc andI64]
def xorI64 (a b : Int) : Int := toI64 (toU64 a ^^^ toU64 b)

/-! ## 128-bit primitives (`internal/arch/generic.go`)

The 16 bytes `[16]byte` are only ever accessed as two `uint64` words, the low word at
byte 0 and the high word at byte 8. -/

/-- The backing store `v [16]byte` of a 128-bit cell, as its two 64-bit words. -/
structure Bytes16 where
  lo : Nat
  hi : Nat
deriving DecidableEq, Repr

namespace arch

/-- `LoadUint128Relaxed`: read the low then the high word. -/
def LoadUint128Relaxed (addr : Bytes16) : Nat × Nat :=
  (addr.lo, addr.hi)

/-- `LoadUint128Acquire`. -/
def LoadUint128Acquire (addr : Bytes16) : Nat × Nat :=
  LoadUint128Relaxed addr

/-- `StoreUint128Relaxed`: write both words; returns the memory after the call. -/
def StoreUint128Relaxed (_addr : Bytes16) (lo hi : Nat) : Bytes16 :=
  { lo := lo, hi := hi }

/-- `StoreUint128Release`. -/
def StoreUint128Release (addr : Bytes16) (lo hi : Nat) : Bytes16 :=
  StoreUint128Relaxed addr lo hi

/-- `SwapUint128Relaxed`: returns the old words and the memory after the call. -/
def SwapUint128Relaxed (addr : Bytes16) (newLo newHi : Nat) : (Nat × Nat) × Bytes16 :=
  let oldLo := addr.lo
  let oldHi := addr.hi
  ((oldLo, oldHi), { lo := newLo, hi := newHi })

/-- `SwapUint128Acquire`. -/
def SwapUint128Acquire (addr : Bytes16) (newLo newHi : Nat) : (Nat × Nat) × Bytes16 :=
  SwapUint128Relaxed addr newLo newHi

/-- `SwapUint128Release`. -/
def SwapUint128Release (addr : Bytes16) (newLo newHi : Nat) : (Nat × Nat) × Bytes16 :=
  SwapUint128Relaxed addr newLo newHi

/-- `SwapUint128AcqRel`. -/
def SwapUint128AcqRel (addr : Bytes16) (newLo newHi : Nat) : (Nat × Nat) × Bytes16 :=
  SwapUint128Relaxed addr newLo newHi

/-- `CasUint128Relaxed`: returns the success flag and the memory after the call. -/
def CasUint128Relaxed (addr : Bytes16) (oldLo oldHi newLo newHi : Nat) : Bool × Bytes16 :=
  let curLo := addr.lo
  let curHi := addr.hi
  if curLo = oldLo ∧ curHi = oldHi then
    (true, { lo := newLo, hi := newHi })
  else
    (false, addr)

/-- `CasUint128Acquire`. -/
def CasUint128Acquire (addr : Bytes16) (oldLo oldHi newLo newHi : Nat) : Bool × Bytes16 :=
  CasUint128Relaxed addr oldLo oldHi newLo newHi

/-- `CasUint128Release`. -/
def CasUint128Release (addr : Bytes16) (oldLo oldHi newLo newHi : Nat) : Bool × Bytes16 :=
  CasUint128Relaxed addr oldLo oldHi newLo newHi

/-- `CasUint128AcqRel`. -/
def CasUint128AcqRel (addr : Bytes16) (oldLo oldHi newLo newHi : Nat) : Bool × Bytes16 :=
  CasUint128Relaxed addr oldLo oldHi newLo newHi

/-- `CaxUint128Relaxed`: returns the words observed and the memory after the call. -/
def CaxUint128Relaxed (addr : Bytes16) (oldLo oldHi newLo newHi : Nat) :
    (Nat × Nat) × Bytes16 :=
  let lo := addr.lo
  let hi := addr.hi
  if lo = oldLo ∧ hi = oldHi then
    ((lo, hi), { lo := newLo, hi := newHi })
  else
    ((lo, hi), addr)

/-- `CaxUint128Acquire`. -/
def CaxUint128Acquire (addr : Bytes16) (oldLo oldHi newLo newHi : Nat) :
    (Nat × Nat) × Bytes16 :=
  CaxUint128Relaxed addr oldLo oldHi newLo newHi

/-- `CaxUint128Release`. -/
def CaxUint128Release (addr : Bytes16) (oldLo oldHi newLo newHi : Nat) :
    (Nat × Nat) × Bytes16 :=
  CaxUint128Relaxed addr oldLo oldHi newLo newHi

/-- `CaxUint128AcqRel`. -/
def CaxUint128AcqRel (addr : Bytes16) (oldLo oldHi newLo newHi : Nat) :
    (Nat × Nat) × Bytes16 :=
  CaxUint128Relaxed addr oldLo oldHi newLo newHi

end arch

/-! ## `Uint128` (`types.go`, `uint128.go`) -/

/-- The type `Uint128 struct { _ noCopy; v [16]byte }`. -/
structure Uint128 where
  v : Bytes16
deriving DecidableEq, Repr

namespace Uint128

/-- A cell is well formed when both of its words are `uint64` values. -/
def WF (a : Uint128) : Prop := a.v.lo < 2 ^ 64 ∧ a.v.hi < 2 ^ 64

instance (a : Uint128) : Decidable a.WF := by unfold WF; infer_instance

/-- The unsigned 128-bit integer held by the cell: `hi * 2^64 + lo`. -/
def value (a : Uint128) : Nat := a.v.lo + 2 ^ 64 * a.v.hi

/-- `(*Uint128).Load`. -/
def Load (a : Uint128) : Nat × Nat :=
  arch.LoadUint128Relaxed a.v

/-- `(*Uint128).Store`. -/
def Store (a : Uint128) (lo hi : Nat) : Uint128 :=
  { v := arch.StoreUint128Relaxed a.v lo hi }

/-- `(*Uint128).Swap`. -/
def Swap (a : Uint128) (newLo newHi : Nat) : (Nat × Nat) × Uint128 :=
  let r := arch.SwapUint128AcqRel a.v newLo newHi
  (r.1, { v := r.2 })

/-- `(*Uint128).CompareAndSwap`. -/
def CompareAndSwap (a : Uint128) (oldLo oldHi newLo newHi : Nat) : Bool × Uint128 :=
  let r := arch.CasUint128AcqRel a.v oldLo oldHi newLo newHi
  (r.1, { v := r.2 })

/-- `(*Uint128).Add`: the compare-and-swap retry loop, `fuel` iterations at most. -/
def Add (a : Uint128) (deltaLo deltaHi : Nat) : Nat → Option ((Nat × Nat) × Uint128)
  | 0 => none
  | fuel + 1 =>
    let (oldLo, oldHi) := arch.LoadUint128Relaxed a.v
    let newLo := addU64 oldLo deltaLo
    let newHi := addU64 oldHi deltaHi
    let newHi := if newLo < oldLo then addU64 newHi 1 else newHi
    let r := arch.CasUint128AcqRel a.v oldLo oldHi newLo newHi
    if r.1 then some ((newLo, newHi), { v := r.2 })
    else Add { v := r.2 } deltaLo deltaHi fuel

/-- `(*Uint128).Sub`: the compare-and-swap retry loop, `fuel` iterations at most. -/
def Sub (a : Uint128) (deltaLo deltaHi : Nat) : Nat → Option ((Nat × Nat) × Uint128)
  | 0 => none
  | fuel + 1 =>
    let (oldLo, oldHi) := arch.LoadUint128Relaxed a.v
    let newLo := subU64 oldLo deltaLo
    let newHi := subU64 oldHi deltaHi
    let newHi := if newLo > oldLo then subU64 newHi 1 else newHi
    let r := arch.CasUint128AcqRel a.v oldLo oldHi newLo newHi
    if r.1 then some ((newLo, newHi), { v := r.2 })
    else Sub { v := r.2 } deltaLo deltaHi fuel

end Uint128

/-! ## `Int128` (`types.go`, `int128.go`)

The signed type shares the `[16]byte` store; every method converts its `int64`
arguments with `uint64(..)` and its results with `int64(..)`. -/

/-- The type `Int128 struct { _ noCopy; v [16]byte }`. -/
structure Int128 where
  v : Bytes16
deriving DecidableEq, Repr

namespace Int128

/-- A cell is well formed when both of its words are `uint64` values. -/
def WF (a : Int128) : Prop := a.v.lo < 2 ^ 64 ∧ a.v.hi < 2 ^ 64

instance (a : Int128) : Decidable a.WF := by unfold WF; infer_instance

/-- The signed 128-bit integer held by the cell: the high word read in two's
complement, the low word as an unsigned magnitude. -/
def value (a : Int128) : Int := toI64 a.v.hi * 2 ^ 64 + ((a.v.lo % 2 ^ 64 : Nat) : Int)

/-- `(*Int128).Load`. -/
def Load (a : Int128) : Int × Int :=
  let (ulo, uhi) := arch.LoadUint128Relaxed a.v
  (toI64 ulo, toI64 uhi)

/-- `(*Int128).Store`. -/
def Store (a : Int128) (lo hi : Int) : Int128 :=
  { v := arch.StoreUint128Relaxed a.v (toU64 lo) (toU64 hi) }

/-- `(*Int128).Swap`. -/
def Swap (a : Int128) (newLo newHi : Int) : (Int × Int) × Int128 :=
  let r := arch.SwapUint128AcqRel a.v (toU64 newLo) (toU64 newHi)
  ((toI64 r.1.1, toI64 r.1.2), { v := r.2 })

/-- `(*Int128).CompareAndSwap`. -/
def CompareAndSwap (a : Int128) (oldLo oldHi newLo newHi : Int) : Bool × Int128 :=
  let r := arch.CasUint128AcqRel a.v (toU64 oldLo) (toU64 oldHi) (toU64 newLo) (toU64 newHi)
  (r.1, { v := r.2 })

/-- `(*Int128).Add`: the compare-and-swap retry loop, `fuel` iterations at most. -/
def Add (a : Int128) (deltaLo deltaHi : Int) : Nat → Option ((Int × Int) × Int128)
  | 0 => none
  | fuel + 1 =>
    let (ulo, uhi) := arch.LoadUint128Relaxed a.v
    let newLo := addU64 ulo (toU64 deltaLo)
    let newHi := addU64 uhi (toU64 deltaHi)
    let newHi := if newLo < ulo then addU64 newHi 1 else newHi
    let r := arch.CasUint128AcqRel a.v ulo uhi newLo newHi
    if r.1 then some ((toI64 newLo, toI64 newHi), { v := r.2 })
    else Add { v := r.2 } deltaLo deltaHi fuel

/-- `(*Int128).Sub`: the compare-and-swap retry loop, `fuel` iterations at most. -/
def Sub (a : Int128) (deltaLo deltaHi : Int) : Nat → Option ((Int × Int) × Int128)
  | 0 => none
  | fuel + 1 =>
    let (ulo, uhi) := arch.LoadUint128Relaxed a.v
    let newLo := subU64 ulo (toU64 deltaLo)
    let newHi := subU64 uhi (toU64 deltaHi)
    let newHi := if newLo > ulo then subU64 newHi 1 else newHi
    let r := arch.CasUint128AcqRel a.v ulo uhi newLo newHi
    if r.1 then some ((toI64 newLo, toI64 newHi), { v := r.2 })
    else Sub { v := r.2 } deltaLo deltaHi fuel

/-- `(*Int128).Equal`. -/
def Equal (a : Int128) (lo hi : Int) : Bool :=
  let (ulo, uhi) := arch.LoadUint128Acquire a.v
  decide (toI64 ulo = lo) && decide (toI64 uhi = hi)

/-- `(*Int128).Less`. -/
def Less (a : Int128) (lo hi : Int) : Bool :=
  let (ulo, uhi) := arch.LoadUint128Acquire a.v
  let ahi := toI64 uhi
  let alo := toI64 ulo
  decide (ahi < hi) || (decide (ahi = hi) && decide (toU64 alo < toU64 lo))

/-- `(*Int128).LessOrEqual`. -/
def LessOrEqual (a : Int128) (lo hi : Int) : Bool :=
  let (ulo, uhi) := arch.LoadUint128Acquire a.v
  let ahi := toI64 uhi
  let alo := toI64 ulo
  decide (ahi < hi) || (decide (ahi = hi) && decide (toU64 alo ≤ toU64 lo))

/-- `(*Int128).Greater`. -/
def Greater (a : Int128) (lo hi : Int) : Bool :=
  let (ulo, uhi) := arch.LoadUint128Acquire a.v
  let ahi := toI64 uhi
  let alo := toI64 ulo
  decide (ahi > hi) || (decide (ahi = hi) && decide (toU64 alo > toU64 lo))

/-- `(*Int128).GreaterOrEqual`. -/
def GreaterOrEqual (a : Int128) (lo hi : Int) : Bool :=
  let (ulo, uhi) := arch.LoadUint128Acquire a.v
  let ahi := toI64 uhi
  let alo := toI64 ulo
  decide (ahi > hi) || (decide (ahi = hi) && decide (toU64 alo ≥ toU64 lo))

end Int128

/-! ## `MemoryOrder` (`order.go`) and the 128-bit dispatch (`order_uint128.go`,
`order_int128.go`) -/

/-- The type `MemoryOrder uint8`; any value may be passed, also outside the four named
constants. -/
structure MemoryOrder where
  val : Nat
deriving DecidableEq, Repr

/-- `Relaxed MemoryOrder = iota`. -/
def Relaxed : MemoryOrder := ⟨0⟩
/-- `Acquire`. -/
def Acquire : MemoryOrder := ⟨1⟩
/-- `Release`. -/
def Release : MemoryOrder := ⟨2⟩
/-- `AcqRel`. -/
def AcqRel : MemoryOrder := ⟨3⟩

namespace MemoryOrder

/-- `MemoryOrder.LoadUint128`. -/
def LoadUint128 (o : MemoryOrder) (addr : Uint128) : Nat × Nat :=
  if o = Relaxed then arch.LoadUint128Relaxed addr.v
  else arch.LoadUint128Acquire addr.v

/-- `MemoryOrder.StoreUint128`. -/
def StoreUint128 (o : MemoryOrder) (addr : Uint128) (lo hi : Nat) : Uint128 :=
  if o = Relaxed then { v := arch.StoreUint128Relaxed addr.v lo hi }
  else { v := arch.StoreUint128Release addr.v lo hi }

/-- `MemoryOrder.SwapUint128`. -/
def SwapUint128 (o : MemoryOrder) (addr : Uint128) (newLo newHi : Nat) :
    (Nat × Nat) × Uint128 :=
  let r :=
    if o = Relaxed then arch.SwapUint128Relaxed addr.v newLo newHi
    else if o = Acquire then arch.SwapUint128Acquire addr.v newLo newHi
    else if o = Release then arch.SwapUint128Release addr.v newLo newHi
    else arch.SwapUint128AcqRel addr.v newLo newHi
  (r.1, { v := r.2 })

/-- The first loop of `MemoryOrder.AddUint128`, taken when `o == Relaxed`. -/
def AddUint128.loopRelaxed (addr : Uint128) (deltaLo deltaHi : Nat) :
    Nat → Option ((Nat × Nat) × Uint128)
  | 0 => none
  | fuel + 1 =>
    let (ulo, uhi) := arch.LoadUint128Relaxed addr.v
    let newLo := addU64 ulo deltaLo
    let newHi := addU64 uhi deltaHi
    let newHi := if newLo < ulo then addU64 newHi 1 else newHi
    let r := arch.CasUint128Relaxed addr.v ulo uhi newLo newHi
    if r.1 then some ((ulo, uhi), { v := r.2 })
    else loopRelaxed { v := r.2 } deltaLo deltaHi fuel

/-- The second loop of `MemoryOrder.AddUint128`, taken for every other ordering. -/
def AddUint128.loopAcqRel (addr : Uint128) (deltaLo deltaHi : Nat) :
    Nat → Option ((Nat × Nat) × Uint128)
  | 0 => none
  | fuel + 1 =>
    let (ulo, uhi) := arch.LoadUint128Relaxed addr.v
    let newLo := addU64 ulo deltaLo
    let newHi := addU64 uhi deltaHi
    let newHi := if newLo < ulo then addU64 newHi 1 else newHi
    let r := arch.CasUint128AcqRel addr.v ulo uhi newLo newHi
    if r.1 then some ((ulo, uhi), { v := r.2 })
    else loopAcqRel { v := r.2 } deltaLo deltaHi fuel

/-- `MemoryOrder.AddUint128`. -/
def AddUint128 (o : MemoryOrder) (addr : Uint128) (deltaLo deltaHi : Nat) (fuel : Nat) :
    Option ((Nat × Nat) × Uint128) :=
  if o = Relaxed then AddUint128.loopRelaxed addr deltaLo deltaHi fuel
  else AddUint128.loopAcqRel addr deltaLo deltaHi fuel

/-- `MemoryOrder.LoadInt128`. -/
def LoadInt128 (o : MemoryOrder) (addr : Int128) : Int × Int :=
  if o = Relaxed then
    let (ulo, uhi) := arch.LoadUint128Relaxed addr.v
    (toI64 ulo, toI64 uhi)
  else
    let (ulo, uhi) := arch.LoadUint128Acquire addr.v
    (toI64 ulo, toI64 uhi)

/-- `MemoryOrder.StoreInt128`. -/
def StoreInt128 (o : MemoryOrder) (addr : Int128) (lo hi : Int) : Int128 :=
  if o = Relaxed then { v := arch.StoreUint128Relaxed addr.v (toU64 lo) (toU64 hi) }
  else { v := arch.StoreUint128Release addr.v (toU64 lo) (toU64 hi) }

/-- `MemoryOrder.SwapInt128`. -/
def SwapInt128 (o : MemoryOrder) (addr : Int128) (newLo newHi : Int) :
    (Int × Int) × Int128 :=
  let r :=
    if o = Relaxed then arch.SwapUint128Relaxed addr.v (toU64 newLo) (toU64 newHi)
    else if o = Acquire then arch.SwapUint128Acquire addr.v (toU64 newLo) (toU64 newHi)
    else if o = Release then arch.SwapUint128Release addr.v (toU64 newLo) (toU64 newHi)
    else arch.SwapUint128AcqRel addr.v (toU64 newLo) (toU64 newHi)
  ((toI64 r.1.1, toI64 r.1.2), { v := r.2 })

/-- The first loop of `MemoryOrder.AddInt128`, taken when `o == Relaxed`. -/
def AddInt128.loopRelaxed (addr : Int128) (deltaLo deltaHi : Int) :
    Nat → Option ((Int × Int) × Int128)
  | 0 => none
  | fuel + 1 =>
    let (ulo, uhi) := arch.LoadUint128Relaxed addr.v
    let newLo := addU64 ulo (toU64 deltaLo)
    let newHi := addU64 uhi (toU64 deltaHi)
    let newHi := if newLo < ulo then addU64 newHi 1 else newHi
    let r := arch.CasUint128Relaxed addr.v ulo uhi newLo newHi
    if r.1 then some ((toI64 ulo, toI64 uhi), { v := r.2 })
    else loopRelaxed { v := r.2 } deltaLo deltaHi fuel

/-- The second loop of `MemoryOrder.AddInt128`, taken for every other ordering. -/
def AddInt128.loopAcqRel (addr : Int128) (deltaLo deltaHi : Int) :
    Nat → Option ((Int × Int) × Int128)
  | 0 => none
  | fuel + 1 =>
    let (ulo, uhi) := arch.LoadUint128Relaxed addr.v
    let newLo := addU64 ulo (toU64 deltaLo)
    let newHi := addU64 uhi (toU64 deltaHi)
    let newHi := if newLo < ulo then addU64 newHi 1 else newHi
    let r := arch.CasUint128AcqRel addr.v ulo uhi newLo newHi
    if r.1 then some ((toI64 ulo, toI64 uhi), { v := r.2 })
    else loopAcqRel { v := r.2 } deltaLo deltaHi fuel

/-- `MemoryOrder.AddInt128`. -/
def AddInt128 (o : MemoryOrder) (addr : Int128) (deltaLo deltaHi : Int) (fuel : Nat) :
    Option ((Int × Int) × Int128) :=
  if o = Relaxed then AddInt128.loopRelaxed addr deltaLo deltaHi fuel
  else AddInt128.loopAcqRel addr deltaLo deltaHi fuel

end MemoryOrder

/-! ## Go's `sync/atomic` on one memory word

`internal/arch/generic.go` is written on top of the standard library.  Its functions are
modelled from their documentation: `AddT` returns the new value, `SwapT` the old one,
`CompareAndSwapT` whether the swap happened.  The memory word `*addr` is passed in and
the word after the call is returned next to the result. -/

namespace atomic

/-- `atomic.LoadInt32`. -/
def LoadInt32 (addr : Int) : Int := addr

/-- `atomic.StoreInt32`: the word after the call. -/
def StoreInt32 (_addr : Int) (val : Int) : Int := val

/-- `atomic.SwapInt32`: the old value, and the word after the call. -/
def SwapInt32 (addr : Int) (new : Int) : Int × Int := (addr, new)

/-- `atomic.CompareAndSwapInt32`: whether the swap happened, and the word after the call. -/
def CompareAndSwapInt32 (addr : Int) (old new : Int) : Bool × Int :=
  if addr = old then (true, new) else (false, addr)

/-- `atomic.AddInt32`: the new value, and the word after the call. -/
def AddInt32 (addr : Int) (delta : Int) : Int × Int :=
  (addI32 addr delta, addI32 addr delta)

/-- `atomic.LoadUint32`. -/
def LoadUint32 (addr : Nat) : Nat := addr

/-- `atomic.StoreUint32`: the word after the call. -/
def StoreUint32 (_addr : Nat) (val : Nat) : Nat := val

/-- `atomic.SwapUint32`: the old value, and the word after the call. -/
def SwapUint32 (addr : Nat) (new : Nat) : Nat × Nat := (addr, new)

/-- `atomic.CompareAndSwapUint32`: whether the swap happened, and the word after the call. -/
def CompareAndSwapUint32 (addr : Nat) (old new : Nat) : Bool × Nat :=
  if addr = old then (true, new) else (false, addr)

/-- `atomic.AddUint32`: the new value, and the word after the call. -/
def AddUint32 (addr : Nat) (delta : Nat) : Nat × Nat :=
  (addU32 addr delta, addU32 addr delta)

/-- `atomic.LoadInt64`. -/
def LoadInt64 (addr : Int) : Int := addr

/-- `atomic.StoreInt64`: the word after the call. -/
def StoreInt64 (_addr : Int) (val : Int) : Int := val

/-- `atomic.SwapInt64`: the old value, and the word after the call. -/
def SwapInt64 (addr : Int) (new : Int) : Int × Int := (addr, new)

/-- `atomic.CompareAndSwapInt64`: whether the swap happened, and the word after the call. -/
def CompareAndSwapInt64 (addr : Int) (old new : Int) : Bool × Int :=
  if addr = old then (true, new) else (false, addr)

/-- `atomic.AddInt64`: the new value, and the word after the call. -/
def AddInt64 (addr : Int) (delta : Int) : Int × Int :=
  (addI64 addr delta, addI64 addr delta)

/-- `atomic.LoadUint64`. -/
def LoadUint64 (addr : Nat) : Nat := addr

/-- `atomic.StoreUint64`: the word after the call. -/
def StoreUint64 (_addr : Nat) (val : Nat) : Nat := val

/-- `atomic.SwapUint64`: the old value, and the word after the call. -/
def SwapUint64 (addr : Nat) (new : Nat) : Nat × Nat := (addr, new)

/-- `atomic.CompareAndSwapUint64`: whether the swap happened, and the word after the call. -/
def CompareAndSwapUint64 (addr : Nat) (old new : Nat) : Bool × Nat :=
  if addr = old then (true, new) else (false, addr)

/-- `atomic.AddUint64`: the new value, and the word after the call. -/
def AddUint64 (addr : Nat) (delta : Nat) : Nat × Nat :=
  (addU64 addr delta, addU64 addr delta)

/-- `atomic.LoadUintptr`. -/
def LoadUintptr (addr : Nat) : Nat := addr

/-- `atomic.StoreUintptr`: the word after the call. -/
def StoreUintptr (_addr : Nat) (val : Nat) : Nat := val

/-- `atomic.SwapUintptr`: the old value, and the word after the call. -/
def SwapUintptr (addr : Nat) (new : Nat) : Nat × Nat := (addr, new)

/-- `atomic.CompareAndSwapUintptr`: whether the swap happened, and the word after the call. -/
def CompareAndSwapUintptr (addr : Nat) (old new : Nat) : Bool × Nat :=
  if addr = old then (true, new) else (false, addr)

/-- `atomic.AddUintptr`: the new value, and the word after the call. -/
def AddUintptr (addr : Nat) (delta : Nat) : Nat × Nat :=
  (addU64 addr delta, addU64 addr delta)

end atomic

/-! ## 32-bit, 64-bit and pointer-sized primitives (`internal/arch/generic.go`) -/

namespace arch

/-! ### `int32` -/

/-- `LoadInt32Relaxed`. -/
def LoadInt32Relaxed (addr : Int) : Int :=
  atomic.LoadInt32 addr

/-- `LoadInt32Acquire`. -/
def LoadInt32Acquire (addr : Int) : Int :=
  atomic.LoadInt32 addr

/-- `StoreInt32Relaxed`. -/
def StoreInt32Relaxed (addr : Int) (val : Int) : Int :=
  atomic.StoreInt32 addr val

/-- `StoreInt32Release`. -/
def StoreInt32Release (addr : Int) (val : Int) : Int :=
  atomic.StoreInt32 addr val

/-- `SwapInt32Relaxed`. -/
def SwapInt32Relaxed (addr : Int) (new : Int) : Int × Int :=
  atomic.SwapInt32 addr new

/-- `SwapInt32Acquire`. -/
def SwapInt32Acquire (addr : Int) (new : Int) : Int × Int :=
  atomic.SwapInt32 addr new

/-- `SwapInt32Release`. -/
def SwapInt32Release (addr : Int) (new : Int) : Int × Int :=
  atomic.SwapInt32 addr new

/-- `SwapInt32AcqRel`. -/
def SwapInt32AcqRel (addr : Int) (new : Int) : Int × Int :=
  atomic.SwapInt32 addr new

/-- `CasInt32Relaxed`. -/
def CasInt32Relaxed (addr : Int) (old new : Int) : Bool × Int :=
  atomic.CompareAndSwapInt32 addr old new

/-- `CasInt32Acquire`. -/
def CasInt32Acquire (addr : Int) (old new : Int) : Bool × Int :=
  atomic.CompareAndSwapInt32 addr old new

/-- `CasInt32Release`. -/
def CasInt32Release (addr : Int) (old new : Int) : Bool × Int :=
  atomic.CompareAndSwapInt32 addr old new

/-- `CasInt32AcqRel`. -/
def CasInt32AcqRel (addr : Int) (old new : Int) : Bool × Int :=
  atomic.CompareAndSwapInt32 addr old new

/-- `CaxInt32Relaxed`: load, return the value seen if it differs from `old`, otherwise
try the compare-and-swap and retry when it fails. -/
def CaxInt32Relaxed (addr : Int) (old new : Int) : Nat → Option (Int × Int)
  | 0 => none
  | fuel + 1 =>
    let cur := atomic.LoadInt32 addr
    if cur ≠ old then some (cur, addr)
    else
      let r := atomic.CompareAndSwapInt32 addr old new
      if r.1 then some (old, r.2)
      else CaxInt32Relaxed r.2 old new fuel

/-- `CaxInt32Acquire`. -/
def CaxInt32Acquire (addr : Int) (old new : Int) (fuel : Nat) : Option (Int × Int) :=
  CaxInt32Relaxed addr old new fuel

/-- `CaxInt32Release`. -/
def CaxInt32Release (addr : Int) (old new : Int) (fuel : Nat) : Option (Int × Int) :=
  CaxInt32Relaxed addr old new fuel

/-- `CaxInt32AcqRel`. -/
def CaxInt32AcqRel (addr : Int) (old new : Int) (fuel : Nat) : Option (Int × Int) :=
  CaxInt32Relaxed addr old new fuel

/-- `AddInt32Relaxed`. -/
def AddInt32Relaxed (addr : Int) (delta : Int) : Int × Int :=
  atomic.AddInt32 addr delta

/-- `AddInt32Acquire`. -/
def AddInt32Acquire (addr : Int) (delta : Int) : Int × Int :=
  atomic.AddInt32 addr delta

/-- `AddInt32Release`. -/
def AddInt32Release (addr : Int) (delta : Int) : Int × Int :=
  atomic.AddInt32 addr delta

/-- `AddInt32AcqRel`. -/
def AddInt32AcqRel (addr : Int) (delta : Int) : Int × Int :=
  atomic.AddInt32 addr delta

/-- `AndInt32Relaxed`: load `old`, compare-and-swap it with `old & mask`, retry on
failure; returns `old`. -/
def AndInt32Relaxed (addr : Int) (mask : Int) : Nat → Option (Int × Int)
  | 0 => none
  | fuel + 1 =>
    let old := atomic.LoadInt32 addr
    let r := atomic.CompareAndSwapInt32 addr old (andI32 old mask)
    if r.1 then some (old, r.2)
    else AndInt32Relaxed r.2 mask fuel

/-- `AndInt32Acquire`. -/
def AndInt32Acquire (addr : Int) (mask : Int) (fuel : Nat) : Option (Int × Int) :=
  AndInt32Relaxed addr mask fuel

/-- `AndInt32Release`. -/
def AndInt32Release (addr : Int) (mask : Int) (fuel : Nat) : Option (Int × Int) :=
  AndInt32Relaxed addr mask fuel

/-- `AndInt32AcqRel`. -/
def AndInt32AcqRel (addr : Int) (mask : Int) (fuel : Nat) : Option (Int × Int) :=
  AndInt32Relaxed addr mask fuel

/-- `OrInt32Relaxed`: load `old`, compare-and-swap it with `old | mask`, retry on
failure; returns `old`. -/
def OrInt32Relaxed (addr : Int) (mask : Int) : Nat → Option (Int × Int)
  | 0 => none
  | fuel + 1 =>
    let old := atomic.LoadInt32 addr
    let r := atomic.CompareAndSwapInt32 addr old (orI32 old mask)
    if r.1 then some (old, r.2)
    else OrInt32Relaxed r.2 mask fuel

/-- `OrInt32Acquire`. -/
def OrInt32Acquire (addr : Int) (mask : Int) (fuel : Nat) : Option (Int × Int) :=
  OrInt32Relaxed addr mask fuel

/-- `OrInt32Release`. -/
def OrInt32Release (addr : Int) (mask : Int) (fuel : Nat) : Option (Int × Int) :=
  OrInt32Relaxed addr mask fuel

/-- `OrInt32AcqRel`. -/
def OrInt32AcqRel (addr : Int) (mask : Int) (fuel : Nat) : Option (Int × Int) :=
  OrInt32Relaxed addr mask fuel

/-- `XorInt32Relaxed`: load `old`, compare-and-swap it with `old ^ mask`, retry on
failure; returns `old`. -/
def XorInt32Relaxed (addr : Int) (mask : Int) : Nat → Option (Int × Int)
  | 0 => none
  | fuel + 1 =>
    let old := atomic.LoadInt32 addr
    let r := atomic.CompareAndSwapInt32 addr old (xorI32 old mask)
    if r.1 then some (old, r.2)
    else XorInt32Relaxed r.2 mask fuel

/-- `XorInt32Acquire`. -/
def XorInt32Acquire (addr : Int) (mask : Int) (fuel : Nat) : Option (Int × Int) :=
  XorInt32Relaxed addr mask fuel

/-- `XorInt32Release`. -/
def XorInt32Release (addr : Int) (mask : Int) (fuel : Nat) : Option (Int × Int) :=
  XorInt32Relaxed addr mask fuel

/-- `XorInt32AcqRel`. -/
def XorInt32AcqRel (addr : Int) (mask : Int) (fuel : Nat) : Option (Int × Int) :=
  XorInt32Relaxed addr mask fuel

/-! ### `uint32` -/

/-- `LoadUint32Relaxed`. -/
def LoadUint32Relaxed (addr : Nat) : Nat :=
  atomic.LoadUint32 addr

/-- `LoadUint32Acquire`. -/
def LoadUint32Acquire (addr : Nat) : Nat :=
  atomic.LoadUint32 addr

/-- `StoreUint32Relaxed`. -/
def StoreUint32Relaxed (addr : Nat) (val : Nat) : Nat :=
  atomic.StoreUint32 addr val

/-- `StoreUint32Release`. -/
def StoreUint32Release (addr : Nat) (val : Nat) : Nat :=
  atomic.StoreUint32 addr val

/-- `SwapUint32Relaxed`. -/
def SwapUint32Relaxed (addr : Nat) (new : Nat) : Nat × Nat :=
  atomic.SwapUint32 addr new

/-- `SwapUint32Acquire`. -/
def SwapUint32Acquire (addr : Nat) (new : Nat) : Nat × Nat :=
  atomic.SwapUint32 addr new

/-- `SwapUint32Release`. -/
def SwapUint32Release (addr : Nat) (new : Nat) : Nat × Nat :=
  atomic.SwapUint32 addr new

/-- `SwapUint32AcqRel`. -/
def SwapUint32AcqRel (addr : Nat) (new : Nat) : Nat × Nat :=
  atomic.SwapUint32 addr new

/-- `CasUint32Relaxed`. -/
def CasUint32Relaxed (addr : Nat) (old new : Nat) : Bool × Nat :=
  atomic.CompareAndSwapUint32 addr old new

/-- `CasUint32Acquire`. -/
def CasUint32Acquire (addr : Nat) (old new : Nat) : Bool × Nat :=
  atomic.CompareAndSwapUint32 addr old new

/-- `CasUint32Release`. -/
def CasUint32Release (addr : Nat) (old new : Nat) : Bool × Nat :=
  atomic.CompareAndSwapUint32 addr old new

/-- `CasUint32AcqRel`. -/
def CasUint32AcqRel (addr : Nat) (old new : Nat) : Bool × Nat :=
  atomic.CompareAndSwapUint32 addr old new

/-- `CaxUint32Relaxed`: load, return the value seen if it differs from `old`, otherwise
try the compare-and-swap and retry when it fails. -/
def CaxUint32Relaxed (addr : Nat) (old new : Nat) : Nat → Option (Nat × Nat)
  | 0 => none
  | fuel + 1 =>
    let cur := atomic.LoadUint32 addr
    if cur ≠ old then some (cur, addr)
    else
      let r := atomic.CompareAndSwapUint32 addr old new
      if r.1 then some (old, r.2)
      else CaxUint32Relaxed r.2 old new fuel

/-- `CaxUint32Acquire`. -/
def CaxUint32Acquire (addr : Nat) (old new : Nat) (fuel : Nat) : Option (Nat × Nat) :=
  CaxUint32Relaxed addr old new fuel

/-- `CaxUint32Release`. -/
def CaxUint32Release (addr : Nat) (old new : Nat) (fuel : Nat) : Option (Nat × Nat) :=
  CaxUint32Relaxed addr old new fuel

/-- `CaxUint32AcqRel`. -/
def CaxUint32AcqRel (addr : Nat) (old new : Nat) (fuel : Nat) : Option (Nat × Nat) :=
  CaxUint32Relaxed addr old new fuel

/-- `AddUint32Relaxed`. -/
def AddUint32Relaxed (addr : Nat) (delta : Nat) : Nat × Nat :=
  atomic.AddUint32 addr delta

/-- `AddUint32Acquire`. -/
def AddUint32Acquire (addr : Nat) (delta : Nat) : Nat × Nat :=
  atomic.AddUint32 addr delta

/-- `AddUint32Release`. -/
def AddUint32Release (addr : Nat) (delta : Nat) : Nat × Nat :=
  atomic.AddUint32 addr delta

/-- `AddUint32AcqRel`. -/
def AddUint32AcqRel (addr : Nat) (delta : Nat) : Nat × Nat :=
  atomic.AddUint32 addr delta

/-- `AndUint32Relaxed`: load `old`, compare-and-swap it with `old & mask`, retry on
failure; returns `old`. -/
def AndUint32Relaxed (addr : Nat) (mask : Nat) : Nat → Option (Nat × Nat)
  | 0 => none
  | fuel + 1 =>
    let old := atomic.LoadUint32 addr
    let r := atomic.CompareAndSwapUint32 addr old (andU32 old mask)
    if r.1 then some (old, r.2)
    else AndUint32Relaxed r.2 mask fuel

/-- `AndUint32Acquire`. -/
def AndUint32Acquire (addr : Nat) (mask : Nat) (fuel : Nat) : Option (Nat × Nat) :=
  AndUint32Relaxed addr mask fuel

/-- `AndUint32Release`. -/
def AndUint32Release (addr : Nat) (mask : Nat) (fuel : Nat) : Option (Nat × Nat) :=
  AndUint32Relaxed addr mask fuel

/-- `AndUint32AcqRel`. -/
def AndUint32AcqRel (addr : Nat) (mask : Nat) (fuel : Nat) : Option (Nat × Nat) :=
  AndUint32Relaxed addr mask fuel

/-- `OrUint32Relaxed`: load `old`, compare-and-swap it with `old | mask`, retry on
failure; returns `old`. -/
def OrUint32Relaxed (addr : Nat) (mask : Nat) : Nat → Option (Nat × Nat)
  | 0 => none
  | fuel + 1 =>
    let old := atomic.LoadUint32 addr
    let r := atomic.CompareAndSwapUint32 addr old (orU32 old mask)
    if r.1 then some (old, r.2)
    else OrUint32Relaxed r.2 mask fuel

/-- `OrUint32Acquire`. -/
def OrUint32Acquire (addr : Nat) (mask : Nat) (fuel : Nat) : Option (Nat × Nat) :=
  OrUint32Relaxed addr mask fuel

/-- `OrUint32Release`. -/
def OrUint32Release (addr : Nat) (mask : Nat) (fuel : Nat) : Option (Nat × Nat) :=
  OrUint32Relaxed addr mask fuel

/-- `OrUint32AcqRel`. -/
def OrUint32AcqRel (addr : Nat) (mask : Nat) (fuel : Nat) : Option (Nat × Nat) :=
  OrUint32Relaxed addr mask fuel

/-- `XorUint32Relaxed`: load `old`, compare-and-swap it with `old ^ mask`, retry on
failure; returns `old`. -/
def XorUint32Relaxed (addr : Nat) (mask : Nat) : Nat → Option (Nat × Nat)
  | 0 => none
  | fuel + 1 =>
    let old := atomic.LoadUint32 addr
    let r := atomic.CompareAndSwapUint32 addr old (xorU32 old mask)
    if r.1 then some (old, r.2)
    else XorUint32Relaxed r.2 mask fuel

/-- `XorUint32Acquire`. -/
def XorUint32Acquire (addr : Nat) (mask : Nat) (fuel : Nat) : Option (Nat × Nat) :=
  XorUint32Relaxed addr mask fuel

/-- `XorUint32Release`. -/
def XorUint32Release (addr : Nat) (mask : Nat) (fuel : Nat) : Option (Nat × Nat) :=
  XorUint32Relaxed addr mask fuel

/-- `XorUint32AcqRel`. -/
def XorUint32AcqRel (addr : Nat) (mask : Nat) (fuel : Nat) : Option (Nat × Nat) :=
  XorUint32Relaxed addr mask fuel

/-! ### `int64` -/

/-- `LoadInt64Relaxed`. -/
def LoadInt64Relaxed (addr : Int) : Int :=
  atomic.LoadInt64 addr

/-- `LoadInt64Acquire`. -/
def LoadInt64Acquire (addr : Int) : Int :=
  atomic.LoadInt64 addr

/-- `StoreInt64Relaxed`. -/
def StoreInt64Relaxed (addr : Int) (val : Int) : Int :=
  atomic.StoreInt64 addr val

/-- `StoreInt64Release`. -/
def StoreInt64Release (addr : Int) (val : Int) : Int :=
  atomic.StoreInt64 addr val

/-- `SwapInt64Relaxed`. -/
def SwapInt64Relaxed (addr : Int) (new : Int) : Int × Int :=
  atomic.SwapInt64 addr new

/-- `SwapInt64Acquire`. -/
def SwapInt64Acquire (addr : Int) (new : Int) : Int × Int :=
  atomic.SwapInt64 addr new

/-- `SwapInt64Release`. -/
def SwapInt64Release (addr : Int) (new : Int) : Int × Int :=
  atomic.SwapInt64 addr new

/-- `SwapInt64AcqRel`. -/
def SwapInt64AcqRel (addr : Int) (new : Int) : Int × Int :=
  atomic.SwapInt64 addr new

/-- `CasInt64Relaxed`. -/
def CasInt64Relaxed (addr : Int) (old new : Int) : Bool × Int :=
  atomic.CompareAndSwapInt64 addr old new

/-- `CasInt64Acquire`. -/
def CasInt64Acquire (addr : Int) (old new : Int) : Bool × Int :=
  atomic.CompareAndSwapInt64 addr old new

/-- `CasInt64Release`. -/
def CasInt64Release (addr : Int) (old new : Int) : Bool × Int :=
  atomic.CompareAndSwapInt64 addr old new

/-- `CasInt64AcqRel`. -/
def CasInt64AcqRel (addr : Int) (old new : Int) : Bool × Int :=
  atomic.CompareAndSwapInt64 addr old new

/-- `CaxInt64Relaxed`: load, return the value seen if it differs from `old`, otherwise
try the compare-and-swap and retry when it fails. -/
def CaxInt64Relaxed (addr : Int) (old new : Int) : Nat → Option (Int × Int)
  | 0 => none
  | fuel + 1 =>
    let cur := atomic.LoadInt64 addr
    if cur ≠ old then some (cur, addr)
    else
      let r := atomic.CompareAndSwapInt64 addr old new
      if r.1 then some (old, r.2)
      else CaxInt64Relaxed r.2 old new fuel

/-- `CaxInt64Acquire`. -/
def CaxInt64Acquire (addr : Int) (old new : Int) (fuel : Nat) : Option (Int × Int) :=
  CaxInt64Relaxed addr old new fuel

/-- `CaxInt64Release`. -/
def CaxInt64Release (addr : Int) (old new : Int) (fuel : Nat) : Option (Int × Int) :=
  CaxInt64Relaxed addr old new fuel

/-- `CaxInt64AcqRel`. -/
def CaxInt64AcqRel (addr : Int) (old new : Int) (fuel : Nat) : Option (Int × Int) :=
  CaxInt64Relaxed addr old new fuel

/-- `AddInt64Relaxed`. -/
def AddInt64Relaxed (addr : Int) (delta : Int) : Int × Int :=
  atomic.AddInt64 addr delta

/-- `AddInt64Acquire`. -/
def AddInt64Acquire (addr : Int) (delta : Int) : Int × Int :=
  atomic.AddInt64 addr delta

/-- `AddInt64Release`. -/
def AddInt64Release (addr : Int) (delta : Int) : Int × Int :=
  atomic.AddInt64 addr delta

/-- `AddInt64AcqRel`. -/
def AddInt64AcqRel (addr : Int) (delta : Int) : Int × Int :=
  atomic.AddInt64 addr delta

/-- `AndInt64Relaxed`: load `old`, compare-and-swap it with `old & mask`, retry on
failure; returns `old`. -/
def AndInt64Relaxed (addr : Int) (mask : Int) : Nat → Option (Int × Int)
  | 0 => none
  | fuel + 1 =>
    let old := atomic.LoadInt64 addr
    let r := atomic.CompareAndSwapInt64 addr old (andI64 old mask)
    if r.1 then some (old, r.2)
    else AndInt64Relaxed r.2 mask fuel

/-- `AndInt64Acquire`. -/
def AndInt64Acquire (addr : Int) (mask : Int) (fuel : Nat) : Option (Int × Int) :=
  AndInt64Relaxed addr mask fuel

/-- `AndInt64Release`. -/
def AndInt64Release (addr : Int) (mask : Int) (fuel : Nat) : Option (Int × Int) :=
  AndInt64Relaxed addr mask fuel

/-- `AndInt64AcqRel`. -/
def AndInt64AcqRel (addr : Int) (mask : Int) (fuel : Nat) : Option (Int × Int) :=
  AndInt64Relaxed addr mask fuel

/-- `OrInt64Relaxed`: load `old`, compare-and-swap it with `old | mask`, retry on
failure; returns `old`. -/
def OrInt64Relaxed (addr : Int) (mask : Int) : Nat → Option (Int × Int)
  | 0 => none
  | fuel + 1 =>
    let old := atomic.LoadInt64 addr
    let r := atomic.CompareAndSwapInt64 addr old (orI64 old mask)
    if r.1 then some (old, r.2)
    else OrInt64Relaxed r.2 mask fuel

/-- `OrInt64Acquire`. -/
def OrInt64Acquire (addr : Int) (mask : Int) (fuel : Nat) : Option (Int × Int) :=
  OrInt64Relaxed addr mask fuel

/-- `OrInt64Release`. -/
def OrInt64Release (addr : Int) (mask : Int) (fuel : Nat) : Option (Int × Int) :=
  OrInt64Relaxed addr mask fuel

/-- `OrInt64AcqRel`. -/
def OrInt64AcqRel (addr : Int) (mask : Int) (fuel : Nat) : Option (Int × Int) :=
  OrInt64Relaxed addr mask fuel

/-- `XorInt64Relaxed`: load `old`, compare-and-swap it with `old ^ mask`, retry on
failure; returns `old`. -/
def XorInt64Relaxed (addr : Int) (mask : Int) : Nat → Option (Int × Int)
  | 0 => none
  | fuel + 1 =>
    let old := atomic.LoadInt64 addr
    let r := atomic.CompareAndSwapInt64 addr old (xorI64 old mask)
    if r.1 then some (old, r.2)
    else XorInt64Relaxed r.2 mask fuel

/-- `XorInt64Acquire`. -/
def XorInt64Acquire (addr : Int) (mask : Int) (fuel : Nat) : Option (Int × Int) :=
  XorInt64Relaxed addr mask fuel

/-- `XorInt64Release`. -/
def XorInt64Release (addr : Int) (mask : Int) (fuel : Nat) : Option (Int × Int) :=
  XorInt64Relaxed addr mask fuel

/-- `XorInt64AcqRel`. -/
def XorInt64AcqRel (addr : Int) (mask : Int) (fuel : Nat) : Option (Int × Int) :=
  XorInt64Relaxed addr mask fuel

/-! ### `uint64` -/

/-- `LoadUint64Relaxed`. -/
def LoadUint64Relaxed (addr : Nat) : Nat :=
  atomic.LoadUint64 addr

/-- `LoadUint64Acquire`. -/
def LoadUint64Acquire (addr : Nat) : Nat :=
  atomic.LoadUint64 addr

/-- `StoreUint64Relaxed`. -/
def StoreUint64Relaxed (addr : Nat) (val : Nat) : Nat :=
  atomic.StoreUint64 addr val

/-- `StoreUint64Release`. -/
def StoreUint64Release (addr : Nat) (val : Nat) : Nat :=
  atomic.StoreUint64 addr val

/-- `SwapUint64Relaxed`. -/
def SwapUint64Relaxed (addr : Nat) (new : Nat) : Nat × Nat :=
  atomic.SwapUint64 addr new

/-- `SwapUint64Acquire`. -/
def SwapUint64Acquire (addr : Nat) (new : Nat) : Nat × Nat :=
  atomic.SwapUint64 addr new

/-- `SwapUint64Release`. -/
def SwapUint64Release (addr : Nat) (new : Nat) : Nat × Nat :=
  atomic.SwapUint64 addr new

/-- `SwapUint64AcqRel`. -/
def SwapUint64AcqRel (addr : Nat) (new : Nat) : Nat × Nat :=
  atomic.SwapUint64 addr new

/-- `CasUint64Relaxed`. -/
def CasUint64Relaxed (addr : Nat) (old new : Nat) : Bool × Nat :=
  atomic.CompareAndSwapUint64 addr old new

/-- `CasUint64Acquire`. -/
def CasUint64Acquire (addr : Nat) (old new : Nat) : Bool × Nat :=
  atomic.CompareAndSwapUint64 addr old new

/-- `CasUint64Release`. -/
def CasUint64Release (addr : Nat) (old new : Nat) : Bool × Nat :=
  atomic.CompareAndSwapUint64 addr old new

/-- `CasUint64AcqRel`. -/
def CasUint64AcqRel (addr : Nat) (old new : Nat) : Bool × Nat :=
  atomic.CompareAndSwapUint64 addr old new

/-- `CaxUint64Relaxed`: load, return the value seen if it differs from `old`, otherwise
try the compare-and-swap and retry when it fails. -/
def CaxUint64Relaxed (addr : Nat) (old new : Nat) : Nat → Option (Nat × Nat)
  | 0 => none
  | fuel + 1 =>
    let cur := atomic.LoadUint64 addr
    if cur ≠ old then some (cur, addr)
    else
      let r := atomic.CompareAndSwapUint64 addr old new
      if r.1 then some (old, r.2)
      else CaxUint64Relaxed r.2 old new fuel

/-- `CaxUint64Acquire`. -/
def CaxUint64Acquire (addr : Nat) (old new : Nat) (fuel : Nat) : Option (Nat × Nat) :=
  CaxUint64Relaxed addr old new fuel

/-- `CaxUint64Release`. -/
def CaxUint64Release (addr : Nat) (old new : Nat) (fuel : Nat) : Option (Nat × Nat) :=
  CaxUint64Relaxed addr old new fuel

/-- `CaxUint64AcqRel`. -/
def CaxUint64AcqRel (addr : Nat) (old new : Nat) (fuel : Nat) : Option (Nat × Nat) :=
  CaxUint64Relaxed addr old new fuel

/-- `AddUint64Relaxed`. -/
def AddUint64Relaxed (addr : Nat) (delta : Nat) : Nat × Nat :=
  atomic.AddUint64 addr delta

/-- `AddUint64Acquire`. -/
def AddUint64Acquire (addr : Nat) (delta : Nat) : Nat × Nat :=
  atomic.AddUint64 addr delta

/-- `AddUint64Release`. -/
def AddUint64Release (addr : Nat) (delta : Nat) : Nat × Nat :=
  atomic.AddUint64 addr delta

/-- `AddUint64AcqRel`. -/
def AddUint64AcqRel (addr : Nat) (delta : Nat) : Nat × Nat :=
  atomic.AddUint64 addr delta

/-- `AndUint64Relaxed`: load `old`, compare-and-swap it with `old & mask`, retry on
failure; returns `old`. -/
def AndUint64Relaxed (addr : Nat) (mask : Nat) : Nat → Option (Nat × Nat)
  | 0 => none
  | fuel + 1 =>
    let old := atomic.LoadUint64 addr
    let r := atomic.CompareAndSwapUint64 addr old (andU64 old mask)
    if r.1 then some (old, r.2)
    else AndUint64Relaxed r.2 mask fuel

/-- `AndUint64Acquire`. -/
def AndUint64Acquire (addr : Nat) (mask : Nat) (fuel : Nat) : Option (Nat × Nat) :=
  AndUint64Relaxed addr mask fuel

/-- `AndUint64Release`. -/
def AndUint64Release (addr : Nat) (mask : Nat) (fuel : Nat) : Option (Nat × Nat) :=
  AndUint64Relaxed addr mask fuel

/-- `AndUint64AcqRel`. -/
def AndUint64AcqRel (addr : Nat) (mask : Nat) (fuel : Nat) : Option (Nat × Nat) :=
  AndUint64Relaxed addr mask fuel

/-- `OrUint64Relaxed`: load `old`, compare-and-swap it with `old | mask`, retry on
failure; returns `old`. -/
def OrUint64Relaxed (addr : Nat) (mask : Nat) : Nat → Option (Nat × Nat)
  | 0 => none
  | fuel + 1 =>
    let old := atomic.LoadUint64 addr
    let r := atomic.CompareAndSwapUint64 addr old (orU64 old mask)
    if r.1 then some (old, r.2)
    else OrUint64Relaxed r.2 mask fuel

/-- `OrUint64Acquire`. -/
def OrUint64Acquire (addr : Nat) (mask : Nat) (fuel : Nat) : Option (Nat × Nat) :=
  OrUint64Relaxed addr mask fuel

/-- `OrUint64Release`. -/
def OrUint64Release (addr : Nat) (mask : Nat) (fuel : Nat) : Option (Nat × Nat) :=
  OrUint64Relaxed addr mask fuel

/-- `OrUint64AcqRel`. -/
def OrUint64AcqRel (addr : Nat) (mask : Nat) (fuel : Nat) : Option (Nat × Nat) :=
  OrUint64Relaxed addr mask fuel

/-- `XorUint64Relaxed`: load `old`, compare-and-swap it with `old ^ mask`, retry on
failure; returns `old`. -/
def XorUint64Relaxed (addr : Nat) (mask : Nat) : Nat → Option (Nat × Nat)
  | 0 => none
  | fuel + 1 =>
    let old := atomic.LoadUint64 addr
    let r := atomic.CompareAndSwapUint64 addr old (xorU64 old mask)
    if r.1 then some (old, r.2)
    else XorUint64Relaxed r.2 mask fuel

/-- `XorUint64Acquire`. -/
def XorUint64Acquire (addr : Nat) (mask : Nat) (fuel : Nat) : Option (Nat × Nat) :=
  XorUint64Relaxed addr mask fuel

/-- `XorUint64Release`. -/
def XorUint64Release (addr : Nat) (mask : Nat) (fuel : Nat) : Option (Nat × Nat) :=
  XorUint64Relaxed addr mask fuel

/-- `XorUint64AcqRel`. -/
def XorUint64AcqRel (addr : Nat) (mask : Nat) (fuel : Nat) : Option (Nat × Nat) :=
  XorUint64Relaxed addr mask fuel

/-! ### `uintptr` -/

/-- `LoadUintptrRelaxed`. -/
def LoadUintptrRelaxed (addr : Nat) : Nat :=
  atomic.LoadUintptr addr

/-- `LoadUintptrAcquire`. -/
def LoadUintptrAcquire (addr : Nat) : Nat :=
  atomic.LoadUintptr addr

/-- `StoreUintptrRelaxed`. -/
def StoreUintptrRelaxed (addr : Nat) (val : Nat) : Nat :=
  atomic.StoreUintptr addr val

/-- `StoreUintptrRelease`. -/
def StoreUintptrRelease (addr : Nat) (val : Nat) : Nat :=
  atomic.StoreUintptr addr val

/-- `SwapUintptrRelaxed`. -/
def SwapUintptrRelaxed (addr : Nat) (new : Nat) : Nat × Nat :=
  atomic.SwapUintptr addr new

/-- `SwapUintptrAcquire`. -/
def SwapUintptrAcquire (addr : Nat) (new : Nat) : Nat × Nat :=
  atomic.SwapUintptr addr new

/-- `SwapUintptrRelease`. -/
def SwapUintptrRelease (addr : Nat) (new : Nat) : Nat × Nat :=
  atomic.SwapUintptr addr new

/-- `SwapUintptrAcqRel`. -/
def SwapUintptrAcqRel (addr : Nat) (new : Nat) : Nat × Nat :=
  atomic.SwapUintptr addr new

/-- `CasUintptrRelaxed`. -/
def CasUintptrRelaxed (addr : Nat) (old new : Nat) : Bool × Nat :=
  atomic.CompareAndSwapUintptr addr old new

/-- `CasUintptrAcquire`. -/
def CasUintptrAcquire (addr : Nat) (old new : Nat) : Bool × Nat :=
  atomic.CompareAndSwapUintptr addr old new

/-- `CasUintptrRelease`. -/
def CasUintptrRelease (addr : Nat) (old new : Nat) : Bool × Nat :=
  atomic.CompareAndSwapUintptr addr old new

/-- `CasUintptrAcqRel`. -/
def CasUintptrAcqRel (addr : Nat) (old new : Nat) : Bool × Nat :=
  atomic.CompareAndSwapUintptr addr old new

/-- `CaxUintptrRelaxed`: load, return the value seen if it differs from `old`, otherwise
try the compare-and-swap and retry when it fails. -/
def CaxUintptrRelaxed (addr : Nat) (old new : Nat) : Nat → Option (Nat × Nat)
  | 0 => none
  | fuel + 1 =>
    let cur := atomic.LoadUintptr addr
    if cur ≠ old then some (cur, addr)
    else
      let r := atomic.CompareAndSwapUintptr addr old new
      if r.1 then some (old, r.2)
      else CaxUintptrRelaxed r.2 old new fuel

/-- `CaxUintptrAcquire`. -/
def CaxUintptrAcquire (addr : Nat) (old new : Nat) (fuel : Nat) : Option (Nat × Nat) :=
  CaxUintptrRelaxed addr old new fuel

/-- `CaxUintptrRelease`. -/
def CaxUintptrRelease (addr : Nat) (old new : Nat) (fuel : Nat) : Option (Nat × Nat) :=
  CaxUintptrRelaxed addr old new fuel

/-- `CaxUintptrAcqRel`. -/
def CaxUintptrAcqRel (addr : Nat) (old new : Nat) (fuel : Nat) : Option (Nat × Nat) :=
  CaxUintptrRelaxed addr old new fuel

/-- `AddUintptrRelaxed`. -/
def AddUintptrRelaxed (addr : Nat) (delta : Nat) : Nat × Nat :=
  atomic.AddUintptr addr delta

/-- `AddUintptrAcquire`. -/
def AddUintptrAcquire (addr : Nat) (delta : Nat) : Nat × Nat :=
  atomic.AddUintptr addr delta

/-- `AddUintptrRelease`. -/
def AddUintptrRelease (addr : Nat) (delta : Nat) : Nat × Nat :=
  atomic.AddUintptr addr delta

/-- `AddUintptrAcqRel`. -/
def AddUintptrAcqRel (addr : Nat) (delta : Nat) : Nat × Nat :=
  atomic.AddUintptr addr delta

/-- `AndUintptrRelaxed`: load `old`, compare-and-swap it with `old & mask`, retry on
failure; returns `old`. -/
def AndUintptrRelaxed (addr : Nat) (mask : Nat) : Nat → Option (Nat × Nat)
  | 0 => none
  | fuel + 1 =>
    let old := atomic.LoadUintptr addr
    let r := atomic.CompareAndSwapUintptr addr old (andU64 old mask)
    if r.1 then some (old, r.2)
    else AndUintptrRelaxed r.2 mask fuel

/-- `AndUintptrAcquire`. -/
def AndUintptrAcquire (addr : Nat) (mask : Nat) (fuel : Nat) : Option (Nat × Nat) :=
  AndUintptrRelaxed addr mask fuel

/-- `AndUintptrRelease`. -/
def AndUintptrRelease (addr : Nat) (mask : Nat) (fuel : Nat) : Option (Nat × Nat) :=
  AndUintptrRelaxed addr mask fuel

/-- `AndUintptrAcqRel`. -/
def AndUintptrAcqRel (addr : Nat) (mask : Nat) (fuel : Nat) : Option (Nat × Nat) :=
  AndUintptrRelaxed addr mask fuel

/-- `OrUintptrRelaxed`: load `old`, compare-and-swap it with `old | mask`, retry on
failure; returns `old`. -/
def OrUintptrRelaxed (addr : Nat) (mask : Nat) : Nat → Option (Nat × Nat)
  | 0 => none
  | fuel + 1 =>
    let old := atomic.LoadUintptr addr
    let r := atomic.CompareAndSwapUintptr addr old (orU64 old mask)
    if r.1 then some (old, r.2)
    else OrUintptrRelaxed r.2 mask fuel

/-- `OrUintptrAcquire`. -/
def OrUintptrAcquire (addr : Nat) (mask : Nat) (fuel : Nat) : Option (Nat × Nat) :=
  OrUintptrRelaxed addr mask fuel

/-- `OrUintptrRelease`. -/
def OrUintptrRelease (addr : Nat) (mask : Nat) (fuel : Nat) : Option (Nat × Nat) :=
  OrUintptrRelaxed addr mask fuel

/-- `OrUintptrAcqRel`. -/
def OrUintptrAcqRel (addr : Nat) (mask : Nat) (fuel : Nat) : Option (Nat × Nat) :=
  OrUintptrRelaxed addr mask fuel

/-- `XorUintptrRelaxed`: load `old`, compare-and-swap it with `old ^ mask`, retry on
failure; returns `old`. -/
def XorUintptrRelaxed (addr : Nat) (mask : Nat) : Nat → Option (Nat × Nat)
  | 0 => none
  | fuel + 1 =>
    let old := atomic.LoadUintptr addr
    let r := atomic.CompareAndSwapUintptr addr old (xorU64 old mask)
    if r.1 then some (old, r.2)
    else XorUintptrRelaxed r.2 mask fuel

/-- `XorUintptrAcquire`. -/
def XorUintptrAcquire (addr : Nat) (mask : Nat) (fuel : Nat) : Option (Nat × Nat) :=
  XorUintptrRelaxed addr mask fuel

/-- `XorUintptrRelease`. -/
def XorUintptrRelease (addr : Nat) (mask : Nat) (fuel : Nat) : Option (Nat × Nat) :=
  XorUintptrRelaxed addr mask fuel

/-- `XorUintptrAcqRel`. -/
def XorUintptrAcqRel (addr : Nat) (mask : Nat) (fuel : Nat) : Option (Nat × Nat) :=
  XorUintptrRelaxed addr mask fuel

end arch

/-! ## The typed wrappers (`types.go`, `int32.go`, `uint32.go`, `int64.go`, `uint64.go`,
`uintptr.go`): the methods without an ordering suffix

A method returns its result and the cell after the call. -/

/-- The type `Int32 struct { _ noCopy; v int32 }`. -/
structure Int32 where
  v : Int
deriving DecidableEq, Repr

namespace Int32

/-- `(*Int32).Load`. -/
def Load (a : Int32) : Int :=
  arch.LoadInt32Relaxed a.v

/-- `(*Int32).Store`. -/
def Store (a : Int32) (val : Int) : Int32 :=
  { v := arch.StoreInt32Relaxed a.v val }

/-- `(*Int32).Swap`. -/
def Swap (a : Int32) (new : Int) : Int × Int32 :=
  let r := arch.SwapInt32AcqRel a.v new
  (r.1, { v := r.2 })

/-- `(*Int32).CompareAndSwap`. -/
def CompareAndSwap (a : Int32) (old new : Int) : Bool × Int32 :=
  let r := arch.CasInt32AcqRel a.v old new
  (r.1, { v := r.2 })

/-- `(*Int32).CompareExchange`. -/
def CompareExchange (a : Int32) (old new : Int) (fuel : Nat) : Option (Int × Int32) :=
  (arch.CaxInt32AcqRel a.v old new fuel).map fun r => (r.1, { v := r.2 })

/-- `(*Int32).Add`. -/
def Add (a : Int32) (delta : Int) : Int × Int32 :=
  let r := arch.AddInt32AcqRel a.v delta
  (r.1, { v := r.2 })

/-- `(*Int32).Sub`: `AddAcqRel` of `-delta`. -/
def Sub (a : Int32) (delta : Int) : Int × Int32 :=
  let r := arch.AddInt32AcqRel a.v (negI32 delta)
  (r.1, { v := r.2 })

/-- `(*Int32).And`. -/
def And (a : Int32) (mask : Int) (fuel : Nat) : Option (Int × Int32) :=
  (arch.AndInt32AcqRel a.v mask fuel).map fun r => (r.1, { v := r.2 })

/-- `(*Int32).Or`. -/
def Or (a : Int32) (mask : Int) (fuel : Nat) : Option (Int × Int32) :=
  (arch.OrInt32AcqRel a.v mask fuel).map fun r => (r.1, { v := r.2 })

/-- `(*Int32).Xor`. -/
def Xor (a : Int32) (mask : Int) (fuel : Nat) : Option (Int × Int32) :=
  (arch.XorInt32AcqRel a.v mask fuel).map fun r => (r.1, { v := r.2 })

/-- `(*Int32).Max`: the retry loop (`if old >= val` return, then `if CasAcqRel(..)` return). -/
def Max (a : Int32) (val : Int) : Nat → Option (Int × Int32)
  | 0 => none
  | fuel + 1 =>
    let old := arch.LoadInt32Relaxed a.v
    if old ≥ val then some (old, a)
    else
      let r := arch.CasInt32AcqRel a.v old val
      if r.1 then some (old, { v := r.2 })
      else Max { v := r.2 } val fuel

/-- `(*Int32).Min`: the retry loop (`if old <= val` return, then `if CasAcqRel(..)` return). -/
def Min (a : Int32) (val : Int) : Nat → Option (Int × Int32)
  | 0 => none
  | fuel + 1 =>
    let old := arch.LoadInt32Relaxed a.v
    if old ≤ val then some (old, a)
    else
      let r := arch.CasInt32AcqRel a.v old val
      if r.1 then some (old, { v := r.2 })
      else Min { v := r.2 } val fuel

end Int32

/-- The type `Uint32 struct { _ noCopy; v uint32 }`. -/
structure Uint32 where
  v : Nat
deriving DecidableEq, Repr

namespace Uint32

/-- `(*Uint32).Load`. -/
def Load (a : Uint32) : Nat :=
  arch.LoadUint32Relaxed a.v

/-- `(*Uint32).Store`. -/
def Store (a : Uint32) (val : Nat) : Uint32 :=
  { v := arch.StoreUint32Relaxed a.v val }

/-- `(*Uint32).Swap`. -/
def Swap (a : Uint32) (new : Nat) : Nat × Uint32 :=
  let r := arch.SwapUint32AcqRel a.v new
  (r.1, { v := r.2 })

/-- `(*Uint32).CompareAndSwap`. -/
def CompareAndSwap (a : Uint32) (old new : Nat) : Bool × Uint32 :=
  let r := arch.CasUint32AcqRel a.v old new
  (r.1, { v := r.2 })

/-- `(*Uint32).CompareExchange`. -/
def CompareExchange (a : Uint32) (old new : Nat) (fuel : Nat) : Option (Nat × Uint32) :=
  (arch.CaxUint32AcqRel a.v old new fuel).map fun r => (r.1, { v := r.2 })

/-- `(*Uint32).Add`. -/
def Add (a : Uint32) (delta : Nat) : Nat × Uint32 :=
  let r := arch.AddUint32AcqRel a.v delta
  (r.1, { v := r.2 })

/-- `(*Uint32).Sub`: `AddAcqRel` of `^(delta - 1)`. -/
def Sub (a : Uint32) (delta : Nat) : Nat × Uint32 :=
  let r := arch.AddUint32AcqRel a.v (notU32 (subU32 delta 1))
  (r.1, { v := r.2 })

/-- `(*Uint32).And`. -/
def And (a : Uint32) (mask : Nat) (fuel : Nat) : Option (Nat × Uint32) :=
  (arch.AndUint32AcqRel a.v mask fuel).map fun r => (r.1, { v := r.2 })

/-- `(*Uint32).Or`. -/
def Or (a : Uint32) (mask : Nat) (fuel : Nat) : Option (Nat × Uint32) :=
  (arch.OrUint32AcqRel a.v mask fuel).map fun r => (r.1, { v := r.2 })

/-- `(*Uint32).Xor`. -/
def Xor (a : Uint32) (mask : Nat) (fuel : Nat) : Option (Nat × Uint32) :=
  (arch.XorUint32AcqRel a.v mask fuel).map fun r => (r.1, { v := r.2 })

/-- `(*Uint32).Max`: the retry loop (`if old >= val` return, then `if CasAcqRel(..)` return). -/
def Max (a : Uint32) (val : Nat) : Nat → Option (Nat × Uint32)
  | 0 => none
  | fuel + 1 =>
    let old := arch.LoadUint32Relaxed a.v
    if old ≥ val then some (old, a)
    else
      let r := arch.CasUint32AcqRel a.v old val
      if r.1 then some (old, { v := r.2 })
      else Max { v := r.2 } val fuel

/-- `(*Uint32).Min`: the retry loop (`if old <= val` return, then `if CasAcqRel(..)` return). -/
def Min (a : Uint32) (val : Nat) : Nat → Option (Nat × Uint32)
  | 0 => none
  | fuel + 1 =>
    let old := arch.LoadUint32Relaxed a.v
    if old ≤ val then some (old, a)
    else
      let r := arch.CasUint32AcqRel a.v old val
      if r.1 then some (old, { v := r.2 })
      else Min { v := r.2 } val fuel

end Uint32

/-- The type `Int64 struct { _ noCopy; v int64 }`. -/
structure Int64 where
  v : Int
deriving DecidableEq, Repr

namespace Int64

/-- `(*Int64).Load`. -/
def Load (a : Int64) : Int :=
  arch.LoadInt64Relaxed a.v

/-- `(*Int64).Store`. -/
def Store (a : Int64) (val : Int) : Int64 :=
  { v := arch.StoreInt64Relaxed a.v val }

/-- `(*Int64).Swap`. -/
def Swap (a : Int64) (new : Int) : Int × Int64 :=
  let r := arch.SwapInt64AcqRel a.v new
  (r.1, { v := r.2 })

/-- `(*Int64).CompareAndSwap`. -/
def CompareAndSwap (a : Int64) (old new : Int) : Bool × Int64 :=
  let r := arch.CasInt64AcqRel a.v old new
  (r.1, { v := r.2 })

/-- `(*Int64).CompareExchange`. -/
def CompareExchange (a : Int64) (old new : Int) (fuel : Nat) : Option (Int × Int64) :=
  (arch.CaxInt64AcqRel a.v old new fuel).map fun r => (r.1, { v := r.2 })

/-- `(*Int64).Add`. -/
def Add (a : Int64) (delta : Int) : Int × Int64 :=
  let r := arch.AddInt64AcqRel a.v delta
  (r.1, { v := r.2 })

/-- `(*Int64).Sub`: `AddAcqRel` of `-delta`. -/
def Sub (a : Int64) (delta : Int) : Int × Int64 :=
  let r := arch.AddInt64AcqRel a.v (negI64 delta)
  (r.1, { v := r.2 })

/-- `(*Int64).And`. -/
def And (a : Int64) (mask : Int) (fuel : Nat) : Option (Int × Int64) :=
  (arch.AndInt64AcqRel a.v mask fuel).map fun r => (r.1, { v := r.2 })

/-- `(*Int64).Or`. -/
def Or (a : Int64) (mask : Int) (fuel : Nat) : Option (Int × Int64) :=
  (arch.OrInt64AcqRel a.v mask fuel).map fun r => (r.1, { v := r.2 })

/-- `(*Int64).Xor`. -/
def Xor (a : Int64) (mask : Int) (fuel : Nat) : Option (Int × Int64) :=
  (arch.XorInt64AcqRel a.v mask fuel).map fun r => (r.1, { v := r.2 })

/-- `(*Int64).Max`: the retry loop (`if old >= val` return, then `if CasAcqRel(..)` return). -/
def Max (a : Int64) (val : Int) : Nat → Option (Int × Int64)
  | 0 => none
  | fuel + 1 =>
    let old := arch.LoadInt64Relaxed a.v
    if old ≥ val then some (old, a)
    else
      let r := arch.CasInt64AcqRel a.v old val
      if r.1 then some (old, { v := r.2 })
      else Max { v := r.2 } val fuel

/-- `(*Int64).Min`: the retry loop (`if old <= val` return, then `if CasAcqRel(..)` return). -/
def Min (a : Int64) (val : Int) : Nat → Option (Int × Int64)
  | 0 => none
  | fuel + 1 =>
    let old := arch.LoadInt64Relaxed a.v
    if old ≤ val then some (old, a)
    else
      let r := arch.CasInt64AcqRel a.v old val
      if r.1 then some (old, { v := r.2 })
      else Min { v := r.2 } val fuel

end Int64

/-- The type `Uint64 struct { _ noCopy; v uint64 }`. -/
structure Uint64 where
  v : Nat
deriving DecidableEq, Repr

namespace Uint64

/-- `(*Uint64).Load`. -/
def Load (a : Uint64) : Nat :=
  arch.LoadUint64Relaxed a.v

/-- `(*Uint64).Store`. -/
def Store (a : Uint64) (val : Nat) : Uint64 :=
  { v := arch.StoreUint64Relaxed a.v val }

/-- `(*Uint64).Swap`. -/
def Swap (a : Uint64) (new : Nat) : Nat × Uint64 :=
  let r := arch.SwapUint64AcqRel a.v new
  (r.1, { v := r.2 })

/-- `(*Uint64).CompareAndSwap`. -/
def CompareAndSwap (a : Uint64) (old new : Nat) : Bool × Uint64 :=
  let r := arch.CasUint64AcqRel a.v old new
  (r.1, { v := r.2 })

/-- `(*Uint64).CompareExchange`. -/
def CompareExchange (a : Uint64) (old new : Nat) (fuel : Nat) : Option (Nat × Uint64) :=
  (arch.CaxUint64AcqRel a.v old new fuel).map fun r => (r.1, { v := r.2 })

/-- `(*Uint64).Add`. -/
def Add (a : Uint64) (delta : Nat) : Nat × Uint64 :=
  let r := arch.AddUint64AcqRel a.v delta
  (r.1, { v := r.2 })

/-- `(*Uint64).Sub`: `AddAcqRel` of `^(delta - 1)`. -/
def Sub (a : Uint64) (delta : Nat) : Nat × Uint64 :=
  let r := arch.AddUint64AcqRel a.v (notU64 (subU64 delta 1))
  (r.1, { v := r.2 })

/-- `(*Uint64).And`. -/
def And (a : Uint64) (mask : Nat) (fuel : Nat) : Option (Nat × Uint64) :=
  (arch.AndUint64AcqRel a.v mask fuel).map fun r => (r.1, { v := r.2 })

/-- `(*Uint64).Or`. -/
def Or (a : Uint64) (mask : Nat) (fuel : Nat) : Option (Nat × Uint64) :=
  (arch.OrUint64AcqRel a.v mask fuel).map fun r => (r.1, { v := r.2 })

/-- `(*Uint64).Xor`. -/
def Xor (a : Uint64) (mask : Nat) (fuel : Nat) : Option (Nat × Uint64) :=
  (arch.XorUint64AcqRel a.v mask fuel).map fun r => (r.1, { v := r.2 })

/-- `(*Uint64).Max`: the retry loop (`if old >= val` return, then `if CasAcqRel(..)` return). -/
def Max (a : Uint64) (val : Nat) : Nat → Option (Nat × Uint64)
  | 0 => none
  | fuel + 1 =>
    let old := arch.LoadUint64Relaxed a.v
    if old ≥ val then some (old, a)
    else
      let r := arch.CasUint64AcqRel a.v old val
      if r.1 then some (old, { v := r.2 })
      else Max { v := r.2 } val fuel

/-- `(*Uint64).Min`: the retry loop (`if old <= val` return, then `if CasAcqRel(..)` return). -/
def Min (a : Uint64) (val : Nat) : Nat → Option (Nat × Uint64)
  | 0 => none
  | fuel + 1 =>
    let old := arch.LoadUint64Relaxed a.v
    if old ≤ val then some (old, a)
    else
      let r := arch.CasUint64AcqRel a.v old val
      if r.1 then some (old, { v := r.2 })
      else Min { v := r.2 } val fuel

end Uint64

/-- The type `Uintptr struct { _ noCopy; v uintptr }`. -/
structure Uintptr where
  v : Nat
deriving DecidableEq, Repr

namespace Uintptr

/-- `(*Uintptr).Load`. -/
def Load (a : Uintptr) : Nat :=
  arch.LoadUintptrRelaxed a.v

/-- `(*Uintptr).Store`. -/
def Store (a : Uintptr) (val : Nat) : Uintptr :=
  { v := arch.StoreUintptrRelaxed a.v val }

/-- `(*Uintptr).Swap`. -/
def Swap (a : Uintptr) (new : Nat) : Nat × Uintptr :=
  let r := arch.SwapUintptrAcqRel a.v new
  (r.1, { v := r.2 })

/-- `(*Uintptr).CompareAndSwap`. -/
def CompareAndSwap (a : Uintptr) (old new : Nat) : Bool × Uintptr :=
  let r := arch.CasUintptrAcqRel a.v old new
  (r.1, { v := r.2 })

/-- `(*Uintptr).CompareExchange`. -/
def CompareExchange (a : Uintptr) (old new : Nat) (fuel : Nat) : Option (Nat × Uintptr) :=
  (arch.CaxUintptrAcqRel a.v old new fuel).map fun r => (r.1, { v := r.2 })

/-- `(*Uintptr).Add`. -/
def Add (a : Uintptr) (delta : Nat) : Nat × Uintptr :=
  let r := arch.AddUintptrAcqRel a.v delta
  (r.1, { v := r.2 })

/-- `(*Uintptr).Sub`: `AddAcqRel` of `^(delta - 1)`. -/
def Sub (a : Uintptr) (delta : Nat) : Nat × Uintptr :=
  let r := arch.AddUintptrAcqRel a.v (notU64 (subU64 delta 1))
  (r.1, { v := r.2 })

/-- `(*Uintptr).And`. -/
def And (a : Uintptr) (mask : Nat) (fuel : Nat) : Option (Nat × Uintptr) :=
  (arch.AndUintptrAcqRel a.v mask fuel).map fun r => (r.1, { v := r.2 })

/-- `(*Uintptr).Or`. -/
def Or (a : Uintptr) (mask : Nat) (fuel : Nat) : Option (Nat × Uintptr) :=
  (arch.OrUintptrAcqRel a.v mask fuel).map fun r => (r.1, { v := r.2 })

/-- `(*Uintptr).Xor`. -/
def Xor (a : Uintptr) (mask : Nat) (fuel : Nat) : Option (Nat × Uintptr) :=
  (arch.XorUintptrAcqRel a.v mask fuel).map fun r => (r.1, { v := r.2 })

/-- `(*Uintptr).Max`: the retry loop (`if old >= val || CasAcqRel(..)`, the second operand being evaluated only when the first is false). -/
def Max (a : Uintptr) (val : Nat) : Nat → Option (Nat × Uintptr)
  | 0 => none
  | fuel + 1 =>
    let old := arch.LoadUintptrRelaxed a.v
    if old ≥ val then some (old, a)
    else
      let r := arch.CasUintptrAcqRel a.v old val
      if r.1 then some (old, { v := r.2 })
      else Max { v := r.2 } val fuel

/-- `(*Uintptr).Min`: the retry loop (`if old <= val || CasAcqRel(..)`, the second operand being evaluated only when the first is false). -/
def Min (a : Uintptr) (val : Nat) : Nat → Option (Nat × Uintptr)
  | 0 => none
  | fuel + 1 =>
    let old := arch.LoadUintptrRelaxed a.v
    if old ≤ val then some (old, a)
    else
      let r := arch.CasUintptrAcqRel a.v old val
      if r.1 then some (old, { v := r.2 })
      else Min { v := r.2 } val fuel

end Uintptr

/-! ## The `MemoryOrder` dispatch on raw words (`order_int32.go`, `order_uint32.go`,
`order_int64.go`, `order_uint64.go`, `order_uintptr.go`)

A `switch o` with the cases `Relaxed`, `Acquire`, `Release` and `default` is a chain of
equality tests. -/

namespace MemoryOrder

/-! ### `int32` -/

/-- `MemoryOrder.LoadInt32`. -/
def LoadInt32 (o : MemoryOrder) (addr : Int) : Int :=
  if o = Relaxed then arch.LoadInt32Relaxed addr
  else arch.LoadInt32Acquire addr

/-- `MemoryOrder.StoreInt32`. -/
def StoreInt32 (o : MemoryOrder) (addr : Int) (val : Int) : Int :=
  if o = Relaxed then arch.StoreInt32Relaxed addr val
  else arch.StoreInt32Release addr val

/-- `MemoryOrder.SwapInt32`. -/
def SwapInt32 (o : MemoryOrder) (addr : Int) (new : Int) : Int × Int :=
  if o = Relaxed then arch.SwapInt32Relaxed addr new
  else if o = Acquire then arch.SwapInt32Acquire addr new
  else if o = Release then arch.SwapInt32Release addr new
  else arch.SwapInt32AcqRel addr new

/-- `MemoryOrder.CompareAndSwapInt32`. -/
def CompareAndSwapInt32 (o : MemoryOrder) (addr : Int) (old new : Int) : Bool × Int :=
  if o = Relaxed then arch.CasInt32Relaxed addr old new
  else if o = Acquire then arch.CasInt32Acquire addr old new
  else if o = Release then arch.CasInt32Release addr old new
  else arch.CasInt32AcqRel addr old new

/-- `MemoryOrder.CompareExchangeInt32`. -/
def CompareExchangeInt32 (o : MemoryOrder) (addr : Int) (old new : Int) (fuel : Nat) :
    Option (Int × Int) :=
  if o = Relaxed then arch.CaxInt32Relaxed addr old new fuel
  else if o = Acquire then arch.CaxInt32Acquire addr old new fuel
  else if o = Release then arch.CaxInt32Release addr old new fuel
  else arch.CaxInt32AcqRel addr old new fuel

/-- `MemoryOrder.AddInt32`. -/
def AddInt32 (o : MemoryOrder) (addr : Int) (delta : Int) : Int × Int :=
  if o = Relaxed then arch.AddInt32Relaxed addr delta
  else if o = Acquire then arch.AddInt32Acquire addr delta
  else if o = Release then arch.AddInt32Release addr delta
  else arch.AddInt32AcqRel addr delta

/-- `MemoryOrder.AndInt32`. -/
def AndInt32 (o : MemoryOrder) (addr : Int) (mask : Int) (fuel : Nat) : Option (Int × Int) :=
  if o = Relaxed then arch.AndInt32Relaxed addr mask fuel
  else if o = Acquire then arch.AndInt32Acquire addr mask fuel
  else if o = Release then arch.AndInt32Release addr mask fuel
  else arch.AndInt32AcqRel addr mask fuel

/-- `MemoryOrder.OrInt32`. -/
def OrInt32 (o : MemoryOrder) (addr : Int) (mask : Int) (fuel : Nat) : Option (Int × Int) :=
  if o = Relaxed then arch.OrInt32Relaxed addr mask fuel
  else if o = Acquire then arch.OrInt32Acquire addr mask fuel
  else if o = Release then arch.OrInt32Release addr mask fuel
  else arch.OrInt32AcqRel addr mask fuel

/-- `MemoryOrder.XorInt32`. -/
def XorInt32 (o : MemoryOrder) (addr : Int) (mask : Int) (fuel : Nat) : Option (Int × Int) :=
  if o = Relaxed then arch.XorInt32Relaxed addr mask fuel
  else if o = Acquire then arch.XorInt32Acquire addr mask fuel
  else if o = Release then arch.XorInt32Release addr mask fuel
  else arch.XorInt32AcqRel addr mask fuel

/-- The first loop, taken when `o == Relaxed`, of `MemoryOrder.MaxInt32`:
`if old >= val || CasInt32Relaxed(addr, old, val)`, the second operand being evaluated only
when the first is false. -/
def MaxInt32.loopRelaxed (addr : Int) (val : Int) : Nat → Option (Int × Int)
  | 0 => none
  | fuel + 1 =>
    let old := arch.LoadInt32Relaxed addr
    if old ≥ val then some (old, addr)
    else
      let r := arch.CasInt32Relaxed addr old val
      if r.1 then some (old, r.2)
      else MaxInt32.loopRelaxed r.2 val fuel

/-- The second loop, taken for every other ordering, of `MemoryOrder.MaxInt32`:
`if old >= val || CasInt32AcqRel(addr, old, val)`, the second operand being evaluated only
when the first is false. -/
def MaxInt32.loopAcqRel (addr : Int) (val : Int) : Nat → Option (Int × Int)
  | 0 => none
  | fuel + 1 =>
    let old := arch.LoadInt32Relaxed addr
    if old ≥ val then some (old, addr)
    else
      let r := arch.CasInt32AcqRel addr old val
      if r.1 then some (old, r.2)
      else MaxInt32.loopAcqRel r.2 val fuel

/-- `MemoryOrder.MaxInt32`. -/
def MaxInt32 (o : MemoryOrder) (addr : Int) (val : Int) (fuel : Nat) : Option (Int × Int) :=
  if o = Relaxed then MaxInt32.loopRelaxed addr val fuel
  else MaxInt32.loopAcqRel addr val fuel

/-- The first loop, taken when `o == Relaxed`, of `MemoryOrder.MinInt32`:
`if old <= val || CasInt32Relaxed(addr, old, val)`, the second operand being evaluated only
when the first is false. -/
def MinInt32.loopRelaxed (addr : Int) (val : Int) : Nat → Option (Int × Int)
  | 0 => none
  | fuel + 1 =>
    let old := arch.LoadInt32Relaxed addr
    if old ≤ val then some (old, addr)
    else
      let r := arch.CasInt32Relaxed addr old val
      if r.1 then some (old, r.2)
      else MinInt32.loopRelaxed r.2 val fuel

/-- The second loop, taken for every other ordering, of `MemoryOrder.MinInt32`:
`if old <= val || CasInt32AcqRel(addr, old, val)`, the second operand being evaluated only
when the first is false. -/
def MinInt32.loopAcqRel (addr : Int) (val : Int) : Nat → Option (Int × Int)
  | 0 => none
  | fuel + 1 =>
    let old := arch.LoadInt32Relaxed addr
    if old ≤ val then some (old, addr)
    else
      let r := arch.CasInt32AcqRel addr old val
      if r.1 then some (old, r.2)
      else MinInt32.loopAcqRel r.2 val fuel

/-- `MemoryOrder.MinInt32`. -/
def MinInt32 (o : MemoryOrder) (addr : Int) (val : Int) (fuel : Nat) : Option (Int × Int) :=
  if o = Relaxed then MinInt32.loopRelaxed addr val fuel
  else MinInt32.loopAcqRel addr val fuel

/-! ### `uint32` -/

/-- `MemoryOrder.LoadUint32`. -/
def LoadUint32 (o : MemoryOrder) (addr : Nat) : Nat :=
  if o = Relaxed then arch.LoadUint32Relaxed addr
  else arch.LoadUint32Acquire addr

/-- `MemoryOrder.StoreUint32`. -/
def StoreUint32 (o : MemoryOrder) (addr : Nat) (val : Nat) : Nat :=
  if o = Relaxed then arch.StoreUint32Relaxed addr val
  else arch.StoreUint32Release addr val

/-- `MemoryOrder.SwapUint32`. -/
def SwapUint32 (o : MemoryOrder) (addr : Nat) (new : Nat) : Nat × Nat :=
  if o = Relaxed then arch.SwapUint32Relaxed addr new
  else if o = Acquire then arch.SwapUint32Acquire addr new
  else if o = Release then arch.SwapUint32Release addr new
  else arch.SwapUint32AcqRel addr new

/-- `MemoryOrder.CompareAndSwapUint32`. -/
def CompareAndSwapUint32 (o : MemoryOrder) (addr : Nat) (old new : Nat) : Bool × Nat :=
  if o = Relaxed then arch.CasUint32Relaxed addr old new
  else if o = Acquire then arch.CasUint32Acquire addr old new
  else if o = Release then arch.CasUint32Release addr old new
  else arch.CasUint32AcqRel addr old new

/-- `MemoryOrder.CompareExchangeUint32`. -/
def CompareExchangeUint32 (o : MemoryOrder) (addr : Nat) (old new : Nat) (fuel : Nat) :
    Option (Nat × Nat) :=
  if o = Relaxed then arch.CaxUint32Relaxed addr old new fuel
  else if o = Acquire then arch.CaxUint32Acquire addr old new fuel
  else if o = Release then arch.CaxUint32Release addr old new fuel
  else arch.CaxUint32AcqRel addr old new fuel

/-- `MemoryOrder.AddUint32`. -/
def AddUint32 (o : MemoryOrder) (addr : Nat) (delta : Nat) : Nat × Nat :=
  if o = Relaxed then arch.AddUint32Relaxed addr delta
  else if o = Acquire then arch.AddUint32Acquire addr delta
  else if o = Release then arch.AddUint32Release addr delta
  else arch.AddUint32AcqRel addr delta

/-- `MemoryOrder.AndUint32`. -/
def AndUint32 (o : MemoryOrder) (addr : Nat) (mask : Nat) (fuel : Nat) : Option (Nat × Nat) :=
  if o = Relaxed then arch.AndUint32Relaxed addr mask fuel
  else if o = Acquire then arch.AndUint32Acquire addr mask fuel
  else if o = Release then arch.AndUint32Release addr mask fuel
  else arch.AndUint32AcqRel addr mask fuel

/-- `MemoryOrder.OrUint32`. -/
def OrUint32 (o : MemoryOrder) (addr : Nat) (mask : Nat) (fuel : Nat) : Option (Nat × Nat) :=
  if o = Relaxed then arch.OrUint32Relaxed addr mask fuel
  else if o = Acquire then arch.OrUint32Acquire addr mask fuel
  else if o = Release then arch.OrUint32Release addr mask fuel
  else arch.OrUint32AcqRel addr mask fuel

/-- `MemoryOrder.XorUint32`. -/
def XorUint32 (o : MemoryOrder) (addr : Nat) (mask : Nat) (fuel : Nat) : Option (Nat × Nat) :=
  if o = Relaxed then arch.XorUint32Relaxed addr mask fuel
  else if o = Acquire then arch.XorUint32Acquire addr mask fuel
  else if o = Release then arch.XorUint32Release addr mask fuel
  else arch.XorUint32AcqRel addr mask fuel

/-- The first loop, taken when `o == Relaxed`, of `MemoryOrder.MaxUint32`:
`if old >= val || CasUint32Relaxed(addr, old, val)`, the second operand being evaluated only
when the first is false. -/
def MaxUint32.loopRelaxed (addr : Nat) (val : Nat) : Nat → Option (Nat × Nat)
  | 0 => none
  | fuel + 1 =>
    let old := arch.LoadUint32Relaxed addr
    if old ≥ val then some (old, addr)
    else
      let r := arch.CasUint32Relaxed addr old val
      if r.1 then some (old, r.2)
      else MaxUint32.loopRelaxed r.2 val fuel

/-- The second loop, taken for every other ordering, of `MemoryOrder.MaxUint32`:
`if old >= val || CasUint32AcqRel(addr, old, val)`, the second operand being evaluated only
when the first is false. -/
def MaxUint32.loopAcqRel (addr : Nat) (val : Nat) : Nat → Option (Nat × Nat)
  | 0 => none
  | fuel + 1 =>
    let old := arch.LoadUint32Relaxed addr
    if old ≥ val then some (old, addr)
    else
      let r := arch.CasUint32AcqRel addr old val
      if r.1 then some (old, r.2)
      else MaxUint32.loopAcqRel r.2 val fuel

/-- `MemoryOrder.MaxUint32`. -/
def MaxUint32 (o : MemoryOrder) (addr : Nat) (val : Nat) (fuel : Nat) : Option (Nat × Nat) :=
  if o = Relaxed then MaxUint32.loopRelaxed addr val fuel
  else MaxUint32.loopAcqRel addr val fuel

/-- The first loop, taken when `o == Relaxed`, of `MemoryOrder.MinUint32`:
`if old <= val || CasUint32Relaxed(addr, old, val)`, the second operand being evaluated only
when the first is false. -/
def MinUint32.loopRelaxed (addr : Nat) (val : Nat) : Nat → Option (Nat × Nat)
  | 0 => none
  | fuel + 1 =>
    let old := arch.LoadUint32Relaxed addr
    if old ≤ val then some (old, addr)
    else
      let r := arch.CasUint32Relaxed addr old val
      if r.1 then some (old, r.2)
      else MinUint32.loopRelaxed r.2 val fuel

/-- The second loop, taken for every other ordering, of `MemoryOrder.MinUint32`:
`if old <= val || CasUint32AcqRel(addr, old, val)`, the second operand being evaluated only
when the first is false. -/
def MinUint32.loopAcqRel (addr : Nat) (val : Nat) : Nat → Option (Nat × Nat)
  | 0 => none
  | fuel + 1 =>
    let old := arch.LoadUint32Relaxed addr
    if old ≤ val then some (old, addr)
    else
      let r := arch.CasUint32AcqRel addr old val
      if r.1 then some (old, r.2)
      else MinUint32.loopAcqRel r.2 val fuel

/-- `MemoryOrder.MinUint32`. -/
def MinUint32 (o : MemoryOrder) (addr : Nat) (val : Nat) (fuel : Nat) : Option (Nat × Nat) :=
  if o = Relaxed then MinUint32.loopRelaxed addr val fuel
  else MinUint32.loopAcqRel addr val fuel

/-! ### `int64` -/

/-- `MemoryOrder.LoadInt64`. -/
def LoadInt64 (o : MemoryOrder) (addr : Int) : Int :=
  if o = Relaxed then arch.LoadInt64Relaxed addr
  else arch.LoadInt64Acquire addr

/-- `MemoryOrder.StoreInt64`. -/
def StoreInt64 (o : MemoryOrder) (addr : Int) (val : Int) : Int :=
  if o = Relaxed then arch.StoreInt64Relaxed addr val
  else arch.StoreInt64Release addr val

/-- `MemoryOrder.SwapInt64`. -/
def SwapInt64 (o : MemoryOrder) (addr : Int) (new : Int) : Int × Int :=
  if o = Relaxed then arch.SwapInt64Relaxed addr new
  else if o = Acquire then arch.SwapInt64Acquire addr new
  else if o = Release then arch.SwapInt64Release addr new
  else arch.SwapInt64AcqRel addr new

/-- `MemoryOrder.CompareAndSwapInt64`. -/
def CompareAndSwapInt64 (o : MemoryOrder) (addr : Int) (old new : Int) : Bool × Int :=
  if o = Relaxed then arch.CasInt64Relaxed addr old new
  else if o = Acquire then arch.CasInt64Acquire addr old new
  else if o = Release then arch.CasInt64Release addr old new
  else arch.CasInt64AcqRel addr old new

/-- `MemoryOrder.CompareExchangeInt64`. -/
def CompareExchangeInt64 (o : MemoryOrder) (addr : Int) (old new : Int) (fuel : Nat) :
    Option (Int × Int) :=
  if o = Relaxed then arch.CaxInt64Relaxed addr old new fuel
  else if o = Acquire then arch.CaxInt64Acquire addr old new fuel
  else if o = Release then arch.CaxInt64Release addr old new fuel
  else arch.CaxInt64AcqRel addr old new fuel

/-- `MemoryOrder.AddInt64`. -/
def AddInt64 (o : MemoryOrder) (addr : Int) (delta : Int) : Int × Int :=
  if o = Relaxed then arch.AddInt64Relaxed addr delta
  else if o = Acquire then arch.AddInt64Acquire addr delta
  else if o = Release then arch.AddInt64Release addr delta
  else arch.AddInt64AcqRel addr delta

/-- `MemoryOrder.AndInt64`. -/
def AndInt64 (o : MemoryOrder) (addr : Int) (mask : Int) (fuel : Nat) : Option (Int × Int) :=
  if o = Relaxed then arch.AndInt64Relaxed addr mask fuel
  else if o = Acquire then arch.AndInt64Acquire addr mask fuel
  else if o = Release then arch.AndInt64Release addr mask fuel
  else arch.AndInt64AcqRel addr mask fuel

/-- `MemoryOrder.OrInt64`. -/
def OrInt64 (o : MemoryOrder) (addr : Int) (mask : Int) (fuel : Nat) : Option (Int × Int) :=
  if o = Relaxed then arch.OrInt64Relaxed addr mask fuel
  else if o = Acquire then arch.OrInt64Acquire addr mask fuel
  else if o = Release then arch.OrInt64Release addr mask fuel
  else arch.OrInt64AcqRel addr mask fuel

/-- `MemoryOrder.XorInt64`. -/
def XorInt64 (o : MemoryOrder) (addr : Int) (mask : Int) (fuel : Nat) : Option (Int × Int) :=
  if o = Relaxed then arch.XorInt64Relaxed addr mask fuel
  else if o = Acquire then arch.XorInt64Acquire addr mask fuel
  else if o = Release then arch.XorInt64Release addr mask fuel
  else arch.XorInt64AcqRel addr mask fuel

/-- The first loop, taken when `o == Relaxed`, of `MemoryOrder.MaxInt64`:
`if old >= val || CasInt64Relaxed(addr, old, val)`, the second operand being evaluated only
when the first is false. -/
def MaxInt64.loopRelaxed (addr : Int) (val : Int) : Nat → Option (Int × Int)
  | 0 => none
  | fuel + 1 =>
    let old := arch.LoadInt64Relaxed addr
    if old ≥ val then some (old, addr)
    else
      let r := arch.CasInt64Relaxed addr old val
      if r.1 then some (old, r.2)
      else MaxInt64.loopRelaxed r.2 val fuel

/-- The second loop, taken for every other ordering, of `MemoryOrder.MaxInt64`:
`if old >= val || CasInt64AcqRel(addr, old, val)`, the second operand being evaluated only
when the first is false. -/
def MaxInt64.loopAcqRel (addr : Int) (val : Int) : Nat → Option (Int × Int)
  | 0 => none
  | fuel + 1 =>
    let old := arch.LoadInt64Relaxed addr
    if old ≥ val then some (old, addr)
    else
      let r := arch.CasInt64AcqRel addr old val
      if r.1 then some (old, r.2)
      else MaxInt64.loopAcqRel r.2 val fuel

/-- `MemoryOrder.MaxInt64`. -/
def MaxInt64 (o : MemoryOrder) (addr : Int) (val : Int) (fuel : Nat) : Option (Int × Int) :=
  if o = Relaxed then MaxInt64.loopRelaxed addr val fuel
  else MaxInt64.loopAcqRel addr val fuel

/-- The first loop, taken when `o == Relaxed`, of `MemoryOrder.MinInt64`:
`if old <= val || CasInt64Relaxed(addr, old, val)`, the second operand being evaluated only
when the first is false. -/
def MinInt64.loopRelaxed (addr : Int) (val : Int) : Nat → Option (Int × Int)
  | 0 => none
  | fuel + 1 =>
    let old := arch.LoadInt64Relaxed addr
    if old ≤ val then some (old, addr)
    else
      let r := arch.CasInt64Relaxed addr old val
      if r.1 then some (old, r.2)
      else MinInt64.loopRelaxed r.2 val fuel

/-- The second loop, taken for every other ordering, of `MemoryOrder.MinInt64`:
`if old <= val || CasInt64AcqRel(addr, old, val)`, the second operand being evaluated only
when the first is false. -/
def MinInt64.loopAcqRel (addr : Int) (val : Int) : Nat → Option (Int × Int)
  | 0 => none
  | fuel + 1 =>
    let old := arch.LoadInt64Relaxed addr
    if old ≤ val then some (old, addr)
    else
      let r := arch.CasInt64AcqRel addr old val
      if r.1 then some (old, r.2)
      else MinInt64.loopAcqRel r.2 val fuel

/-- `MemoryOrder.MinInt64`. -/
def MinInt64 (o : MemoryOrder) (addr : Int) (val : Int) (fuel : Nat) : Option (Int × Int) :=
  if o = Relaxed then MinInt64.loopRelaxed addr val fuel
  else MinInt64.loopAcqRel addr val fuel

/-! ### `uint64` -/

/-- `MemoryOrder.LoadUint64`. -/
def LoadUint64 (o : MemoryOrder) (addr : Nat) : Nat :=
  if o = Relaxed then arch.LoadUint64Relaxed addr
  else arch.LoadUint64Acquire addr

/-- `MemoryOrder.StoreUint64`. -/
def StoreUint64 (o : MemoryOrder) (addr : Nat) (val : Nat) : Nat :=
  if o = Relaxed then arch.StoreUint64Relaxed addr val
  else arch.StoreUint64Release addr val

/-- `MemoryOrder.SwapUint64`. -/
def SwapUint64 (o : MemoryOrder) (addr : Nat) (new : Nat) : Nat × Nat :=
  if o = Relaxed then arch.SwapUint64Relaxed addr new
  else if o = Acquire then arch.SwapUint64Acquire addr new
  else if o = Release then arch.SwapUint64Release addr new
  else arch.SwapUint64AcqRel addr new

/-- `MemoryOrder.CompareAndSwapUint64`. -/
def CompareAndSwapUint64 (o : MemoryOrder) (addr : Nat) (old new : Nat) : Bool × Nat :=
  if o = Relaxed then arch.CasUint64Relaxed addr old new
  else if o = Acquire then arch.CasUint64Acquire addr old new
  else if o = Release then arch.CasUint64Release addr old new
  else arch.CasUint64AcqRel addr old new

/-- `MemoryOrder.CompareExchangeUint64`. -/
def CompareExchangeUint64 (o : MemoryOrder) (addr : Nat) (old new : Nat) (fuel : Nat) :
    Option (Nat × Nat) :=
  if o = Relaxed then arch.CaxUint64Relaxed addr old new fuel
  else if o = Acquire then arch.CaxUint64Acquire addr old new fuel
  else if o = Release then arch.CaxUint64Release addr old new fuel
  else arch.CaxUint64AcqRel addr old new fuel

/-- `MemoryOrder.AddUint64`. -/
def AddUint64 (o : MemoryOrder) (addr : Nat) (delta : Nat) : Nat × Nat :=
  if o = Relaxed then arch.AddUint64Relaxed addr delta
  else if o = Acquire then arch.AddUint64Acquire addr delta
  else if o = Release then arch.AddUint64Release addr delta
  else arch.AddUint64AcqRel addr delta

/-- `MemoryOrder.AndUint64`. -/
def AndUint64 (o : MemoryOrder) (addr : Nat) (mask : Nat) (fuel : Nat) : Option (Nat × Nat) :=
  if o = Relaxed then arch.AndUint64Relaxed addr mask fuel
  else if o = Acquire then arch.AndUint64Acquire addr mask fuel
  else if o = Release then arch.AndUint64Release addr mask fuel
  else arch.AndUint64AcqRel addr mask fuel

/-- `MemoryOrder.OrUint64`. -/
def OrUint64 (o : MemoryOrder) (addr : Nat) (mask : Nat) (fuel : Nat) : Option (Nat × Nat) :=
  if o = Relaxed then arch.OrUint64Relaxed addr mask fuel
  else if o = Acquire then arch.OrUint64Acquire addr mask fuel
  else if o = Release then arch.OrUint64Release addr mask fuel
  else arch.OrUint64AcqRel addr mask fuel

/-- `MemoryOrder.XorUint64`. -/
def XorUint64 (o : MemoryOrder) (addr : Nat) (mask : Nat) (fuel : Nat) : Option (Nat × Nat) :=
  if o = Relaxed then arch.XorUint64Relaxed addr mask fuel
  else if o = Acquire then arch.XorUint64Acquire addr mask fuel
  else if o = Release then arch.XorUint64Release addr mask fuel
  else arch.XorUint64AcqRel addr mask fuel

/-- The first loop, taken when `o == Relaxed`, of `MemoryOrder.MaxUint64`:
`if old >= val || CasUint64Relaxed(addr, old, val)`, the second operand being evaluated only
when the first is false. -/
def MaxUint64.loopRelaxed (addr : Nat) (val : Nat) : Nat → Option (Nat × Nat)
  | 0 => none
  | fuel + 1 =>
    let old := arch.LoadUint64Relaxed addr
    if old ≥ val then some (old, addr)
    else
      let r := arch.CasUint64Relaxed addr old val
      if r.1 then some (old, r.2)
      else MaxUint64.loopRelaxed r.2 val fuel

/-- The second loop, taken for every other ordering, of `MemoryOrder.MaxUint64`:
`if old >= val || CasUint64AcqRel(addr, old, val)`, the second operand being evaluated only
when the first is false. -/
def MaxUint64.loopAcqRel (addr : Nat) (val : Nat) : Nat → Option (Nat × Nat)
  | 0 => none
  | fuel + 1 =>
    let old := arch.LoadUint64Relaxed addr
    if old ≥ val then some (old, addr)
    else
      let r := arch.CasUint64AcqRel addr old val
      if r.1 then some (old, r.2)
      else MaxUint64.loopAcqRel r.2 val fuel

/-- `MemoryOrder.MaxUint64`. -/
def MaxUint64 (o : MemoryOrder) (addr : Nat) (val : Nat) (fuel : Nat) : Option (Nat × Nat) :=
  if o = Relaxed then MaxUint64.loopRelaxed addr val fuel
  else MaxUint64.loopAcqRel addr val fuel

/-- The first loop, taken when `o == Relaxed`, of `MemoryOrder.MinUint64`:
`if old <= val || CasUint64Relaxed(addr, old, val)`, the second operand being evaluated only
when the first is false. -/
def MinUint64.loopRelaxed (addr : Nat) (val : Nat) : Nat → Option (Nat × Nat)
  | 0 => none
  | fuel + 1 =>
    let old := arch.LoadUint64Relaxed addr
    if old ≤ val then some (old, addr)
    else
      let r := arch.CasUint64Relaxed addr old val
      if r.1 then some (old, r.2)
      else MinUint64.loopRelaxed r.2 val fuel

/-- The second loop, taken for every other ordering, of `MemoryOrder.MinUint64`:
`if old <= val || CasUint64AcqRel(addr, old, val)`, the second operand being evaluated only
when the first is false. -/
def MinUint64.loopAcqRel (addr : Nat) (val : Nat) : Nat → Option (Nat × Nat)
  | 0 => none
  | fuel + 1 =>
    let old := arch.LoadUint64Relaxed addr
    if old ≤ val then some (old, addr)
    else
      let r := arch.CasUint64AcqRel addr old val
      if r.1 then some (old, r.2)
      else MinUint64.loopAcqRel r.2 val fuel

/-- `MemoryOrder.MinUint64`. -/
def MinUint64 (o : MemoryOrder) (addr : Nat) (val : Nat) (fuel : Nat) : Option (Nat × Nat) :=
  if o = Relaxed then MinUint64.loopRelaxed addr val fuel
  else MinUint64.loopAcqRel addr val fuel

/-! ### `uintptr` -/

/-- `MemoryOrder.LoadUintptr`. -/
def LoadUintptr (o : MemoryOrder) (addr : Nat) : Nat :=
  if o = Relaxed then arch.LoadUintptrRelaxed addr
  else arch.LoadUintptrAcquire addr

/-- `MemoryOrder.StoreUintptr`. -/
def StoreUintptr (o : MemoryOrder) (addr : Nat) (val : Nat) : Nat :=
  if o = Relaxed then arch.StoreUintptrRelaxed addr val
  else arch.StoreUintptrRelease addr val

/-- `MemoryOrder.SwapUintptr`. -/
def SwapUintptr (o : MemoryOrder) (addr : Nat) (new : Nat) : Nat × Nat :=
  if o = Relaxed then arch.SwapUintptrRelaxed addr new
  else if o = Acquire then arch.SwapUintptrAcquire addr new
  else if o = Release then arch.SwapUintptrRelease addr new
  else arch.SwapUintptrAcqRel addr new

/-- `MemoryOrder.CompareAndSwapUintptr`. -/
def CompareAndSwapUintptr (o : MemoryOrder) (addr : Nat) (old new : Nat) : Bool × Nat :=
  if o = Relaxed then arch.CasUintptrRelaxed addr old new
  else if o = Acquire then arch.CasUintptrAcquire addr old new
  else if o = Release then arch.CasUintptrRelease addr old new
  else arch.CasUintptrAcqRel addr old new

/-- `MemoryOrder.CompareExchangeUintptr`. -/
def CompareExchangeUintptr (o : MemoryOrder) (addr : Nat) (old new : Nat) (fuel : Nat) :
    Option (Nat × Nat) :=
  if o = Relaxed then arch.CaxUintptrRelaxed addr old new fuel
  else if o = Acquire then arch.CaxUintptrAcquire addr old new fuel
  else if o = Release then arch.CaxUintptrRelease addr old new fuel
  else arch.CaxUintptrAcqRel addr old new fuel

/-- `MemoryOrder.AddUintptr`. -/
def AddUintptr (o : MemoryOrder) (addr : Nat) (delta : Nat) : Nat × Nat :=
  if o = Relaxed then arch.AddUintptrRelaxed addr delta
  else if o = Acquire then arch.AddUintptrAcquire addr delta
  else if o = Release then arch.AddUintptrRelease addr delta
  else arch.AddUintptrAcqRel addr delta

/-- `MemoryOrder.AndUintptr`. -/
def AndUintptr (o : MemoryOrder) (addr : Nat) (mask : Nat) (fuel : Nat) : Option (Nat × Nat) :=
  if o = Relaxed then arch.AndUintptrRelaxed addr mask fuel
  else if o = Acquire then arch.AndUintptrAcquire addr mask fuel
  else if o = Release then arch.AndUintptrRelease addr mask fuel
  else arch.AndUintptrAcqRel addr mask fuel

/-- `MemoryOrder.OrUintptr`. -/
def OrUintptr (o : MemoryOrder) (addr : Nat) (mask : Nat) (fuel : Nat) : Option (Nat × Nat) :=
  if o = Relaxed then arch.OrUintptrRelaxed addr mask fuel
  else if o = Acquire then arch.OrUintptrAcquire addr mask fuel
  else if o = Release then arch.OrUintptrRelease addr mask fuel
  else arch.OrUintptrAcqRel addr mask fuel

/-- `MemoryOrder.XorUintptr`. -/
def XorUintptr (o : MemoryOrder) (addr : Nat) (mask : Nat) (fuel : Nat) : Option (Nat × Nat) :=
  if o = Relaxed then arch.XorUintptrRelaxed addr mask fuel
  else if o = Acquire then arch.XorUintptrAcquire addr mask fuel
  else if o = Release then arch.XorUintptrRelease addr mask fuel
  else arch.XorUintptrAcqRel addr mask fuel

/-- The first loop, taken when `o == Relaxed`, of `MemoryOrder.MaxUintptr`:
`if old >= val || CasUintptrRelaxed(addr, old, val)`, the second operand being evaluated only
when the first is false. -/
def MaxUintptr.loopRelaxed (addr : Nat) (val : Nat) : Nat → Option (Nat × Nat)
  | 0 => none
  | fuel + 1 =>
    let old := arch.LoadUintptrRelaxed addr
    if old ≥ val then some (old, addr)
    else
      let r := arch.CasUintptrRelaxed addr old val
      if r.1 then some (old, r.2)
      else MaxUintptr.loopRelaxed r.2 val fuel

/-- The second loop, taken for every other ordering, of `MemoryOrder.MaxUintptr`:
`if old >= val || CasUintptrAcqRel(addr, old, val)`, the second operand being evaluated only
when the first is false. -/
def MaxUintptr.loopAcqRel (addr : Nat) (val : Nat) : Nat → Option (Nat × Nat)
  | 0 => none
  | fuel + 1 =>
    let old := arch.LoadUintptrRelaxed addr
    if old ≥ val then some (old, addr)
    else
      let r := arch.CasUintptrAcqRel addr old val
      if r.1 then some (old, r.2)
      else MaxUintptr.loopAcqRel r.2 val fuel

/-- `MemoryOrder.MaxUintptr`. -/
def MaxUintptr (o : MemoryOrder) (addr : Nat) (val : Nat) (fuel : Nat) : Option (Nat × Nat) :=
  if o = Relaxed then MaxUintptr.loopRelaxed addr val fuel
  else MaxUintptr.loopAcqRel addr val fuel

/-- The first loop, taken when `o == Relaxed`, of `MemoryOrder.MinUintptr`:
`if old <= val || CasUintptrRelaxed(addr, old, val)`, the second operand being evaluated only
when the first is false. -/
def MinUintptr.loopRelaxed (addr : Nat) (val : Nat) : Nat → Option (Nat × Nat)
  | 0 => none
  | fuel + 1 =>
    let old := arch.LoadUintptrRelaxed addr
    if old ≤ val then some (old, addr)
    else
      let r := arch.CasUintptrRelaxed addr old val
      if r.1 then some (old, r.2)
      else MinUintptr.loopRelaxed r.2 val fuel

/-- The second loop, taken for every other ordering, of `MemoryOrder.MinUintptr`:
`if old <= val || CasUintptrAcqRel(addr, old, val)`, the second operand being evaluated only
when the first is false. -/
def MinUintptr.loopAcqRel (addr : Nat) (val : Nat) : Nat → Option (Nat × Nat)
  | 0 => none
  | fuel + 1 =>
    let old := arch.LoadUintptrRelaxed addr
    if old ≤ val then some (old, addr)
    else
      let r := arch.CasUintptrAcqRel addr old val
      if r.1 then some (old, r.2)
      else MinUintptr.loopAcqRel r.2 val fuel

/-- `MemoryOrder.MinUintptr`. -/
def MinUintptr (o : MemoryOrder) (addr : Nat) (val : Nat) (fuel : Nat) : Option (Nat × Nat) :=
  if o = Relaxed then MinUintptr.loopRelaxed addr val fuel
  else MinUintptr.loopAcqRel addr val fuel

end MemoryOrder

/-! ## Alignment and placement (`align.go`)

`int` and `uintptr` are 64 bits wide.  A pointer into the buffer is the address of the
byte it points to. -/

/-- A byte slice `p []byte`: the address of `p[0]` and the bytes. -/
structure ByteSlice where
  base : Nat
  bytes : List Nat
deriving DecidableEq, Repr

namespace ByteSlice

/-- `len(p)`. -/
def len (p : ByteSlice) : Int := (p.bytes.length : Int)

/-- The length of a slice leaves headroom below the largest `int`: the bytes of a slice
lie in the address space of the process, so no slice comes within 32 of `2^63`. -/
def Fits (p : ByteSlice) : Prop := p.len + 32 ≤ 2 ^ 63

instance (p : ByteSlice) : Decidable p.Fits := by unfold Fits; infer_instance

/-- The expression `&p[i]`: the run-time bounds check panics unless `0 <= i < len(p)`;
otherwise the address of the element. -/
def addrOf (p : ByteSlice) (i : Int) : Except String Nat :=
  if 0 ≤ i ∧ i < p.len then .ok (p.base + i.toNat)
  else .error "runtime error: index out of range"

end ByteSlice

/-- `unsafe.Sizeof(uintptr(0))` on the 64-bit targets. -/
def uintptrSize : Nat := 8

/-- `CanPlaceAligned4`. -/
def CanPlaceAligned4 (p : ByteSlice) (off : Int) : Except String Bool :=
  if off < 0 ∨ off > p.len then .ok false
  else
    match p.addrOf 0 with
    | .error e => .error e
    | .ok p0 =>
      let addr := addU64 p0 (toU64 off)
      let pad := subU64 4 (addr &&& 3) &&& 3
      .ok (decide (addI64 (addI64 off (toI64 pad)) 4 ≤ p.len))

/-- `CanPlaceAligned8`. -/
def CanPlaceAligned8 (p : ByteSlice) (off : Int) : Except String Bool :=
  if off < 0 ∨ off > p.len then .ok false
  else
    match p.addrOf 0 with
    | .error e => .error e
    | .ok p0 =>
      let addr := addU64 p0 (toU64 off)
      let pad := subU64 8 (addr &&& 7) &&& 7
      .ok (decide (addI64 (addI64 off (toI64 pad)) 8 ≤ p.len))

/-- `CanPlaceAligned16`. -/
def CanPlaceAligned16 (p : ByteSlice) (off : Int) : Except String Bool :=
  if off < 0 ∨ off > p.len then .ok false
  else
    match p.addrOf 0 with
    | .error e => .error e
    | .ok p0 =>
      let addr := addU64 p0 (toU64 off)
      let pad := subU64 16 (addr &&& 15) &&& 15
      .ok (decide (addI64 (addI64 off (toI64 pad)) 16 ≤ p.len))

/-- `PlaceAlignedInt32`: the bytes consumed and the address of the value placed. -/
def PlaceAlignedInt32 (p : ByteSlice) (off : Int) : Except String (Int × Nat) :=
  match p.addrOf 0 with
  | .error e => .error e
  | .ok p0 =>
    let addr := addU64 p0 (toU64 off)
    let pad := toI64 (subU64 4 (addr &&& 3) &&& 3)
    let n := addI64 pad 4
    if addI64 off n > p.len then .error "atomix: insufficient space for Int32"
    else
      match p.addrOf (addI64 off pad) with
      | .error e => .error e
      | .ok a => .ok (n, a)

/-- `PlaceAlignedUint32`: the bytes consumed and the address of the value placed. -/
def PlaceAlignedUint32 (p : ByteSlice) (off : Int) : Except String (Int × Nat) :=
  match p.addrOf 0 with
  | .error e => .error e
  | .ok p0 =>
    let addr := addU64 p0 (toU64 off)
    let pad := toI64 (subU64 4 (addr &&& 3) &&& 3)
    let n := addI64 pad 4
    if addI64 off n > p.len then .error "atomix: insufficient space for Uint32"
    else
      match p.addrOf (addI64 off pad) with
      | .error e => .error e
      | .ok a => .ok (n, a)

/-- `PlaceAlignedBool`: the bytes consumed and the address of the value placed. -/
def PlaceAlignedBool (p : ByteSlice) (off : Int) : Except String (Int × Nat) :=
  match p.addrOf 0 with
  | .error e => .error e
  | .ok p0 =>
    let addr := addU64 p0 (toU64 off)
    let pad := toI64 (subU64 4 (addr &&& 3) &&& 3)
    let n := addI64 pad 4
    if addI64 off n > p.len then .error "atomix: insufficient space for Bool"
    else
      match p.addrOf (addI64 off pad) with
      | .error e => .error e
      | .ok a => .ok (n, a)

/-- `PlaceAlignedInt64`: the bytes consumed and the address of the value placed. -/
def PlaceAlignedInt64 (p : ByteSlice) (off : Int) : Except String (Int × Nat) :=
  match p.addrOf 0 with
  | .error e => .error e
  | .ok p0 =>
    let addr := addU64 p0 (toU64 off)
    let pad := toI64 (subU64 8 (addr &&& 7) &&& 7)
    let n := addI64 pad 8
    if addI64 off n > p.len then .error "atomix: insufficient space for Int64"
    else
      match p.addrOf (addI64 off pad) with
      | .error e => .error e
      | .ok a => .ok (n, a)

/-- `PlaceAlignedUint64`: the bytes consumed and the address of the value placed. -/
def PlaceAlignedUint64 (p : ByteSlice) (off : Int) : Except String (Int × Nat) :=
  match p.addrOf 0 with
  | .error e => .error e
  | .ok p0 =>
    let addr := addU64 p0 (toU64 off)
    let pad := toI64 (subU64 8 (addr &&& 7) &&& 7)
    let n := addI64 pad 8
    if addI64 off n > p.len then .error "atomix: insufficient space for Uint64"
    else
      match p.addrOf (addI64 off pad) with
      | .error e => .error e
      | .ok a => .ok (n, a)

/-- `PlaceAlignedInt128`: the bytes consumed and the address of the value placed. -/
def PlaceAlignedInt128 (p : ByteSlice) (off : Int) : Except String (Int × Nat) :=
  match p.addrOf 0 with
  | .error e => .error e
  | .ok p0 =>
    let addr := addU64 p0 (toU64 off)
    let pad := toI64 (subU64 16 (addr &&& 15) &&& 15)
    let n := addI64 pad 16
    if addI64 off n > p.len then .error "atomix: insufficient space for Int128"
    else
      match p.addrOf (addI64 off pad) with
      | .error e => .error e
      | .ok a => .ok (n, a)

/-- `PlaceAlignedUint128`: the bytes consumed and the address of the value placed. -/
def PlaceAlignedUint128 (p : ByteSlice) (off : Int) : Except String (Int × Nat) :=
  match p.addrOf 0 with
  | .error e => .error e
  | .ok p0 =>
    let addr := addU64 p0 (toU64 off)
    let pad := toI64 (subU64 16 (addr &&& 15) &&& 15)
    let n := addI64 pad 16
    if addI64 off n > p.len then .error "atomix: insufficient space for Uint128"
    else
      match p.addrOf (addI64 off pad) with
      | .error e => .error e
      | .ok a => .ok (n, a)

/-- `PlaceAlignedUintptr`: the bytes consumed and the address of the value placed. -/
def PlaceAlignedUintptr (p : ByteSlice) (off : Int) : Except String (Int × Nat) :=
  let size : Int := (uintptrSize : Int)
  match p.addrOf 0 with
  | .error e => .error e
  | .ok p0 =>
    let addr := addU64 p0 (toU64 off)
    let pad := toI64 (subU64 (toU64 size) (addr &&& toU64 (size - 1)) &&& toU64 (size - 1))
    let n := addI64 pad size
    if addI64 off n > p.len then .error "atomix: insufficient space for Uintptr"
    else
      match p.addrOf (addI64 off pad) with
      | .error e => .error e
      | .ok a => .ok (n, a)

/-- A call aborts: it panics instead of returning. -/
def Aborts {α : Type} (r : Except String α) : Prop := r.isOk = false

/-- A call returns normally. -/
def Returns {α : Type} (r : Except String α) : Prop := r.isOk = true

instance {α : Type} (r : Except String α) : Decidable (Aborts r) := by
  unfold Aborts; infer_instance

instance {α : Type} (r : Except String α) : Decidable (Returns r) := by
  unfold Returns; infer_instance

/-- What a placement function computes, in the words of its documentation: the least
padding `pad` that brings `base + off` to a multiple of `k`; when the `k` bytes at
`off + pad` lie inside the slice, the bytes consumed `pad + k` and the address of the
value; nothing (the call aborts) otherwise. -/
def placeAlignedSpec (k : Int) (p : ByteSlice) (off : Int) : Option (Int × Nat) :=
  let pad := (k - ((p.base : Int) + off) % k) % k
  if p.bytes ≠ [] ∧ 0 ≤ off + pad ∧ off + pad + k ≤ p.len then
    some (pad + k, p.base + (off + pad).toNat)
  else none

/-! ## Return-value conventions

An operation takes the cell `s` and an argument and gives its result with the cell after
the call; `load` reads a cell. -/

/-- The operation returns the value the cell holds after the call. -/
def ReturnsNew {σ α β : Type} (load : σ → α) (f : σ → β → α × σ) : Prop :=
  ∀ s x, (f s x).1 = load (f s x).2

/-- The operation returns the value the cell held before the call. -/
def ReturnsOld {σ α β : Type} (load : σ → α) (f : σ → β → α × σ) : Prop :=
  ∀ s x, (f s x).1 = load s

/-- The retry loop returns, whatever fuel it is given, the value the cell holds after the
call. -/
def LoopReturnsNew {σ α β : Type} (load : σ → α) (f : σ → β → Nat → Option (α × σ)) : Prop :=
  ∀ s x fuel, ∃ s', f s x (fuel + 1) = some (load s', s')

/-- The retry loop returns, whatever fuel it is given, the value the cell held before the
call. -/
def LoopReturnsOld {σ α β : Type} (load : σ → α) (f : σ → β → Nat → Option (α × σ)) : Prop :=
  ∀ s x fuel, ∃ s', f s x (fuel + 1) = some (load s, s')

/-- The convention of one 32-bit, 64-bit or pointer-sized integer type: `Add` returns the
new value; `Swap`, `And`, `Or`, `Xor`, `Max` and `Min` return the old one. -/
def ScalarConvention {σ α : Type} (load : σ → α) (add swap : σ → α → α × σ)
    (and or xor max min : σ → α → Nat → Option (α × σ)) : Prop :=
  ReturnsNew load add ∧ ReturnsOld load swap ∧ LoopReturnsOld load and ∧
  LoopReturnsOld load or ∧ LoopReturnsOld load xor ∧ LoopReturnsOld load max ∧
  LoopReturnsOld load min

/-! ## Further methods of the 128-bit wrappers (`uint128.go`, `int128.go`) -/

namespace Uint128

/-- `(*Uint128).LoadAcquire`. -/
def LoadAcquire (a : Uint128) : Nat × Nat :=
  arch.LoadUint128Acquire a.v

/-- `(*Uint128).StoreRelease`. -/
def StoreRelease (a : Uint128) (lo hi : Nat) : Uint128 :=
  { v := arch.StoreUint128Release a.v lo hi }

/-- `(*Uint128).Equal`. -/
def Equal (a : Uint128) (lo hi : Nat) : Bool :=
  let (alo, ahi) := arch.LoadUint128Acquire a.v
  decide (alo = lo) && decide (ahi = hi)

/-- `(*Uint128).Less`. -/
def Less (a : Uint128) (lo hi : Nat) : Bool :=
  let (alo, ahi) := arch.LoadUint128Acquire a.v
  decide (ahi < hi) || (decide (ahi = hi) && decide (alo < lo))

/-- `(*Uint128).LessOrEqual`. -/
def LessOrEqual (a : Uint128) (lo hi : Nat) : Bool :=
  let (alo, ahi) := arch.LoadUint128Acquire a.v
  decide (ahi < hi) || (decide (ahi = hi) && decide (alo ≤ lo))

/-- `(*Uint128).Greater`. -/
def Greater (a : Uint128) (lo hi : Nat) : Bool :=
  let (alo, ahi) := arch.LoadUint128Acquire a.v
  decide (ahi > hi) || (decide (ahi = hi) && decide (alo > lo))

/-- `(*Uint128).GreaterOrEqual`. -/
def GreaterOrEqual (a : Uint128) (lo hi : Nat) : Bool :=
  let (alo, ahi) := arch.LoadUint128Acquire a.v
  decide (ahi > hi) || (decide (ahi = hi) && decide (alo ≥ lo))

end Uint128

namespace Int128

/-- `(*Int128).LoadAcquire`. -/
def LoadAcquire (a : Int128) : Int × Int :=
  let (ulo, uhi) := arch.LoadUint128Acquire a.v
  (toI64 ulo, toI64 uhi)

/-- `(*Int128).StoreRelease`. -/
def StoreRelease (a : Int128) (lo hi : Int) : Int128 :=
  { v := arch.StoreUint128Release a.v (toU64 lo) (toU64 hi) }

end Int128

/-! ## A 128-bit value placed in a byte slice

`PlaceAlignedUint128` returns `(*Uint128)(unsafe.Pointer(&p[off+pad]))`: the sixteen bytes
of the slice from that address on are the `v [16]byte` of the value, and the primitives
read and write them as two `uint64` words.  The targets are little-endian. -/

/-- The eight bytes of a `uint64` in memory, least significant byte first. -/
def bytesOfU64 (v : Nat) : List Nat :=
  [v % 256, v / 256 % 256, v / 256 ^ 2 % 256, v / 256 ^ 3 % 256, v / 256 ^ 4 % 256,
    v / 256 ^ 5 % 256, v / 256 ^ 6 % 256, v / 256 ^ 7 % 256]

/-- The `uint64` held by (at most eight) bytes in memory, least significant byte first. -/
def u64OfBytes : List Nat → Nat
  | [] => 0
  | b :: bs => b % 256 + 256 * u64OfBytes bs

namespace ByteSlice

/-- The load `*(*uint64)(ptr)` for an address `ptr` inside the slice. -/
def readU64 (p : ByteSlice) (ptr : Nat) : Nat :=
  u64OfBytes ((p.bytes.drop (ptr - p.base)).take 8)

/-- The store `*(*uint64)(ptr) = v` for an address `ptr` inside the slice. -/
def writeU64 (p : ByteSlice) (ptr : Nat) (v : Nat) : ByteSlice :=
  { p with bytes := p.bytes.take (ptr - p.base) ++ bytesOfU64 v ++
      p.bytes.drop (ptr - p.base + 8) }

/-- The `[16]byte` at address `ptr`, as the primitives read it: the low word at `ptr`,
the high word at `ptr + 8`. -/
def cell128 (p : ByteSlice) (ptr : Nat) : Bytes16 :=
  { lo := p.readU64 ptr, hi := p.readU64 (ptr + 8) }

/-- The slice after the `[16]byte` at address `ptr` has been given the words of `c`. -/
def setCell128 (p : ByteSlice) (ptr : Nat) (c : Bytes16) : ByteSlice :=
  (p.writeU64 ptr c.lo).writeU64 (ptr + 8) c.hi

end ByteSlice

/-- `a.Store(lo, hi)` for `a = (*Uint128)(unsafe.Pointer(ptr))` pointing into the slice. -/
def Uint128.StoreAt (p : ByteSlice) (ptr : Nat) (lo hi : Nat) : ByteSlice :=
  p.setCell128 ptr (Uint128.Store { v := p.cell128 ptr } lo hi).v

/-- `a.Load()` for `a = (*Uint128)(unsafe.Pointer(ptr))` pointing into the slice. -/
def Uint128.LoadAt (p : ByteSlice) (ptr : Nat) : Nat × Nat :=
  Uint128.Load { v := p.cell128 ptr }

/-! ## The `MemoryOrder` dispatch on a boolean word (`order_bool.go`) -/

namespace MemoryOrder

/-- `MemoryOrder.LoadBool`. -/
def LoadBool (o : MemoryOrder) (addr : Nat) : Bool :=
  if o = Relaxed then decide (arch.LoadUint32Relaxed addr ≠ 0)
  else decide (arch.LoadUint32Acquire addr ≠ 0)

/-- `MemoryOrder.StoreBool`. -/
def StoreBool (o : MemoryOrder) (addr : Nat) (val : Bool) : Nat :=
  let v : Nat := if val then 1 else 0
  if o = Relaxed then arch.StoreUint32Relaxed addr v
  else arch.StoreUint32Release addr v

/-- `MemoryOrder.SwapBool`. -/
def SwapBool (o : MemoryOrder) (addr : Nat) (new : Bool) : Bool × Nat :=
  let v : Nat := if new then 1 else 0
  let r :=
    if o = Relaxed then arch.SwapUint32Relaxed addr v
    else if o = Acquire then arch.SwapUint32Acquire addr v
    else if o = Release then arch.SwapUint32Release addr v
    else arch.SwapUint32AcqRel addr v
  (decide (r.1 ≠ 0), r.2)

/-- `MemoryOrder.CompareAndSwapBool`. -/
def CompareAndSwapBool (o : MemoryOrder) (addr : Nat) (old new : Bool) : Bool × Nat :=
  let oldV : Nat := if old then 1 else 0
  let newV : Nat := if new then 1 else 0
  if o = Relaxed then arch.CasUint32Relaxed addr oldV newV
  else if o = Acquire then arch.CasUint32Acquire addr oldV newV
  else if o = Release then arch.CasUint32Release addr oldV newV
  else arch.CasUint32AcqRel addr oldV newV

end MemoryOrder

/-! ## The allocator (`alloc.go`) -/

/-- Subtraction of `int` values: `a - b` in Go, wrapping in two's complement. -/
def subI64 (a b : Int) : Int := (a - b + 2 ^ 63) % 2 ^ 64 - 2 ^ 63

/-- The type `Allocator struct { buf []byte; off int }`. -/
structure Allocator where
  buf : ByteSlice
  off : Int
deriving DecidableEq, Repr

/-- `NewAllocator`. -/
def NewAllocator (buf : ByteSlice) : Allocator :=
  { buf := buf, off := 0 }

namespace Allocator

/-- `(*Allocator).Offset`. -/
def Offset (a : Allocator) : Int :=
  a.off

/-- `(*Allocator).Remaining`. -/
def Remaining (a : Allocator) : Int :=
  subI64 a.buf.len a.off

/-- `(*Allocator).Reset`. -/
def Reset (a : Allocator) : Allocator :=
  { a with off := 0 }

/-- `(*Allocator).Skip`: the allocator after the call, or the panic. -/
def Skip (a : Allocator) (n : Int) : Except String Allocator :=
  if addI64 a.off n > a.buf.len then .error "atomix: skip beyond buffer"
  else .ok { a with off := addI64 a.off n }

end Allocator

/-! ## The record of a call to `internal/arch`

A function of `internal/arch` is named after its operation, the word it works on and its
ordering; a call of it is recorded with the arguments that follow the address. -/

/-- The operation of a primitive of `internal/arch`: the prefix of its name. -/
inductive PrimOp where
  | Load | Store | Swap | Cas | Cax | Add | And | Or | Xor
deriving DecidableEq, Repr

/-- The word a primitive works on: the middle part of its name. -/
inductive PrimWord where
  | Int32 | Uint32 | Int64 | Uint64 | Uintptr | Pointer | Uint128
deriving DecidableEq, Repr

/-- The ordering of a primitive: the suffix of its name. -/
inductive PrimOrder where
  | Relaxed | Acquire | Release | AcqRel
deriving DecidableEq, Repr

/-- A function of `internal/arch`: `arch.SwapInt32AcqRel` is `⟨Swap, Int32, AcqRel⟩`. -/
structure Prim where
  op : PrimOp
  word : PrimWord
  order : PrimOrder
deriving DecidableEq, Repr

/-- One call `arch.F(addr, args...)`: the function and the arguments after the address. -/
structure Call where
  prim : Prim
  args : List Int
deriving DecidableEq, Repr

/-- `b2u` (`bool.go`). -/
def b2u (b : Bool) : Nat :=
  if b then 1 else 0

/-! ### The documented choice of ordering

`doc.go`: "Unknown orderings fall back to safe defaults (Load→Acquire, Store→Release,
RMW→AcqRel)." -/

/-- The ordering of the load primitive for `o`: Relaxed for `Relaxed`, Acquire for every
other value. -/
def MemoryOrder.loadOrder (o : MemoryOrder) : PrimOrder :=
  if o = Relaxed then .Relaxed else .Acquire

/-- The ordering of the store primitive for `o`: Relaxed for `Relaxed`, Release for every
other value. -/
def MemoryOrder.storeOrder (o : MemoryOrder) : PrimOrder :=
  if o = Relaxed then .Relaxed else .Release

/-- The ordering of a read-modify-write primitive for `o`: that of `o` when `o` is
`Relaxed`, `Acquire` or `Release`, AcqRel for every other value. -/
def MemoryOrder.rmwOrder (o : MemoryOrder) : PrimOrder :=
  if o = Relaxed then .Relaxed
  else if o = Acquire then .Acquire
  else if o = Release then .Release
  else .AcqRel

/-- The ordering of the compare-and-swap primitive of a 128-bit add loop for `o`: Relaxed
for `Relaxed`, AcqRel for every other value. -/
def MemoryOrder.casOrder128 (o : MemoryOrder) : PrimOrder :=
  if o = Relaxed then .Relaxed else .AcqRel

/-! ## Cache-line placement (`cache.go`, `cache_*.go`, `align.go`)

A padded type (`Int32Padded`, ...) holds its value in its first bytes and fills the rest of
a cache line; a reference to it is the address of those first bytes. -/

/-- `CacheLineSize`: 64 in each of `cache_amd64.go`, `cache_arm64.go`, `cache_riscv64.go`,
`cache_loong64.go` and `cache_other.go`. -/
def CacheLineSize : Nat := 64

/-- `PlaceCacheAlignedInt32`: the number of bytes consumed and the address of the
`Int32Padded`, or the panic. -/
def PlaceCacheAlignedInt32 (p : ByteSlice) (off : Int) : Except String (Int × Nat) :=
  match p.addrOf 0 with
  | .error e => .error e
  | .ok p0 =>
    let addr := addU64 p0 (toU64 off)
    let pad := andI64 (subI64 CacheLineSize (toI64 (addr &&& (CacheLineSize - 1))))
      ((CacheLineSize : Int) - 1)
    let n := addI64 pad CacheLineSize
    if addI64 off n > p.len then .error "atomix: insufficient space for Int32Padded"
    else
      match p.addrOf (addI64 off pad) with
      | .error e => .error e
      | .ok a => .ok (n, a)

/-- `PlaceCacheAlignedUint32`: the number of bytes consumed and the address of the
`Uint32Padded`, or the panic. -/
def PlaceCacheAlignedUint32 (p : ByteSlice) (off : Int) : Except String (Int × Nat) :=
  match p.addrOf 0 with
  | .error e => .error e
  | .ok p0 =>
    let addr := addU64 p0 (toU64 off)
    let pad := andI64 (subI64 CacheLineSize (toI64 (addr &&& (CacheLineSize - 1))))
      ((CacheLineSize : Int) - 1)
    let n := addI64 pad CacheLineSize
    if addI64 off n > p.len then .error "atomix: insufficient space for Uint32Padded"
    else
      match p.addrOf (addI64 off pad) with
      | .error e => .error e
      | .ok a => .ok (n, a)

/-- `PlaceCacheAlignedInt64`: the number of bytes consumed and the address of the
`Int64Padded`, or the panic. -/
def PlaceCacheAlignedInt64 (p : ByteSlice) (off : Int) : Except String (Int × Nat) :=
  match p.addrOf 0 with
  | .error e => .error e
  | .ok p0 =>
    let addr := addU64 p0 (toU64 off)
    let pad := andI64 (subI64 CacheLineSize (toI64 (addr &&& (CacheLineSize - 1))))
      ((CacheLineSize : Int) - 1)
    let n := addI64 pad CacheLineSize
    if addI64 off n > p.len then .error "atomix: insufficient space for Int64Padded"
    else
      match p.addrOf (addI64 off pad) with
      | .error e => .error e
      | .ok a => .ok (n, a)

/-- `PlaceCacheAlignedUint64`: the number of bytes consumed and the address of the
`Uint64Padded`, or the panic. -/
def PlaceCacheAlignedUint64 (p : ByteSlice) (off : Int) : Except String (Int × Nat) :=
  match p.addrOf 0 with
  | .error e => .error e
  | .ok p0 =>
    let addr := addU64 p0 (toU64 off)
    let pad := andI64 (subI64 CacheLineSize (toI64 (addr &&& (CacheLineSize - 1))))
      ((CacheLineSize : Int) - 1)
    let n := addI64 pad CacheLineSize
    if addI64 off n > p.len then .error "atomix: insufficient space for Uint64Padded"
    else
      match p.addrOf (addI64 off pad) with
      | .error e => .error e
      | .ok a => .ok (n, a)

/-- `PlaceCacheAlignedUintptr`: the number of bytes consumed and the address of the
`UintptrPadded`, or the panic. -/
def PlaceCacheAlignedUintptr (p : ByteSlice) (off : Int) : Except String (Int × Nat) :=
  match p.addrOf 0 with
  | .error e => .error e
  | .ok p0 =>
    let addr := addU64 p0 (toU64 off)
    let pad := andI64 (subI64 CacheLineSize (toI64 (addr &&& (CacheLineSize - 1))))
      ((CacheLineSize : Int) - 1)
    let n := addI64 pad CacheLineSize
    if addI64 off n > p.len then .error "atomix: insufficient space for UintptrPadded"
    else
      match p.addrOf (addI64 off pad) with
      | .error e => .error e
      | .ok a => .ok (n, a)

/-- `PlaceCacheAlignedBool`: the number of bytes consumed and the address of the
`BoolPadded`, or the panic. -/
def PlaceCacheAlignedBool (p : ByteSlice) (off : Int) : Except String (Int × Nat) :=
  match p.addrOf 0 with
  | .error e => .error e
  | .ok p0 =>
    let addr := addU64 p0 (toU64 off)
    let pad := andI64 (subI64 CacheLineSize (toI64 (addr &&& (CacheLineSize - 1))))
      ((CacheLineSize : Int) - 1)
    let n := addI64 pad CacheLineSize
    if addI64 off n > p.len then .error "atomix: insufficient space for BoolPadded"
    else
      match p.addrOf (addI64 off pad) with
      | .error e => .error e
      | .ok a => .ok (n, a)

/-- `PlaceCacheAlignedInt128`: the number of bytes consumed and the address of the
`Int128Padded`, or the panic. -/
def PlaceCacheAlignedInt128 (p : ByteSlice) (off : Int) : Except String (Int × Nat) :=
  match p.addrOf 0 with
  | .error e => .error e
  | .ok p0 =>
    let addr := addU64 p0 (toU64 off)
    let pad := andI64 (subI64 CacheLineSize (toI64 (addr &&& (CacheLineSize - 1))))
      ((CacheLineSize : Int) - 1)
    let n := addI64 pad CacheLineSize
    if addI64 off n > p.len then .error "atomix: insufficient space for Int128Padded"
    else
      match p.addrOf (addI64 off pad) with
      | .error e => .error e
      | .ok a => .ok (n, a)

/-- `PlaceCacheAlignedUint128`: the number of bytes consumed and the address of the
`Uint128Padded`, or the panic. -/
def PlaceCacheAlignedUint128 (p : ByteSlice) (off : Int) : Except String (Int × Nat) :=
  match p.addrOf 0 with
  | .error e => .error e
  | .ok p0 =>
    let addr := addU64 p0 (toU64 off)
    let pad := andI64 (subI64 CacheLineSize (toI64 (addr &&& (CacheLineSize - 1))))
      ((CacheLineSize : Int) - 1)
    let n := addI64 pad CacheLineSize
    if addI64 off n > p.len then .error "atomix: insufficient space for Uint128Padded"
    else
      match p.addrOf (addI64 off pad) with
      | .error e => .error e
      | .ok a => .ok (n, a)

/-! ## Aligning and allocating with an `Allocator` (`alloc.go`)

A typed allocation gives the reference it returns together with the allocator after the
call. -/

/-- `(*Allocator).Align`: the allocator after the call, or the panic. -/
def Allocator.Align (a : Allocator) (alignment : Int) : Except String Allocator :=
  if alignment ≤ 0 ∨ andI64 alignment (subI64 alignment 1) ≠ 0 then
    .error "atomix: alignment must be a power of 2"
  else
    match a.buf.addrOf 0 with
    | .error e => .error e
    | .ok p0 =>
      let addr := addU64 p0 (toU64 a.off)
      let pad := toI64 (subU64 (toU64 alignment) (addr &&& toU64 (subI64 alignment 1))
        &&& toU64 (subI64 alignment 1))
      if addI64 a.off pad > a.buf.len then .error "atomix: align beyond buffer"
      else .ok { a with off := addI64 a.off pad }

/-- `(*Allocator).Int32`. -/
def Allocator.Int32 (a : Allocator) : Except String (Nat × Allocator) :=
  match PlaceAlignedInt32 a.buf a.off with
  | .error e => .error e
  | .ok (n, ptr) => .ok (ptr, { a with off := addI64 a.off n })

/-- `(*Allocator).Uint32`. -/
def Allocator.Uint32 (a : Allocator) : Except String (Nat × Allocator) :=
  match PlaceAlignedUint32 a.buf a.off with
  | .error e => .error e
  | .ok (n, ptr) => .ok (ptr, { a with off := addI64 a.off n })

/-- `(*Allocator).Bool`. -/
def Allocator.Bool (a : Allocator) : Except String (Nat × Allocator) :=
  match PlaceAlignedBool a.buf a.off with
  | .error e => .error e
  | .ok (n, ptr) => .ok (ptr, { a with off := addI64 a.off n })

/-- `(*Allocator).Int64`. -/
def Allocator.Int64 (a : Allocator) : Except String (Nat × Allocator) :=
  match PlaceAlignedInt64 a.buf a.off with
  | .error e => .error e
  | .ok (n, ptr) => .ok (ptr, { a with off := addI64 a.off n })

/-- `(*Allocator).Uint64`. -/
def Allocator.Uint64 (a : Allocator) : Except String (Nat × Allocator) :=
  match PlaceAlignedUint64 a.buf a.off with
  | .error e => .error e
  | .ok (n, ptr) => .ok (ptr, { a with off := addI64 a.off n })

/-- `(*Allocator).Uintptr`. -/
def Allocator.Uintptr (a : Allocator) : Except String (Nat × Allocator) :=
  match PlaceAlignedUintptr a.buf a.off with
  | .error e => .error e
  | .ok (n, ptr) => .ok (ptr, { a with off := addI64 a.off n })

/-- `(*Allocator).Int128`. -/
def Allocator.Int128 (a : Allocator) : Except String (Nat × Allocator) :=
  match PlaceAlignedInt128 a.buf a.off with
  | .error e => .error e
  | .ok (n, ptr) => .ok (ptr, { a with off := addI64 a.off n })

/-- `(*Allocator).Uint128`. -/
def Allocator.Uint128 (a : Allocator) : Except String (Nat × Allocator) :=
  match PlaceAlignedUint128 a.buf a.off with
  | .error e => .error e
  | .ok (n, ptr) => .ok (ptr, { a with off := addI64 a.off n })

/-- `(*Allocator).CacheAlignedInt32`. -/
def Allocator.CacheAlignedInt32 (a : Allocator) : Except String (Nat × Allocator) :=
  match PlaceCacheAlignedInt32 a.buf a.off with
  | .error e => .error e
  | .ok (n, ptr) => .ok (ptr, { a with off := addI64 a.off n })

/-- `(*Allocator).CacheAlignedUint32`. -/
def Allocator.CacheAlignedUint32 (a : Allocator) : Except String (Nat × Allocator) :=
  match PlaceCacheAlignedUint32 a.buf a.off with
  | .error e => .error e
  | .ok (n, ptr) => .ok (ptr, { a with off := addI64 a.off n })

/-- `(*Allocator).CacheAlignedInt64`. -/
def Allocator.CacheAlignedInt64 (a : Allocator) : Except String (Nat × Allocator) :=
  match PlaceCacheAlignedInt64 a.buf a.off with
  | .error e => .error e
  | .ok (n, ptr) => .ok (ptr, { a with off := addI64 a.off n })

/-- `(*Allocator).CacheAlignedUint64`. -/
def Allocator.CacheAlignedUint64 (a : Allocator) : Except String (Nat × Allocator) :=
  match PlaceCacheAlignedUint64 a.buf a.off with
  | .error e => .error e
  | .ok (n, ptr) => .ok (ptr, { a with off := addI64 a.off n })

/-- `(*Allocator).CacheAlignedUintptr`. -/
def Allocator.CacheAlignedUintptr (a : Allocator) : Except String (Nat × Allocator) :=
  match PlaceCacheAlignedUintptr a.buf a.off with
  | .error e => .error e
  | .ok (n, ptr) => .ok (ptr, { a with off := addI64 a.off n })

/-- `(*Allocator).CacheAlignedBool`. -/
def Allocator.CacheAlignedBool (a : Allocator) : Except String (Nat × Allocator) :=
  match PlaceCacheAlignedBool a.buf a.off with
  | .error e => .error e
  | .ok (n, ptr) => .ok (ptr, { a with off := addI64 a.off n })

/-- `(*Allocator).CacheAlignedInt128`. -/
def Allocator.CacheAlignedInt128 (a : Allocator) : Except String (Nat × Allocator) :=
  match PlaceCacheAlignedInt128 a.buf a.off with
  | .error e => .error e
  | .ok (n, ptr) => .ok (ptr, { a with off := addI64 a.off n })

/-- `(*Allocator).CacheAlignedUint128`. -/
def Allocator.CacheAlignedUint128 (a : Allocator) : Except String (Nat × Allocator) :=
  match PlaceCacheAlignedUint128 a.buf a.off with
  | .error e => .error e
  | .ok (n, ptr) => .ok (ptr, { a with off := addI64 a.off n })

/-! ## Sequences of calls on one `Allocator` -/

/-- A call that moves the offset of an `Allocator`: `Skip(n)`, `Align(alignment)` or one
of the typed allocations. -/
inductive AllocCall where
  | Skip (n : Int)
  | Align (alignment : Int)
  | Int32
  | Uint32
  | Bool
  | Int64
  | Uint64
  | Uintptr
  | Int128
  | Uint128
  | CacheAlignedInt32
  | CacheAlignedUint32
  | CacheAlignedInt64
  | CacheAlignedUint64
  | CacheAlignedUintptr
  | CacheAlignedBool
  | CacheAlignedInt128
  | CacheAlignedUint128
deriving DecidableEq, Repr

/-- The allocator after one call, the reference of a typed allocation being dropped; or
the panic of the call. -/
def Allocator.call (a : Allocator) : AllocCall → Except String Allocator
  | .Skip n => a.Skip n
  | .Align alignment => a.Align alignment
  | .Int32 => a.Int32.map Prod.snd
  | .Uint32 => a.Uint32.map Prod.snd
  | .Bool => a.Bool.map Prod.snd
  | .Int64 => a.Int64.map Prod.snd
  | .Uint64 => a.Uint64.map Prod.snd
  | .Uintptr => a.Uintptr.map Prod.snd
  | .Int128 => a.Int128.map Prod.snd
  | .Uint128 => a.Uint128.map Prod.snd
  | .CacheAlignedInt32 => a.CacheAlignedInt32.map Prod.snd
  | .CacheAlignedUint32 => a.CacheAlignedUint32.map Prod.snd
  | .CacheAlignedInt64 => a.CacheAlignedInt64.map Prod.snd
  | .CacheAlignedUint64 => a.CacheAlignedUint64.map Prod.snd
  | .CacheAlignedUintptr => a.CacheAlignedUintptr.map Prod.snd
  | .CacheAlignedBool => a.CacheAlignedBool.map Prod.snd
  | .CacheAlignedInt128 => a.CacheAlignedInt128.map Prod.snd
  | .CacheAlignedUint128 => a.CacheAlignedUint128.map Prod.snd

/-- The values of `Offset()` observed after each call of a sequence made on one allocator,
up to the first call that panics. -/
def Allocator.offsets (a : Allocator) : List AllocCall → List Int
  | [] => []
  | c :: cs =>
    match a.call c with
    | .error _ => []
    | .ok b => b.Offset :: b.offsets cs


/-- The allocate method `alloc` combines the placement `place`, which aligns to `align`
bytes and takes `size` bytes, with advancing the offset: where the placement at
`Offset()` returns `n` and a reference, the method returns that reference, moves the
offset forward by `n`, the padding to the next multiple of `align` plus `size`, and keeps
the buffer; where the placement panics, so does the method. -/
def AllocatesWith (alloc : Allocator → Except String (Nat × Allocator))
    (place : ByteSlice → Int → Except String (Int × Nat)) (align size : Int)
    (a : Allocator) : Prop :=
  (∀ n ptr, place a.buf a.Offset = .ok (n, ptr) →
    ∃ b, alloc a = .ok (ptr, b) ∧ b.Offset = a.Offset + n ∧ b.buf = a.buf ∧
      n = (align - ((a.buf.base : Int) + a.Offset) % align) % align + size) ∧
  (∀ e, place a.buf a.Offset = .error e → alloc a = .error e)


/-- A call whose arguments are `int`s and that does not ask to go back: the argument of
`Skip` is not negative (and below `2^62`, so that adding it to an offset inside a buffer
stays an `int`). -/
def AllocCall.Forward : AllocCall → Prop
  | .Skip n => 0 ≤ n ∧ n < 2 ^ 62
  | .Align alignment => IsI64 alignment
  | .Int32 => True
  | .Uint32 => True
  | .Bool => True
  | .Int64 => True
  | .Uint64 => True
  | .Uintptr => True
  | .Int128 => True
  | .Uint128 => True
  | .CacheAlignedInt32 => True
  | .CacheAlignedUint32 => True
  | .CacheAlignedInt64 => True
  | .CacheAlignedUint64 => True
  | .CacheAlignedUintptr => True
  | .CacheAlignedBool => True
  | .CacheAlignedInt128 => True
  | .CacheAlignedUint128 => True

/-! ## Relaxed loops, increment and decrement of `Uint128` (`uint128.go`) -/

namespace Uint128

/-- `(*Uint128).AddRelaxed`: the compare-and-swap retry loop, `fuel` iterations at most. -/
def AddRelaxed (a : Uint128) (deltaLo deltaHi : Nat) : Nat → Option ((Nat × Nat) × Uint128)
  | 0 => none
  | fuel + 1 =>
    let (oldLo, oldHi) := arch.LoadUint128Relaxed a.v
    let newLo := addU64 oldLo deltaLo
    let newHi := addU64 oldHi deltaHi
    let newHi := if newLo < oldLo then addU64 newHi 1 else newHi
    let r := arch.CasUint128Relaxed a.v oldLo oldHi newLo newHi
    if r.1 then some ((newLo, newHi), { v := r.2 })
    else AddRelaxed { v := r.2 } deltaLo deltaHi fuel

/-- `(*Uint128).SubRelaxed`: the compare-and-swap retry loop, `fuel` iterations at most. -/
def SubRelaxed (a : Uint128) (deltaLo deltaHi : Nat) : Nat → Option ((Nat × Nat) × Uint128)
  | 0 => none
  | fuel + 1 =>
    let (oldLo, oldHi) := arch.LoadUint128Relaxed a.v
    let newLo := subU64 oldLo deltaLo
    let newHi := subU64 oldHi deltaHi
    let newHi := if newLo > oldLo then subU64 newHi 1 else newHi
    let r := arch.CasUint128Relaxed a.v oldLo oldHi newLo newHi
    if r.1 then some ((newLo, newHi), { v := r.2 })
    else SubRelaxed { v := r.2 } deltaLo deltaHi fuel

/-- `(*Uint128).Inc`. -/
def Inc (a : Uint128) (fuel : Nat) : Option ((Nat × Nat) × Uint128) :=
  a.Add 1 0 fuel

/-- `(*Uint128).IncRelaxed`. -/
def IncRelaxed (a : Uint128) (fuel : Nat) : Option ((Nat × Nat) × Uint128) :=
  a.AddRelaxed 1 0 fuel

/-- `(*Uint128).Dec`. -/
def Dec (a : Uint128) (fuel : Nat) : Option ((Nat × Nat) × Uint128) :=
  a.Sub 1 0 fuel

/-- `(*Uint128).DecRelaxed`. -/
def DecRelaxed (a : Uint128) (fuel : Nat) : Option ((Nat × Nat) × Uint128) :=
  a.SubRelaxed 1 0 fuel

end Uint128

/-! ## Feasibility of a cache-line placement (`align.go`) -/

/-- `CanPlaceCacheAligned`. -/
def CanPlaceCacheAligned (p : ByteSlice) (off size : Int) : Except String Bool :=
  if off < 0 ∨ off > p.len then .ok false
  else
    match p.addrOf 0 with
    | .error e => .error e
    | .ok p0 =>
      let addr := addU64 p0 (toU64 off)
      let pad := andI64 (subI64 CacheLineSize (toI64 (addr &&& (CacheLineSize - 1))))
        ((CacheLineSize : Int) - 1)
      .ok (decide (addI64 (addI64 off pad) size ≤ p.len))

/-! ## The allocator a call leaves behind (`alloc.go`)

A panic leaves the allocator in the state it had when the panic was raised, for a caller
that recovers.  The definitions below give, for every call, its outcome together with the
allocator at the end of the call, whether the call returns or panics: the statements of
the method in their order, the assignment to `a.off` being the last. -/

/-- `(*Allocator).Skip`: the outcome and the allocator at the end of the call. -/
def Allocator.Skip.exec (a : Allocator) (n : Int) : Except String Unit × Allocator :=
  if addI64 a.off n > a.buf.len then (.error "atomix: skip beyond buffer", a)
  else (.ok (), { a with off := addI64 a.off n })

/-- `(*Allocator).Align`: the outcome and the allocator at the end of the call. -/
def Allocator.Align.exec (a : Allocator) (alignment : Int) :
    Except String Unit × Allocator :=
  if alignment ≤ 0 ∨ andI64 alignment (subI64 alignment 1) ≠ 0 then
    (.error "atomix: alignment must be a power of 2", a)
  else
    match a.buf.addrOf 0 with
    | .error e => (.error e, a)
    | .ok p0 =>
      let addr := addU64 p0 (toU64 a.off)
      let pad := toI64 (subU64 (toU64 alignment) (addr &&& toU64 (subI64 alignment 1))
        &&& toU64 (subI64 alignment 1))
      if addI64 a.off pad > a.buf.len then (.error "atomix: align beyond buffer", a)
      else (.ok (), { a with off := addI64 a.off pad })

/-- `(*Allocator).Int32`: the outcome, a reference when the call returns, and the
allocator at the end of the call. -/
def Allocator.Int32.exec (a : Allocator) : Except String Nat × Allocator :=
  match PlaceAlignedInt32 a.buf a.off with
  | .error e => (.error e, a)
  | .ok (n, ptr) => (.ok ptr, { a with off := addI64 a.off n })

/-- `(*Allocator).Uint32`: the outcome, a reference when the call returns, and the
allocator at the end of the call. -/
def Allocator.Uint32.exec (a : Allocator) : Except String Nat × Allocator :=
  match PlaceAlignedUint32 a.buf a.off with
  | .error e => (.error e, a)
  | .ok (n, ptr) => (.ok ptr, { a with off := addI64 a.off n })

/-- `(*Allocator).Bool`: the outcome, a reference when the call returns, and the
allocator at the end of the call. -/
def Allocator.Bool.exec (a : Allocator) : Except String Nat × Allocator :=
  match PlaceAlignedBool a.buf a.off with
  | .error e => (.error e, a)
  | .ok (n, ptr) => (.ok ptr, { a with off := addI64 a.off n })

/-- `(*Allocator).Int64`: the outcome, a reference when the call returns, and the
allocator at the end of the call. -/
def Allocator.Int64.exec (a : Allocator) : Except String Nat × Allocator :=
  match PlaceAlignedInt64 a.buf a.off with
  | .error e => (.error e, a)
  | .ok (n, ptr) => (.ok ptr, { a with off := addI64 a.off n })

/-- `(*Allocator).Uint64`: the outcome, a reference when the call returns, and the
allocator at the end of the call. -/
def Allocator.Uint64.exec (a : Allocator) : Except String Nat × Allocator :=
  match PlaceAlignedUint64 a.buf a.off with
  | .error e => (.error e, a)
  | .ok (n, ptr) => (.ok ptr, { a with off := addI64 a.off n })

/-- `(*Allocator).Uintptr`: the outcome, a reference when the call returns, and the
allocator at the end of the call. -/
def Allocator.Uintptr.exec (a : Allocator) : Except String Nat × Allocator :=
  match PlaceAlignedUintptr a.buf a.off with
  | .error e => (.error e, a)
  | .ok (n, ptr) => (.ok ptr, { a with off := addI64 a.off n })

/-- `(*Allocator).Int128`: the outcome, a reference when the call returns, and the
allocator at the end of the call. -/
def Allocator.Int128.exec (a : Allocator) : Except String Nat × Allocator :=
  match PlaceAlignedInt128 a.buf a.off with
  | .error e => (.error e, a)
  | .ok (n, ptr) => (.ok ptr, { a with off := addI64 a.off n })

/-- `(*Allocator).Uint128`: the outcome, a reference when the call returns, and the
allocator at the end of the call. -/
def Allocator.Uint128.exec (a : Allocator) : Except String Nat × Allocator :=
  match PlaceAlignedUint128 a.buf a.off with
  | .error e => (.error e, a)
  | .ok (n, ptr) => (.ok ptr, { a with off := addI64 a.off n })

/-- `(*Allocator).CacheAlignedInt32`: the outcome, a reference when the call returns, and the
allocator at the end of the call. -/
def Allocator.CacheAlignedInt32.exec (a : Allocator) : Except String Nat × Allocator :=
  match PlaceCacheAlignedInt32 a.buf a.off with
  | .error e => (.error e, a)
  | .ok (n, ptr) => (.ok ptr, { a with off := addI64 a.off n })

/-- `(*Allocator).CacheAlignedUint32`: the outcome, a reference when the call returns, and the
allocator at the end of the call. -/
def Allocator.CacheAlignedUint32.exec (a : Allocator) : Except String Nat × Allocator :=
  match PlaceCacheAlignedUint32 a.buf a.off with
  | .error e => (.error e, a)
  | .ok (n, ptr) => (.ok ptr, { a with off := addI64 a.off n })

/-- `(*Allocator).CacheAlignedInt64`: the outcome, a reference when the call returns, and the
allocator at the end of the call. -/
def Allocator.CacheAlignedInt64.exec (a : Allocator) : Except String Nat × Allocator :=
  match PlaceCacheAlignedInt64 a.buf a.off with
  | .error e => (.error e, a)
  | .ok (n, ptr) => (.ok ptr, { a with off := addI64 a.off n })

/-- `(*Allocator).CacheAlignedUint64`: the outcome, a reference when the call returns, and the
allocator at the end of the call. -/
def Allocator.CacheAlignedUint64.exec (a : Allocator) : Except String Nat × Allocator :=
  match PlaceCacheAlignedUint64 a.buf a.off with
  | .error e => (.error e, a)
  | .ok (n, ptr) => (.ok ptr, { a with off := addI64 a.off n })

/-- `(*Allocator).CacheAlignedUintptr`: the outcome, a reference when the call returns, and the
allocator at the end of the call. -/
def Allocator.CacheAlignedUintptr.exec (a : Allocator) : Except String Nat × Allocator :=
  match PlaceCacheAlignedUintptr a.buf a.off with
  | .error e => (.error e, a)
  | .ok (n, ptr) => (.ok ptr, { a with off := addI64 a.off n })

/-- `(*Allocator).CacheAlignedBool`: the outcome, a reference when the call returns, and the
allocator at the end of the call. -/
def Allocator.CacheAlignedBool.exec (a : Allocator) : Except String Nat × Allocator :=
  match PlaceCacheAlignedBool a.buf a.off with
  | .error e => (.error e, a)
  | .ok (n, ptr) => (.ok ptr, { a with off := addI64 a.off n })

/-- `(*Allocator).CacheAlignedInt128`: the outcome, a reference when the call returns, and the
allocator at the end of the call. -/
def Allocator.CacheAlignedInt128.exec (a : Allocator) : Except String Nat × Allocator :=
  match PlaceCacheAlignedInt128 a.buf a.off with
  | .error e => (.error e, a)
  | .ok (n, ptr) => (.ok ptr, { a with off := addI64 a.off n })

/-- `(*Allocator).CacheAlignedUint128`: the outcome, a reference when the call returns, and the
allocator at the end of the call. -/
def Allocator.CacheAlignedUint128.exec (a : Allocator) : Except String Nat × Allocator :=
  match PlaceCacheAlignedUint128 a.buf a.off with
  | .error e => (.error e, a)
  | .ok (n, ptr) => (.ok ptr, { a with off := addI64 a.off n })

/-- The outcome of one call, the reference of a typed allocation being dropped, and the
allocator at the end of the call. -/
def Allocator.exec (a : Allocator) : AllocCall → Except String Unit × Allocator
  | .Skip n => Allocator.Skip.exec a n
  | .Align alignment => Allocator.Align.exec a alignment
  | .Int32 =>
    ((Allocator.Int32.exec a).1.map (fun _ => ()), (Allocator.Int32.exec a).2)
  | .Uint32 =>
    ((Allocator.Uint32.exec a).1.map (fun _ => ()), (Allocator.Uint32.exec a).2)
  | .Bool =>
    ((Allocator.Bool.exec a).1.map (fun _ => ()), (Allocator.Bool.exec a).2)
  | .Int64 =>
    ((Allocator.Int64.exec a).1.map (fun _ => ()), (Allocator.Int64.exec a).2)
  | .Uint64 =>
    ((Allocator.Uint64.exec a).1.map (fun _ => ()), (Allocator.Uint64.exec a).2)
  | .Uintptr =>
    ((Allocator.Uintptr.exec a).1.map (fun _ => ()), (Allocator.Uintptr.exec a).2)
  | .Int128 =>
    ((Allocator.Int128.exec a).1.map (fun _ => ()), (Allocator.Int128.exec a).2)
  | .Uint128 =>
    ((Allocator.Uint128.exec a).1.map (fun _ => ()), (Allocator.Uint128.exec a).2)
  | .CacheAlignedInt32 =>
    ((Allocator.CacheAlignedInt32.exec a).1.map (fun _ => ()), (Allocator.CacheAlignedInt32.exec a).2)
  | .CacheAlignedUint32 =>
    ((Allocator.CacheAlignedUint32.exec a).1.map (fun _ => ()), (Allocator.CacheAlignedUint32.exec a).2)
  | .CacheAlignedInt64 =>
    ((Allocator.CacheAlignedInt64.exec a).1.map (fun _ => ()), (Allocator.CacheAlignedInt64.exec a).2)
  | .CacheAlignedUint64 =>
    ((Allocator.CacheAlignedUint64.exec a).1.map (fun _ => ()), (Allocator.CacheAlignedUint64.exec a).2)
  | .CacheAlignedUintptr =>
    ((Allocator.CacheAlignedUintptr.exec a).1.map (fun _ => ()), (Allocator.CacheAlignedUintptr.exec a).2)
  | .CacheAlignedBool =>
    ((Allocator.CacheAlignedBool.exec a).1.map (fun _ => ()), (Allocator.CacheAlignedBool.exec a).2)
  | .CacheAlignedInt128 =>
    ((Allocator.CacheAlignedInt128.exec a).1.map (fun _ => ()), (Allocator.CacheAlignedInt128.exec a).2)
  | .CacheAlignedUint128 =>
    ((Allocator.CacheAlignedUint128.exec a).1.map (fun _ => ()), (Allocator.CacheAlignedUint128.exec a).2)

/-! ## The bytes of a typed allocation (`types.go`, `cache.go`)

`Int32`, `Uint32` and `Bool` hold one 32-bit word, `Int64`, `Uint64` and `Uintptr` one
64-bit word, `Int128` and `Uint128` sixteen bytes; a padded type fills `CacheLineSize`
bytes. -/

/-- The typed and cache-aligned allocate methods of `Allocator`, each with the number of
bytes of the value it hands out. -/
def typedAllocations : List ((Allocator → Except String (Nat × Allocator)) × Nat) :=
  [(Allocator.Int32, 4),
    (Allocator.Uint32, 4),
    (Allocator.Bool, 4),
    (Allocator.Int64, 8),
    (Allocator.Uint64, 8),
    (Allocator.Uintptr, 8),
    (Allocator.Int128, 16),
    (Allocator.Uint128, 16),
    (Allocator.CacheAlignedInt32, CacheLineSize),
    (Allocator.CacheAlignedUint32, CacheLineSize),
    (Allocator.CacheAlignedInt64, CacheLineSize),
    (Allocator.CacheAlignedUint64, CacheLineSize),
    (Allocator.CacheAlignedUintptr, CacheLineSize),
    (Allocator.CacheAlignedBool, CacheLineSize),
    (Allocator.CacheAlignedInt128, CacheLineSize),
    (Allocator.CacheAlignedUint128, CacheLineSize)]

/-! ## `Bool` (`types.go`, `bool.go`)

The type is named `AtomixBool` here, `Bool` being the booleans of the arguments and
results. -/

/-- The type `Bool struct { _ noCopy; v uint32 }`. -/
structure AtomixBool where
  v : Nat
deriving DecidableEq, Repr

/-- The zero value of `Bool`: the word 0. -/
def AtomixBool.zero : AtomixBool := { v := 0 }

/-- `(*Bool).Load`. -/
def AtomixBool.Load (a : AtomixBool) : Bool :=
  decide (arch.LoadUint32Relaxed a.v ≠ 0)

/-- `(*Bool).LoadRelaxed`. -/
def AtomixBool.LoadRelaxed (a : AtomixBool) : Bool :=
  decide (arch.LoadUint32Relaxed a.v ≠ 0)

/-- `(*Bool).LoadAcquire`. -/
def AtomixBool.LoadAcquire (a : AtomixBool) : Bool :=
  decide (arch.LoadUint32Acquire a.v ≠ 0)

/-- `(*Bool).Store`. -/
def AtomixBool.Store (a : AtomixBool) (val : Bool) : AtomixBool :=
  { v := arch.StoreUint32Relaxed a.v (b2u val) }

/-- `(*Bool).StoreRelaxed`. -/
def AtomixBool.StoreRelaxed (a : AtomixBool) (val : Bool) : AtomixBool :=
  { v := arch.StoreUint32Relaxed a.v (b2u val) }

/-- `(*Bool).StoreRelease`. -/
def AtomixBool.StoreRelease (a : AtomixBool) (val : Bool) : AtomixBool :=
  { v := arch.StoreUint32Release a.v (b2u val) }

/-- `(*Bool).Swap`. -/
def AtomixBool.Swap (a : AtomixBool) (new : Bool) : Bool × AtomixBool :=
  let r := arch.SwapUint32AcqRel a.v (b2u new)
  (decide (r.1 ≠ 0), { v := r.2 })

/-- `(*Bool).SwapRelaxed`. -/
def AtomixBool.SwapRelaxed (a : AtomixBool) (new : Bool) : Bool × AtomixBool :=
  let r := arch.SwapUint32Relaxed a.v (b2u new)
  (decide (r.1 ≠ 0), { v := r.2 })

/-- `(*Bool).SwapAcquire`. -/
def AtomixBool.SwapAcquire (a : AtomixBool) (new : Bool) : Bool × AtomixBool :=
  let r := arch.SwapUint32Acquire a.v (b2u new)
  (decide (r.1 ≠ 0), { v := r.2 })

/-- `(*Bool).SwapRelease`. -/
def AtomixBool.SwapRelease (a : AtomixBool) (new : Bool) : Bool × AtomixBool :=
  let r := arch.SwapUint32Release a.v (b2u new)
  (decide (r.1 ≠ 0), { v := r.2 })

/-- `(*Bool).SwapAcqRel`. -/
def AtomixBool.SwapAcqRel (a : AtomixBool) (new : Bool) : Bool × AtomixBool :=
  let r := arch.SwapUint32AcqRel a.v (b2u new)
  (decide (r.1 ≠ 0), { v := r.2 })

/-- `(*Bool).CompareAndSwap`. -/
def AtomixBool.CompareAndSwap (a : AtomixBool) (old new : Bool) : Bool × AtomixBool :=
  let r := arch.CasUint32AcqRel a.v (b2u old) (b2u new)
  (r.1, { v := r.2 })

/-- `(*Bool).CompareAndSwapRelaxed`. -/
def AtomixBool.CompareAndSwapRelaxed (a : AtomixBool) (old new : Bool) : Bool × AtomixBool :=
  let r := arch.CasUint32Relaxed a.v (b2u old) (b2u new)
  (r.1, { v := r.2 })

/-- `(*Bool).CompareAndSwapAcquire`. -/
def AtomixBool.CompareAndSwapAcquire (a : AtomixBool) (old new : Bool) : Bool × AtomixBool :=
  let r := arch.CasUint32Acquire a.v (b2u old) (b2u new)
  (r.1, { v := r.2 })

/-- `(*Bool).CompareAndSwapRelease`. -/
def AtomixBool.CompareAndSwapRelease (a : AtomixBool) (old new : Bool) : Bool × AtomixBool :=
  let r := arch.CasUint32Release a.v (b2u old) (b2u new)
  (r.1, { v := r.2 })

/-- `(*Bool).CompareAndSwapAcqRel`. -/
def AtomixBool.CompareAndSwapAcqRel (a : AtomixBool) (old new : Bool) : Bool × AtomixBool :=
  let r := arch.CasUint32AcqRel a.v (b2u old) (b2u new)
  (r.1, { v := r.2 })

/-- A call that writes a `Bool`: `Store`, `Swap` or `CompareAndSwap` in one of their
ordering variants, or the same through a `MemoryOrder`. -/
inductive BoolCall where
  | Store (val : Bool)
  | StoreRelaxed (val : Bool)
  | StoreRelease (val : Bool)
  | Swap (new : Bool)
  | SwapRelaxed (new : Bool)
  | SwapAcquire (new : Bool)
  | SwapRelease (new : Bool)
  | SwapAcqRel (new : Bool)
  | CompareAndSwap (old new : Bool)
  | CompareAndSwapRelaxed (old new : Bool)
  | CompareAndSwapAcquire (old new : Bool)
  | CompareAndSwapRelease (old new : Bool)
  | CompareAndSwapAcqRel (old new : Bool)
  | OrderStore (o : MemoryOrder) (val : Bool)
  | OrderSwap (o : MemoryOrder) (new : Bool)
  | OrderCompareAndSwap (o : MemoryOrder) (old new : Bool)
deriving DecidableEq, Repr

/-- The `Bool` after one call, the result of the call being dropped. -/
def AtomixBool.call (a : AtomixBool) : BoolCall → AtomixBool
  | .Store val => a.Store val
  | .StoreRelaxed val => a.StoreRelaxed val
  | .StoreRelease val => a.StoreRelease val
  | .Swap new => (a.Swap new).2
  | .SwapRelaxed new => (a.SwapRelaxed new).2
  | .SwapAcquire new => (a.SwapAcquire new).2
  | .SwapRelease new => (a.SwapRelease new).2
  | .SwapAcqRel new => (a.SwapAcqRel new).2
  | .CompareAndSwap old new => (a.CompareAndSwap old new).2
  | .CompareAndSwapRelaxed old new => (a.CompareAndSwapRelaxed old new).2
  | .CompareAndSwapAcquire old new => (a.CompareAndSwapAcquire old new).2
  | .CompareAndSwapRelease old new => (a.CompareAndSwapRelease old new).2
  | .CompareAndSwapAcqRel old new => (a.CompareAndSwapAcqRel old new).2
  | .OrderStore o val => { v := o.StoreBool a.v val }
  | .OrderSwap o new => { v := (o.SwapBool a.v new).2 }
  | .OrderCompareAndSwap o old new => { v := (o.CompareAndSwapBool a.v old new).2 }

/-- The `Bool` after a sequence of calls. -/
def AtomixBool.run (a : AtomixBool) (cs : List BoolCall) : AtomixBool :=
  cs.foldl AtomixBool.call a

/-! ## `Pointer` (`types.go`, `pointer.go`, `internal/arch/generic.go`)

An `unsafe.Pointer` is the address it holds, `nil` being 0; the conversions between `*T`
and `unsafe.Pointer` in `pointer.go` keep the address. -/

namespace atomic

/-- `atomic.LoadPointer`. -/
def LoadPointer (addr : Nat) : Nat := addr

/-- `atomic.StorePointer`: the word after the call. -/
def StorePointer (_addr : Nat) (val : Nat) : Nat := val

/-- `atomic.SwapPointer`: the old value, and the word after the call. -/
def SwapPointer (addr : Nat) (new : Nat) : Nat × Nat := (addr, new)

/-- `atomic.CompareAndSwapPointer`: whether the swap happened, and the word after the call. -/
def CompareAndSwapPointer (addr : Nat) (old new : Nat) : Bool × Nat :=
  if addr = old then (true, new) else (false, addr)

end atomic

namespace arch

/-- `LoadPointerRelaxed`. -/
def LoadPointerRelaxed (addr : Nat) : Nat :=
  atomic.LoadPointer addr

/-- `LoadPointerAcquire`. -/
def LoadPointerAcquire (addr : Nat) : Nat :=
  atomic.LoadPointer addr

/-- `StorePointerRelaxed`. -/
def StorePointerRelaxed (addr : Nat) (val : Nat) : Nat :=
  atomic.StorePointer addr val

/-- `StorePointerRelease`. -/
def StorePointerRelease (addr : Nat) (val : Nat) : Nat :=
  atomic.StorePointer addr val

/-- `SwapPointerRelaxed`. -/
def SwapPointerRelaxed (addr : Nat) (new : Nat) : Nat × Nat :=
  atomic.SwapPointer addr new

/-- `SwapPointerAcquire`. -/
def SwapPointerAcquire (addr : Nat) (new : Nat) : Nat × Nat :=
  atomic.SwapPointer addr new

/-- `SwapPointerRelease`. -/
def SwapPointerRelease (addr : Nat) (new : Nat) : Nat × Nat :=
  atomic.SwapPointer addr new

/-- `SwapPointerAcqRel`. -/
def SwapPointerAcqRel (addr : Nat) (new : Nat) : Nat × Nat :=
  atomic.SwapPointer addr new

/-- `CasPointerRelaxed`. -/
def CasPointerRelaxed (addr : Nat) (old new : Nat) : Bool × Nat :=
  atomic.CompareAndSwapPointer addr old new

/-- `CasPointerAcquire`. -/
def CasPointerAcquire (addr : Nat) (old new : Nat) : Bool × Nat :=
  atomic.CompareAndSwapPointer addr old new

/-- `CasPointerRelease`. -/
def CasPointerRelease (addr : Nat) (old new : Nat) : Bool × Nat :=
  atomic.CompareAndSwapPointer addr old new

/-- `CasPointerAcqRel`. -/
def CasPointerAcqRel (addr : Nat) (old new : Nat) : Bool × Nat :=
  atomic.CompareAndSwapPointer addr old new

/-- `CaxPointerRelaxed`: load, return the value seen if it differs from `old`, otherwise
try the compare-and-swap and retry when it fails. -/
def CaxPointerRelaxed (addr : Nat) (old new : Nat) : Nat → Option (Nat × Nat)
  | 0 => none
  | fuel + 1 =>
    let cur := atomic.LoadPointer addr
    if cur ≠ old then some (cur, addr)
    else
      let r := atomic.CompareAndSwapPointer addr old new
      if r.1 then some (old, r.2)
      else CaxPointerRelaxed r.2 old new fuel

/-- `CaxPointerAcquire`. -/
def CaxPointerAcquire (addr : Nat) (old new : Nat) (fuel : Nat) : Option (Nat × Nat) :=
  CaxPointerRelaxed addr old new fuel

/-- `CaxPointerRelease`. -/
def CaxPointerRelease (addr : Nat) (old new : Nat) (fuel : Nat) : Option (Nat × Nat) :=
  CaxPointerRelaxed addr old new fuel

/-- `CaxPointerAcqRel`. -/
def CaxPointerAcqRel (addr : Nat) (old new : Nat) (fuel : Nat) : Option (Nat × Nat) :=
  CaxPointerRelaxed addr old new fuel

end arch

/-- The type `Pointer[T] struct { _ noCopy; v unsafe.Pointer }`. -/
structure Pointer where
  v : Nat
deriving DecidableEq, Repr

/-! ## The other methods of the typed wrappers (`int32.go`, `uint32.go`, `int64.go`,
`uint64.go`, `uintptr.go`, `pointer.go`, `int128.go`, `uint128.go`)

The methods named after the ordering of the unsuffixed ones, and all of `Pointer`. -/

/-- `(*Int32).LoadRelaxed`. -/
def Int32.LoadRelaxed (a : Int32) : Int :=
  arch.LoadInt32Relaxed a.v

/-- `(*Int32).StoreRelaxed`. -/
def Int32.StoreRelaxed (a : Int32) (val : Int) : Int32 :=
  { v := arch.StoreInt32Relaxed a.v val }

/-- `(*Int32).SwapAcqRel`. -/
def Int32.SwapAcqRel (a : Int32) (new : Int) : Int × Int32 :=
  let r := arch.SwapInt32AcqRel a.v new
  (r.1, { v := r.2 })

/-- `(*Int32).CompareAndSwapAcqRel`. -/
def Int32.CompareAndSwapAcqRel (a : Int32) (old new : Int) : Bool × Int32 :=
  let r := arch.CasInt32AcqRel a.v old new
  (r.1, { v := r.2 })

/-- `(*Int32).CompareExchangeAcqRel`. -/
def Int32.CompareExchangeAcqRel (a : Int32) (old new : Int) (fuel : Nat) : Option (Int × Int32) :=
  (arch.CaxInt32AcqRel a.v old new fuel).map fun r => (r.1, { v := r.2 })

/-- `(*Int32).AddAcqRel`. -/
def Int32.AddAcqRel (a : Int32) (delta : Int) : Int × Int32 :=
  let r := arch.AddInt32AcqRel a.v delta
  (r.1, { v := r.2 })

/-- `(*Int32).SubAcqRel`. -/
def Int32.SubAcqRel (a : Int32) (delta : Int) : Int × Int32 :=
  let r := arch.AddInt32AcqRel a.v (negI32 delta)
  (r.1, { v := r.2 })

/-- `(*Int32).AndAcqRel`. -/
def Int32.AndAcqRel (a : Int32) (mask : Int) (fuel : Nat) : Option (Int × Int32) :=
  (arch.AndInt32AcqRel a.v mask fuel).map fun r => (r.1, { v := r.2 })

/-- `(*Int32).OrAcqRel`. -/
def Int32.OrAcqRel (a : Int32) (mask : Int) (fuel : Nat) : Option (Int × Int32) :=
  (arch.OrInt32AcqRel a.v mask fuel).map fun r => (r.1, { v := r.2 })

/-- `(*Int32).XorAcqRel`. -/
def Int32.XorAcqRel (a : Int32) (mask : Int) (fuel : Nat) : Option (Int × Int32) :=
  (arch.XorInt32AcqRel a.v mask fuel).map fun r => (r.1, { v := r.2 })

/-- `(*Uint32).LoadRelaxed`. -/
def Uint32.LoadRelaxed (a : Uint32) : Nat :=
  arch.LoadUint32Relaxed a.v

/-- `(*Uint32).StoreRelaxed`. -/
def Uint32.StoreRelaxed (a : Uint32) (val : Nat) : Uint32 :=
  { v := arch.StoreUint32Relaxed a.v val }

/-- `(*Uint32).SwapAcqRel`. -/
def Uint32.SwapAcqRel (a : Uint32) (new : Nat) : Nat × Uint32 :=
  let r := arch.SwapUint32AcqRel a.v new
  (r.1, { v := r.2 })

/-- `(*Uint32).CompareAndSwapAcqRel`. -/
def Uint32.CompareAndSwapAcqRel (a : Uint32) (old new : Nat) : Bool × Uint32 :=
  let r := arch.CasUint32AcqRel a.v old new
  (r.1, { v := r.2 })

/-- `(*Uint32).CompareExchangeAcqRel`. -/
def Uint32.CompareExchangeAcqRel (a : Uint32) (old new : Nat) (fuel : Nat) :
    Option (Nat × Uint32) :=
  (arch.CaxUint32AcqRel a.v old new fuel).map fun r => (r.1, { v := r.2 })

/-- `(*Uint32).AddAcqRel`. -/
def Uint32.AddAcqRel (a : Uint32) (delta : Nat) : Nat × Uint32 :=
  let r := arch.AddUint32AcqRel a.v delta
  (r.1, { v := r.2 })

/-- `(*Uint32).SubAcqRel`. -/
def Uint32.SubAcqRel (a : Uint32) (delta : Nat) : Nat × Uint32 :=
  let r := arch.AddUint32AcqRel a.v (notU32 (subU32 delta 1))
  (r.1, { v := r.2 })

/-- `(*Uint32).AndAcqRel`. -/
def Uint32.AndAcqRel (a : Uint32) (mask : Nat) (fuel : Nat) : Option (Nat × Uint32) :=
  (arch.AndUint32AcqRel a.v mask fuel).map fun r => (r.1, { v := r.2 })

/-- `(*Uint32).OrAcqRel`. -/
def Uint32.OrAcqRel (a : Uint32) (mask : Nat) (fuel : Nat) : Option (Nat × Uint32) :=
  (arch.OrUint32AcqRel a.v mask fuel).map fun r => (r.1, { v := r.2 })

/-- `(*Uint32).XorAcqRel`. -/
def Uint32.XorAcqRel (a : Uint32) (mask : Nat) (fuel : Nat) : Option (Nat × Uint32) :=
  (arch.XorUint32AcqRel a.v mask fuel).map fun r => (r.1, { v := r.2 })

/-- `(*Int64).LoadRelaxed`. -/
def Int64.LoadRelaxed (a : Int64) : Int :=
  arch.LoadInt64Relaxed a.v

/-- `(*Int64).StoreRelaxed`. -/
def Int64.StoreRelaxed (a : Int64) (val : Int) : Int64 :=
  { v := arch.StoreInt64Relaxed a.v val }

/-- `(*Int64).SwapAcqRel`. -/
def Int64.SwapAcqRel (a : Int64) (new : Int) : Int × Int64 :=
  let r := arch.SwapInt64AcqRel a.v new
  (r.1, { v := r.2 })

/-- `(*Int64).CompareAndSwapAcqRel`. -/
def Int64.CompareAndSwapAcqRel (a : Int64) (old new : Int) : Bool × Int64 :=
  let r := arch.CasInt64AcqRel a.v old new
  (r.1, { v := r.2 })

/-- `(*Int64).CompareExchangeAcqRel`. -/
def Int64.CompareExchangeAcqRel (a : Int64) (old new : Int) (fuel : Nat) : Option (Int × Int64) :=
  (arch.CaxInt64AcqRel a.v old new fuel).map fun r => (r.1, { v := r.2 })

/-- `(*Int64).AddAcqRel`. -/
def Int64.AddAcqRel (a : Int64) (delta : Int) : Int × Int64 :=
  let r := arch.AddInt64AcqRel a.v delta
  (r.1, { v := r.2 })

/-- `(*Int64).SubAcqRel`. -/
def Int64.SubAcqRel (a : Int64) (delta : Int) : Int × Int64 :=
  let r := arch.AddInt64AcqRel a.v (negI64 delta)
  (r.1, { v := r.2 })

/-- `(*Int64).AndAcqRel`. -/
def Int64.AndAcqRel (a : Int64) (mask : Int) (fuel : Nat) : Option (Int × Int64) :=
  (arch.AndInt64AcqRel a.v mask fuel).map fun r => (r.1, { v := r.2 })

/-- `(*Int64).OrAcqRel`. -/
def Int64.OrAcqRel (a : Int64) (mask : Int) (fuel : Nat) : Option (Int × Int64) :=
  (arch.OrInt64AcqRel a.v mask fuel).map fun r => (r.1, { v := r.2 })

/-- `(*Int64).XorAcqRel`. -/
def Int64.XorAcqRel (a : Int64) (mask : Int) (fuel : Nat) : Option (Int × Int64) :=
  (arch.XorInt64AcqRel a.v mask fuel).map fun r => (r.1, { v := r.2 })

/-- `(*Uint64).LoadRelaxed`. -/
def Uint64.LoadRelaxed (a : Uint64) : Nat :=
  arch.LoadUint64Relaxed a.v

/-- `(*Uint64).StoreRelaxed`. -/
def Uint64.StoreRelaxed (a : Uint64) (val : Nat) : Uint64 :=
  { v := arch.StoreUint64Relaxed a.v val }

/-- `(*Uint64).SwapAcqRel`. -/
def Uint64.SwapAcqRel (a : Uint64) (new : Nat) : Nat × Uint64 :=
  let r := arch.SwapUint64AcqRel a.v new
  (r.1, { v := r.2 })

/-- `(*Uint64).CompareAndSwapAcqRel`. -/
def Uint64.CompareAndSwapAcqRel (a : Uint64) (old new : Nat) : Bool × Uint64 :=
  let r := arch.CasUint64AcqRel a.v old new
  (r.1, { v := r.2 })

/-- `(*Uint64).CompareExchangeAcqRel`. -/
def Uint64.CompareExchangeAcqRel (a : Uint64) (old new : Nat) (fuel : Nat) :
    Option (Nat × Uint64) :=
  (arch.CaxUint64AcqRel a.v old new fuel).map fun r => (r.1, { v := r.2 })

/-- `(*Uint64).AddAcqRel`. -/
def Uint64.AddAcqRel (a : Uint64) (delta : Nat) : Nat × Uint64 :=
  let r := arch.AddUint64AcqRel a.v delta
  (r.1, { v := r.2 })

/-- `(*Uint64).SubAcqRel`. -/
def Uint64.SubAcqRel (a : Uint64) (delta : Nat) : Nat × Uint64 :=
  let r := arch.AddUint64AcqRel a.v (notU64 (subU64 delta 1))
  (r.1, { v := r.2 })

/-- `(*Uint64).AndAcqRel`. -/
def Uint64.AndAcqRel (a : Uint64) (mask : Nat) (fuel : Nat) : Option (Nat × Uint64) :=
  (arch.AndUint64AcqRel a.v mask fuel).map fun r => (r.1, { v := r.2 })

/-- `(*Uint64).OrAcqRel`. -/
def Uint64.OrAcqRel (a : Uint64) (mask : Nat) (fuel : Nat) : Option (Nat × Uint64) :=
  (arch.OrUint64AcqRel a.v mask fuel).map fun r => (r.1, { v := r.2 })

/-- `(*Uint64).XorAcqRel`. -/
def Uint64.XorAcqRel (a : Uint64) (mask : Nat) (fuel : Nat) : Option (Nat × Uint64) :=
  (arch.XorUint64AcqRel a.v mask fuel).map fun r => (r.1, { v := r.2 })

/-- `(*Uintptr).LoadRelaxed`. -/
def Uintptr.LoadRelaxed (a : Uintptr) : Nat :=
  arch.LoadUintptrRelaxed a.v

/-- `(*Uintptr).StoreRelaxed`. -/
def Uintptr.StoreRelaxed (a : Uintptr) (val : Nat) : Uintptr :=
  { v := arch.StoreUintptrRelaxed a.v val }

/-- `(*Uintptr).SwapAcqRel`. -/
def Uintptr.SwapAcqRel (a : Uintptr) (new : Nat) : Nat × Uintptr :=
  let r := arch.SwapUintptrAcqRel a.v new
  (r.1, { v := r.2 })

/-- `(*Uintptr).CompareAndSwapAcqRel`. -/
def Uintptr.CompareAndSwapAcqRel (a : Uintptr) (old new : Nat) : Bool × Uintptr :=
  let r := arch.CasUintptrAcqRel a.v old new
  (r.1, { v := r.2 })

/-- `(*Uintptr).CompareExchangeAcqRel`. -/
def Uintptr.CompareExchangeAcqRel (a : Uintptr) (old new : Nat) (fuel : Nat) :
    Option (Nat × Uintptr) :=
  (arch.CaxUintptrAcqRel a.v old new fuel).map fun r => (r.1, { v := r.2 })

/-- `(*Uintptr).AddAcqRel`. -/
def Uintptr.AddAcqRel (a : Uintptr) (delta : Nat) : Nat × Uintptr :=
  let r := arch.AddUintptrAcqRel a.v delta
  (r.1, { v := r.2 })

/-- `(*Uintptr).SubAcqRel`. -/
def Uintptr.SubAcqRel (a : Uintptr) (delta : Nat) : Nat × Uintptr :=
  let r := arch.AddUintptrAcqRel a.v (notU64 (subU64 delta 1))
  (r.1, { v := r.2 })

/-- `(*Uintptr).AndAcqRel`. -/
def Uintptr.AndAcqRel (a : Uintptr) (mask : Nat) (fuel : Nat) : Option (Nat × Uintptr) :=
  (arch.AndUintptrAcqRel a.v mask fuel).map fun r => (r.1, { v := r.2 })

/-- `(*Uintptr).OrAcqRel`. -/
def Uintptr.OrAcqRel (a : Uintptr) (mask : Nat) (fuel : Nat) : Option (Nat × Uintptr) :=
  (arch.OrUintptrAcqRel a.v mask fuel).map fun r => (r.1, { v := r.2 })

/-- `(*Uintptr).XorAcqRel`. -/
def Uintptr.XorAcqRel (a : Uintptr) (mask : Nat) (fuel : Nat) : Option (Nat × Uintptr) :=
  (arch.XorUintptrAcqRel a.v mask fuel).map fun r => (r.1, { v := r.2 })

/-- `(*Pointer).Load`. -/
def Pointer.Load (a : Pointer) : Nat :=
  arch.LoadPointerRelaxed a.v

/-- `(*Pointer).LoadRelaxed`. -/
def Pointer.LoadRelaxed (a : Pointer) : Nat :=
  arch.LoadPointerRelaxed a.v

/-- `(*Pointer).Store`. -/
def Pointer.Store (a : Pointer) (val : Nat) : Pointer :=
  { v := arch.StorePointerRelaxed a.v val }

/-- `(*Pointer).StoreRelaxed`. -/
def Pointer.StoreRelaxed (a : Pointer) (val : Nat) : Pointer :=
  { v := arch.StorePointerRelaxed a.v val }

/-- `(*Pointer).Swap`. -/
def Pointer.Swap (a : Pointer) (new : Nat) : Nat × Pointer :=
  let r := arch.SwapPointerAcqRel a.v new
  (r.1, { v := r.2 })

/-- `(*Pointer).SwapAcqRel`. -/
def Pointer.SwapAcqRel (a : Pointer) (new : Nat) : Nat × Pointer :=
  let r := arch.SwapPointerAcqRel a.v new
  (r.1, { v := r.2 })

/-- `(*Pointer).CompareAndSwap`. -/
def Pointer.CompareAndSwap (a : Pointer) (old new : Nat) : Bool × Pointer :=
  let r := arch.CasPointerAcqRel a.v old new
  (r.1, { v := r.2 })

/-- `(*Pointer).CompareAndSwapAcqRel`. -/
def Pointer.CompareAndSwapAcqRel (a : Pointer) (old new : Nat) : Bool × Pointer :=
  let r := arch.CasPointerAcqRel a.v old new
  (r.1, { v := r.2 })

/-- `(*Pointer).CompareExchange`. -/
def Pointer.CompareExchange (a : Pointer) (old new : Nat) (fuel : Nat) : Option (Nat × Pointer) :=
  (arch.CaxPointerAcqRel a.v old new fuel).map fun r => (r.1, { v := r.2 })

/-- `(*Pointer).CompareExchangeAcqRel`. -/
def Pointer.CompareExchangeAcqRel (a : Pointer) (old new : Nat) (fuel : Nat) :
    Option (Nat × Pointer) :=
  (arch.CaxPointerAcqRel a.v old new fuel).map fun r => (r.1, { v := r.2 })

/-- `(*Int128).LoadRelaxed`. -/
def Int128.LoadRelaxed (a : Int128) : Int × Int :=
  let (ulo, uhi) := arch.LoadUint128Relaxed a.v
  (toI64 ulo, toI64 uhi)

/-- `(*Int128).StoreRelaxed`. -/
def Int128.StoreRelaxed (a : Int128) (lo hi : Int) : Int128 :=
  { v := arch.StoreUint128Relaxed a.v (toU64 lo) (toU64 hi) }

/-- `(*Int128).SwapAcqRel`. -/
def Int128.SwapAcqRel (a : Int128) (newLo newHi : Int) : (Int × Int) × Int128 :=
  let r := arch.SwapUint128AcqRel a.v (toU64 newLo) (toU64 newHi)
  ((toI64 r.1.1, toI64 r.1.2), { v := r.2 })

/-- `(*Int128).CompareAndSwapAcqRel`. -/
def Int128.CompareAndSwapAcqRel (a : Int128) (oldLo oldHi newLo newHi : Int) : Bool × Int128 :=
  let r := arch.CasUint128AcqRel a.v (toU64 oldLo) (toU64 oldHi) (toU64 newLo) (toU64 newHi)
  (r.1, { v := r.2 })

/-- `(*Int128).CompareExchange`. -/
def Int128.CompareExchange (a : Int128) (oldLo oldHi newLo newHi : Int) : (Int × Int) × Int128 :=
  let r := arch.CaxUint128AcqRel a.v (toU64 oldLo) (toU64 oldHi) (toU64 newLo) (toU64 newHi)
  ((toI64 r.1.1, toI64 r.1.2), { v := r.2 })

/-- `(*Int128).CompareExchangeAcqRel`. -/
def Int128.CompareExchangeAcqRel (a : Int128) (oldLo oldHi newLo newHi : Int) :
    (Int × Int) × Int128 :=
  let r := arch.CaxUint128AcqRel a.v (toU64 oldLo) (toU64 oldHi) (toU64 newLo) (toU64 newHi)
  ((toI64 r.1.1, toI64 r.1.2), { v := r.2 })

/-- `(*Uint128).LoadRelaxed`. -/
def Uint128.LoadRelaxed (a : Uint128) : Nat × Nat :=
  arch.LoadUint128Relaxed a.v

/-- `(*Uint128).StoreRelaxed`. -/
def Uint128.StoreRelaxed (a : Uint128) (lo hi : Nat) : Uint128 :=
  { v := arch.StoreUint128Relaxed a.v lo hi }

/-- `(*Uint128).SwapAcqRel`. -/
def Uint128.SwapAcqRel (a : Uint128) (newLo newHi : Nat) : (Nat × Nat) × Uint128 :=
  let r := arch.SwapUint128AcqRel a.v newLo newHi
  (r.1, { v := r.2 })

/-- `(*Uint128).CompareAndSwapAcqRel`. -/
def Uint128.CompareAndSwapAcqRel (a : Uint128) (oldLo oldHi newLo newHi : Nat) : Bool × Uint128 :=
  let r := arch.CasUint128AcqRel a.v oldLo oldHi newLo newHi
  (r.1, { v := r.2 })

/-- `(*Uint128).CompareExchange`. -/
def Uint128.CompareExchange (a : Uint128) (oldLo oldHi newLo newHi : Nat) : (Nat × Nat) × Uint128 :=
  let r := arch.CaxUint128AcqRel a.v oldLo oldHi newLo newHi
  (r.1, { v := r.2 })

/-- `(*Uint128).CompareExchangeAcqRel`. -/
def Uint128.CompareExchangeAcqRel (a : Uint128) (oldLo oldHi newLo newHi : Nat) :
    (Nat × Nat) × Uint128 :=
  let r := arch.CaxUint128AcqRel a.v oldLo oldHi newLo newHi
  (r.1, { v := r.2 })

/-- `(*Int128).AddRelaxed`: the compare-and-swap retry loop, `fuel` iterations at most. -/
def Int128.AddRelaxed (a : Int128) (deltaLo deltaHi : Int) : Nat → Option ((Int × Int) × Int128)
  | 0 => none
  | fuel + 1 =>
    let (ulo, uhi) := arch.LoadUint128Relaxed a.v
    let newLo := addU64 ulo (toU64 deltaLo)
    let newHi := addU64 uhi (toU64 deltaHi)
    let newHi := if newLo < ulo then addU64 newHi 1 else newHi
    let r := arch.CasUint128Relaxed a.v ulo uhi newLo newHi
    if r.1 then some ((toI64 newLo, toI64 newHi), { v := r.2 })
    else Int128.AddRelaxed { v := r.2 } deltaLo deltaHi fuel

/-- `(*Int128).SubRelaxed`: the compare-and-swap retry loop, `fuel` iterations at most. -/
def Int128.SubRelaxed (a : Int128) (deltaLo deltaHi : Int) : Nat → Option ((Int × Int) × Int128)
  | 0 => none
  | fuel + 1 =>
    let (ulo, uhi) := arch.LoadUint128Relaxed a.v
    let newLo := subU64 ulo (toU64 deltaLo)
    let newHi := subU64 uhi (toU64 deltaHi)
    let newHi := if newLo > ulo then subU64 newHi 1 else newHi
    let r := arch.CasUint128Relaxed a.v ulo uhi newLo newHi
    if r.1 then some ((toI64 newLo, toI64 newHi), { v := r.2 })
    else Int128.SubRelaxed { v := r.2 } deltaLo deltaHi fuel

/-- `(*Int128).Inc`. -/
def Int128.Inc (a : Int128) (fuel : Nat) : Option ((Int × Int) × Int128) :=
  a.Add 1 0 fuel

/-- `(*Int128).IncRelaxed`. -/
def Int128.IncRelaxed (a : Int128) (fuel : Nat) : Option ((Int × Int) × Int128) :=
  a.AddRelaxed 1 0 fuel

/-- `(*Int128).Dec`. -/
def Int128.Dec (a : Int128) (fuel : Nat) : Option ((Int × Int) × Int128) :=
  a.Sub 1 0 fuel

/-- `(*Int128).DecRelaxed`. -/
def Int128.DecRelaxed (a : Int128) (fuel : Nat) : Option ((Int × Int) × Int128) :=
  a.SubRelaxed 1 0 fuel

/-! ## The calls to `internal/arch` that a method makes

The four ordering variants of a primitive have one sequential meaning, so which of them a
method calls is not visible in its result.  Every primitive used by the wrappers is
given a second time here, returning what it returns above and, next to it, the record of
the call: its name and the arguments that follow the address.  A method is then written
a second time with these primitives in the place of the plain ones, statement by
statement as in its Go body, and returns the calls it made, in order, next to its
result. -/

/-- `LoadInt32Relaxed`, and the record of the call. -/
def arch.LoadInt32Relaxed.traced (addr : Int) : Int × List Call :=
  (arch.LoadInt32Relaxed addr, [⟨⟨.Load, .Int32, .Relaxed⟩, []⟩])

/-- `LoadInt32Acquire`, and the record of the call. -/
def arch.LoadInt32Acquire.traced (addr : Int) : Int × List Call :=
  (arch.LoadInt32Acquire addr, [⟨⟨.Load, .Int32, .Acquire⟩, []⟩])

/-- `StoreInt32Relaxed`, and the record of the call. -/
def arch.StoreInt32Relaxed.traced (addr : Int) (val : Int) : Int × List Call :=
  (arch.StoreInt32Relaxed addr val, [⟨⟨.Store, .Int32, .Relaxed⟩, [val]⟩])

/-- `StoreInt32Release`, and the record of the call. -/
def arch.StoreInt32Release.traced (addr : Int) (val : Int) : Int × List Call :=
  (arch.StoreInt32Release addr val, [⟨⟨.Store, .Int32, .Release⟩, [val]⟩])

/-- `SwapInt32Relaxed`, and the record of the call. -/
def arch.SwapInt32Relaxed.traced (addr : Int) (new : Int) : (Int × Int) × List Call :=
  (arch.SwapInt32Relaxed addr new, [⟨⟨.Swap, .Int32, .Relaxed⟩, [new]⟩])

/-- `SwapInt32Acquire`, and the record of the call. -/
def arch.SwapInt32Acquire.traced (addr : Int) (new : Int) : (Int × Int) × List Call :=
  (arch.SwapInt32Acquire addr new, [⟨⟨.Swap, .Int32, .Acquire⟩, [new]⟩])

/-- `SwapInt32Release`, and the record of the call. -/
def arch.SwapInt32Release.traced (addr : Int) (new : Int) : (Int × Int) × List Call :=
  (arch.SwapInt32Release addr new, [⟨⟨.Swap, .Int32, .Release⟩, [new]⟩])

/-- `SwapInt32AcqRel`, and the record of the call. -/
def arch.SwapInt32AcqRel.traced (addr : Int) (new : Int) : (Int × Int) × List Call :=
  (arch.SwapInt32AcqRel addr new, [⟨⟨.Swap, .Int32, .AcqRel⟩, [new]⟩])

/-- `CasInt32Relaxed`, and the record of the call. -/
def arch.CasInt32Relaxed.traced (addr : Int) (old new : Int) : (Bool × Int) × List Call :=
  (arch.CasInt32Relaxed addr old new, [⟨⟨.Cas, .Int32, .Relaxed⟩, [old, new]⟩])

/-- `CasInt32Acquire`, and the record of the call. -/
def arch.CasInt32Acquire.traced (addr : Int) (old new : Int) : (Bool × Int) × List Call :=
  (arch.CasInt32Acquire addr old new, [⟨⟨.Cas, .Int32, .Acquire⟩, [old, new]⟩])

/-- `CasInt32Release`, and the record of the call. -/
def arch.CasInt32Release.traced (addr : Int) (old new : Int) : (Bool × Int) × List Call :=
  (arch.CasInt32Release addr old new, [⟨⟨.Cas, .Int32, .Release⟩, [old, new]⟩])

/-- `CasInt32AcqRel`, and the record of the call. -/
def arch.CasInt32AcqRel.traced (addr : Int) (old new : Int) : (Bool × Int) × List Call :=
  (arch.CasInt32AcqRel addr old new, [⟨⟨.Cas, .Int32, .AcqRel⟩, [old, new]⟩])

/-- `CaxInt32Relaxed`, and the record of the call. -/
def arch.CaxInt32Relaxed.traced (addr : Int) (old new : Int) (fuel : Nat) :
    Option (Int × Int) × List Call :=
  (arch.CaxInt32Relaxed addr old new fuel, [⟨⟨.Cax, .Int32, .Relaxed⟩, [old, new]⟩])

/-- `CaxInt32Acquire`, and the record of the call. -/
def arch.CaxInt32Acquire.traced (addr : Int) (old new : Int) (fuel : Nat) :
    Option (Int × Int) × List Call :=
  (arch.CaxInt32Acquire addr old new fuel, [⟨⟨.Cax, .Int32, .Acquire⟩, [old, new]⟩])

/-- `CaxInt32Release`, and the record of the call. -/
def arch.CaxInt32Release.traced (addr : Int) (old new : Int) (fuel : Nat) :
    Option (Int × Int) × List Call :=
  (arch.CaxInt32Release addr old new fuel, [⟨⟨.Cax, .Int32, .Release⟩, [old, new]⟩])

/-- `CaxInt32AcqRel`, and the record of the call. -/
def arch.CaxInt32AcqRel.traced (addr : Int) (old new : Int) (fuel : Nat) :
    Option (Int × Int) × List Call :=
  (arch.CaxInt32AcqRel addr old new fuel, [⟨⟨.Cax, .Int32, .AcqRel⟩, [old, new]⟩])

/-- `AddInt32Relaxed`, and the record of the call. -/
def arch.AddInt32Relaxed.traced (addr : Int) (delta : Int) : (Int × Int) × List Call :=
  (arch.AddInt32Relaxed addr delta, [⟨⟨.Add, .Int32, .Relaxed⟩, [delta]⟩])

/-- `AddInt32Acquire`, and the record of the call. -/
def arch.AddInt32Acquire.traced (addr : Int) (delta : Int) : (Int × Int) × List Call :=
  (arch.AddInt32Acquire addr delta, [⟨⟨.Add, .Int32, .Acquire⟩, [delta]⟩])

/-- `AddInt32Release`, and the record of the call. -/
def arch.AddInt32Release.traced (addr : Int) (delta : Int) : (Int × Int) × List Call :=
  (arch.AddInt32Release addr delta, [⟨⟨.Add, .Int32, .Release⟩, [delta]⟩])

/-- `AddInt32AcqRel`, and the record of the call. -/
def arch.AddInt32AcqRel.traced (addr : Int) (delta : Int) : (Int × Int) × List Call :=
  (arch.AddInt32AcqRel addr delta, [⟨⟨.Add, .Int32, .AcqRel⟩, [delta]⟩])

/-- `AndInt32Relaxed`, and the record of the call. -/
def arch.AndInt32Relaxed.traced (addr : Int) (mask : Int) (fuel : Nat) :
    Option (Int × Int) × List Call :=
  (arch.AndInt32Relaxed addr mask fuel, [⟨⟨.And, .Int32, .Relaxed⟩, [mask]⟩])

/-- `AndInt32Acquire`, and the record of the call. -/
def arch.AndInt32Acquire.traced (addr : Int) (mask : Int) (fuel : Nat) :
    Option (Int × Int) × List Call :=
  (arch.AndInt32Acquire addr mask fuel, [⟨⟨.And, .Int32, .Acquire⟩, [mask]⟩])

/-- `AndInt32Release`, and the record of the call. -/
def arch.AndInt32Release.traced (addr : Int) (mask : Int) (fuel : Nat) :
    Option (Int × Int) × List Call :=
  (arch.AndInt32Release addr mask fuel, [⟨⟨.And, .Int32, .Release⟩, [mask]⟩])

/-- `AndInt32AcqRel`, and the record of the call. -/
def arch.AndInt32AcqRel.traced (addr : Int) (mask : Int) (fuel : Nat) :
    Option (Int × Int) × List Call :=
  (arch.AndInt32AcqRel addr mask fuel, [⟨⟨.And, .Int32, .AcqRel⟩, [mask]⟩])

/-- `OrInt32Relaxed`, and the record of the call. -/
def arch.OrInt32Relaxed.traced (addr : Int) (mask : Int) (fuel : Nat) :
    Option (Int × Int) × List Call :=
  (arch.OrInt32Relaxed addr mask fuel, [⟨⟨.Or, .Int32, .Relaxed⟩, [mask]⟩])

/-- `OrInt32Acquire`, and the record of the call. -/
def arch.OrInt32Acquire.traced (addr : Int) (mask : Int) (fuel : Nat) :
    Option (Int × Int) × List Call :=
  (arch.OrInt32Acquire addr mask fuel, [⟨⟨.Or, .Int32, .Acquire⟩, [mask]⟩])

/-- `OrInt32Release`, and the record of the call. -/
def arch.OrInt32Release.traced (addr : Int) (mask : Int) (fuel : Nat) :
    Option (Int × Int) × List Call :=
  (arch.OrInt32Release addr mask fuel, [⟨⟨.Or, .Int32, .Release⟩, [mask]⟩])

/-- `OrInt32AcqRel`, and the record of the call. -/
def arch.OrInt32AcqRel.traced (addr : Int) (mask : Int) (fuel : Nat) :
    Option (Int × Int) × List Call :=
  (arch.OrInt32AcqRel addr mask fuel, [⟨⟨.Or, .Int32, .AcqRel⟩, [mask]⟩])

/-- `XorInt32Relaxed`, and the record of the call. -/
def arch.XorInt32Relaxed.traced (addr : Int) (mask : Int) (fuel : Nat) :
    Option (Int × Int) × List Call :=
  (arch.XorInt32Relaxed addr mask fuel, [⟨⟨.Xor, .Int32, .Relaxed⟩, [mask]⟩])

/-- `XorInt32Acquire`, and the record of the call. -/
def arch.XorInt32Acquire.traced (addr : Int) (mask : Int) (fuel : Nat) :
    Option (Int × Int) × List Call :=
  (arch.XorInt32Acquire addr mask fuel, [⟨⟨.Xor, .Int32, .Acquire⟩, [mask]⟩])

/-- `XorInt32Release`, and the record of the call. -/
def arch.XorInt32Release.traced (addr : Int) (mask : Int) (fuel : Nat) :
    Option (Int × Int) × List Call :=
  (arch.XorInt32Release addr mask fuel, [⟨⟨.Xor, .Int32, .Release⟩, [mask]⟩])

/-- `XorInt32AcqRel`, and the record of the call. -/
def arch.XorInt32AcqRel.traced (addr : Int) (mask : Int) (fuel : Nat) :
    Option (Int × Int) × List Call :=
  (arch.XorInt32AcqRel addr mask fuel, [⟨⟨.Xor, .Int32, .AcqRel⟩, [mask]⟩])

/-- `LoadUint32Relaxed`, and the record of the call. -/
def arch.LoadUint32Relaxed.traced (addr : Nat) : Nat × List Call :=
  (arch.LoadUint32Relaxed addr, [⟨⟨.Load, .Uint32, .Relaxed⟩, []⟩])

/-- `StoreUint32Relaxed`, and the record of the call. -/
def arch.StoreUint32Relaxed.traced (addr : Nat) (val : Nat) : Nat × List Call :=
  (arch.StoreUint32Relaxed addr val, [⟨⟨.Store, .Uint32, .Relaxed⟩, [(val : Int)]⟩])

/-- `SwapUint32AcqRel`, and the record of the call. -/
def arch.SwapUint32AcqRel.traced (addr : Nat) (new : Nat) : (Nat × Nat) × List Call :=
  (arch.SwapUint32AcqRel addr new, [⟨⟨.Swap, .Uint32, .AcqRel⟩, [(new : Int)]⟩])

/-- `CasUint32AcqRel`, and the record of the call. -/
def arch.CasUint32AcqRel.traced (addr : Nat) (old new : Nat) : (Bool × Nat) × List Call :=
  (arch.CasUint32AcqRel addr old new, [⟨⟨.Cas, .Uint32, .AcqRel⟩, [(old : Int), (new : Int)]⟩])

/-- `CaxUint32AcqRel`, and the record of the call. -/
def arch.CaxUint32AcqRel.traced (addr : Nat) (old new : Nat) (fuel : Nat) :
    Option (Nat × Nat) × List Call :=
  (arch.CaxUint32AcqRel addr old new fuel, [⟨⟨.Cax, .Uint32, .AcqRel⟩, [(old : Int), (new : Int)]⟩])

/-- `AddUint32AcqRel`, and the record of the call. -/
def arch.AddUint32AcqRel.traced (addr : Nat) (delta : Nat) : (Nat × Nat) × List Call :=
  (arch.AddUint32AcqRel addr delta, [⟨⟨.Add, .Uint32, .AcqRel⟩, [(delta : Int)]⟩])

/-- `AndUint32AcqRel`, and the record of the call. -/
def arch.AndUint32AcqRel.traced (addr : Nat) (mask : Nat) (fuel : Nat) :
    Option (Nat × Nat) × List Call :=
  (arch.AndUint32AcqRel addr mask fuel, [⟨⟨.And, .Uint32, .AcqRel⟩, [(mask : Int)]⟩])

/-- `OrUint32AcqRel`, and the record of the call. -/
def arch.OrUint32AcqRel.traced (addr : Nat) (mask : Nat) (fuel : Nat) :
    Option (Nat × Nat) × List Call :=
  (arch.OrUint32AcqRel addr mask fuel, [⟨⟨.Or, .Uint32, .AcqRel⟩, [(mask : Int)]⟩])

/-- `XorUint32AcqRel`, and the record of the call. -/
def arch.XorUint32AcqRel.traced (addr : Nat) (mask : Nat) (fuel : Nat) :
    Option (Nat × Nat) × List Call :=
  (arch.XorUint32AcqRel addr mask fuel, [⟨⟨.Xor, .Uint32, .AcqRel⟩, [(mask : Int)]⟩])

/-- `LoadInt64Relaxed`, and the record of the call. -/
def arch.LoadInt64Relaxed.traced (addr : Int) : Int × List Call :=
  (arch.LoadInt64Relaxed addr, [⟨⟨.Load, .Int64, .Relaxed⟩, []⟩])

/-- `StoreInt64Relaxed`, and the record of the call. -/
def arch.StoreInt64Relaxed.traced (addr : Int) (val : Int) : Int × List Call :=
  (arch.StoreInt64Relaxed addr val, [⟨⟨.Store, .Int64, .Relaxed⟩, [val]⟩])

/-- `SwapInt64AcqRel`, and the record of the call. -/
def arch.SwapInt64AcqRel.traced (addr : Int) (new : Int) : (Int × Int) × List Call :=
  (arch.SwapInt64AcqRel addr new, [⟨⟨.Swap, .Int64, .AcqRel⟩, [new]⟩])

/-- `CasInt64AcqRel`, and the record of the call. -/
def arch.CasInt64AcqRel.traced (addr : Int) (old new : Int) : (Bool × Int) × List Call :=
  (arch.CasInt64AcqRel addr old new, [⟨⟨.Cas, .Int64, .AcqRel⟩, [old, new]⟩])

/-- `CaxInt64AcqRel`, and the record of the call. -/
def arch.CaxInt64AcqRel.traced (addr : Int) (old new : Int) (fuel : Nat) :
    Option (Int × Int) × List Call :=
  (arch.CaxInt64AcqRel addr old new fuel, [⟨⟨.Cax, .Int64, .AcqRel⟩, [old, new]⟩])

/-- `AddInt64AcqRel`, and the record of the call. -/
def arch.AddInt64AcqRel.traced (addr : Int) (delta : Int) : (Int × Int) × List Call :=
  (arch.AddInt64AcqRel addr delta, [⟨⟨.Add, .Int64, .AcqRel⟩, [delta]⟩])

/-- `AndInt64AcqRel`, and the record of the call. -/
def arch.AndInt64AcqRel.traced (addr : Int) (mask : Int) (fuel : Nat) :
    Option (Int × Int) × List Call :=
  (arch.AndInt64AcqRel addr mask fuel, [⟨⟨.And, .Int64, .AcqRel⟩, [mask]⟩])

/-- `OrInt64AcqRel`, and the record of the call. -/
def arch.OrInt64AcqRel.traced (addr : Int) (mask : Int) (fuel : Nat) :
    Option (Int × Int) × List Call :=
  (arch.OrInt64AcqRel addr mask fuel, [⟨⟨.Or, .Int64, .AcqRel⟩, [mask]⟩])

/-- `XorInt64AcqRel`, and the record of the call. -/
def arch.XorInt64AcqRel.traced (addr : Int) (mask : Int) (fuel : Nat) :
    Option (Int × Int) × List Call :=
  (arch.XorInt64AcqRel addr mask fuel, [⟨⟨.Xor, .Int64, .AcqRel⟩, [mask]⟩])

/-- `LoadUint64Relaxed`, and the record of the call. -/
def arch.LoadUint64Relaxed.traced (addr : Nat) : Nat × List Call :=
  (arch.LoadUint64Relaxed addr, [⟨⟨.Load, .Uint64, .Relaxed⟩, []⟩])

/-- `StoreUint64Relaxed`, and the record of the call. -/
def arch.StoreUint64Relaxed.traced (addr : Nat) (val : Nat) : Nat × List Call :=
  (arch.StoreUint64Relaxed addr val, [⟨⟨.Store, .Uint64, .Relaxed⟩, [(val : Int)]⟩])

/-- `SwapUint64AcqRel`, and the record of the call. -/
def arch.SwapUint64AcqRel.traced (addr : Nat) (new : Nat) : (Nat × Nat) × List Call :=
  (arch.SwapUint64AcqRel addr new, [⟨⟨.Swap, .Uint64, .AcqRel⟩, [(new : Int)]⟩])

/-- `CasUint64AcqRel`, and the record of the call. -/
def arch.CasUint64AcqRel.traced (addr : Nat) (old new : Nat) : (Bool × Nat) × List Call :=
  (arch.CasUint64AcqRel addr old new, [⟨⟨.Cas, .Uint64, .AcqRel⟩, [(old : Int), (new : Int)]⟩])

/-- `CaxUint64AcqRel`, and the record of the call. -/
def arch.CaxUint64AcqRel.traced (addr : Nat) (old new : Nat) (fuel : Nat) :
    Option (Nat × Nat) × List Call :=
  (arch.CaxUint64AcqRel addr old new fuel, [⟨⟨.Cax, .Uint64, .AcqRel⟩, [(old : Int), (new : Int)]⟩])

/-- `AddUint64AcqRel`, and the record of the call. -/
def arch.AddUint64AcqRel.traced (addr : Nat) (delta : Nat) : (Nat × Nat) × List Call :=
  (arch.AddUint64AcqRel addr delta, [⟨⟨.Add, .Uint64, .AcqRel⟩, [(delta : Int)]⟩])

/-- `AndUint64AcqRel`, and the record of the call. -/
def arch.AndUint64AcqRel.traced (addr : Nat) (mask : Nat) (fuel : Nat) :
    Option (Nat × Nat) × List Call :=
  (arch.AndUint64AcqRel addr mask fuel, [⟨⟨.And, .Uint64, .AcqRel⟩, [(mask : Int)]⟩])

/-- `OrUint64AcqRel`, and the record of the call. -/
def arch.OrUint64AcqRel.traced (addr : Nat) (mask : Nat) (fuel : Nat) :
    Option (Nat × Nat) × List Call :=
  (arch.OrUint64AcqRel addr mask fuel, [⟨⟨.Or, .Uint64, .AcqRel⟩, [(mask : Int)]⟩])

/-- `XorUint64AcqRel`, and the record of the call. -/
def arch.XorUint64AcqRel.traced (addr : Nat) (mask : Nat) (fuel : Nat) :
    Option (Nat × Nat) × List Call :=
  (arch.XorUint64AcqRel addr mask fuel, [⟨⟨.Xor, .Uint64, .AcqRel⟩, [(mask : Int)]⟩])

/-- `LoadUintptrRelaxed`, and the record of the call. -/
def arch.LoadUintptrRelaxed.traced (addr : Nat) : Nat × List Call :=
  (arch.LoadUintptrRelaxed addr, [⟨⟨.Load, .Uintptr, .Relaxed⟩, []⟩])

/-- `StoreUintptrRelaxed`, and the record of the call. -/
def arch.StoreUintptrRelaxed.traced (addr : Nat) (val : Nat) : Nat × List Call :=
  (arch.StoreUintptrRelaxed addr val, [⟨⟨.Store, .Uintptr, .Relaxed⟩, [(val : Int)]⟩])

/-- `SwapUintptrAcqRel`, and the record of the call. -/
def arch.SwapUintptrAcqRel.traced (addr : Nat) (new : Nat) : (Nat × Nat) × List Call :=
  (arch.SwapUintptrAcqRel addr new, [⟨⟨.Swap, .Uintptr, .AcqRel⟩, [(new : Int)]⟩])

/-- `CasUintptrAcqRel`, and the record of the call. -/
def arch.CasUintptrAcqRel.traced (addr : Nat) (old new : Nat) : (Bool × Nat) × List Call :=
  (arch.CasUintptrAcqRel addr old new, [⟨⟨.Cas, .Uintptr, .AcqRel⟩, [(old : Int), (new : Int)]⟩])

/-- `CaxUintptrAcqRel`, and the record of the call. -/
def arch.CaxUintptrAcqRel.traced (addr : Nat) (old new : Nat) (fuel : Nat) :
    Option (Nat × Nat) × List Call :=
  (arch.CaxUintptrAcqRel addr old new fuel,
    [⟨⟨.Cax, .Uintptr, .AcqRel⟩, [(old : Int), (new : Int)]⟩])

/-- `AddUintptrAcqRel`, and the record of the call. -/
def arch.AddUintptrAcqRel.traced (addr : Nat) (delta : Nat) : (Nat × Nat) × List Call :=
  (arch.AddUintptrAcqRel addr delta, [⟨⟨.Add, .Uintptr, .AcqRel⟩, [(delta : Int)]⟩])

/-- `AndUintptrAcqRel`, and the record of the call. -/
def arch.AndUintptrAcqRel.traced (addr : Nat) (mask : Nat) (fuel : Nat) :
    Option (Nat × Nat) × List Call :=
  (arch.AndUintptrAcqRel addr mask fuel, [⟨⟨.And, .Uintptr, .AcqRel⟩, [(mask : Int)]⟩])

/-- `OrUintptrAcqRel`, and the record of the call. -/
def arch.OrUintptrAcqRel.traced (addr : Nat) (mask : Nat) (fuel : Nat) :
    Option (Nat × Nat) × List Call :=
  (arch.OrUintptrAcqRel addr mask fuel, [⟨⟨.Or, .Uintptr, .AcqRel⟩, [(mask : Int)]⟩])

/-- `XorUintptrAcqRel`, and the record of the call. -/
def arch.XorUintptrAcqRel.traced (addr : Nat) (mask : Nat) (fuel : Nat) :
    Option (Nat × Nat) × List Call :=
  (arch.XorUintptrAcqRel addr mask fuel, [⟨⟨.Xor, .Uintptr, .AcqRel⟩, [(mask : Int)]⟩])

/-- `LoadPointerRelaxed`, and the record of the call. -/
def arch.LoadPointerRelaxed.traced (addr : Nat) : Nat × List Call :=
  (arch.LoadPointerRelaxed addr, [⟨⟨.Load, .Pointer, .Relaxed⟩, []⟩])

/-- `StorePointerRelaxed`, and the record of the call. -/
def arch.StorePointerRelaxed.traced (addr : Nat) (val : Nat) : Nat × List Call :=
  (arch.StorePointerRelaxed addr val, [⟨⟨.Store, .Pointer, .Relaxed⟩, [(val : Int)]⟩])

/-- `SwapPointerAcqRel`, and the record of the call. -/
def arch.SwapPointerAcqRel.traced (addr : Nat) (new : Nat) : (Nat × Nat) × List Call :=
  (arch.SwapPointerAcqRel addr new, [⟨⟨.Swap, .Pointer, .AcqRel⟩, [(new : Int)]⟩])

/-- `CasPointerAcqRel`, and the record of the call. -/
def arch.CasPointerAcqRel.traced (addr : Nat) (old new : Nat) : (Bool × Nat) × List Call :=
  (arch.CasPointerAcqRel addr old new, [⟨⟨.Cas, .Pointer, .AcqRel⟩, [(old : Int), (new : Int)]⟩])

/-- `CaxPointerAcqRel`, and the record of the call. -/
def arch.CaxPointerAcqRel.traced (addr : Nat) (old new : Nat) (fuel : Nat) :
    Option (Nat × Nat) × List Call :=
  (arch.CaxPointerAcqRel addr old new fuel,
    [⟨⟨.Cax, .Pointer, .AcqRel⟩, [(old : Int), (new : Int)]⟩])

/-- `LoadUint128Relaxed`, and the record of the call. -/
def arch.LoadUint128Relaxed.traced (addr : Bytes16) : (Nat × Nat) × List Call :=
  (arch.LoadUint128Relaxed addr, [⟨⟨.Load, .Uint128, .Relaxed⟩, []⟩])

/-- `StoreUint128Relaxed`, and the record of the call. -/
def arch.StoreUint128Relaxed.traced (addr : Bytes16) (lo hi : Nat) : Bytes16 × List Call :=
  (arch.StoreUint128Relaxed addr lo hi, [⟨⟨.Store, .Uint128, .Relaxed⟩, [(lo : Int), (hi : Int)]⟩])

/-- `SwapUint128AcqRel`, and the record of the call. -/
def arch.SwapUint128AcqRel.traced (addr : Bytes16) (newLo newHi : Nat) :
    ((Nat × Nat) × Bytes16) × List Call :=
  (arch.SwapUint128AcqRel addr newLo newHi,
    [⟨⟨.Swap, .Uint128, .AcqRel⟩, [(newLo : Int), (newHi : Int)]⟩])

/-- `CasUint128Relaxed`, and the record of the call. -/
def arch.CasUint128Relaxed.traced (addr : Bytes16) (oldLo oldHi newLo newHi : Nat) :
    (Bool × Bytes16) × List Call :=
  (arch.CasUint128Relaxed addr oldLo oldHi newLo newHi,
    [⟨⟨.Cas, .Uint128, .Relaxed⟩, [(oldLo : Int), (oldHi : Int), (newLo : Int), (newHi : Int)]⟩])

/-- `CasUint128AcqRel`, and the record of the call. -/
def arch.CasUint128AcqRel.traced (addr : Bytes16) (oldLo oldHi newLo newHi : Nat) :
    (Bool × Bytes16) × List Call :=
  (arch.CasUint128AcqRel addr oldLo oldHi newLo newHi,
    [⟨⟨.Cas, .Uint128, .AcqRel⟩, [(oldLo : Int), (oldHi : Int), (newLo : Int), (newHi : Int)]⟩])

/-- `CaxUint128AcqRel`, and the record of the call. -/
def arch.CaxUint128AcqRel.traced (addr : Bytes16) (oldLo oldHi newLo newHi : Nat) :
    ((Nat × Nat) × Bytes16) × List Call :=
  (arch.CaxUint128AcqRel addr oldLo oldHi newLo newHi,
    [⟨⟨.Cax, .Uint128, .AcqRel⟩, [(oldLo : Int), (oldHi : Int), (newLo : Int), (newHi : Int)]⟩])

/-! ### The methods that make one call -/

/-- `(*Int32).Load` with its calls: `arch.LoadInt32Relaxed(&a.v)`. -/
def Int32.Load.traced (a : Int32) : Int × List Call :=
  arch.LoadInt32Relaxed.traced a.v

/-- `(*Int32).LoadRelaxed` with its calls: `arch.LoadInt32Relaxed(&a.v)`. -/
def Int32.LoadRelaxed.traced (a : Int32) : Int × List Call :=
  arch.LoadInt32Relaxed.traced a.v

/-- `(*Int32).Store` with its calls: `arch.StoreInt32Relaxed(&a.v, val)`. -/
def Int32.Store.traced (a : Int32) (val : Int) : Int32 × List Call :=
  let r := arch.StoreInt32Relaxed.traced a.v val
  ({ v := r.1 }, r.2)

/-- `(*Int32).StoreRelaxed` with its calls: `arch.StoreInt32Relaxed(&a.v, val)`. -/
def Int32.StoreRelaxed.traced (a : Int32) (val : Int) : Int32 × List Call :=
  let r := arch.StoreInt32Relaxed.traced a.v val
  ({ v := r.1 }, r.2)

/-- `(*Int32).Swap` with its calls: `arch.SwapInt32AcqRel(&a.v, new)`. -/
def Int32.Swap.traced (a : Int32) (new : Int) : (Int × Int32) × List Call :=
  let r := arch.SwapInt32AcqRel.traced a.v new
  ((r.1.1, { v := r.1.2 }), r.2)

/-- `(*Int32).SwapAcqRel` with its calls: `arch.SwapInt32AcqRel(&a.v, new)`. -/
def Int32.SwapAcqRel.traced (a : Int32) (new : Int) : (Int × Int32) × List Call :=
  let r := arch.SwapInt32AcqRel.traced a.v new
  ((r.1.1, { v := r.1.2 }), r.2)

/-- `(*Int32).CompareAndSwap` with its calls: `arch.CasInt32AcqRel(&a.v, old, new)`. -/
def Int32.CompareAndSwap.traced (a : Int32) (old new : Int) : (Bool × Int32) × List Call :=
  let r := arch.CasInt32AcqRel.traced a.v old new
  ((r.1.1, { v := r.1.2 }), r.2)

/-- `(*Int32).CompareAndSwapAcqRel` with its calls: `arch.CasInt32AcqRel(&a.v, old, new)`. -/
def Int32.CompareAndSwapAcqRel.traced (a : Int32) (old new : Int) : (Bool × Int32) × List Call :=
  let r := arch.CasInt32AcqRel.traced a.v old new
  ((r.1.1, { v := r.1.2 }), r.2)

/-- `(*Int32).CompareExchange` with its calls: `arch.CaxInt32AcqRel(&a.v, old, new)`. -/
def Int32.CompareExchange.traced (a : Int32) (old new : Int) (fuel : Nat) :
    Option (Int × Int32) × List Call :=
  let r := arch.CaxInt32AcqRel.traced a.v old new fuel
  (r.1.map fun x => (x.1, { v := x.2 }), r.2)

/-- `(*Int32).CompareExchangeAcqRel` with its calls: `arch.CaxInt32AcqRel(&a.v, old, new)`. -/
def Int32.CompareExchangeAcqRel.traced (a : Int32) (old new : Int) (fuel : Nat) :
    Option (Int × Int32) × List Call :=
  let r := arch.CaxInt32AcqRel.traced a.v old new fuel
  (r.1.map fun x => (x.1, { v := x.2 }), r.2)

/-- `(*Int32).Add` with its calls: `arch.AddInt32AcqRel(&a.v, delta)`. -/
def Int32.Add.traced (a : Int32) (delta : Int) : (Int × Int32) × List Call :=
  let r := arch.AddInt32AcqRel.traced a.v delta
  ((r.1.1, { v := r.1.2 }), r.2)

/-- `(*Int32).AddAcqRel` with its calls: `arch.AddInt32AcqRel(&a.v, delta)`. -/
def Int32.AddAcqRel.traced (a : Int32) (delta : Int) : (Int × Int32) × List Call :=
  let r := arch.AddInt32AcqRel.traced a.v delta
  ((r.1.1, { v := r.1.2 }), r.2)

/-- `(*Int32).Sub` with its calls: `arch.AddInt32AcqRel(&a.v, -delta)`. -/
def Int32.Sub.traced (a : Int32) (delta : Int) : (Int × Int32) × List Call :=
  let r := arch.AddInt32AcqRel.traced a.v (negI32 delta)
  ((r.1.1, { v := r.1.2 }), r.2)

/-- `(*Int32).SubAcqRel` with its calls: `arch.AddInt32AcqRel(&a.v, -delta)`. -/
def Int32.SubAcqRel.traced (a : Int32) (delta : Int) : (Int × Int32) × List Call :=
  let r := arch.AddInt32AcqRel.traced a.v (negI32 delta)
  ((r.1.1, { v := r.1.2 }), r.2)

/-- `(*Int32).And` with its calls: `arch.AndInt32AcqRel(&a.v, mask)`. -/
def Int32.And.traced (a : Int32) (mask : Int) (fuel : Nat) : Option (Int × Int32) × List Call :=
  let r := arch.AndInt32AcqRel.traced a.v mask fuel
  (r.1.map fun x => (x.1, { v := x.2 }), r.2)

/-- `(*Int32).AndAcqRel` with its calls: `arch.AndInt32AcqRel(&a.v, mask)`. -/
def Int32.AndAcqRel.traced (a : Int32) (mask : Int) (fuel : Nat) :
    Option (Int × Int32) × List Call :=
  let r := arch.AndInt32AcqRel.traced a.v mask fuel
  (r.1.map fun x => (x.1, { v := x.2 }), r.2)

/-- `(*Int32).Or` with its calls: `arch.OrInt32AcqRel(&a.v, mask)`. -/
def Int32.Or.traced (a : Int32) (mask : Int) (fuel : Nat) : Option (Int × Int32) × List Call :=
  let r := arch.OrInt32AcqRel.traced a.v mask fuel
  (r.1.map fun x => (x.1, { v := x.2 }), r.2)

/-- `(*Int32).OrAcqRel` with its calls: `arch.OrInt32AcqRel(&a.v, mask)`. -/
def Int32.OrAcqRel.traced (a : Int32) (mask : Int) (fuel : Nat) :
    Option (Int × Int32) × List Call :=
  let r := arch.OrInt32AcqRel.traced a.v mask fuel
  (r.1.map fun x => (x.1, { v := x.2 }), r.2)

/-- `(*Int32).Xor` with its calls: `arch.XorInt32AcqRel(&a.v, mask)`. -/
def Int32.Xor.traced (a : Int32) (mask : Int) (fuel : Nat) : Option (Int × Int32) × List Call :=
  let r := arch.XorInt32AcqRel.traced a.v mask fuel
  (r.1.map fun x => (x.1, { v := x.2 }), r.2)

/-- `(*Int32).XorAcqRel` with its calls: `arch.XorInt32AcqRel(&a.v, mask)`. -/
def Int32.XorAcqRel.traced (a : Int32) (mask : Int) (fuel : Nat) :
    Option (Int × Int32) × List Call :=
  let r := arch.XorInt32AcqRel.traced a.v mask fuel
  (r.1.map fun x => (x.1, { v := x.2 }), r.2)

/-- `(*Uint32).Load` with its calls: `arch.LoadUint32Relaxed(&a.v)`. -/
def Uint32.Load.traced (a : Uint32) : Nat × List Call :=
  arch.LoadUint32Relaxed.traced a.v

/-- `(*Uint32).LoadRelaxed` with its calls: `arch.LoadUint32Relaxed(&a.v)`. -/
def Uint32.LoadRelaxed.traced (a : Uint32) : Nat × List Call :=
  arch.LoadUint32Relaxed.traced a.v

/-- `(*Uint32).Store` with its calls: `arch.StoreUint32Relaxed(&a.v, val)`. -/
def Uint32.Store.traced (a : Uint32) (val : Nat) : Uint32 × List Call :=
  let r := arch.StoreUint32Relaxed.traced a.v val
  ({ v := r.1 }, r.2)

/-- `(*Uint32).StoreRelaxed` with its calls: `arch.StoreUint32Relaxed(&a.v, val)`. -/
def Uint32.StoreRelaxed.traced (a : Uint32) (val : Nat) : Uint32 × List Call :=
  let r := arch.StoreUint32Relaxed.traced a.v val
  ({ v := r.1 }, r.2)

/-- `(*Uint32).Swap` with its calls: `arch.SwapUint32AcqRel(&a.v, new)`. -/
def Uint32.Swap.traced (a : Uint32) (new : Nat) : (Nat × Uint32) × List Call :=
  let r := arch.SwapUint32AcqRel.traced a.v new
  ((r.1.1, { v := r.1.2 }), r.2)

/-- `(*Uint32).SwapAcqRel` with its calls: `arch.SwapUint32AcqRel(&a.v, new)`. -/
def Uint32.SwapAcqRel.traced (a : Uint32) (new : Nat) : (Nat × Uint32) × List Call :=
  let r := arch.SwapUint32AcqRel.traced a.v new
  ((r.1.1, { v := r.1.2 }), r.2)

/-- `(*Uint32).CompareAndSwap` with its calls: `arch.CasUint32AcqRel(&a.v, old, new)`. -/
def Uint32.CompareAndSwap.traced (a : Uint32) (old new : Nat) : (Bool × Uint32) × List Call :=
  let r := arch.CasUint32AcqRel.traced a.v old new
  ((r.1.1, { v := r.1.2 }), r.2)

/-- `(*Uint32).CompareAndSwapAcqRel` with its calls: `arch.CasUint32AcqRel(&a.v, old, new)`. -/
def Uint32.CompareAndSwapAcqRel.traced (a : Uint32) (old new : Nat) : (Bool × Uint32) × List Call :=
  let r := arch.CasUint32AcqRel.traced a.v old new
  ((r.1.1, { v := r.1.2 }), r.2)

/-- `(*Uint32).CompareExchange` with its calls: `arch.CaxUint32AcqRel(&a.v, old, new)`. -/
def Uint32.CompareExchange.traced (a : Uint32) (old new : Nat) (fuel : Nat) :
    Option (Nat × Uint32) × List Call :=
  let r := arch.CaxUint32AcqRel.traced a.v old new fuel
  (r.1.map fun x => (x.1, { v := x.2 }), r.2)

/-- `(*Uint32).CompareExchangeAcqRel` with its calls: `arch.CaxUint32AcqRel(&a.v, old, new)`. -/
def Uint32.CompareExchangeAcqRel.traced (a : Uint32) (old new : Nat) (fuel : Nat) :
    Option (Nat × Uint32) × List Call :=
  let r := arch.CaxUint32AcqRel.traced a.v old new fuel
  (r.1.map fun x => (x.1, { v := x.2 }), r.2)

/-- `(*Uint32).Add` with its calls: `arch.AddUint32AcqRel(&a.v, delta)`. -/
def Uint32.Add.traced (a : Uint32) (delta : Nat) : (Nat × Uint32) × List Call :=
  let r := arch.AddUint32AcqRel.traced a.v delta
  ((r.1.1, { v := r.1.2 }), r.2)

/-- `(*Uint32).AddAcqRel` with its calls: `arch.AddUint32AcqRel(&a.v, delta)`. -/
def Uint32.AddAcqRel.traced (a : Uint32) (delta : Nat) : (Nat × Uint32) × List Call :=
  let r := arch.AddUint32AcqRel.traced a.v delta
  ((r.1.1, { v := r.1.2 }), r.2)

/-- `(*Uint32).Sub` with its calls: `arch.AddUint32AcqRel(&a.v, ^(delta - 1))`. -/
def Uint32.Sub.traced (a : Uint32) (delta : Nat) : (Nat × Uint32) × List Call :=
  let r := arch.AddUint32AcqRel.traced a.v (notU32 (subU32 delta 1))
  ((r.1.1, { v := r.1.2 }), r.2)

/-- `(*Uint32).SubAcqRel` with its calls: `arch.AddUint32AcqRel(&a.v, ^(delta - 1))`. -/
def Uint32.SubAcqRel.traced (a : Uint32) (delta : Nat) : (Nat × Uint32) × List Call :=
  let r := arch.AddUint32AcqRel.traced a.v (notU32 (subU32 delta 1))
  ((r.1.1, { v := r.1.2 }), r.2)

/-- `(*Uint32).And` with its calls: `arch.AndUint32AcqRel(&a.v, mask)`. -/
def Uint32.And.traced (a : Uint32) (mask : Nat) (fuel : Nat) : Option (Nat × Uint32) × List Call :=
  let r := arch.AndUint32AcqRel.traced a.v mask fuel
  (r.1.map fun x => (x.1, { v := x.2 }), r.2)

/-- `(*Uint32).AndAcqRel` with its calls: `arch.AndUint32AcqRel(&a.v, mask)`. -/
def Uint32.AndAcqRel.traced (a : Uint32) (mask : Nat) (fuel : Nat) :
    Option (Nat × Uint32) × List Call :=
  let r := arch.AndUint32AcqRel.traced a.v mask fuel
  (r.1.map fun x => (x.1, { v := x.2 }), r.2)

/-- `(*Uint32).Or` with its calls: `arch.OrUint32AcqRel(&a.v, mask)`. -/
def Uint32.Or.traced (a : Uint32) (mask : Nat) (fuel : Nat) : Option (Nat × Uint32) × List Call :=
  let r := arch.OrUint32AcqRel.traced a.v mask fuel
  (r.1.map fun x => (x.1, { v := x.2 }), r.2)

/-- `(*Uint32).OrAcqRel` with its calls: `arch.OrUint32AcqRel(&a.v, mask)`. -/
def Uint32.OrAcqRel.traced (a : Uint32) (mask : Nat) (fuel : Nat) :
    Option (Nat × Uint32) × List Call :=
  let r := arch.OrUint32AcqRel.traced a.v mask fuel
  (r.1.map fun x => (x.1, { v := x.2 }), r.2)

/-- `(*Uint32).Xor` with its calls: `arch.XorUint32AcqRel(&a.v, mask)`. -/
def Uint32.Xor.traced (a : Uint32) (mask : Nat) (fuel : Nat) : Option (Nat × Uint32) × List Call :=
  let r := arch.XorUint32AcqRel.traced a.v mask fuel
  (r.1.map fun x => (x.1, { v := x.2 }), r.2)

/-- `(*Uint32).XorAcqRel` with its calls: `arch.XorUint32AcqRel(&a.v, mask)`. -/
def Uint32.XorAcqRel.traced (a : Uint32) (mask : Nat) (fuel : Nat) :
    Option (Nat × Uint32) × List Call :=
  let r := arch.XorUint32AcqRel.traced a.v mask fuel
  (r.1.map fun x => (x.1, { v := x.2 }), r.2)

/-- `(*Int64).Load` with its calls: `arch.LoadInt64Relaxed(&a.v)`. -/
def Int64.Load.traced (a : Int64) : Int × List Call :=
  arch.LoadInt64Relaxed.traced a.v

/-- `(*Int64).LoadRelaxed` with its calls: `arch.LoadInt64Relaxed(&a.v)`. -/
def Int64.LoadRelaxed.traced (a : Int64) : Int × List Call :=
  arch.LoadInt64Relaxed.traced a.v

/-- `(*Int64).Store` with its calls: `arch.StoreInt64Relaxed(&a.v, val)`. -/
def Int64.Store.traced (a : Int64) (val : Int) : Int64 × List Call :=
  let r := arch.StoreInt64Relaxed.traced a.v val
  ({ v := r.1 }, r.2)

/-- `(*Int64).StoreRelaxed` with its calls: `arch.StoreInt64Relaxed(&a.v, val)`. -/
def Int64.StoreRelaxed.traced (a : Int64) (val : Int) : Int64 × List Call :=
  let r := arch.StoreInt64Relaxed.traced a.v val
  ({ v := r.1 }, r.2)

/-- `(*Int64).Swap` with its calls: `arch.SwapInt64AcqRel(&a.v, new)`. -/
def Int64.Swap.traced (a : Int64) (new : Int) : (Int × Int64) × List Call :=
  let r := arch.SwapInt64AcqRel.traced a.v new
  ((r.1.1, { v := r.1.2 }), r.2)

/-- `(*Int64).SwapAcqRel` with its calls: `arch.SwapInt64AcqRel(&a.v, new)`. -/
def Int64.SwapAcqRel.traced (a : Int64) (new : Int) : (Int × Int64) × List Call :=
  let r := arch.SwapInt64AcqRel.traced a.v new
  ((r.1.1, { v := r.1.2 }), r.2)

/-- `(*Int64).CompareAndSwap` with its calls: `arch.CasInt64AcqRel(&a.v, old, new)`. -/
def Int64.CompareAndSwap.traced (a : Int64) (old new : Int) : (Bool × Int64) × List Call :=
  let r := arch.CasInt64AcqRel.traced a.v old new
  ((r.1.1, { v := r.1.2 }), r.2)

/-- `(*Int64).CompareAndSwapAcqRel` with its calls: `arch.CasInt64AcqRel(&a.v, old, new)`. -/
def Int64.CompareAndSwapAcqRel.traced (a : Int64) (old new : Int) : (Bool × Int64) × List Call :=
  let r := arch.CasInt64AcqRel.traced a.v old new
  ((r.1.1, { v := r.1.2 }), r.2)

/-- `(*Int64).CompareExchange` with its calls: `arch.CaxInt64AcqRel(&a.v, old, new)`. -/
def Int64.CompareExchange.traced (a : Int64) (old new : Int) (fuel : Nat) :
    Option (Int × Int64) × List Call :=
  let r := arch.CaxInt64AcqRel.traced a.v old new fuel
  (r.1.map fun x => (x.1, { v := x.2 }), r.2)

/-- `(*Int64).CompareExchangeAcqRel` with its calls: `arch.CaxInt64AcqRel(&a.v, old, new)`. -/
def Int64.CompareExchangeAcqRel.traced (a : Int64) (old new : Int) (fuel : Nat) :
    Option (Int × Int64) × List Call :=
  let r := arch.CaxInt64AcqRel.traced a.v old new fuel
  (r.1.map fun x => (x.1, { v := x.2 }), r.2)

/-- `(*Int64).Add` with its calls: `arch.AddInt64AcqRel(&a.v, delta)`. -/
def Int64.Add.traced (a : Int64) (delta : Int) : (Int × Int64) × List Call :=
  let r := arch.AddInt64AcqRel.traced a.v delta
  ((r.1.1, { v := r.1.2 }), r.2)

/-- `(*Int64).AddAcqRel` with its calls: `arch.AddInt64AcqRel(&a.v, delta)`. -/
def Int64.AddAcqRel.traced (a : Int64) (delta : Int) : (Int × Int64) × List Call :=
  let r := arch.AddInt64AcqRel.traced a.v delta
  ((r.1.1, { v := r.1.2 }), r.2)

/-- `(*Int64).Sub` with its calls: `arch.AddInt64AcqRel(&a.v, -delta)`. -/
def Int64.Sub.traced (a : Int64) (delta : Int) : (Int × Int64) × List Call :=
  let r := arch.AddInt64AcqRel.traced a.v (negI64 delta)
  ((r.1.1, { v := r.1.2 }), r.2)

/-- `(*Int64).SubAcqRel` with its calls: `arch.AddInt64AcqRel(&a.v, -delta)`. -/
def Int64.SubAcqRel.traced (a : Int64) (delta : Int) : (Int × Int64) × List Call :=
  let r := arch.AddInt64AcqRel.traced a.v (negI64 delta)
  ((r.1.1, { v := r.1.2 }), r.2)

/-- `(*Int64).And` with its calls: `arch.AndInt64AcqRel(&a.v, mask)`. -/
def Int64.And.traced (a : Int64) (mask : Int) (fuel : Nat) : Option (Int × Int64) × List Call :=
  let r := arch.AndInt64AcqRel.traced a.v mask fuel
  (r.1.map fun x => (x.1, { v := x.2 }), r.2)

/-- `(*Int64).AndAcqRel` with its calls: `arch.AndInt64AcqRel(&a.v, mask)`. -/
def Int64.AndAcqRel.traced (a : Int64) (mask : Int) (fuel : Nat) :
    Option (Int × Int64) × List Call :=
  let r := arch.AndInt64AcqRel.traced a.v mask fuel
  (r.1.map fun x => (x.1, { v := x.2 }), r.2)

/-- `(*Int64).Or` with its calls: `arch.OrInt64AcqRel(&a.v, mask)`. -/
def Int64.Or.traced (a : Int64) (mask : Int) (fuel : Nat) : Option (Int × Int64) × List Call :=
  let r := arch.OrInt64AcqRel.traced a.v mask fuel
  (r.1.map fun x => (x.1, { v := x.2 }), r.2)

/-- `(*Int64).OrAcqRel` with its calls: `arch.OrInt64AcqRel(&a.v, mask)`. -/
def Int64.OrAcqRel.traced (a : Int64) (mask : Int) (fuel : Nat) :
    Option (Int × Int64) × List Call :=
  let r := arch.OrInt64AcqRel.traced a.v mask fuel
  (r.1.map fun x => (x.1, { v := x.2 }), r.2)

/-- `(*Int64).Xor` with its calls: `arch.XorInt64AcqRel(&a.v, mask)`. -/
def Int64.Xor.traced (a : Int64) (mask : Int) (fuel : Nat) : Option (Int × Int64) × List Call :=
  let r := arch.XorInt64AcqRel.traced a.v mask fuel
  (r.1.map fun x => (x.1, { v := x.2 }), r.2)

/-- `(*Int64).XorAcqRel` with its calls: `arch.XorInt64AcqRel(&a.v, mask)`. -/
def Int64.XorAcqRel.traced (a : Int64) (mask : Int) (fuel : Nat) :
    Option (Int × Int64) × List Call :=
  let r := arch.XorInt64AcqRel.traced a.v mask fuel
  (r.1.map fun x => (x.1, { v := x.2 }), r.2)

/-- `(*Uint64).Load` with its calls: `arch.LoadUint64Relaxed(&a.v)`. -/
def Uint64.Load.traced (a : Uint64) : Nat × List Call :=
  arch.LoadUint64Relaxed.traced a.v

/-- `(*Uint64).LoadRelaxed` with its calls: `arch.LoadUint64Relaxed(&a.v)`. -/
def Uint64.LoadRelaxed.traced (a : Uint64) : Nat × List Call :=
  arch.LoadUint64Relaxed.traced a.v

/-- `(*Uint64).Store` with its calls: `arch.StoreUint64Relaxed(&a.v, val)`. -/
def Uint64.Store.traced (a : Uint64) (val : Nat) : Uint64 × List Call :=
  let r := arch.StoreUint64Relaxed.traced a.v val
  ({ v := r.1 }, r.2)

/-- `(*Uint64).StoreRelaxed` with its calls: `arch.StoreUint64Relaxed(&a.v, val)`. -/
def Uint64.StoreRelaxed.traced (a : Uint64) (val : Nat) : Uint64 × List Call :=
  let r := arch.StoreUint64Relaxed.traced a.v val
  ({ v := r.1 }, r.2)

/-- `(*Uint64).Swap` with its calls: `arch.SwapUint64AcqRel(&a.v, new)`. -/
def Uint64.Swap.traced (a : Uint64) (new : Nat) : (Nat × Uint64) × List Call :=
  let r := arch.SwapUint64AcqRel.traced a.v new
  ((r.1.1, { v := r.1.2 }), r.2)

/-- `(*Uint64).SwapAcqRel` with its calls: `arch.SwapUint64AcqRel(&a.v, new)`. -/
def Uint64.SwapAcqRel.traced (a : Uint64) (new : Nat) : (Nat × Uint64) × List Call :=
  let r := arch.SwapUint64AcqRel.traced a.v new
  ((r.1.1, { v := r.1.2 }), r.2)

/-- `(*Uint64).CompareAndSwap` with its calls: `arch.CasUint64AcqRel(&a.v, old, new)`. -/
def Uint64.CompareAndSwap.traced (a : Uint64) (old new : Nat) : (Bool × Uint64) × List Call :=
  let r := arch.CasUint64AcqRel.traced a.v old new
  ((r.1.1, { v := r.1.2 }), r.2)

/-- `(*Uint64).CompareAndSwapAcqRel` with its calls: `arch.CasUint64AcqRel(&a.v, old, new)`. -/
def Uint64.CompareAndSwapAcqRel.traced (a : Uint64) (old new : Nat) : (Bool × Uint64) × List Call :=
  let r := arch.CasUint64AcqRel.traced a.v old new
  ((r.1.1, { v := r.1.2 }), r.2)

/-- `(*Uint64).CompareExchange` with its calls: `arch.CaxUint64AcqRel(&a.v, old, new)`. -/
def Uint64.CompareExchange.traced (a : Uint64) (old new : Nat) (fuel : Nat) :
    Option (Nat × Uint64) × List Call :=
  let r := arch.CaxUint64AcqRel.traced a.v old new fuel
  (r.1.map fun x => (x.1, { v := x.2 }), r.2)

/-- `(*Uint64).CompareExchangeAcqRel` with its calls: `arch.CaxUint64AcqRel(&a.v, old, new)`. -/
def Uint64.CompareExchangeAcqRel.traced (a : Uint64) (old new : Nat) (fuel : Nat) :
    Option (Nat × Uint64) × List Call :=
  let r := arch.CaxUint64AcqRel.traced a.v old new fuel
  (r.1.map fun x => (x.1, { v := x.2 }), r.2)

/-- `(*Uint64).Add` with its calls: `arch.AddUint64AcqRel(&a.v, delta)`. -/
def Uint64.Add.traced (a : Uint64) (delta : Nat) : (Nat × Uint64) × List Call :=
  let r := arch.AddUint64AcqRel.traced a.v delta
  ((r.1.1, { v := r.1.2 }), r.2)

/-- `(*Uint64).AddAcqRel` with its calls: `arch.AddUint64AcqRel(&a.v, delta)`. -/
def Uint64.AddAcqRel.traced (a : Uint64) (delta : Nat) : (Nat × Uint64) × List Call :=
  let r := arch.AddUint64AcqRel.traced a.v delta
  ((r.1.1, { v := r.1.2 }), r.2)

/-- `(*Uint64).Sub` with its calls: `arch.AddUint64AcqRel(&a.v, ^(delta - 1))`. -/
def Uint64.Sub.traced (a : Uint64) (delta : Nat) : (Nat × Uint64) × List Call :=
  let r := arch.AddUint64AcqRel.traced a.v (notU64 (subU64 delta 1))
  ((r.1.1, { v := r.1.2 }), r.2)

/-- `(*Uint64).SubAcqRel` with its calls: `arch.AddUint64AcqRel(&a.v, ^(delta - 1))`. -/
def Uint64.SubAcqRel.traced (a : Uint64) (delta : Nat) : (Nat × Uint64) × List Call :=
  let r := arch.AddUint64AcqRel.traced a.v (notU64 (subU64 delta 1))
  ((r.1.1, { v := r.1.2 }), r.2)

/-- `(*Uint64).And` with its calls: `arch.AndUint64AcqRel(&a.v, mask)`. -/
def Uint64.And.traced (a : Uint64) (mask : Nat) (fuel : Nat) : Option (Nat × Uint64) × List Call :=
  let r := arch.AndUint64AcqRel.traced a.v mask fuel
  (r.1.map fun x => (x.1, { v := x.2 }), r.2)

/-- `(*Uint64).AndAcqRel` with its calls: `arch.AndUint64AcqRel(&a.v, mask)`. -/
def Uint64.AndAcqRel.traced (a : Uint64) (mask : Nat) (fuel : Nat) :
    Option (Nat × Uint64) × List Call :=
  let r := arch.AndUint64AcqRel.traced a.v mask fuel
  (r.1.map fun x => (x.1, { v := x.2 }), r.2)

/-- `(*Uint64).Or` with its calls: `arch.OrUint64AcqRel(&a.v, mask)`. -/
def Uint64.Or.traced (a : Uint64) (mask : Nat) (fuel : Nat) : Option (Nat × Uint64) × List Call :=
  let r := arch.OrUint64AcqRel.traced a.v mask fuel
  (r.1.map fun x => (x.1, { v := x.2 }), r.2)

/-- `(*Uint64).OrAcqRel` with its calls: `arch.OrUint64AcqRel(&a.v, mask)`. -/
def Uint64.OrAcqRel.traced (a : Uint64) (mask : Nat) (fuel : Nat) :
    Option (Nat × Uint64) × List Call :=
  let r := arch.OrUint64AcqRel.traced a.v mask fuel
  (r.1.map fun x => (x.1, { v := x.2 }), r.2)

/-- `(*Uint64).Xor` with its calls: `arch.XorUint64AcqRel(&a.v, mask)`. -/
def Uint64.Xor.traced (a : Uint64) (mask : Nat) (fuel : Nat) : Option (Nat × Uint64) × List Call :=
  let r := arch.XorUint64AcqRel.traced a.v mask fuel
  (r.1.map fun x => (x.1, { v := x.2 }), r.2)

/-- `(*Uint64).XorAcqRel` with its calls: `arch.XorUint64AcqRel(&a.v, mask)`. -/
def Uint64.XorAcqRel.traced (a : Uint64) (mask : Nat) (fuel : Nat) :
    Option (Nat × Uint64) × List Call :=
  let r := arch.XorUint64AcqRel.traced a.v mask fuel
  (r.1.map fun x => (x.1, { v := x.2 }), r.2)

/-- `(*Uintptr).Load` with its calls: `arch.LoadUintptrRelaxed(&a.v)`. -/
def Uintptr.Load.traced (a : Uintptr) : Nat × List Call :=
  arch.LoadUintptrRelaxed.traced a.v

/-- `(*Uintptr).LoadRelaxed` with its calls: `arch.LoadUintptrRelaxed(&a.v)`. -/
def Uintptr.LoadRelaxed.traced (a : Uintptr) : Nat × List Call :=
  arch.LoadUintptrRelaxed.traced a.v

/-- `(*Uintptr).Store` with its calls: `arch.StoreUintptrRelaxed(&a.v, val)`. -/
def Uintptr.Store.traced (a : Uintptr) (val : Nat) : Uintptr × List Call :=
  let r := arch.StoreUintptrRelaxed.traced a.v val
  ({ v := r.1 }, r.2)

/-- `(*Uintptr).StoreRelaxed` with its calls: `arch.StoreUintptrRelaxed(&a.v, val)`. -/
def Uintptr.StoreRelaxed.traced (a : Uintptr) (val : Nat) : Uintptr × List Call :=
  let r := arch.StoreUintptrRelaxed.traced a.v val
  ({ v := r.1 }, r.2)

/-- `(*Uintptr).Swap` with its calls: `arch.SwapUintptrAcqRel(&a.v, new)`. -/
def Uintptr.Swap.traced (a : Uintptr) (new : Nat) : (Nat × Uintptr) × List Call :=
  let r := arch.SwapUintptrAcqRel.traced a.v new
  ((r.1.1, { v := r.1.2 }), r.2)

/-- `(*Uintptr).SwapAcqRel` with its calls: `arch.SwapUintptrAcqRel(&a.v, new)`. -/
def Uintptr.SwapAcqRel.traced (a : Uintptr) (new : Nat) : (Nat × Uintptr) × List Call :=
  let r := arch.SwapUintptrAcqRel.traced a.v new
  ((r.1.1, { v := r.1.2 }), r.2)

/-- `(*Uintptr).CompareAndSwap` with its calls: `arch.CasUintptrAcqRel(&a.v, old, new)`. -/
def Uintptr.CompareAndSwap.traced (a : Uintptr) (old new : Nat) : (Bool × Uintptr) × List Call :=
  let r := arch.CasUintptrAcqRel.traced a.v old new
  ((r.1.1, { v := r.1.2 }), r.2)

/-- `(*Uintptr).CompareAndSwapAcqRel` with its calls: `arch.CasUintptrAcqRel(&a.v, old, new)`. -/
def Uintptr.CompareAndSwapAcqRel.traced (a : Uintptr) (old new : Nat) :
    (Bool × Uintptr) × List Call :=
  let r := arch.CasUintptrAcqRel.traced a.v old new
  ((r.1.1, { v := r.1.2 }), r.2)

/-- `(*Uintptr).CompareExchange` with its calls: `arch.CaxUintptrAcqRel(&a.v, old, new)`. -/
def Uintptr.CompareExchange.traced (a : Uintptr) (old new : Nat) (fuel : Nat) :
    Option (Nat × Uintptr) × List Call :=
  let r := arch.CaxUintptrAcqRel.traced a.v old new fuel
  (r.1.map fun x => (x.1, { v := x.2 }), r.2)

/-- `(*Uintptr).CompareExchangeAcqRel` with its calls: `arch.CaxUintptrAcqRel(&a.v, old, new)`. -/
def Uintptr.CompareExchangeAcqRel.traced (a : Uintptr) (old new : Nat) (fuel : Nat) :
    Option (Nat × Uintptr) × List Call :=
  let r := arch.CaxUintptrAcqRel.traced a.v old new fuel
  (r.1.map fun x => (x.1, { v := x.2 }), r.2)

/-- `(*Uintptr).Add` with its calls: `arch.AddUintptrAcqRel(&a.v, delta)`. -/
def Uintptr.Add.traced (a : Uintptr) (delta : Nat) : (Nat × Uintptr) × List Call :=
  let r := arch.AddUintptrAcqRel.traced a.v delta
  ((r.1.1, { v := r.1.2 }), r.2)

/-- `(*Uintptr).AddAcqRel` with its calls: `arch.AddUintptrAcqRel(&a.v, delta)`. -/
def Uintptr.AddAcqRel.traced (a : Uintptr) (delta : Nat) : (Nat × Uintptr) × List Call :=
  let r := arch.AddUintptrAcqRel.traced a.v delta
  ((r.1.1, { v := r.1.2 }), r.2)

/-- `(*Uintptr).Sub` with its calls: `arch.AddUintptrAcqRel(&a.v, ^(delta - 1))`. -/
def Uintptr.Sub.traced (a : Uintptr) (delta : Nat) : (Nat × Uintptr) × List Call :=
  let r := arch.AddUintptrAcqRel.traced a.v (notU64 (subU64 delta 1))
  ((r.1.1, { v := r.1.2 }), r.2)

/-- `(*Uintptr).SubAcqRel` with its calls: `arch.AddUintptrAcqRel(&a.v, ^(delta - 1))`. -/
def Uintptr.SubAcqRel.traced (a : Uintptr) (delta : Nat) : (Nat × Uintptr) × List Call :=
  let r := arch.AddUintptrAcqRel.traced a.v (notU64 (subU64 delta 1))
  ((r.1.1, { v := r.1.2 }), r.2)

/-- `(*Uintptr).And` with its calls: `arch.AndUintptrAcqRel(&a.v, mask)`. -/
def Uintptr.And.traced (a : Uintptr) (mask : Nat) (fuel : Nat) :
    Option (Nat × Uintptr) × List Call :=
  let r := arch.AndUintptrAcqRel.traced a.v mask fuel
  (r.1.map fun x => (x.1, { v := x.2 }), r.2)

/-- `(*Uintptr).AndAcqRel` with its calls: `arch.AndUintptrAcqRel(&a.v, mask)`. -/
def Uintptr.AndAcqRel.traced (a : Uintptr) (mask : Nat) (fuel : Nat) :
    Option (Nat × Uintptr) × List Call :=
  let r := arch.AndUintptrAcqRel.traced a.v mask fuel
  (r.1.map fun x => (x.1, { v := x.2 }), r.2)

/-- `(*Uintptr).Or` with its calls: `arch.OrUintptrAcqRel(&a.v, mask)`. -/
def Uintptr.Or.traced (a : Uintptr) (mask : Nat) (fuel : Nat) :
    Option (Nat × Uintptr) × List Call :=
  let r := arch.OrUintptrAcqRel.traced a.v mask fuel
  (r.1.map fun x => (x.1, { v := x.2 }), r.2)

/-- `(*Uintptr).OrAcqRel` with its calls: `arch.OrUintptrAcqRel(&a.v, mask)`. -/
def Uintptr.OrAcqRel.traced (a : Uintptr) (mask : Nat) (fuel : Nat) :
    Option (Nat × Uintptr) × List Call :=
  let r := arch.OrUintptrAcqRel.traced a.v mask fuel
  (r.1.map fun x => (x.1, { v := x.2 }), r.2)

/-- `(*Uintptr).Xor` with its calls: `arch.XorUintptrAcqRel(&a.v, mask)`. -/
def Uintptr.Xor.traced (a : Uintptr) (mask : Nat) (fuel : Nat) :
    Option (Nat × Uintptr) × List Call :=
  let r := arch.XorUintptrAcqRel.traced a.v mask fuel
  (r.1.map fun x => (x.1, { v := x.2 }), r.2)

/-- `(*Uintptr).XorAcqRel` with its calls: `arch.XorUintptrAcqRel(&a.v, mask)`. -/
def Uintptr.XorAcqRel.traced (a : Uintptr) (mask : Nat) (fuel : Nat) :
    Option (Nat × Uintptr) × List Call :=
  let r := arch.XorUintptrAcqRel.traced a.v mask fuel
  (r.1.map fun x => (x.1, { v := x.2 }), r.2)

/-- `(*Bool).Load` with its calls: `arch.LoadUint32Relaxed(&a.v)`. -/
def AtomixBool.Load.traced (a : AtomixBool) : Bool × List Call :=
  let r := arch.LoadUint32Relaxed.traced a.v
  (decide (r.1 ≠ 0), r.2)

/-- `(*Bool).LoadRelaxed` with its calls: `arch.LoadUint32Relaxed(&a.v)`. -/
def AtomixBool.LoadRelaxed.traced (a : AtomixBool) : Bool × List Call :=
  let r := arch.LoadUint32Relaxed.traced a.v
  (decide (r.1 ≠ 0), r.2)

/-- `(*Bool).Store` with its calls: `arch.StoreUint32Relaxed(&a.v, b2u(val))`. -/
def AtomixBool.Store.traced (a : AtomixBool) (val : Bool) : AtomixBool × List Call :=
  let r := arch.StoreUint32Relaxed.traced a.v (b2u val)
  ({ v := r.1 }, r.2)

/-- `(*Bool).StoreRelaxed` with its calls: `arch.StoreUint32Relaxed(&a.v, b2u(val))`. -/
def AtomixBool.StoreRelaxed.traced (a : AtomixBool) (val : Bool) : AtomixBool × List Call :=
  let r := arch.StoreUint32Relaxed.traced a.v (b2u val)
  ({ v := r.1 }, r.2)

/-- `(*Bool).Swap` with its calls: `arch.SwapUint32AcqRel(&a.v, b2u(new))`. -/
def AtomixBool.Swap.traced (a : AtomixBool) (new : Bool) : (Bool × AtomixBool) × List Call :=
  let r := arch.SwapUint32AcqRel.traced a.v (b2u new)
  ((decide (r.1.1 ≠ 0), { v := r.1.2 }), r.2)

/-- `(*Bool).SwapAcqRel` with its calls: `arch.SwapUint32AcqRel(&a.v, b2u(new))`. -/
def AtomixBool.SwapAcqRel.traced (a : AtomixBool) (new : Bool) : (Bool × AtomixBool) × List Call :=
  let r := arch.SwapUint32AcqRel.traced a.v (b2u new)
  ((decide (r.1.1 ≠ 0), { v := r.1.2 }), r.2)

/-- `(*Bool).CompareAndSwap` with its calls: `arch.CasUint32AcqRel(&a.v, b2u(old), b2u(new))`. -/
def AtomixBool.CompareAndSwap.traced (a : AtomixBool) (old new : Bool) :
    (Bool × AtomixBool) × List Call :=
  let r := arch.CasUint32AcqRel.traced a.v (b2u old) (b2u new)
  ((r.1.1, { v := r.1.2 }), r.2)

/-- `(*Bool).CompareAndSwapAcqRel` with its calls:
`arch.CasUint32AcqRel(&a.v, b2u(old), b2u(new))`. -/
def AtomixBool.CompareAndSwapAcqRel.traced (a : AtomixBool) (old new : Bool) :
    (Bool × AtomixBool) × List Call :=
  let r := arch.CasUint32AcqRel.traced a.v (b2u old) (b2u new)
  ((r.1.1, { v := r.1.2 }), r.2)

/-- `(*Pointer).Load` with its calls: `arch.LoadPointerRelaxed(&a.v)`. -/
def Pointer.Load.traced (a : Pointer) : Nat × List Call :=
  arch.LoadPointerRelaxed.traced a.v

/-- `(*Pointer).LoadRelaxed` with its calls: `arch.LoadPointerRelaxed(&a.v)`. -/
def Pointer.LoadRelaxed.traced (a : Pointer) : Nat × List Call :=
  arch.LoadPointerRelaxed.traced a.v

/-- `(*Pointer).Store` with its calls: `arch.StorePointerRelaxed(&a.v, unsafe.Pointer(val))`. -/
def Pointer.Store.traced (a : Pointer) (val : Nat) : Pointer × List Call :=
  let r := arch.StorePointerRelaxed.traced a.v val
  ({ v := r.1 }, r.2)

/-- `(*Pointer).StoreRelaxed` with its calls:
`arch.StorePointerRelaxed(&a.v, unsafe.Pointer(val))`. -/
def Pointer.StoreRelaxed.traced (a : Pointer) (val : Nat) : Pointer × List Call :=
  let r := arch.StorePointerRelaxed.traced a.v val
  ({ v := r.1 }, r.2)

/-- `(*Pointer).Swap` with its calls: `arch.SwapPointerAcqRel(&a.v, unsafe.Pointer(new))`. -/
def Pointer.Swap.traced (a : Pointer) (new : Nat) : (Nat × Pointer) × List Call :=
  let r := arch.SwapPointerAcqRel.traced a.v new
  ((r.1.1, { v := r.1.2 }), r.2)

/-- `(*Pointer).SwapAcqRel` with its calls: `arch.SwapPointerAcqRel(&a.v, unsafe.Pointer(new))`. -/
def Pointer.SwapAcqRel.traced (a : Pointer) (new : Nat) : (Nat × Pointer) × List Call :=
  let r := arch.SwapPointerAcqRel.traced a.v new
  ((r.1.1, { v := r.1.2 }), r.2)

/-- `(*Pointer).CompareAndSwap` with its calls:
`arch.CasPointerAcqRel(&a.v, unsafe.Pointer(old), unsafe.Pointer(new))`. -/
def Pointer.CompareAndSwap.traced (a : Pointer) (old new : Nat) : (Bool × Pointer) × List Call :=
  let r := arch.CasPointerAcqRel.traced a.v old new
  ((r.1.1, { v := r.1.2 }), r.2)

/-- `(*Pointer).CompareAndSwapAcqRel` with its calls:
`arch.CasPointerAcqRel(&a.v, unsafe.Pointer(old), unsafe.Pointer(new))`. -/
def Pointer.CompareAndSwapAcqRel.traced (a : Pointer) (old new : Nat) :
    (Bool × Pointer) × List Call :=
  let r := arch.CasPointerAcqRel.traced a.v old new
  ((r.1.1, { v := r.1.2 }), r.2)

/-- `(*Pointer).CompareExchange` with its calls:
`arch.CaxPointerAcqRel(&a.v, unsafe.Pointer(old), unsafe.Pointer(new))`. -/
def Pointer.CompareExchange.traced (a : Pointer) (old new : Nat) (fuel : Nat) :
    Option (Nat × Pointer) × List Call :=
  let r := arch.CaxPointerAcqRel.traced a.v old new fuel
  (r.1.map fun x => (x.1, { v := x.2 }), r.2)

/-- `(*Pointer).CompareExchangeAcqRel` with its calls:
`arch.CaxPointerAcqRel(&a.v, unsafe.Pointer(old), unsafe.Pointer(new))`. -/
def Pointer.CompareExchangeAcqRel.traced (a : Pointer) (old new : Nat) (fuel : Nat) :
    Option (Nat × Pointer) × List Call :=
  let r := arch.CaxPointerAcqRel.traced a.v old new fuel
  (r.1.map fun x => (x.1, { v := x.2 }), r.2)

/-- `(*Int128).Load` with its calls: `arch.LoadUint128Relaxed(&a.v)`. -/
def Int128.Load.traced (a : Int128) : (Int × Int) × List Call :=
  let r := arch.LoadUint128Relaxed.traced a.v
  let (ulo, uhi) := r.1
  ((toI64 ulo, toI64 uhi), r.2)

/-- `(*Int128).LoadRelaxed` with its calls: `arch.LoadUint128Relaxed(&a.v)`. -/
def Int128.LoadRelaxed.traced (a : Int128) : (Int × Int) × List Call :=
  let r := arch.LoadUint128Relaxed.traced a.v
  let (ulo, uhi) := r.1
  ((toI64 ulo, toI64 uhi), r.2)

/-- `(*Int128).Store` with its calls: `arch.StoreUint128Relaxed(&a.v, uint64(lo), uint64(hi))`. -/
def Int128.Store.traced (a : Int128) (lo hi : Int) : Int128 × List Call :=
  let r := arch.StoreUint128Relaxed.traced a.v (toU64 lo) (toU64 hi)
  ({ v := r.1 }, r.2)

/-- `(*Int128).StoreRelaxed` with its calls:
`arch.StoreUint128Relaxed(&a.v, uint64(lo), uint64(hi))`. -/
def Int128.StoreRelaxed.traced (a : Int128) (lo hi : Int) : Int128 × List Call :=
  let r := arch.StoreUint128Relaxed.traced a.v (toU64 lo) (toU64 hi)
  ({ v := r.1 }, r.2)

/-- `(*Int128).Swap` with its calls:
`arch.SwapUint128AcqRel(&a.v, uint64(newLo), uint64(newHi))`. -/
def Int128.Swap.traced (a : Int128) (newLo newHi : Int) : ((Int × Int) × Int128) × List Call :=
  let r := arch.SwapUint128AcqRel.traced a.v (toU64 newLo) (toU64 newHi)
  (((toI64 r.1.1.1, toI64 r.1.1.2), { v := r.1.2 }), r.2)

/-- `(*Int128).SwapAcqRel` with its calls:
`arch.SwapUint128AcqRel(&a.v, uint64(newLo), uint64(newHi))`. -/
def Int128.SwapAcqRel.traced (a : Int128) (newLo newHi : Int) :
    ((Int × Int) × Int128) × List Call :=
  let r := arch.SwapUint128AcqRel.traced a.v (toU64 newLo) (toU64 newHi)
  (((toI64 r.1.1.1, toI64 r.1.1.2), { v := r.1.2 }), r.2)

/-- `(*Int128).CompareAndSwap` with its calls:
`arch.CasUint128AcqRel(&a.v, uint64(oldLo), uint64(oldHi), uint64(newLo), uint64(newHi))`. -/
def Int128.CompareAndSwap.traced (a : Int128) (oldLo oldHi newLo newHi : Int) :
    (Bool × Int128) × List Call :=
  let r := arch.CasUint128AcqRel.traced a.v (toU64 oldLo) (toU64 oldHi) (toU64 newLo) (toU64 newHi)
  ((r.1.1, { v := r.1.2 }), r.2)

/-- `(*Int128).CompareAndSwapAcqRel` with its calls:
`arch.CasUint128AcqRel(&a.v, uint64(oldLo), uint64(oldHi), uint64(newLo), uint64(newHi))`. -/
def Int128.CompareAndSwapAcqRel.traced (a : Int128) (oldLo oldHi newLo newHi : Int) :
    (Bool × Int128) × List Call :=
  let r := arch.CasUint128AcqRel.traced a.v (toU64 oldLo) (toU64 oldHi) (toU64 newLo) (toU64 newHi)
  ((r.1.1, { v := r.1.2 }), r.2)

/-- `(*Int128).CompareExchange` with its calls:
`arch.CaxUint128AcqRel(&a.v, uint64(oldLo), uint64(oldHi), uint64(newLo), uint64(newHi))`. -/
def Int128.CompareExchange.traced (a : Int128) (oldLo oldHi newLo newHi : Int) :
    ((Int × Int) × Int128) × List Call :=
  let r := arch.CaxUint128AcqRel.traced a.v (toU64 oldLo) (toU64 oldHi) (toU64 newLo) (toU64 newHi)
  (((toI64 r.1.1.1, toI64 r.1.1.2), { v := r.1.2 }), r.2)

/-- `(*Int128).CompareExchangeAcqRel` with its calls:
`arch.CaxUint128AcqRel(&a.v, uint64(oldLo), uint64(oldHi), uint64(newLo), uint64(newHi))`. -/
def Int128.CompareExchangeAcqRel.traced (a : Int128) (oldLo oldHi newLo newHi : Int) :
    ((Int × Int) × Int128) × List Call :=
  let r := arch.CaxUint128AcqRel.traced a.v (toU64 oldLo) (toU64 oldHi) (toU64 newLo) (toU64 newHi)
  (((toI64 r.1.1.1, toI64 r.1.1.2), { v := r.1.2 }), r.2)

/-- `(*Uint128).Load` with its calls: `arch.LoadUint128Relaxed(&a.v)`. -/
def Uint128.Load.traced (a : Uint128) : (Nat × Nat) × List Call :=
  arch.LoadUint128Relaxed.traced a.v

/-- `(*Uint128).LoadRelaxed` with its calls: `arch.LoadUint128Relaxed(&a.v)`. -/
def Uint128.LoadRelaxed.traced (a : Uint128) : (Nat × Nat) × List Call :=
  arch.LoadUint128Relaxed.traced a.v

/-- `(*Uint128).Store` with its calls: `arch.StoreUint128Relaxed(&a.v, lo, hi)`. -/
def Uint128.Store.traced (a : Uint128) (lo hi : Nat) : Uint128 × List Call :=
  let r := arch.StoreUint128Relaxed.traced a.v lo hi
  ({ v := r.1 }, r.2)

/-- `(*Uint128).StoreRelaxed` with its calls: `arch.StoreUint128Relaxed(&a.v, lo, hi)`. -/
def Uint128.StoreRelaxed.traced (a : Uint128) (lo hi : Nat) : Uint128 × List Call :=
  let r := arch.StoreUint128Relaxed.traced a.v lo hi
  ({ v := r.1 }, r.2)

/-- `(*Uint128).Swap` with its calls: `arch.SwapUint128AcqRel(&a.v, newLo, newHi)`. -/
def Uint128.Swap.traced (a : Uint128) (newLo newHi : Nat) : ((Nat × Nat) × Uint128) × List Call :=
  let r := arch.SwapUint128AcqRel.traced a.v newLo newHi
  ((r.1.1, { v := r.1.2 }), r.2)

/-- `(*Uint128).SwapAcqRel` with its calls: `arch.SwapUint128AcqRel(&a.v, newLo, newHi)`. -/
def Uint128.SwapAcqRel.traced (a : Uint128) (newLo newHi : Nat) :
    ((Nat × Nat) × Uint128) × List Call :=
  let r := arch.SwapUint128AcqRel.traced a.v newLo newHi
  ((r.1.1, { v := r.1.2 }), r.2)

/-- `(*Uint128).CompareAndSwap` with its calls:
`arch.CasUint128AcqRel(&a.v, oldLo, oldHi, newLo, newHi)`. -/
def Uint128.CompareAndSwap.traced (a : Uint128) (oldLo oldHi newLo newHi : Nat) :
    (Bool × Uint128) × List Call :=
  let r := arch.CasUint128AcqRel.traced a.v oldLo oldHi newLo newHi
  ((r.1.1, { v := r.1.2 }), r.2)

/-- `(*Uint128).CompareAndSwapAcqRel` with its calls:
`arch.CasUint128AcqRel(&a.v, oldLo, oldHi, newLo, newHi)`. -/
def Uint128.CompareAndSwapAcqRel.traced (a : Uint128) (oldLo oldHi newLo newHi : Nat) :
    (Bool × Uint128) × List Call :=
  let r := arch.CasUint128AcqRel.traced a.v oldLo oldHi newLo newHi
  ((r.1.1, { v := r.1.2 }), r.2)

/-- `(*Uint128).CompareExchange` with its calls:
`arch.CaxUint128AcqRel(&a.v, oldLo, oldHi, newLo, newHi)`. -/
def Uint128.CompareExchange.traced (a : Uint128) (oldLo oldHi newLo newHi : Nat) :
    ((Nat × Nat) × Uint128) × List Call :=
  let r := arch.CaxUint128AcqRel.traced a.v oldLo oldHi newLo newHi
  ((r.1.1, { v := r.1.2 }), r.2)

/-- `(*Uint128).CompareExchangeAcqRel` with its calls:
`arch.CaxUint128AcqRel(&a.v, oldLo, oldHi, newLo, newHi)`. -/
def Uint128.CompareExchangeAcqRel.traced (a : Uint128) (oldLo oldHi newLo newHi : Nat) :
    ((Nat × Nat) × Uint128) × List Call :=
  let r := arch.CaxUint128AcqRel.traced a.v oldLo oldHi newLo newHi
  ((r.1.1, { v := r.1.2 }), r.2)

/-! ### `Max` and `Min` -/

/-- `(*Int32).Max` with its calls: `LoadInt32Relaxed`, then, unless `old >= val`,
`CasInt32AcqRel(&a.v, old, val)`, and the loop again when that fails. -/
def Int32.Max.traced (a : Int32) (val : Int) : Nat → Option (Int × Int32) × List Call
  | 0 => (none, [])
  | fuel + 1 =>
    let l := arch.LoadInt32Relaxed.traced a.v
    let old := l.1
    if old ≥ val then (some (old, a), l.2)
    else
      let c := arch.CasInt32AcqRel.traced a.v old val
      if c.1.1 then (some (old, { v := c.1.2 }), l.2 ++ c.2)
      else
        let r := Int32.Max.traced { v := c.1.2 } val fuel
        (r.1, l.2 ++ c.2 ++ r.2)

/-- `(*Int32).Min` with its calls: `LoadInt32Relaxed`, then, unless `old <= val`,
`CasInt32AcqRel(&a.v, old, val)`, and the loop again when that fails. -/
def Int32.Min.traced (a : Int32) (val : Int) : Nat → Option (Int × Int32) × List Call
  | 0 => (none, [])
  | fuel + 1 =>
    let l := arch.LoadInt32Relaxed.traced a.v
    let old := l.1
    if old ≤ val then (some (old, a), l.2)
    else
      let c := arch.CasInt32AcqRel.traced a.v old val
      if c.1.1 then (some (old, { v := c.1.2 }), l.2 ++ c.2)
      else
        let r := Int32.Min.traced { v := c.1.2 } val fuel
        (r.1, l.2 ++ c.2 ++ r.2)

/-- `(*Uint32).Max` with its calls: `LoadUint32Relaxed`, then, unless `old >= val`,
`CasUint32AcqRel(&a.v, old, val)`, and the loop again when that fails. -/
def Uint32.Max.traced (a : Uint32) (val : Nat) : Nat → Option (Nat × Uint32) × List Call
  | 0 => (none, [])
  | fuel + 1 =>
    let l := arch.LoadUint32Relaxed.traced a.v
    let old := l.1
    if old ≥ val then (some (old, a), l.2)
    else
      let c := arch.CasUint32AcqRel.traced a.v old val
      if c.1.1 then (some (old, { v := c.1.2 }), l.2 ++ c.2)
      else
        let r := Uint32.Max.traced { v := c.1.2 } val fuel
        (r.1, l.2 ++ c.2 ++ r.2)

/-- `(*Uint32).Min` with its calls: `LoadUint32Relaxed`, then, unless `old <= val`,
`CasUint32AcqRel(&a.v, old, val)`, and the loop again when that fails. -/
def Uint32.Min.traced (a : Uint32) (val : Nat) : Nat → Option (Nat × Uint32) × List Call
  | 0 => (none, [])
  | fuel + 1 =>
    let l := arch.LoadUint32Relaxed.traced a.v
    let old := l.1
    if old ≤ val then (some (old, a), l.2)
    else
      let c := arch.CasUint32AcqRel.traced a.v old val
      if c.1.1 then (some (old, { v := c.1.2 }), l.2 ++ c.2)
      else
        let r := Uint32.Min.traced { v := c.1.2 } val fuel
        (r.1, l.2 ++ c.2 ++ r.2)

/-- `(*Int64).Max` with its calls: `LoadInt64Relaxed`, then, unless `old >= val`,
`CasInt64AcqRel(&a.v, old, val)`, and the loop again when that fails. -/
def Int64.Max.traced (a : Int64) (val : Int) : Nat → Option (Int × Int64) × List Call
  | 0 => (none, [])
  | fuel + 1 =>
    let l := arch.LoadInt64Relaxed.traced a.v
    let old := l.1
    if old ≥ val then (some (old, a), l.2)
    else
      let c := arch.CasInt64AcqRel.traced a.v old val
      if c.1.1 then (some (old, { v := c.1.2 }), l.2 ++ c.2)
      else
        let r := Int64.Max.traced { v := c.1.2 } val fuel
        (r.1, l.2 ++ c.2 ++ r.2)

/-- `(*Int64).Min` with its calls: `LoadInt64Relaxed`, then, unless `old <= val`,
`CasInt64AcqRel(&a.v, old, val)`, and the loop again when that fails. -/
def Int64.Min.traced (a : Int64) (val : Int) : Nat → Option (Int × Int64) × List Call
  | 0 => (none, [])
  | fuel + 1 =>
    let l := arch.LoadInt64Relaxed.traced a.v
    let old := l.1
    if old ≤ val then (some (old, a), l.2)
    else
      let c := arch.CasInt64AcqRel.traced a.v old val
      if c.1.1 then (some (old, { v := c.1.2 }), l.2 ++ c.2)
      else
        let r := Int64.Min.traced { v := c.1.2 } val fuel
        (r.1, l.2 ++ c.2 ++ r.2)

/-- `(*Uint64).Max` with its calls: `LoadUint64Relaxed`, then, unless `old >= val`,
`CasUint64AcqRel(&a.v, old, val)`, and the loop again when that fails. -/
def Uint64.Max.traced (a : Uint64) (val : Nat) : Nat → Option (Nat × Uint64) × List Call
  | 0 => (none, [])
  | fuel + 1 =>
    let l := arch.LoadUint64Relaxed.traced a.v
    let old := l.1
    if old ≥ val then (some (old, a), l.2)
    else
      let c := arch.CasUint64AcqRel.traced a.v old val
      if c.1.1 then (some (old, { v := c.1.2 }), l.2 ++ c.2)
      else
        let r := Uint64.Max.traced { v := c.1.2 } val fuel
        (r.1, l.2 ++ c.2 ++ r.2)

/-- `(*Uint64).Min` with its calls: `LoadUint64Relaxed`, then, unless `old <= val`,
`CasUint64AcqRel(&a.v, old, val)`, and the loop again when that fails. -/
def Uint64.Min.traced (a : Uint64) (val : Nat) : Nat → Option (Nat × Uint64) × List Call
  | 0 => (none, [])
  | fuel + 1 =>
    let l := arch.LoadUint64Relaxed.traced a.v
    let old := l.1
    if old ≤ val then (some (old, a), l.2)
    else
      let c := arch.CasUint64AcqRel.traced a.v old val
      if c.1.1 then (some (old, { v := c.1.2 }), l.2 ++ c.2)
      else
        let r := Uint64.Min.traced { v := c.1.2 } val fuel
        (r.1, l.2 ++ c.2 ++ r.2)

/-- `(*Uintptr).Max` with its calls: `LoadUintptrRelaxed`, then, unless `old >= val`,
`CasUintptrAcqRel(&a.v, old, val)`, and the loop again when that fails. -/
def Uintptr.Max.traced (a : Uintptr) (val : Nat) : Nat → Option (Nat × Uintptr) × List Call
  | 0 => (none, [])
  | fuel + 1 =>
    let l := arch.LoadUintptrRelaxed.traced a.v
    let old := l.1
    if old ≥ val then (some (old, a), l.2)
    else
      let c := arch.CasUintptrAcqRel.traced a.v old val
      if c.1.1 then (some (old, { v := c.1.2 }), l.2 ++ c.2)
      else
        let r := Uintptr.Max.traced { v := c.1.2 } val fuel
        (r.1, l.2 ++ c.2 ++ r.2)

/-- `(*Uintptr).Min` with its calls: `LoadUintptrRelaxed`, then, unless `old <= val`,
`CasUintptrAcqRel(&a.v, old, val)`, and the loop again when that fails. -/
def Uintptr.Min.traced (a : Uintptr) (val : Nat) : Nat → Option (Nat × Uintptr) × List Call
  | 0 => (none, [])
  | fuel + 1 =>
    let l := arch.LoadUintptrRelaxed.traced a.v
    let old := l.1
    if old ≤ val then (some (old, a), l.2)
    else
      let c := arch.CasUintptrAcqRel.traced a.v old val
      if c.1.1 then (some (old, { v := c.1.2 }), l.2 ++ c.2)
      else
        let r := Uintptr.Min.traced { v := c.1.2 } val fuel
        (r.1, l.2 ++ c.2 ++ r.2)

/-! ### The `MemoryOrder` dispatch on `int32` (`order_int32.go`) -/

/-- `MemoryOrder.LoadInt32` with its calls: `if o == Relaxed`, then the other return. -/
def MemoryOrder.LoadInt32.traced (o : MemoryOrder) (addr : Int) : Int × List Call :=
  if o = Relaxed then arch.LoadInt32Relaxed.traced addr
  else arch.LoadInt32Acquire.traced addr

/-- `MemoryOrder.StoreInt32` with its calls: `if o == Relaxed`, then the other call. -/
def MemoryOrder.StoreInt32.traced (o : MemoryOrder) (addr : Int) (val : Int) : Int × List Call :=
  if o = Relaxed then arch.StoreInt32Relaxed.traced addr val
  else arch.StoreInt32Release.traced addr val

/-- `MemoryOrder.SwapInt32` with its calls: the `switch o` with the cases `Relaxed`, `Acquire`,
`Release` and `default`. -/
def MemoryOrder.SwapInt32.traced (o : MemoryOrder) (addr : Int) (new : Int) :
    (Int × Int) × List Call :=
  if o = Relaxed then arch.SwapInt32Relaxed.traced addr new
  else if o = Acquire then arch.SwapInt32Acquire.traced addr new
  else if o = Release then arch.SwapInt32Release.traced addr new
  else arch.SwapInt32AcqRel.traced addr new

/-- `MemoryOrder.CompareAndSwapInt32` with its calls: the `switch o` with the cases `Relaxed`, `Acquire`,
`Release` and `default`. -/
def MemoryOrder.CompareAndSwapInt32.traced (o : MemoryOrder) (addr : Int) (old new : Int) :
    (Bool × Int) × List Call :=
  if o = Relaxed then arch.CasInt32Relaxed.traced addr old new
  else if o = Acquire then arch.CasInt32Acquire.traced addr old new
  else if o = Release then arch.CasInt32Release.traced addr old new
  else arch.CasInt32AcqRel.traced addr old new

/-- `MemoryOrder.CompareExchangeInt32` with its calls: the `switch o` with the cases `Relaxed`, `Acquire`,
`Release` and `default`. -/
def MemoryOrder.CompareExchangeInt32.traced (o : MemoryOrder) (addr : Int) (old new : Int) (fuel : Nat) :
    Option (Int × Int) × List Call :=
  if o = Relaxed then arch.CaxInt32Relaxed.traced addr old new fuel
  else if o = Acquire then arch.CaxInt32Acquire.traced addr old new fuel
  else if o = Release then arch.CaxInt32Release.traced addr old new fuel
  else arch.CaxInt32AcqRel.traced addr old new fuel

/-- `MemoryOrder.AddInt32` with its calls: the `switch o` with the cases `Relaxed`, `Acquire`,
`Release` and `default`. -/
def MemoryOrder.AddInt32.traced (o : MemoryOrder) (addr : Int) (delta : Int) :
    (Int × Int) × List Call :=
  if o = Relaxed then arch.AddInt32Relaxed.traced addr delta
  else if o = Acquire then arch.AddInt32Acquire.traced addr delta
  else if o = Release then arch.AddInt32Release.traced addr delta
  else arch.AddInt32AcqRel.traced addr delta

/-- `MemoryOrder.AndInt32` with its calls: the `switch o` with the cases `Relaxed`, `Acquire`,
`Release` and `default`. -/
def MemoryOrder.AndInt32.traced (o : MemoryOrder) (addr : Int) (mask : Int) (fuel : Nat) :
    Option (Int × Int) × List Call :=
  if o = Relaxed then arch.AndInt32Relaxed.traced addr mask fuel
  else if o = Acquire then arch.AndInt32Acquire.traced addr mask fuel
  else if o = Release then arch.AndInt32Release.traced addr mask fuel
  else arch.AndInt32AcqRel.traced addr mask fuel

/-- `MemoryOrder.OrInt32` with its calls: the `switch o` with the cases `Relaxed`, `Acquire`,
`Release` and `default`. -/
def MemoryOrder.OrInt32.traced (o : MemoryOrder) (addr : Int) (mask : Int) (fuel : Nat) :
    Option (Int × Int) × List Call :=
  if o = Relaxed then arch.OrInt32Relaxed.traced addr mask fuel
  else if o = Acquire then arch.OrInt32Acquire.traced addr mask fuel
  else if o = Release then arch.OrInt32Release.traced addr mask fuel
  else arch.OrInt32AcqRel.traced addr mask fuel

/-- `MemoryOrder.XorInt32` with its calls: the `switch o` with the cases `Relaxed`, `Acquire`,
`Release` and `default`. -/
def MemoryOrder.XorInt32.traced (o : MemoryOrder) (addr : Int) (mask : Int) (fuel : Nat) :
    Option (Int × Int) × List Call :=
  if o = Relaxed then arch.XorInt32Relaxed.traced addr mask fuel
  else if o = Acquire then arch.XorInt32Acquire.traced addr mask fuel
  else if o = Release then arch.XorInt32Release.traced addr mask fuel
  else arch.XorInt32AcqRel.traced addr mask fuel

/-! ### The 128-bit add and subtract loops (`uint128.go`, `int128.go`,
`order_uint128.go`, `order_int128.go`) -/

/-- `(*Uint128).Add` with its calls: in each iteration `LoadUint128Relaxed`, then
`CasUint128AcqRel` with the pair loaded and the pair computed. -/
def Uint128.Add.traced (a : Uint128) (deltaLo deltaHi : Nat) :
    Nat → Option ((Nat × Nat) × Uint128) × List Call
  | 0 => (none, [])
  | fuel + 1 =>
    let l := arch.LoadUint128Relaxed.traced a.v
    let (oldLo, oldHi) := l.1
    let newLo := addU64 oldLo deltaLo
    let newHi := addU64 oldHi deltaHi
    let newHi := if newLo < oldLo then addU64 newHi 1 else newHi
    let c := arch.CasUint128AcqRel.traced a.v oldLo oldHi newLo newHi
    if c.1.1 then (some ((newLo, newHi), { v := c.1.2 }), l.2 ++ c.2)
    else
      let r := Uint128.Add.traced { v := c.1.2 } deltaLo deltaHi fuel
      (r.1, l.2 ++ c.2 ++ r.2)

/-- `(*Uint128).AddRelaxed` with its calls: in each iteration `LoadUint128Relaxed`, then
`CasUint128Relaxed` with the pair loaded and the pair computed. -/
def Uint128.AddRelaxed.traced (a : Uint128) (deltaLo deltaHi : Nat) :
    Nat → Option ((Nat × Nat) × Uint128) × List Call
  | 0 => (none, [])
  | fuel + 1 =>
    let l := arch.LoadUint128Relaxed.traced a.v
    let (oldLo, oldHi) := l.1
    let newLo := addU64 oldLo deltaLo
    let newHi := addU64 oldHi deltaHi
    let newHi := if newLo < oldLo then addU64 newHi 1 else newHi
    let c := arch.CasUint128Relaxed.traced a.v oldLo oldHi newLo newHi
    if c.1.1 then (some ((newLo, newHi), { v := c.1.2 }), l.2 ++ c.2)
    else
      let r := Uint128.AddRelaxed.traced { v := c.1.2 } deltaLo deltaHi fuel
      (r.1, l.2 ++ c.2 ++ r.2)

/-- `(*Uint128).Sub` with its calls: in each iteration `LoadUint128Relaxed`, then
`CasUint128AcqRel` with the pair loaded and the pair computed. -/
def Uint128.Sub.traced (a : Uint128) (deltaLo deltaHi : Nat) :
    Nat → Option ((Nat × Nat) × Uint128) × List Call
  | 0 => (none, [])
  | fuel + 1 =>
    let l := arch.LoadUint128Relaxed.traced a.v
    let (oldLo, oldHi) := l.1
    let newLo := subU64 oldLo deltaLo
    let newHi := subU64 oldHi deltaHi
    let newHi := if newLo > oldLo then subU64 newHi 1 else newHi
    let c := arch.CasUint128AcqRel.traced a.v oldLo oldHi newLo newHi
    if c.1.1 then (some ((newLo, newHi), { v := c.1.2 }), l.2 ++ c.2)
    else
      let r := Uint128.Sub.traced { v := c.1.2 } deltaLo deltaHi fuel
      (r.1, l.2 ++ c.2 ++ r.2)

/-- `(*Uint128).SubRelaxed` with its calls: in each iteration `LoadUint128Relaxed`, then
`CasUint128Relaxed` with the pair loaded and the pair computed. -/
def Uint128.SubRelaxed.traced (a : Uint128) (deltaLo deltaHi : Nat) :
    Nat → Option ((Nat × Nat) × Uint128) × List Call
  | 0 => (none, [])
  | fuel + 1 =>
    let l := arch.LoadUint128Relaxed.traced a.v
    let (oldLo, oldHi) := l.1
    let newLo := subU64 oldLo deltaLo
    let newHi := subU64 oldHi deltaHi
    let newHi := if newLo > oldLo then subU64 newHi 1 else newHi
    let c := arch.CasUint128Relaxed.traced a.v oldLo oldHi newLo newHi
    if c.1.1 then (some ((newLo, newHi), { v := c.1.2 }), l.2 ++ c.2)
    else
      let r := Uint128.SubRelaxed.traced { v := c.1.2 } deltaLo deltaHi fuel
      (r.1, l.2 ++ c.2 ++ r.2)

/-- `(*Uint128).Inc` with its calls: `a.Add(1, 0)`. -/
def Uint128.Inc.traced (a : Uint128) (fuel : Nat) : Option ((Nat × Nat) × Uint128) × List Call :=
  Uint128.Add.traced a 1 0 fuel

/-- `(*Uint128).IncRelaxed` with its calls: `a.AddRelaxed(1, 0)`. -/
def Uint128.IncRelaxed.traced (a : Uint128) (fuel : Nat) : Option ((Nat × Nat) × Uint128) × List Call :=
  Uint128.AddRelaxed.traced a 1 0 fuel

/-- `(*Uint128).Dec` with its calls: `a.Sub(1, 0)`. -/
def Uint128.Dec.traced (a : Uint128) (fuel : Nat) : Option ((Nat × Nat) × Uint128) × List Call :=
  Uint128.Sub.traced a 1 0 fuel

/-- `(*Uint128).DecRelaxed` with its calls: `a.SubRelaxed(1, 0)`. -/
def Uint128.DecRelaxed.traced (a : Uint128) (fuel : Nat) : Option ((Nat × Nat) × Uint128) × List Call :=
  Uint128.SubRelaxed.traced a 1 0 fuel

/-- `(*Int128).Add` with its calls: in each iteration `LoadUint128Relaxed`, then
`CasUint128AcqRel` with the pair loaded and the pair computed. -/
def Int128.Add.traced (a : Int128) (deltaLo deltaHi : Int) :
    Nat → Option ((Int × Int) × Int128) × List Call
  | 0 => (none, [])
  | fuel + 1 =>
    let l := arch.LoadUint128Relaxed.traced a.v
    let (ulo, uhi) := l.1
    let newLo := addU64 ulo (toU64 deltaLo)
    let newHi := addU64 uhi (toU64 deltaHi)
    let newHi := if newLo < ulo then addU64 newHi 1 else newHi
    let c := arch.CasUint128AcqRel.traced a.v ulo uhi newLo newHi
    if c.1.1 then (some ((toI64 newLo, toI64 newHi), { v := c.1.2 }), l.2 ++ c.2)
    else
      let r := Int128.Add.traced { v := c.1.2 } deltaLo deltaHi fuel
      (r.1, l.2 ++ c.2 ++ r.2)

/-- `(*Int128).AddRelaxed` with its calls: in each iteration `LoadUint128Relaxed`, then
`CasUint128Relaxed` with the pair loaded and the pair computed. -/
def Int128.AddRelaxed.traced (a : Int128) (deltaLo deltaHi : Int) :
    Nat → Option ((Int × Int) × Int128) × List Call
  | 0 => (none, [])
  | fuel + 1 =>
    let l := arch.LoadUint128Relaxed.traced a.v
    let (ulo, uhi) := l.1
    let newLo := addU64 ulo (toU64 deltaLo)
    let newHi := addU64 uhi (toU64 deltaHi)
    let newHi := if newLo < ulo then addU64 newHi 1 else newHi
    let c := arch.CasUint128Relaxed.traced a.v ulo uhi newLo newHi
    if c.1.1 then (some ((toI64 newLo, toI64 newHi), { v := c.1.2 }), l.2 ++ c.2)
    else
      let r := Int128.AddRelaxed.traced { v := c.1.2 } deltaLo deltaHi fuel
      (r.1, l.2 ++ c.2 ++ r.2)

/-- `(*Int128).Sub` with its calls: in each iteration `LoadUint128Relaxed`, then
`CasUint128AcqRel` with the pair loaded and the pair computed. -/
def Int128.Sub.traced (a : Int128) (deltaLo deltaHi : Int) :
    Nat → Option ((Int × Int) × Int128) × List Call
  | 0 => (none, [])
  | fuel + 1 =>
    let l := arch.LoadUint128Relaxed.traced a.v
    let (ulo, uhi) := l.1
    let newLo := subU64 ulo (toU64 deltaLo)
    let newHi := subU64 uhi (toU64 deltaHi)
    let newHi := if newLo > ulo then subU64 newHi 1 else newHi
    let c := arch.CasUint128AcqRel.traced a.v ulo uhi newLo newHi
    if c.1.1 then (some ((toI64 newLo, toI64 newHi), { v := c.1.2 }), l.2 ++ c.2)
    else
      let r := Int128.Sub.traced { v := c.1.2 } deltaLo deltaHi fuel
      (r.1, l.2 ++ c.2 ++ r.2)

/-- `(*Int128).SubRelaxed` with its calls: in each iteration `LoadUint128Relaxed`, then
`CasUint128Relaxed` with the pair loaded and the pair computed. -/
def Int128.SubRelaxed.traced (a : Int128) (deltaLo deltaHi : Int) :
    Nat → Option ((Int × Int) × Int128) × List Call
  | 0 => (none, [])
  | fuel + 1 =>
    let l := arch.LoadUint128Relaxed.traced a.v
    let (ulo, uhi) := l.1
    let newLo := subU64 ulo (toU64 deltaLo)
    let newHi := subU64 uhi (toU64 deltaHi)
    let newHi := if newLo > ulo then subU64 newHi 1 else newHi
    let c := arch.CasUint128Relaxed.traced a.v ulo uhi newLo newHi
    if c.1.1 then (some ((toI64 newLo, toI64 newHi), { v := c.1.2 }), l.2 ++ c.2)
    else
      let r := Int128.SubRelaxed.traced { v := c.1.2 } deltaLo deltaHi fuel
      (r.1, l.2 ++ c.2 ++ r.2)

/-- `(*Int128).Inc` with its calls: `a.Add(1, 0)`. -/
def Int128.Inc.traced (a : Int128) (fuel : Nat) : Option ((Int × Int) × Int128) × List Call :=
  Int128.Add.traced a 1 0 fuel

/-- `(*Int128).IncRelaxed` with its calls: `a.AddRelaxed(1, 0)`. -/
def Int128.IncRelaxed.traced (a : Int128) (fuel : Nat) : Option ((Int × Int) × Int128) × List Call :=
  Int128.AddRelaxed.traced a 1 0 fuel

/-- `(*Int128).Dec` with its calls: `a.Sub(1, 0)`. -/
def Int128.Dec.traced (a : Int128) (fuel : Nat) : Option ((Int × Int) × Int128) × List Call :=
  Int128.Sub.traced a 1 0 fuel

/-- `(*Int128).DecRelaxed` with its calls: `a.SubRelaxed(1, 0)`. -/
def Int128.DecRelaxed.traced (a : Int128) (fuel : Nat) : Option ((Int × Int) × Int128) × List Call :=
  Int128.SubRelaxed.traced a 1 0 fuel

/-- The first loop of `MemoryOrder.AddUint128`, taken when `o == Relaxed`, with its calls:
`LoadUint128Relaxed`, then `CasUint128Relaxed`. -/
def MemoryOrder.AddUint128.loopRelaxed.traced (addr : Uint128) (deltaLo deltaHi : Nat) :
    Nat → Option ((Nat × Nat) × Uint128) × List Call
  | 0 => (none, [])
  | fuel + 1 =>
    let l := arch.LoadUint128Relaxed.traced addr.v
    let (ulo, uhi) := l.1
    let newLo := addU64 ulo deltaLo
    let newHi := addU64 uhi deltaHi
    let newHi := if newLo < ulo then addU64 newHi 1 else newHi
    let c := arch.CasUint128Relaxed.traced addr.v ulo uhi newLo newHi
    if c.1.1 then (some ((ulo, uhi), { v := c.1.2 }), l.2 ++ c.2)
    else
      let r := MemoryOrder.AddUint128.loopRelaxed.traced { v := c.1.2 } deltaLo deltaHi fuel
      (r.1, l.2 ++ c.2 ++ r.2)

/-- The second loop of `MemoryOrder.AddUint128`, taken for every other ordering, with its calls:
`LoadUint128Relaxed`, then `CasUint128AcqRel`. -/
def MemoryOrder.AddUint128.loopAcqRel.traced (addr : Uint128) (deltaLo deltaHi : Nat) :
    Nat → Option ((Nat × Nat) × Uint128) × List Call
  | 0 => (none, [])
  | fuel + 1 =>
    let l := arch.LoadUint128Relaxed.traced addr.v
    let (ulo, uhi) := l.1
    let newLo := addU64 ulo deltaLo
    let newHi := addU64 uhi deltaHi
    let newHi := if newLo < ulo then addU64 newHi 1 else newHi
    let c := arch.CasUint128AcqRel.traced addr.v ulo uhi newLo newHi
    if c.1.1 then (some ((ulo, uhi), { v := c.1.2 }), l.2 ++ c.2)
    else
      let r := MemoryOrder.AddUint128.loopAcqRel.traced { v := c.1.2 } deltaLo deltaHi fuel
      (r.1, l.2 ++ c.2 ++ r.2)

/-- `MemoryOrder.AddUint128` with its calls: the first loop `if o == Relaxed`, the second
loop otherwise. -/
def MemoryOrder.AddUint128.traced (o : MemoryOrder) (addr : Uint128) (deltaLo deltaHi : Nat)
    (fuel : Nat) : Option ((Nat × Nat) × Uint128) × List Call :=
  if o = Relaxed then MemoryOrder.AddUint128.loopRelaxed.traced addr deltaLo deltaHi fuel
  else MemoryOrder.AddUint128.loopAcqRel.traced addr deltaLo deltaHi fuel

/-- The first loop of `MemoryOrder.AddInt128`, taken when `o == Relaxed`, with its calls:
`LoadUint128Relaxed`, then `CasUint128Relaxed`. -/
def MemoryOrder.AddInt128.loopRelaxed.traced (addr : Int128) (deltaLo deltaHi : Int) :
    Nat → Option ((Int × Int) × Int128) × List Call
  | 0 => (none, [])
  | fuel + 1 =>
    let l := arch.LoadUint128Relaxed.traced addr.v
    let (ulo, uhi) := l.1
    let newLo := addU64 ulo (toU64 deltaLo)
    let newHi := addU64 uhi (toU64 deltaHi)
    let newHi := if newLo < ulo then addU64 newHi 1 else newHi
    let c := arch.CasUint128Relaxed.traced addr.v ulo uhi newLo newHi
    if c.1.1 then (some ((toI64 ulo, toI64 uhi), { v := c.1.2 }), l.2 ++ c.2)
    else
      let r := MemoryOrder.AddInt128.loopRelaxed.traced { v := c.1.2 } deltaLo deltaHi fuel
      (r.1, l.2 ++ c.2 ++ r.2)

/-- The second loop of `MemoryOrder.AddInt128`, taken for every other ordering, with its calls:
`LoadUint128Relaxed`, then `CasUint128AcqRel`. -/
def MemoryOrder.AddInt128.loopAcqRel.traced (addr : Int128) (deltaLo deltaHi : Int) :
    Nat → Option ((Int × Int) × Int128) × List Call
  | 0 => (none, [])
  | fuel + 1 =>
    let l := arch.LoadUint128Relaxed.traced addr.v
    let (ulo, uhi) := l.1
    let newLo := addU64 ulo (toU64 deltaLo)
    let newHi := addU64 uhi (toU64 deltaHi)
    let newHi := if newLo < ulo then addU64 newHi 1 else newHi
    let c := arch.CasUint128AcqRel.traced addr.v ulo uhi newLo newHi
    if c.1.1 then (some ((toI64 ulo, toI64 uhi), { v := c.1.2 }), l.2 ++ c.2)
    else
      let r := MemoryOrder.AddInt128.loopAcqRel.traced { v := c.1.2 } deltaLo deltaHi fuel
      (r.1, l.2 ++ c.2 ++ r.2)

/-- `MemoryOrder.AddInt128` with its calls: the first loop `if o == Relaxed`, the second
loop otherwise. -/
def MemoryOrder.AddInt128.traced (o : MemoryOrder) (addr : Int128) (deltaLo deltaHi : Int)
    (fuel : Nat) : Option ((Int × Int) × Int128) × List Call :=
  if o = Relaxed then MemoryOrder.AddInt128.loopRelaxed.traced addr deltaLo deltaHi fuel
  else MemoryOrder.AddInt128.loopAcqRel.traced addr deltaLo deltaHi fuel

/-! # Theorems -/

set_option maxRecDepth 8000

/-! ## Word arithmetic -/

theorem addU64_lt (a b : Nat) : addU64 a b < 2 ^ 64 := by
  unfold addU64; omega

theorem subU64_lt (a b : Nat) : subU64 a b < 2 ^ 64 := by
  unfold subU64; omega

theorem subU64_gt_left_iff (a b : Nat) (ha : a < 2 ^ 64) (hb : b < 2 ^ 64) :
    subU64 a b > a ↔ a < b := by
  unfold subU64; omega

theorem toU64_lt (x : Int) : toU64 x < 2 ^ 64 := by
  unfold toU64; omega

theorem toU64_toI64 (n : Nat) : toU64 (toI64 n) = n % 2 ^ 64 := by
  unfold toU64 toI64; split <;> omega

theorem toI64_toU64 (x : Int) (h : IsI64 x) : toI64 (toU64 x) = x := by
  unfold IsI64 at h
  unfold toU64 toI64; split <;> omega

/-- The two words computed by the 128-bit addition loops hold the sum modulo `2^128`. -/
theorem add128_words (oldLo oldHi deltaLo deltaHi : Nat)
    (h1 : oldLo < 2 ^ 64) (h3 : deltaLo < 2 ^ 64) :
    addU64 oldLo deltaLo
      + 2 ^ 64 * (if addU64 oldLo deltaLo < oldLo then addU64 (addU64 oldHi deltaHi) 1
          else addU64 oldHi deltaHi)
      = (oldLo + 2 ^ 64 * oldHi + deltaLo + 2 ^ 64 * deltaHi) % 2 ^ 128 := by
  unfold addU64
  split <;> omega

/-- The two words computed by the 128-bit subtraction loops hold the difference modulo
`2^128`. -/
theorem sub128_words (oldLo oldHi deltaLo deltaHi : Nat)
    (h1 : oldLo < 2 ^ 64) (h3 : deltaLo < 2 ^ 64) :
    ((subU64 oldLo deltaLo
      + 2 ^ 64 * (if subU64 oldLo deltaLo > oldLo then subU64 (subU64 oldHi deltaHi) 1
          else subU64 oldHi deltaHi) : Nat) : Int)
      = ((oldLo : Int) + 2 ^ 64 * oldHi - deltaLo - 2 ^ 64 * deltaHi) % 2 ^ 128 := by
  unfold subU64
  split <;> omega

/-! ## The 128-bit retry loops succeed at their first iteration -/

theorem cas128_self (v : Bytes16) (newLo newHi : Nat) :
    arch.CasUint128Relaxed v v.lo v.hi newLo newHi = (true, { lo := newLo, hi := newHi }) := by
  simp [arch.CasUint128Relaxed]

theorem Uint128_Add_step (a : Uint128) (deltaLo deltaHi fuel : Nat) :
    Uint128.Add a deltaLo deltaHi (fuel + 1) =
      some ((addU64 a.v.lo deltaLo,
              if addU64 a.v.lo deltaLo < a.v.lo then addU64 (addU64 a.v.hi deltaHi) 1
              else addU64 a.v.hi deltaHi),
            { v := { lo := addU64 a.v.lo deltaLo,
                     hi := if addU64 a.v.lo deltaLo < a.v.lo
                           then addU64 (addU64 a.v.hi deltaHi) 1
                           else addU64 a.v.hi deltaHi } }) := by
  simp [Uint128.Add, arch.LoadUint128Relaxed, arch.CasUint128AcqRel, cas128_self]

theorem Uint128_Sub_step (a : Uint128) (deltaLo deltaHi fuel : Nat) :
    Uint128.Sub a deltaLo deltaHi (fuel + 1) =
      some ((subU64 a.v.lo deltaLo,
              if subU64 a.v.lo deltaLo > a.v.lo then subU64 (subU64 a.v.hi deltaHi) 1
              else subU64 a.v.hi deltaHi),
            { v := { lo := subU64 a.v.lo deltaLo,
                     hi := if subU64 a.v.lo deltaLo > a.v.lo
                           then subU64 (subU64 a.v.hi deltaHi) 1
                           else subU64 a.v.hi deltaHi } }) := by
  simp [Uint128.Sub, arch.LoadUint128Relaxed, arch.CasUint128AcqRel, cas128_self]

/-! ## The retry loops on one word succeed at their first iteration -/

theorem arch_CaxInt32Relaxed_step (addr old new : Int) (fuel : Nat) :
    arch.CaxInt32Relaxed addr old new (fuel + 1) =
      some (addr, if addr = old then new else addr) := by
  by_cases h : addr = old <;>
    simp [arch.CaxInt32Relaxed, atomic.LoadInt32, atomic.CompareAndSwapInt32, h]

theorem arch_AndInt32Relaxed_step (addr mask : Int) (fuel : Nat) :
    arch.AndInt32Relaxed addr mask (fuel + 1) = some (addr, andI32 addr mask) := by
  simp [arch.AndInt32Relaxed, atomic.LoadInt32, atomic.CompareAndSwapInt32]

theorem arch_OrInt32Relaxed_step (addr mask : Int) (fuel : Nat) :
    arch.OrInt32Relaxed addr mask (fuel + 1) = some (addr, orI32 addr mask) := by
  simp [arch.OrInt32Relaxed, atomic.LoadInt32, atomic.CompareAndSwapInt32]

theorem arch_XorInt32Relaxed_step (addr mask : Int) (fuel : Nat) :
    arch.XorInt32Relaxed addr mask (fuel + 1) = some (addr, xorI32 addr mask) := by
  simp [arch.XorInt32Relaxed, atomic.LoadInt32, atomic.CompareAndSwapInt32]

theorem Int32_Max_step (a : Int32) (val : Int) (fuel : Nat) :
    Int32.Max a val (fuel + 1) = some (a.v, if a.v ≥ val then a else ⟨val⟩) := by
  by_cases h : a.v ≥ val <;>
    simp [Int32.Max, arch.LoadInt32Relaxed, arch.CasInt32AcqRel, atomic.LoadInt32,
      atomic.CompareAndSwapInt32, h]

theorem MemoryOrder_MaxInt32_loopRelaxed_step (addr val : Int) (fuel : Nat) :
    MemoryOrder.MaxInt32.loopRelaxed addr val (fuel + 1) =
      some (addr, if addr ≥ val then addr else val) := by
  by_cases h : addr ≥ val <;>
    simp [MemoryOrder.MaxInt32.loopRelaxed, arch.LoadInt32Relaxed, arch.CasInt32Relaxed, atomic.LoadInt32,
      atomic.CompareAndSwapInt32, h]

theorem MemoryOrder_MaxInt32_loopAcqRel_step (addr val : Int) (fuel : Nat) :
    MemoryOrder.MaxInt32.loopAcqRel addr val (fuel + 1) =
      some (addr, if addr ≥ val then addr else val) := by
  by_cases h : addr ≥ val <;>
    simp [MemoryOrder.MaxInt32.loopAcqRel, arch.LoadInt32Relaxed, arch.CasInt32AcqRel, atomic.LoadInt32,
      atomic.CompareAndSwapInt32, h]

theorem MemoryOrder_MaxInt32_step (o : MemoryOrder) (addr val : Int) (fuel : Nat) :
    o.MaxInt32 addr val (fuel + 1) = some (addr, if addr ≥ val then addr else val) := by
  unfold MemoryOrder.MaxInt32
  split
  · exact MemoryOrder_MaxInt32_loopRelaxed_step addr val fuel
  · exact MemoryOrder_MaxInt32_loopAcqRel_step addr val fuel

theorem Int32_Min_step (a : Int32) (val : Int) (fuel : Nat) :
    Int32.Min a val (fuel + 1) = some (a.v, if a.v ≤ val then a else ⟨val⟩) := by
  by_cases h : a.v ≤ val <;>
    simp [Int32.Min, arch.LoadInt32Relaxed, arch.CasInt32AcqRel, atomic.LoadInt32,
      atomic.CompareAndSwapInt32, h]

theorem MemoryOrder_MinInt32_loopRelaxed_step (addr val : Int) (fuel : Nat) :
    MemoryOrder.MinInt32.loopRelaxed addr val (fuel + 1) =
      some (addr, if addr ≤ val then addr else val) := by
  by_cases h : addr ≤ val <;>
    simp [MemoryOrder.MinInt32.loopRelaxed, arch.LoadInt32Relaxed, arch.CasInt32Relaxed, atomic.LoadInt32,
      atomic.CompareAndSwapInt32, h]

theorem MemoryOrder_MinInt32_loopAcqRel_step (addr val : Int) (fuel : Nat) :
    MemoryOrder.MinInt32.loopAcqRel addr val (fuel + 1) =
      some (addr, if addr ≤ val then addr else val) := by
  by_cases h : addr ≤ val <;>
    simp [MemoryOrder.MinInt32.loopAcqRel, arch.LoadInt32Relaxed, arch.CasInt32AcqRel, atomic.LoadInt32,
      atomic.CompareAndSwapInt32, h]

theorem MemoryOrder_MinInt32_step (o : MemoryOrder) (addr val : Int) (fuel : Nat) :
    o.MinInt32 addr val (fuel + 1) = some (addr, if addr ≤ val then addr else val) := by
  unfold MemoryOrder.MinInt32
  split
  · exact MemoryOrder_MinInt32_loopRelaxed_step addr val fuel
  · exact MemoryOrder_MinInt32_loopAcqRel_step addr val fuel

theorem MemoryOrder_AndInt32_step (o : MemoryOrder) (addr mask : Int) (fuel : Nat) :
    o.AndInt32 addr mask (fuel + 1) = some (addr, andI32 addr mask) := by
  unfold MemoryOrder.AndInt32 arch.AndInt32Acquire arch.AndInt32Release arch.AndInt32AcqRel
  simp only [arch_AndInt32Relaxed_step, ite_self]

theorem Int32_And_step (a : Int32) (mask : Int) (fuel : Nat) :
    Int32.And a mask (fuel + 1) = some (a.v, ⟨andI32 a.v mask⟩) := by
  simp [Int32.And, arch.AndInt32AcqRel, arch_AndInt32Relaxed_step]

theorem MemoryOrder_OrInt32_step (o : MemoryOrder) (addr mask : Int) (fuel : Nat) :
    o.OrInt32 addr mask (fuel + 1) = some (addr, orI32 addr mask) := by
  unfold MemoryOrder.OrInt32 arch.OrInt32Acquire arch.OrInt32Release arch.OrInt32AcqRel
  simp only [arch_OrInt32Relaxed_step, ite_self]

theorem Int32_Or_step (a : Int32) (mask : Int) (fuel : Nat) :
    Int32.Or a mask (fuel + 1) = some (a.v, ⟨orI32 a.v mask⟩) := by
  simp [Int32.Or, arch.OrInt32AcqRel, arch_OrInt32Relaxed_step]

theorem MemoryOrder_XorInt32_step (o : MemoryOrder) (addr mask : Int) (fuel : Nat) :
    o.XorInt32 addr mask (fuel + 1) = some (addr, xorI32 addr mask) := by
  unfold MemoryOrder.XorInt32 arch.XorInt32Acquire arch.XorInt32Release arch.XorInt32AcqRel
  simp only [arch_XorInt32Relaxed_step, ite_self]

theorem Int32_Xor_step (a : Int32) (mask : Int) (fuel : Nat) :
    Int32.Xor a mask (fuel + 1) = some (a.v, ⟨xorI32 a.v mask⟩) := by
  simp [Int32.Xor, arch.XorInt32AcqRel, arch_XorInt32Relaxed_step]

theorem Int32_CompareExchange_step (a : Int32) (old new : Int) (fuel : Nat) :
    Int32.CompareExchange a old new (fuel + 1) =
      some (a.v, ⟨if a.v = old then new else a.v⟩) := by
  simp [Int32.CompareExchange, arch.CaxInt32AcqRel, arch_CaxInt32Relaxed_step]

theorem MemoryOrder_SwapInt32_eq (o : MemoryOrder) (addr new : Int) :
    o.SwapInt32 addr new = (addr, new) := by
  unfold MemoryOrder.SwapInt32 arch.SwapInt32Relaxed arch.SwapInt32Acquire arch.SwapInt32Release
    arch.SwapInt32AcqRel atomic.SwapInt32
  simp only [ite_self]

theorem MemoryOrder_AddInt32_eq (o : MemoryOrder) (addr delta : Int) :
    o.AddInt32 addr delta = atomic.AddInt32 addr delta := by
  unfold MemoryOrder.AddInt32 arch.AddInt32Relaxed arch.AddInt32Acquire arch.AddInt32Release
    arch.AddInt32AcqRel
  simp only [ite_self]

theorem MemoryOrder_LoadInt32_eq (o : MemoryOrder) (addr : Int) :
    o.LoadInt32 addr = addr := by
  unfold MemoryOrder.LoadInt32 arch.LoadInt32Relaxed arch.LoadInt32Acquire atomic.LoadInt32
  simp only [ite_self]

theorem arch_CaxUint32Relaxed_step (addr old new : Nat) (fuel : Nat) :
    arch.CaxUint32Relaxed addr old new (fuel + 1) =
      some (addr, if addr = old then new else addr) := by
  by_cases h : addr = old <;>
    simp [arch.CaxUint32Relaxed, atomic.LoadUint32, atomic.CompareAndSwapUint32, h]

theorem arch_AndUint32Relaxed_step (addr mask : Nat) (fuel : Nat) :
    arch.AndUint32Relaxed addr mask (fuel + 1) = some (addr, andU32 addr mask) := by
  simp [arch.AndUint32Relaxed, atomic.LoadUint32, atomic.CompareAndSwapUint32]

theorem arch_OrUint32Relaxed_step (addr mask : Nat) (fuel : Nat) :
    arch.OrUint32Relaxed addr mask (fuel + 1) = some (addr, orU32 addr mask) := by
  simp [arch.OrUint32Relaxed, atomic.LoadUint32, atomic.CompareAndSwapUint32]

theorem arch_XorUint32Relaxed_step (addr mask : Nat) (fuel : Nat) :
    arch.XorUint32Relaxed addr mask (fuel + 1) = some (addr, xorU32 addr mask) := by
  simp [arch.XorUint32Relaxed, atomic.LoadUint32, atomic.CompareAndSwapUint32]

theorem Uint32_Max_step (a : Uint32) (val : Nat) (fuel : Nat) :
    Uint32.Max a val (fuel + 1) = some (a.v, if a.v ≥ val then a else ⟨val⟩) := by
  by_cases h : a.v ≥ val <;>
    simp [Uint32.Max, arch.LoadUint32Relaxed, arch.CasUint32AcqRel, atomic.LoadUint32,
      atomic.CompareAndSwapUint32, h]

theorem MemoryOrder_MaxUint32_loopRelaxed_step (addr val : Nat) (fuel : Nat) :
    MemoryOrder.MaxUint32.loopRelaxed addr val (fuel + 1) =
      some (addr, if addr ≥ val then addr else val) := by
  by_cases h : addr ≥ val <;>
    simp [MemoryOrder.MaxUint32.loopRelaxed, arch.LoadUint32Relaxed, arch.CasUint32Relaxed, atomic.LoadUint32,
      atomic.CompareAndSwapUint32, h]

theorem MemoryOrder_MaxUint32_loopAcqRel_step (addr val : Nat) (fuel : Nat) :
    MemoryOrder.MaxUint32.loopAcqRel addr val (fuel + 1) =
      some (addr, if addr ≥ val then addr else val) := by
  by_cases h : addr ≥ val <;>
    simp [MemoryOrder.MaxUint32.loopAcqRel, arch.LoadUint32Relaxed, arch.CasUint32AcqRel, atomic.LoadUint32,
      atomic.CompareAndSwapUint32, h]

theorem MemoryOrder_MaxUint32_step (o : MemoryOrder) (addr val : Nat) (fuel : Nat) :
    o.MaxUint32 addr val (fuel + 1) = some (addr, if addr ≥ val then addr else val) := by
  unfold MemoryOrder.MaxUint32
  split
  · exact MemoryOrder_MaxUint32_loopRelaxed_step addr val fuel
  · exact MemoryOrder_MaxUint32_loopAcqRel_step addr val fuel

theorem Uint32_Min_step (a : Uint32) (val : Nat) (fuel : Nat) :
    Uint32.Min a val (fuel + 1) = some (a.v, if a.v ≤ val then a else ⟨val⟩) := by
  by_cases h : a.v ≤ val <;>
    simp [Uint32.Min, arch.LoadUint32Relaxed, arch.CasUint32AcqRel, atomic.LoadUint32,
      atomic.CompareAndSwapUint32, h]

theorem MemoryOrder_MinUint32_loopRelaxed_step (addr val : Nat) (fuel : Nat) :
    MemoryOrder.MinUint32.loopRelaxed addr val (fuel + 1) =
      some (addr, if addr ≤ val then addr else val) := by
  by_cases h : addr ≤ val <;>
    simp [MemoryOrder.MinUint32.loopRelaxed, arch.LoadUint32Relaxed, arch.CasUint32Relaxed, atomic.LoadUint32,
      atomic.CompareAndSwapUint32, h]

theorem MemoryOrder_MinUint32_loopAcqRel_step (addr val : Nat) (fuel : Nat) :
    MemoryOrder.MinUint32.loopAcqRel addr val (fuel + 1) =
      some (addr, if addr ≤ val then addr else val) := by
  by_cases h : addr ≤ val <;>
    simp [MemoryOrder.MinUint32.loopAcqRel, arch.LoadUint32Relaxed, arch.CasUint32AcqRel, atomic.LoadUint32,
      atomic.CompareAndSwapUint32, h]

theorem MemoryOrder_MinUint32_step (o : MemoryOrder) (addr val : Nat) (fuel : Nat) :
    o.MinUint32 addr val (fuel + 1) = some (addr, if addr ≤ val then addr else val) := by
  unfold MemoryOrder.MinUint32
  split
  · exact MemoryOrder_MinUint32_loopRelaxed_step addr val fuel
  · exact MemoryOrder_MinUint32_loopAcqRel_step addr val fuel

theorem MemoryOrder_AndUint32_step (o : MemoryOrder) (addr mask : Nat) (fuel : Nat) :
    o.AndUint32 addr mask (fuel + 1) = some (addr, andU32 addr mask) := by
  unfold MemoryOrder.AndUint32 arch.AndUint32Acquire arch.AndUint32Release arch.AndUint32AcqRel
  simp only [arch_AndUint32Relaxed_step, ite_self]

theorem Uint32_And_step (a : Uint32) (mask : Nat) (fuel : Nat) :
    Uint32.And a mask (fuel + 1) = some (a.v, ⟨andU32 a.v mask⟩) := by
  simp [Uint32.And, arch.AndUint32AcqRel, arch_AndUint32Relaxed_step]

theorem MemoryOrder_OrUint32_step (o : MemoryOrder) (addr mask : Nat) (fuel : Nat) :
    o.OrUint32 addr mask (fuel + 1) = some (addr, orU32 addr mask) := by
  unfold MemoryOrder.OrUint32 arch.OrUint32Acquire arch.OrUint32Release arch.OrUint32AcqRel
  simp only [arch_OrUint32Relaxed_step, ite_self]

theorem Uint32_Or_step (a : Uint32) (mask : Nat) (fuel : Nat) :
    Uint32.Or a mask (fuel + 1) = some (a.v, ⟨orU32 a.v mask⟩) := by
  simp [Uint32.Or, arch.OrUint32AcqRel, arch_OrUint32Relaxed_step]

theorem MemoryOrder_XorUint32_step (o : MemoryOrder) (addr mask : Nat) (fuel : Nat) :
    o.XorUint32 addr mask (fuel + 1) = some (addr, xorU32 addr mask) := by
  unfold MemoryOrder.XorUint32 arch.XorUint32Acquire arch.XorUint32Release arch.XorUint32AcqRel
  simp only [arch_XorUint32Relaxed_step, ite_self]

theorem Uint32_Xor_step (a : Uint32) (mask : Nat) (fuel : Nat) :
    Uint32.Xor a mask (fuel + 1) = some (a.v, ⟨xorU32 a.v mask⟩) := by
  simp [Uint32.Xor, arch.XorUint32AcqRel, arch_XorUint32Relaxed_step]

theorem Uint32_CompareExchange_step (a : Uint32) (old new : Nat) (fuel : Nat) :
    Uint32.CompareExchange a old new (fuel + 1) =
      some (a.v, ⟨if a.v = old then new else a.v⟩) := by
  simp [Uint32.CompareExchange, arch.CaxUint32AcqRel, arch_CaxUint32Relaxed_step]

theorem MemoryOrder_SwapUint32_eq (o : MemoryOrder) (addr new : Nat) :
    o.SwapUint32 addr new = (addr, new) := by
  unfold MemoryOrder.SwapUint32 arch.SwapUint32Relaxed arch.SwapUint32Acquire arch.SwapUint32Release
    arch.SwapUint32AcqRel atomic.SwapUint32
  simp only [ite_self]

theorem MemoryOrder_AddUint32_eq (o : MemoryOrder) (addr delta : Nat) :
    o.AddUint32 addr delta = atomic.AddUint32 addr delta := by
  unfold MemoryOrder.AddUint32 arch.AddUint32Relaxed arch.AddUint32Acquire arch.AddUint32Release
    arch.AddUint32AcqRel
  simp only [ite_self]

theorem MemoryOrder_LoadUint32_eq (o : MemoryOrder) (addr : Nat) :
    o.LoadUint32 addr = addr := by
  unfold MemoryOrder.LoadUint32 arch.LoadUint32Relaxed arch.LoadUint32Acquire atomic.LoadUint32
  simp only [ite_self]

theorem arch_CaxInt64Relaxed_step (addr old new : Int) (fuel : Nat) :
    arch.CaxInt64Relaxed addr old new (fuel + 1) =
      some (addr, if addr = old then new else addr) := by
  by_cases h : addr = old <;>
    simp [arch.CaxInt64Relaxed, atomic.LoadInt64, atomic.CompareAndSwapInt64, h]

theorem arch_AndInt64Relaxed_step (addr mask : Int) (fuel : Nat) :
    arch.AndInt64Relaxed addr mask (fuel + 1) = some (addr, andI64 addr mask) := by
  simp [arch.AndInt64Relaxed, atomic.LoadInt64, atomic.CompareAndSwapInt64]

theorem arch_OrInt64Relaxed_step (addr mask : Int) (fuel : Nat) :
    arch.OrInt64Relaxed addr mask (fuel + 1) = some (addr, orI64 addr mask) := by
  simp [arch.OrInt64Relaxed, atomic.LoadInt64, atomic.CompareAndSwapInt64]

theorem arch_XorInt64Relaxed_step (addr mask : Int) (fuel : Nat) :
    arch.XorInt64Relaxed addr mask (fuel + 1) = some (addr, xorI64 addr mask) := by
  simp [arch.XorInt64Relaxed, atomic.LoadInt64, atomic.CompareAndSwapInt64]

theorem Int64_Max_step (a : Int64) (val : Int) (fuel : Nat) :
    Int64.Max a val (fuel + 1) = some (a.v, if a.v ≥ val then a else ⟨val⟩) := by
  by_cases h : a.v ≥ val <;>
    simp [Int64.Max, arch.LoadInt64Relaxed, arch.CasInt64AcqRel, atomic.LoadInt64,
      atomic.CompareAndSwapInt64, h]

theorem MemoryOrder_MaxInt64_loopRelaxed_step (addr val : Int) (fuel : Nat) :
    MemoryOrder.MaxInt64.loopRelaxed addr val (fuel + 1) =
      some (addr, if addr ≥ val then addr else val) := by
  by_cases h : addr ≥ val <;>
    simp [MemoryOrder.MaxInt64.loopRelaxed, arch.LoadInt64Relaxed, arch.CasInt64Relaxed, atomic.LoadInt64,
      atomic.CompareAndSwapInt64, h]

theorem MemoryOrder_MaxInt64_loopAcqRel_step (addr val : Int) (fuel : Nat) :
    MemoryOrder.MaxInt64.loopAcqRel addr val (fuel + 1) =
      some (addr, if addr ≥ val then addr else val) := by
  by_cases h : addr ≥ val <;>
    simp [MemoryOrder.MaxInt64.loopAcqRel, arch.LoadInt64Relaxed, arch.CasInt64AcqRel, atomic.LoadInt64,
      atomic.CompareAndSwapInt64, h]

theorem MemoryOrder_MaxInt64_step (o : MemoryOrder) (addr val : Int) (fuel : Nat) :
    o.MaxInt64 addr val (fuel + 1) = some (addr, if addr ≥ val then addr else val) := by
  unfold MemoryOrder.MaxInt64
  split
  · exact MemoryOrder_MaxInt64_loopRelaxed_step addr val fuel
  · exact MemoryOrder_MaxInt64_loopAcqRel_step addr val fuel

theorem Int64_Min_step (a : Int64) (val : Int) (fuel : Nat) :
    Int64.Min a val (fuel + 1) = some (a.v, if a.v ≤ val then a else ⟨val⟩) := by
  by_cases h : a.v ≤ val <;>
    simp [Int64.Min, arch.LoadInt64Relaxed, arch.CasInt64AcqRel, atomic.LoadInt64,
      atomic.CompareAndSwapInt64, h]

theorem MemoryOrder_MinInt64_loopRelaxed_step (addr val : Int) (fuel : Nat) :
    MemoryOrder.MinInt64.loopRelaxed addr val (fuel + 1) =
      some (addr, if addr ≤ val then addr else val) := by
  by_cases h : addr ≤ val <;>
    simp [MemoryOrder.MinInt64.loopRelaxed, arch.LoadInt64Relaxed, arch.CasInt64Relaxed, atomic.LoadInt64,
      atomic.CompareAndSwapInt64, h]

theorem MemoryOrder_MinInt64_loopAcqRel_step (addr val : Int) (fuel : Nat) :
    MemoryOrder.MinInt64.loopAcqRel addr val (fuel + 1) =
      some (addr, if addr ≤ val then addr else val) := by
  by_cases h : addr ≤ val <;>
    simp [MemoryOrder.MinInt64.loopAcqRel, arch.LoadInt64Relaxed, arch.CasInt64AcqRel, atomic.LoadInt64,
      atomic.CompareAndSwapInt64, h]

theorem MemoryOrder_MinInt64_step (o : MemoryOrder) (addr val : Int) (fuel : Nat) :
    o.MinInt64 addr val (fuel + 1) = some (addr, if addr ≤ val then addr else val) := by
  unfold MemoryOrder.MinInt64
  split
  · exact MemoryOrder_MinInt64_loopRelaxed_step addr val fuel
  · exact MemoryOrder_MinInt64_loopAcqRel_step addr val fuel

theorem MemoryOrder_AndInt64_step (o : MemoryOrder) (addr mask : Int) (fuel : Nat) :
    o.AndInt64 addr mask (fuel + 1) = some (addr, andI64 addr mask) := by
  unfold MemoryOrder.AndInt64 arch.AndInt64Acquire arch.AndInt64Release arch.AndInt64AcqRel
  simp only [arch_AndInt64Relaxed_step, ite_self]

theorem Int64_And_step (a : Int64) (mask : Int) (fuel : Nat) :
    Int64.And a mask (fuel + 1) = some (a.v, ⟨andI64 a.v mask⟩) := by
  simp [Int64.And, arch.AndInt64AcqRel, arch_AndInt64Relaxed_step]

theorem MemoryOrder_OrInt64_step (o : MemoryOrder) (addr mask : Int) (fuel : Nat) :
    o.OrInt64 addr mask (fuel + 1) = some (addr, orI64 addr mask) := by
  unfold MemoryOrder.OrInt64 arch.OrInt64Acquire arch.OrInt64Release arch.OrInt64AcqRel
  simp only [arch_OrInt64Relaxed_step, ite_self]

theorem Int64_Or_step (a : Int64) (mask : Int) (fuel : Nat) :
    Int64.Or a mask (fuel + 1) = some (a.v, ⟨orI64 a.v mask⟩) := by
  simp [Int64.Or, arch.OrInt64AcqRel, arch_OrInt64Relaxed_step]

theorem MemoryOrder_XorInt64_step (o : MemoryOrder) (addr mask : Int) (fuel : Nat) :
    o.XorInt64 addr mask (fuel + 1) = some (addr, xorI64 addr mask) := by
  unfold MemoryOrder.XorInt64 arch.XorInt64Acquire arch.XorInt64Release arch.XorInt64AcqRel
  simp only [arch_XorInt64Relaxed_step, ite_self]

theorem Int64_Xor_step (a : Int64) (mask : Int) (fuel : Nat) :
    Int64.Xor a mask (fuel + 1) = some (a.v, ⟨xorI64 a.v mask⟩) := by
  simp [Int64.Xor, arch.XorInt64AcqRel, arch_XorInt64Relaxed_step]

theorem Int64_CompareExchange_step (a : Int64) (old new : Int) (fuel : Nat) :
    Int64.CompareExchange a old new (fuel + 1) =
      some (a.v, ⟨if a.v = old then new else a.v⟩) := by
  simp [Int64.CompareExchange, arch.CaxInt64AcqRel, arch_CaxInt64Relaxed_step]

theorem MemoryOrder_SwapInt64_eq (o : MemoryOrder) (addr new : Int) :
    o.SwapInt64 addr new = (addr, new) := by
  unfold MemoryOrder.SwapInt64 arch.SwapInt64Relaxed arch.SwapInt64Acquire arch.SwapInt64Release
    arch.SwapInt64AcqRel atomic.SwapInt64
  simp only [ite_self]

theorem MemoryOrder_AddInt64_eq (o : MemoryOrder) (addr delta : Int) :
    o.AddInt64 addr delta = atomic.AddInt64 addr delta := by
  unfold MemoryOrder.AddInt64 arch.AddInt64Relaxed arch.AddInt64Acquire arch.AddInt64Release
    arch.AddInt64AcqRel
  simp only [ite_self]

theorem MemoryOrder_LoadInt64_eq (o : MemoryOrder) (addr : Int) :
    o.LoadInt64 addr = addr := by
  unfold MemoryOrder.LoadInt64 arch.LoadInt64Relaxed arch.LoadInt64Acquire atomic.LoadInt64
  simp only [ite_self]

theorem arch_CaxUint64Relaxed_step (addr old new : Nat) (fuel : Nat) :
    arch.CaxUint64Relaxed addr old new (fuel + 1) =
      some (addr, if addr = old then new else addr) := by
  by_cases h : addr = old <;>
    simp [arch.CaxUint64Relaxed, atomic.LoadUint64, atomic.CompareAndSwapUint64, h]

theorem arch_AndUint64Relaxed_step (addr mask : Nat) (fuel : Nat) :
    arch.AndUint64Relaxed addr mask (fuel + 1) = some (addr, andU64 addr mask) := by
  simp [arch.AndUint64Relaxed, atomic.LoadUint64, atomic.CompareAndSwapUint64]

theorem arch_OrUint64Relaxed_step (addr mask : Nat) (fuel : Nat) :
    arch.OrUint64Relaxed addr mask (fuel + 1) = some (addr, orU64 addr mask) := by
  simp [arch.OrUint64Relaxed, atomic.LoadUint64, atomic.CompareAndSwapUint64]

theorem arch_XorUint64Relaxed_step (addr mask : Nat) (fuel : Nat) :
    arch.XorUint64Relaxed addr mask (fuel + 1) = some (addr, xorU64 addr mask) := by
  simp [arch.XorUint64Relaxed, atomic.LoadUint64, atomic.CompareAndSwapUint64]

theorem Uint64_Max_step (a : Uint64) (val : Nat) (fuel : Nat) :
    Uint64.Max a val (fuel + 1) = some (a.v, if a.v ≥ val then a else ⟨val⟩) := by
  by_cases h : a.v ≥ val <;>
    simp [Uint64.Max, arch.LoadUint64Relaxed, arch.CasUint64AcqRel, atomic.LoadUint64,
      atomic.CompareAndSwapUint64, h]

theorem MemoryOrder_MaxUint64_loopRelaxed_step (addr val : Nat) (fuel : Nat) :
    MemoryOrder.MaxUint64.loopRelaxed addr val (fuel + 1) =
      some (addr, if addr ≥ val then addr else val) := by
  by_cases h : addr ≥ val <;>
    simp [MemoryOrder.MaxUint64.loopRelaxed, arch.LoadUint64Relaxed, arch.CasUint64Relaxed, atomic.LoadUint64,
      atomic.CompareAndSwapUint64, h]

theorem MemoryOrder_MaxUint64_loopAcqRel_step (addr val : Nat) (fuel : Nat) :
    MemoryOrder.MaxUint64.loopAcqRel addr val (fuel + 1) =
      some (addr, if addr ≥ val then addr else val) := by
  by_cases h : addr ≥ val <;>
    simp [MemoryOrder.MaxUint64.loopAcqRel, arch.LoadUint64Relaxed, arch.CasUint64AcqRel, atomic.LoadUint64,
      atomic.CompareAndSwapUint64, h]

theorem MemoryOrder_MaxUint64_step (o : MemoryOrder) (addr val : Nat) (fuel : Nat) :
    o.MaxUint64 addr val (fuel + 1) = some (addr, if addr ≥ val then addr else val) := by
  unfold MemoryOrder.MaxUint64
  split
  · exact MemoryOrder_MaxUint64_loopRelaxed_step addr val fuel
  · exact MemoryOrder_MaxUint64_loopAcqRel_step addr val fuel

theorem Uint64_Min_step (a : Uint64) (val : Nat) (fuel : Nat) :
    Uint64.Min a val (fuel + 1) = some (a.v, if a.v ≤ val then a else ⟨val⟩) := by
  by_cases h : a.v ≤ val <;>
    simp [Uint64.Min, arch.LoadUint64Relaxed, arch.CasUint64AcqRel, atomic.LoadUint64,
      atomic.CompareAndSwapUint64, h]

theorem MemoryOrder_MinUint64_loopRelaxed_step (addr val : Nat) (fuel : Nat) :
    MemoryOrder.MinUint64.loopRelaxed addr val (fuel + 1) =
      some (addr, if addr ≤ val then addr else val) := by
  by_cases h : addr ≤ val <;>
    simp [MemoryOrder.MinUint64.loopRelaxed, arch.LoadUint64Relaxed, arch.CasUint64Relaxed, atomic.LoadUint64,
      atomic.CompareAndSwapUint64, h]

theorem MemoryOrder_MinUint64_loopAcqRel_step (addr val : Nat) (fuel : Nat) :
    MemoryOrder.MinUint64.loopAcqRel addr val (fuel + 1) =
      some (addr, if addr ≤ val then addr else val) := by
  by_cases h : addr ≤ val <;>
    simp [MemoryOrder.MinUint64.loopAcqRel, arch.LoadUint64Relaxed, arch.CasUint64AcqRel, atomic.LoadUint64,
      atomic.CompareAndSwapUint64, h]

theorem MemoryOrder_MinUint64_step (o : MemoryOrder) (addr val : Nat) (fuel : Nat) :
    o.MinUint64 addr val (fuel + 1) = some (addr, if addr ≤ val then addr else val) := by
  unfold MemoryOrder.MinUint64
  split
  · exact MemoryOrder_MinUint64_loopRelaxed_step addr val fuel
  · exact MemoryOrder_MinUint64_loopAcqRel_step addr val fuel

theorem MemoryOrder_AndUint64_step (o : MemoryOrder) (addr mask : Nat) (fuel : Nat) :
    o.AndUint64 addr mask (fuel + 1) = some (addr, andU64 addr mask) := by
  unfold MemoryOrder.AndUint64 arch.AndUint64Acquire arch.AndUint64Release arch.AndUint64AcqRel
  simp only [arch_AndUint64Relaxed_step, ite_self]

theorem Uint64_And_step (a : Uint64) (mask : Nat) (fuel : Nat) :
    Uint64.And a mask (fuel + 1) = some (a.v, ⟨andU64 a.v mask⟩) := by
  simp [Uint64.And, arch.AndUint64AcqRel, arch_AndUint64Relaxed_step]

theorem MemoryOrder_OrUint64_step (o : MemoryOrder) (addr mask : Nat) (fuel : Nat) :
    o.OrUint64 addr mask (fuel + 1) = some (addr, orU64 addr mask) := by
  unfold MemoryOrder.OrUint64 arch.OrUint64Acquire arch.OrUint64Release arch.OrUint64AcqRel
  simp only [arch_OrUint64Relaxed_step, ite_self]

theorem Uint64_Or_step (a : Uint64) (mask : Nat) (fuel : Nat) :
    Uint64.Or a mask (fuel + 1) = some (a.v, ⟨orU64 a.v mask⟩) := by
  simp [Uint64.Or, arch.OrUint64AcqRel, arch_OrUint64Relaxed_step]

theorem MemoryOrder_XorUint64_step (o : MemoryOrder) (addr mask : Nat) (fuel : Nat) :
    o.XorUint64 addr mask (fuel + 1) = some (addr, xorU64 addr mask) := by
  unfold MemoryOrder.XorUint64 arch.XorUint64Acquire arch.XorUint64Release arch.XorUint64AcqRel
  simp only [arch_XorUint64Relaxed_step, ite_self]

theorem Uint64_Xor_step (a : Uint64) (mask : Nat) (fuel : Nat) :
    Uint64.Xor a mask (fuel + 1) = some (a.v, ⟨xorU64 a.v mask⟩) := by
  simp [Uint64.Xor, arch.XorUint64AcqRel, arch_XorUint64Relaxed_step]

theorem Uint64_CompareExchange_step (a : Uint64) (old new : Nat) (fuel : Nat) :
    Uint64.CompareExchange a old new (fuel + 1) =
      some (a.v, ⟨if a.v = old then new else a.v⟩) := by
  simp [Uint64.CompareExchange, arch.CaxUint64AcqRel, arch_CaxUint64Relaxed_step]

theorem MemoryOrder_SwapUint64_eq (o : MemoryOrder) (addr new : Nat) :
    o.SwapUint64 addr new = (addr, new) := by
  unfold MemoryOrder.SwapUint64 arch.SwapUint64Relaxed arch.SwapUint64Acquire arch.SwapUint64Release
    arch.SwapUint64AcqRel atomic.SwapUint64
  simp only [ite_self]

theorem MemoryOrder_AddUint64_eq (o : MemoryOrder) (addr delta : Nat) :
    o.AddUint64 addr delta = atomic.AddUint64 addr delta := by
  unfold MemoryOrder.AddUint64 arch.AddUint64Relaxed arch.AddUint64Acquire arch.AddUint64Release
    arch.AddUint64AcqRel
  simp only [ite_self]

theorem MemoryOrder_LoadUint64_eq (o : MemoryOrder) (addr : Nat) :
    o.LoadUint64 addr = addr := by
  unfold MemoryOrder.LoadUint64 arch.LoadUint64Relaxed arch.LoadUint64Acquire atomic.LoadUint64
  simp only [ite_self]

theorem arch_CaxUintptrRelaxed_step (addr old new : Nat) (fuel : Nat) :
    arch.CaxUintptrRelaxed addr old new (fuel + 1) =
      some (addr, if addr = old then new else addr) := by
  by_cases h : addr = old <;>
    simp [arch.CaxUintptrRelaxed, atomic.LoadUintptr, atomic.CompareAndSwapUintptr, h]

theorem arch_AndUintptrRelaxed_step (addr mask : Nat) (fuel : Nat) :
    arch.AndUintptrRelaxed addr mask (fuel + 1) = some (addr, andU64 addr mask) := by
  simp [arch.AndUintptrRelaxed, atomic.LoadUintptr, atomic.CompareAndSwapUintptr]

theorem arch_OrUintptrRelaxed_step (addr mask : Nat) (fuel : Nat) :
    arch.OrUintptrRelaxed addr mask (fuel + 1) = some (addr, orU64 addr mask) := by
  simp [arch.OrUintptrRelaxed, atomic.LoadUintptr, atomic.CompareAndSwapUintptr]

theorem arch_XorUintptrRelaxed_step (addr mask : Nat) (fuel : Nat) :
    arch.XorUintptrRelaxed addr mask (fuel + 1) = some (addr, xorU64 addr mask) := by
  simp [arch.XorUintptrRelaxed, atomic.LoadUintptr, atomic.CompareAndSwapUintptr]

theorem Uintptr_Max_step (a : Uintptr) (val : Nat) (fuel : Nat) :
    Uintptr.Max a val (fuel + 1) = some (a.v, if a.v ≥ val then a else ⟨val⟩) := by
  by_cases h : a.v ≥ val <;>
    simp [Uintptr.Max, arch.LoadUintptrRelaxed, arch.CasUintptrAcqRel, atomic.LoadUintptr,
      atomic.CompareAndSwapUintptr, h]

theorem MemoryOrder_MaxUintptr_loopRelaxed_step (addr val : Nat) (fuel : Nat) :
    MemoryOrder.MaxUintptr.loopRelaxed addr val (fuel + 1) =
      some (addr, if addr ≥ val then addr else val) := by
  by_cases h : addr ≥ val <;>
    simp [MemoryOrder.MaxUintptr.loopRelaxed, arch.LoadUintptrRelaxed, arch.CasUintptrRelaxed, atomic.LoadUintptr,
      atomic.CompareAndSwapUintptr, h]

theorem MemoryOrder_MaxUintptr_loopAcqRel_step (addr val : Nat) (fuel : Nat) :
    MemoryOrder.MaxUintptr.loopAcqRel addr val (fuel + 1) =
      some (addr, if addr ≥ val then addr else val) := by
  by_cases h : addr ≥ val <;>
    simp [MemoryOrder.MaxUintptr.loopAcqRel, arch.LoadUintptrRelaxed, arch.CasUintptrAcqRel, atomic.LoadUintptr,
      atomic.CompareAndSwapUintptr, h]

theorem MemoryOrder_MaxUintptr_step (o : MemoryOrder) (addr val : Nat) (fuel : Nat) :
    o.MaxUintptr addr val (fuel + 1) = some (addr, if addr ≥ val then addr else val) := by
  unfold MemoryOrder.MaxUintptr
  split
  · exact MemoryOrder_MaxUintptr_loopRelaxed_step addr val fuel
  · exact MemoryOrder_MaxUintptr_loopAcqRel_step addr val fuel

theorem Uintptr_Min_step (a : Uintptr) (val : Nat) (fuel : Nat) :
    Uintptr.Min a val (fuel + 1) = some (a.v, if a.v ≤ val then a else ⟨val⟩) := by
  by_cases h : a.v ≤ val <;>
    simp [Uintptr.Min, arch.LoadUintptrRelaxed, arch.CasUintptrAcqRel, atomic.LoadUintptr,
      atomic.CompareAndSwapUintptr, h]

theorem MemoryOrder_MinUintptr_loopRelaxed_step (addr val : Nat) (fuel : Nat) :
    MemoryOrder.MinUintptr.loopRelaxed addr val (fuel + 1) =
      some (addr, if addr ≤ val then addr else val) := by
  by_cases h : addr ≤ val <;>
    simp [MemoryOrder.MinUintptr.loopRelaxed, arch.LoadUintptrRelaxed, arch.CasUintptrRelaxed, atomic.LoadUintptr,
      atomic.CompareAndSwapUintptr, h]

theorem MemoryOrder_MinUintptr_loopAcqRel_step (addr val : Nat) (fuel : Nat) :
    MemoryOrder.MinUintptr.loopAcqRel addr val (fuel + 1) =
      some (addr, if addr ≤ val then addr else val) := by
  by_cases h : addr ≤ val <;>
    simp [MemoryOrder.MinUintptr.loopAcqRel, arch.LoadUintptrRelaxed, arch.CasUintptrAcqRel, atomic.LoadUintptr,
      atomic.CompareAndSwapUintptr, h]

theorem MemoryOrder_MinUintptr_step (o : MemoryOrder) (addr val : Nat) (fuel : Nat) :
    o.MinUintptr addr val (fuel + 1) = some (addr, if addr ≤ val then addr else val) := by
  unfold MemoryOrder.MinUintptr
  split
  · exact MemoryOrder_MinUintptr_loopRelaxed_step addr val fuel
  · exact MemoryOrder_MinUintptr_loopAcqRel_step addr val fuel

theorem MemoryOrder_AndUintptr_step (o : MemoryOrder) (addr mask : Nat) (fuel : Nat) :
    o.AndUintptr addr mask (fuel + 1) = some (addr, andU64 addr mask) := by
  unfold MemoryOrder.AndUintptr arch.AndUintptrAcquire arch.AndUintptrRelease arch.AndUintptrAcqRel
  simp only [arch_AndUintptrRelaxed_step, ite_self]

theorem Uintptr_And_step (a : Uintptr) (mask : Nat) (fuel : Nat) :
    Uintptr.And a mask (fuel + 1) = some (a.v, ⟨andU64 a.v mask⟩) := by
  simp [Uintptr.And, arch.AndUintptrAcqRel, arch_AndUintptrRelaxed_step]

theorem MemoryOrder_OrUintptr_step (o : MemoryOrder) (addr mask : Nat) (fuel : Nat) :
    o.OrUintptr addr mask (fuel + 1) = some (addr, orU64 addr mask) := by
  unfold MemoryOrder.OrUintptr arch.OrUintptrAcquire arch.OrUintptrRelease arch.OrUintptrAcqRel
  simp only [arch_OrUintptrRelaxed_step, ite_self]

theorem Uintptr_Or_step (a : Uintptr) (mask : Nat) (fuel : Nat) :
    Uintptr.Or a mask (fuel + 1) = some (a.v, ⟨orU64 a.v mask⟩) := by
  simp [Uintptr.Or, arch.OrUintptrAcqRel, arch_OrUintptrRelaxed_step]

theorem MemoryOrder_XorUintptr_step (o : MemoryOrder) (addr mask : Nat) (fuel : Nat) :
    o.XorUintptr addr mask (fuel + 1) = some (addr, xorU64 addr mask) := by
  unfold MemoryOrder.XorUintptr arch.XorUintptrAcquire arch.XorUintptrRelease arch.XorUintptrAcqRel
  simp only [arch_XorUintptrRelaxed_step, ite_self]

theorem Uintptr_Xor_step (a : Uintptr) (mask : Nat) (fuel : Nat) :
    Uintptr.Xor a mask (fuel + 1) = some (a.v, ⟨xorU64 a.v mask⟩) := by
  simp [Uintptr.Xor, arch.XorUintptrAcqRel, arch_XorUintptrRelaxed_step]

theorem Uintptr_CompareExchange_step (a : Uintptr) (old new : Nat) (fuel : Nat) :
    Uintptr.CompareExchange a old new (fuel + 1) =
      some (a.v, ⟨if a.v = old then new else a.v⟩) := by
  simp [Uintptr.CompareExchange, arch.CaxUintptrAcqRel, arch_CaxUintptrRelaxed_step]

theorem MemoryOrder_SwapUintptr_eq (o : MemoryOrder) (addr new : Nat) :
    o.SwapUintptr addr new = (addr, new) := by
  unfold MemoryOrder.SwapUintptr arch.SwapUintptrRelaxed arch.SwapUintptrAcquire arch.SwapUintptrRelease
    arch.SwapUintptrAcqRel atomic.SwapUintptr
  simp only [ite_self]

theorem MemoryOrder_AddUintptr_eq (o : MemoryOrder) (addr delta : Nat) :
    o.AddUintptr addr delta = atomic.AddUintptr addr delta := by
  unfold MemoryOrder.AddUintptr arch.AddUintptrRelaxed arch.AddUintptrAcquire arch.AddUintptrRelease
    arch.AddUintptrAcqRel
  simp only [ite_self]

theorem MemoryOrder_LoadUintptr_eq (o : MemoryOrder) (addr : Nat) :
    o.LoadUintptr addr = addr := by
  unfold MemoryOrder.LoadUintptr arch.LoadUintptrRelaxed arch.LoadUintptrAcquire atomic.LoadUintptr
  simp only [ite_self]

/-! ## Placement: the padding and the two checks -/

theorem pad4_eq (addr : Nat) : subU64 4 (addr &&& 3) &&& 3 = (4 - addr % 4) % 4 := by
  have h1 : addr &&& 3 = addr % 4 := Nat.and_pow_two_sub_one_eq_mod addr 2
  have h2 : ∀ x : Nat, x &&& 3 = x % 4 := fun x => Nat.and_pow_two_sub_one_eq_mod x 2
  rw [h1, h2]; unfold subU64; omega

theorem pad8_eq (addr : Nat) : subU64 8 (addr &&& 7) &&& 7 = (8 - addr % 8) % 8 := by
  have h1 : addr &&& 7 = addr % 8 := Nat.and_pow_two_sub_one_eq_mod addr 3
  have h2 : ∀ x : Nat, x &&& 7 = x % 8 := fun x => Nat.and_pow_two_sub_one_eq_mod x 3
  rw [h1, h2]; unfold subU64; omega

theorem pad16_eq (addr : Nat) : subU64 16 (addr &&& 15) &&& 15 = (16 - addr % 16) % 16 := by
  have h1 : addr &&& 15 = addr % 16 := Nat.and_pow_two_sub_one_eq_mod addr 4
  have h2 : ∀ x : Nat, x &&& 15 = x % 16 := fun x => Nat.and_pow_two_sub_one_eq_mod x 4
  rw [h1, h2]; unfold subU64; omega

theorem ByteSlice_addrOf_zero (p : ByteSlice) (h : p.bytes ≠ []) : p.addrOf 0 = .ok p.base := by
  have : 0 < p.bytes.length := List.length_pos.mpr h
  simp [ByteSlice.addrOf, ByteSlice.len, this]

theorem ByteSlice_addrOf_zero_nil (p : ByteSlice) (h : p.bytes = []) :
    p.addrOf 0 = .error "runtime error: index out of range" := by
  simp [ByteSlice.addrOf, ByteSlice.len, h]

/-- The value of `CanPlaceAligned4` on a non-empty slice. -/
theorem CanPlaceAligned4_eq (p : ByteSlice) (off : Int) (hne : p.bytes ≠ [])
    (hfit : p.Fits) (hoff : IsI64 off) :
    CanPlaceAligned4 p off =
      .ok (decide (0 ≤ off ∧ off ≤ p.len ∧
        off + (4 - ((p.base : Int) + off) % 4) % 4 + 4 ≤ p.len)) := by
  unfold CanPlaceAligned4
  rw [ByteSlice_addrOf_zero p hne]
  simp only [pad4_eq]
  unfold ByteSlice.Fits at hfit
  unfold IsI64 at hoff
  have hlen : 0 ≤ p.len := by unfold ByteSlice.len; omega
  by_cases h : off < 0 ∨ off > p.len
  · rw [if_pos h]
    congr 1
    symm
    rw [decide_eq_false_iff_not]
    omega
  · rw [if_neg h]
    congr 1
    rw [decide_eq_decide]
    unfold addI64 toI64 addU64 toU64
    omega

/-- The value of `CanPlaceAligned8` on a non-empty slice. -/
theorem CanPlaceAligned8_eq (p : ByteSlice) (off : Int) (hne : p.bytes ≠ [])
    (hfit : p.Fits) (hoff : IsI64 off) :
    CanPlaceAligned8 p off =
      .ok (decide (0 ≤ off ∧ off ≤ p.len ∧
        off + (8 - ((p.base : Int) + off) % 8) % 8 + 8 ≤ p.len)) := by
  unfold CanPlaceAligned8
  rw [ByteSlice_addrOf_zero p hne]
  simp only [pad8_eq]
  unfold ByteSlice.Fits at hfit
  unfold IsI64 at hoff
  have hlen : 0 ≤ p.len := by unfold ByteSlice.len; omega
  by_cases h : off < 0 ∨ off > p.len
  · rw [if_pos h]
    congr 1
    symm
    rw [decide_eq_false_iff_not]
    omega
  · rw [if_neg h]
    congr 1
    rw [decide_eq_decide]
    unfold addI64 toI64 addU64 toU64
    omega

/-- The value of `CanPlaceAligned16` on a non-empty slice. -/
theorem CanPlaceAligned16_eq (p : ByteSlice) (off : Int) (hne : p.bytes ≠ [])
    (hfit : p.Fits) (hoff : IsI64 off) :
    CanPlaceAligned16 p off =
      .ok (decide (0 ≤ off ∧ off ≤ p.len ∧
        off + (16 - ((p.base : Int) + off) % 16) % 16 + 16 ≤ p.len)) := by
  unfold CanPlaceAligned16
  rw [ByteSlice_addrOf_zero p hne]
  simp only [pad16_eq]
  unfold ByteSlice.Fits at hfit
  unfold IsI64 at hoff
  have hlen : 0 ≤ p.len := by unfold ByteSlice.len; omega
  by_cases h : off < 0 ∨ off > p.len
  · rw [if_pos h]
    congr 1
    symm
    rw [decide_eq_false_iff_not]
    omega
  · rw [if_neg h]
    congr 1
    rw [decide_eq_decide]
    unfold addI64 toI64 addU64 toU64
    omega

/-- `PlaceAlignedInt32` computes `placeAlignedSpec 4`. -/
theorem PlaceAlignedInt32_toOption (p : ByteSlice) (off : Int) (hfit : p.Fits)
    (hoff : IsI64 off) :
    (PlaceAlignedInt32 p off).toOption = placeAlignedSpec 4 p off := by
  unfold PlaceAlignedInt32 placeAlignedSpec
  unfold ByteSlice.Fits at hfit
  unfold IsI64 at hoff
  have hlen : 0 ≤ p.len := by unfold ByteSlice.len; omega
  by_cases hne : p.bytes = []
  · rw [ByteSlice_addrOf_zero_nil p hne]
    simp [hne, Except.toOption]
  · rw [ByteSlice_addrOf_zero p hne]
    simp only [pad4_eq, ByteSlice.addrOf]
    have e1 : toI64 ((4 - addU64 p.base (toU64 off) % 4) % 4)
        = (4 - ((p.base : Int) + off) % 4) % 4 := by
      unfold toI64 addU64 toU64; omega
    rw [e1]
    generalize hpad : (4 - ((p.base : Int) + off) % 4) % 4 = pad
    have hp : 0 ≤ pad ∧ pad < 4 := by omega
    by_cases hc : 0 ≤ off + pad ∧ off + pad + 4 ≤ p.len
    · have e2 : addI64 pad 4 = pad + 4 := by unfold addI64; omega
      have e3 : addI64 off (pad + 4) = off + pad + 4 := by unfold addI64; omega
      have e4 : addI64 off pad = off + pad := by unfold addI64; omega
      rw [e2, e3, e4, if_neg (by omega), if_pos (by omega), if_pos ⟨hne, hc⟩]
      rfl
    · have hr : (if p.bytes ≠ [] ∧ 0 ≤ off + pad ∧ off + pad + 4 ≤ p.len then
          some (pad + 4, p.base + (off + pad).toNat) else none) = none :=
        if_neg (fun h => hc h.2)
      rw [hr]
      by_cases hn : addI64 off (addI64 pad 4) > p.len
      · rw [if_pos hn]; rfl
      · rw [if_neg hn]
        have : ¬ (0 ≤ addI64 off pad ∧ addI64 off pad < p.len) := by
          unfold addI64 at hn ⊢; omega
        rw [if_neg this]; rfl

/-- `PlaceAlignedUint32` computes `placeAlignedSpec 4`. -/
theorem PlaceAlignedUint32_toOption (p : ByteSlice) (off : Int) (hfit : p.Fits)
    (hoff : IsI64 off) :
    (PlaceAlignedUint32 p off).toOption = placeAlignedSpec 4 p off := by
  unfold PlaceAlignedUint32 placeAlignedSpec
  unfold ByteSlice.Fits at hfit
  unfold IsI64 at hoff
  have hlen : 0 ≤ p.len := by unfold ByteSlice.len; omega
  by_cases hne : p.bytes = []
  · rw [ByteSlice_addrOf_zero_nil p hne]
    simp [hne, Except.toOption]
  · rw [ByteSlice_addrOf_zero p hne]
    simp only [pad4_eq, ByteSlice.addrOf]
    have e1 : toI64 ((4 - addU64 p.base (toU64 off) % 4) % 4)
        = (4 - ((p.base : Int) + off) % 4) % 4 := by
      unfold toI64 addU64 toU64; omega
    rw [e1]
    generalize hpad : (4 - ((p.base : Int) + off) % 4) % 4 = pad
    have hp : 0 ≤ pad ∧ pad < 4 := by omega
    by_cases hc : 0 ≤ off + pad ∧ off + pad + 4 ≤ p.len
    · have e2 : addI64 pad 4 = pad + 4 := by unfold addI64; omega
      have e3 : addI64 off (pad + 4) = off + pad + 4 := by unfold addI64; omega
      have e4 : addI64 off pad = off + pad := by unfold addI64; omega
      rw [e2, e3, e4, if_neg (by omega), if_pos (by omega), if_pos ⟨hne, hc⟩]
      rfl
    · have hr : (if p.bytes ≠ [] ∧ 0 ≤ off + pad ∧ off + pad + 4 ≤ p.len then
          some (pad + 4, p.base + (off + pad).toNat) else none) = none :=
        if_neg (fun h => hc h.2)
      rw [hr]
      by_cases hn : addI64 off (addI64 pad 4) > p.len
      · rw [if_pos hn]; rfl
      · rw [if_neg hn]
        have : ¬ (0 ≤ addI64 off pad ∧ addI64 off pad < p.len) := by
          unfold addI64 at hn ⊢; omega
        rw [if_neg this]; rfl

/-- `PlaceAlignedBool` computes `placeAlignedSpec 4`. -/
theorem PlaceAlignedBool_toOption (p : ByteSlice) (off : Int) (hfit : p.Fits)
    (hoff : IsI64 off) :
    (PlaceAlignedBool p off).toOption = placeAlignedSpec 4 p off := by
  unfold PlaceAlignedBool placeAlignedSpec
  unfold ByteSlice.Fits at hfit
  unfold IsI64 at hoff
  have hlen : 0 ≤ p.len := by unfold ByteSlice.len; omega
  by_cases hne : p.bytes = []
  · rw [ByteSlice_addrOf_zero_nil p hne]
    simp [hne, Except.toOption]
  · rw [ByteSlice_addrOf_zero p hne]
    simp only [pad4_eq, ByteSlice.addrOf]
    have e1 : toI64 ((4 - addU64 p.base (toU64 off) % 4) % 4)
        = (4 - ((p.base : Int) + off) % 4) % 4 := by
      unfold toI64 addU64 toU64; omega
    rw [e1]
    generalize hpad : (4 - ((p.base : Int) + off) % 4) % 4 = pad
    have hp : 0 ≤ pad ∧ pad < 4 := by omega
    by_cases hc : 0 ≤ off + pad ∧ off + pad + 4 ≤ p.len
    · have e2 : addI64 pad 4 = pad + 4 := by unfold addI64; omega
      have e3 : addI64 off (pad + 4) = off + pad + 4 := by unfold addI64; omega
      have e4 : addI64 off pad = off + pad := by unfold addI64; omega
      rw [e2, e3, e4, if_neg (by omega), if_pos (by omega), if_pos ⟨hne, hc⟩]
      rfl
    · have hr : (if p.bytes ≠ [] ∧ 0 ≤ off + pad ∧ off + pad + 4 ≤ p.len then
          some (pad + 4, p.base + (off + pad).toNat) else none) = none :=
        if_neg (fun h => hc h.2)
      rw [hr]
      by_cases hn : addI64 off (addI64 pad 4) > p.len
      · rw [if_pos hn]; rfl
      · rw [if_neg hn]
        have : ¬ (0 ≤ addI64 off pad ∧ addI64 off pad < p.len) := by
          unfold addI64 at hn ⊢; omega
        rw [if_neg this]; rfl

/-- `PlaceAlignedInt64` computes `placeAlignedSpec 8`. -/
theorem PlaceAlignedInt64_toOption (p : ByteSlice) (off : Int) (hfit : p.Fits)
    (hoff : IsI64 off) :
    (PlaceAlignedInt64 p off).toOption = placeAlignedSpec 8 p off := by
  unfold PlaceAlignedInt64 placeAlignedSpec
  unfold ByteSlice.Fits at hfit
  unfold IsI64 at hoff
  have hlen : 0 ≤ p.len := by unfold ByteSlice.len; omega
  by_cases hne : p.bytes = []
  · rw [ByteSlice_addrOf_zero_nil p hne]
    simp [hne, Except.toOption]
  · rw [ByteSlice_addrOf_zero p hne]
    simp only [pad8_eq, ByteSlice.addrOf]
    have e1 : toI64 ((8 - addU64 p.base (toU64 off) % 8) % 8)
        = (8 - ((p.base : Int) + off) % 8) % 8 := by
      unfold toI64 addU64 toU64; omega
    rw [e1]
    generalize hpad : (8 - ((p.base : Int) + off) % 8) % 8 = pad
    have hp : 0 ≤ pad ∧ pad < 8 := by omega
    by_cases hc : 0 ≤ off + pad ∧ off + pad + 8 ≤ p.len
    · have e2 : addI64 pad 8 = pad + 8 := by unfold addI64; omega
      have e3 : addI64 off (pad + 8) = off + pad + 8 := by unfold addI64; omega
      have e4 : addI64 off pad = off + pad := by unfold addI64; omega
      rw [e2, e3, e4, if_neg (by omega), if_pos (by omega), if_pos ⟨hne, hc⟩]
      rfl
    · have hr : (if p.bytes ≠ [] ∧ 0 ≤ off + pad ∧ off + pad + 8 ≤ p.len then
          some (pad + 8, p.base + (off + pad).toNat) else none) = none :=
        if_neg (fun h => hc h.2)
      rw [hr]
      by_cases hn : addI64 off (addI64 pad 8) > p.len
      · rw [if_pos hn]; rfl
      · rw [if_neg hn]
        have : ¬ (0 ≤ addI64 off pad ∧ addI64 off pad < p.len) := by
          unfold addI64 at hn ⊢; omega
        rw [if_neg this]; rfl

/-- `PlaceAlignedUint64` computes `placeAlignedSpec 8`. -/
theorem PlaceAlignedUint64_toOption (p : ByteSlice) (off : Int) (hfit : p.Fits)
    (hoff : IsI64 off) :
    (PlaceAlignedUint64 p off).toOption = placeAlignedSpec 8 p off := by
  unfold PlaceAlignedUint64 placeAlignedSpec
  unfold ByteSlice.Fits at hfit
  unfold IsI64 at hoff
  have hlen : 0 ≤ p.len := by unfold ByteSlice.len; omega
  by_cases hne : p.bytes = []
  · rw [ByteSlice_addrOf_zero_nil p hne]
    simp [hne, Except.toOption]
  · rw [ByteSlice_addrOf_zero p hne]
    simp only [pad8_eq, ByteSlice.addrOf]
    have e1 : toI64 ((8 - addU64 p.base (toU64 off) % 8) % 8)
        = (8 - ((p.base : Int) + off) % 8) % 8 := by
      unfold toI64 addU64 toU64; omega
    rw [e1]
    generalize hpad : (8 - ((p.base : Int) + off) % 8) % 8 = pad
    have hp : 0 ≤ pad ∧ pad < 8 := by omega
    by_cases hc : 0 ≤ off + pad ∧ off + pad + 8 ≤ p.len
    · have e2 : addI64 pad 8 = pad + 8 := by unfold addI64; omega
      have e3 : addI64 off (pad + 8) = off + pad + 8 := by unfold addI64; omega
      have e4 : addI64 off pad = off + pad := by unfold addI64; omega
      rw [e2, e3, e4, if_neg (by omega), if_pos (by omega), if_pos ⟨hne, hc⟩]
      rfl
    · have hr : (if p.bytes ≠ [] ∧ 0 ≤ off + pad ∧ off + pad + 8 ≤ p.len then
          some (pad + 8, p.base + (off + pad).toNat) else none) = none :=
        if_neg (fun h => hc h.2)
      rw [hr]
      by_cases hn : addI64 off (addI64 pad 8) > p.len
      · rw [if_pos hn]; rfl
      · rw [if_neg hn]
        have : ¬ (0 ≤ addI64 off pad ∧ addI64 off pad < p.len) := by
          unfold addI64 at hn ⊢; omega
        rw [if_neg this]; rfl

/-- `PlaceAlignedUintptr` computes `placeAlignedSpec 8`. -/
theorem PlaceAlignedUintptr_toOption (p : ByteSlice) (off : Int) (hfit : p.Fits)
    (hoff : IsI64 off) :
    (PlaceAlignedUintptr p off).toOption = placeAlignedSpec 8 p off := by
  unfold PlaceAlignedUintptr placeAlignedSpec
  simp only [uintptrSize, Nat.cast_ofNat, show toU64 8 = 8 from rfl, show toU64 (8 - 1) = 7 from rfl]
  unfold ByteSlice.Fits at hfit
  unfold IsI64 at hoff
  have hlen : 0 ≤ p.len := by unfold ByteSlice.len; omega
  by_cases hne : p.bytes = []
  · rw [ByteSlice_addrOf_zero_nil p hne]
    simp [hne, Except.toOption]
  · rw [ByteSlice_addrOf_zero p hne]
    simp only [pad8_eq, ByteSlice.addrOf]
    have e1 : toI64 ((8 - addU64 p.base (toU64 off) % 8) % 8)
        = (8 - ((p.base : Int) + off) % 8) % 8 := by
      unfold toI64 addU64 toU64; omega
    rw [e1]
    generalize hpad : (8 - ((p.base : Int) + off) % 8) % 8 = pad
    have hp : 0 ≤ pad ∧ pad < 8 := by omega
    by_cases hc : 0 ≤ off + pad ∧ off + pad + 8 ≤ p.len
    · have e2 : addI64 pad 8 = pad + 8 := by unfold addI64; omega
      have e3 : addI64 off (pad + 8) = off + pad + 8 := by unfold addI64; omega
      have e4 : addI64 off pad = off + pad := by unfold addI64; omega
      rw [e2, e3, e4, if_neg (by omega), if_pos (by omega), if_pos ⟨hne, hc⟩]
      rfl
    · have hr : (if p.bytes ≠ [] ∧ 0 ≤ off + pad ∧ off + pad + 8 ≤ p.len then
          some (pad + 8, p.base + (off + pad).toNat) else none) = none :=
        if_neg (fun h => hc h.2)
      rw [hr]
      by_cases hn : addI64 off (addI64 pad 8) > p.len
      · rw [if_pos hn]; rfl
      · rw [if_neg hn]
        have : ¬ (0 ≤ addI64 off pad ∧ addI64 off pad < p.len) := by
          unfold addI64 at hn ⊢; omega
        rw [if_neg this]; rfl

/-- `PlaceAlignedInt128` computes `placeAlignedSpec 16`. -/
theorem PlaceAlignedInt128_toOption (p : ByteSlice) (off : Int) (hfit : p.Fits)
    (hoff : IsI64 off) :
    (PlaceAlignedInt128 p off).toOption = placeAlignedSpec 16 p off := by
  unfold PlaceAlignedInt128 placeAlignedSpec
  unfold ByteSlice.Fits at hfit
  unfold IsI64 at hoff
  have hlen : 0 ≤ p.len := by unfold ByteSlice.len; omega
  by_cases hne : p.bytes = []
  · rw [ByteSlice_addrOf_zero_nil p hne]
    simp [hne, Except.toOption]
  · rw [ByteSlice_addrOf_zero p hne]
    simp only [pad16_eq, ByteSlice.addrOf]
    have e1 : toI64 ((16 - addU64 p.base (toU64 off) % 16) % 16)
        = (16 - ((p.base : Int) + off) % 16) % 16 := by
      unfold toI64 addU64 toU64; omega
    rw [e1]
    generalize hpad : (16 - ((p.base : Int) + off) % 16) % 16 = pad
    have hp : 0 ≤ pad ∧ pad < 16 := by omega
    by_cases hc : 0 ≤ off + pad ∧ off + pad + 16 ≤ p.len
    · have e2 : addI64 pad 16 = pad + 16 := by unfold addI64; omega
      have e3 : addI64 off (pad + 16) = off + pad + 16 := by unfold addI64; omega
      have e4 : addI64 off pad = off + pad := by unfold addI64; omega
      rw [e2, e3, e4, if_neg (by omega), if_pos (by omega), if_pos ⟨hne, hc⟩]
      rfl
    · have hr : (if p.bytes ≠ [] ∧ 0 ≤ off + pad ∧ off + pad + 16 ≤ p.len then
          some (pad + 16, p.base + (off + pad).toNat) else none) = none :=
        if_neg (fun h => hc h.2)
      rw [hr]
      by_cases hn : addI64 off (addI64 pad 16) > p.len
      · rw [if_pos hn]; rfl
      · rw [if_neg hn]
        have : ¬ (0 ≤ addI64 off pad ∧ addI64 off pad < p.len) := by
          unfold addI64 at hn ⊢; omega
        rw [if_neg this]; rfl

/-- `PlaceAlignedUint128` computes `placeAlignedSpec 16`. -/
theorem PlaceAlignedUint128_toOption (p : ByteSlice) (off : Int) (hfit : p.Fits)
    (hoff : IsI64 off) :
    (PlaceAlignedUint128 p off).toOption = placeAlignedSpec 16 p off := by
  unfold PlaceAlignedUint128 placeAlignedSpec
  unfold ByteSlice.Fits at hfit
  unfold IsI64 at hoff
  have hlen : 0 ≤ p.len := by unfold ByteSlice.len; omega
  by_cases hne : p.bytes = []
  · rw [ByteSlice_addrOf_zero_nil p hne]
    simp [hne, Except.toOption]
  · rw [ByteSlice_addrOf_zero p hne]
    simp only [pad16_eq, ByteSlice.addrOf]
    have e1 : toI64 ((16 - addU64 p.base (toU64 off) % 16) % 16)
        = (16 - ((p.base : Int) + off) % 16) % 16 := by
      unfold toI64 addU64 toU64; omega
    rw [e1]
    generalize hpad : (16 - ((p.base : Int) + off) % 16) % 16 = pad
    have hp : 0 ≤ pad ∧ pad < 16 := by omega
    by_cases hc : 0 ≤ off + pad ∧ off + pad + 16 ≤ p.len
    · have e2 : addI64 pad 16 = pad + 16 := by unfold addI64; omega
      have e3 : addI64 off (pad + 16) = off + pad + 16 := by unfold addI64; omega
      have e4 : addI64 off pad = off + pad := by unfold addI64; omega
      rw [e2, e3, e4, if_neg (by omega), if_pos (by omega), if_pos ⟨hne, hc⟩]
      rfl
    · have hr : (if p.bytes ≠ [] ∧ 0 ≤ off + pad ∧ off + pad + 16 ≤ p.len then
          some (pad + 16, p.base + (off + pad).toNat) else none) = none :=
        if_neg (fun h => hc h.2)
      rw [hr]
      by_cases hn : addI64 off (addI64 pad 16) > p.len
      · rw [if_pos hn]; rfl
      · rw [if_neg hn]
        have : ¬ (0 ≤ addI64 off pad ∧ addI64 off pad < p.len) := by
          unfold addI64 at hn ⊢; omega
        rw [if_neg this]; rfl


theorem returns_iff_toOption {α : Type} (r : Except String α) :
    Returns r ↔ r.toOption.isSome = true := by
  cases r <;> simp [Returns, Except.isOk, Except.toBool, Except.toOption]

theorem aborts_iff_toOption {α : Type} (r : Except String α) :
    Aborts r ↔ r.toOption.isSome = false := by
  cases r <;> simp [Aborts, Except.isOk, Except.toBool, Except.toOption]

theorem toOption_of_ok {α : Type} (r : Except String α) (x : α) (h : r = .ok x) :
    r.toOption = some x := by
  rw [h]; rfl

/-- On a non-empty slice and for an offset that is not negative, a placement that
computes `placeAlignedSpec 4` aborts exactly when the feasibility test says `false`. -/
theorem place_agrees_with_can4 (p : ByteSlice) (off : Int) (hne : p.bytes ≠ [])
    (h0 : 0 ≤ off) (r : Except String (Int × Nat)) (c : Except String Bool)
    (hr : r.toOption = placeAlignedSpec 4 p off)
    (hc : c = .ok (decide (0 ≤ off ∧ off ≤ p.len ∧
        off + (4 - ((p.base : Int) + off) % 4) % 4 + 4 ≤ p.len))) :
    (Aborts r ↔ c = .ok false) ∧ (Returns r ↔ c = .ok true) := by
  rw [aborts_iff_toOption, returns_iff_toOption, hr, hc]
  unfold placeAlignedSpec
  simp only [Except.ok.injEq, decide_eq_false_iff_not, decide_eq_true_eq]
  by_cases hcond : 0 ≤ off + (4 - ((p.base : Int) + off) % 4) % 4 ∧
      off + (4 - ((p.base : Int) + off) % 4) % 4 + 4 ≤ p.len
  · rw [if_pos ⟨hne, hcond⟩]
    simp only [Option.isSome_some, Bool.true_eq_false, false_iff, true_iff, not_not]
    constructor <;> omega
  · rw [if_neg (fun h => hcond h.2)]
    simp only [Option.isSome_none, Bool.false_eq_true, false_iff, true_iff]
    constructor <;> omega

/-- What a successful `placeAlignedSpec 4` returns. -/
theorem placeAlignedSpec4_some (p : ByteSlice) (off n : Int) (a : Nat)
    (h : placeAlignedSpec 4 p off = some (n, a)) :
    a % 4 = 0 ∧ (a : Int) = (p.base : Int) + (off + (n - 4)) ∧ 4 ≤ n ∧ n ≤ 7 ∧
      off + n ≤ p.len := by
  unfold placeAlignedSpec at h
  simp only at h
  split at h
  · rename_i hc
    simp only [Option.some.injEq, Prod.mk.injEq] at h
    obtain ⟨hn, ha⟩ := h
    omega
  · exact absurd h (by simp)

/-- On a non-empty slice and for an offset that is not negative, a placement that
computes `placeAlignedSpec 8` aborts exactly when the feasibility test says `false`. -/
theorem place_agrees_with_can8 (p : ByteSlice) (off : Int) (hne : p.bytes ≠ [])
    (h0 : 0 ≤ off) (r : Except String (Int × Nat)) (c : Except String Bool)
    (hr : r.toOption = placeAlignedSpec 8 p off)
    (hc : c = .ok (decide (0 ≤ off ∧ off ≤ p.len ∧
        off + (8 - ((p.base : Int) + off) % 8) % 8 + 8 ≤ p.len))) :
    (Aborts r ↔ c = .ok false) ∧ (Returns r ↔ c = .ok true) := by
  rw [aborts_iff_toOption, returns_iff_toOption, hr, hc]
  unfold placeAlignedSpec
  simp only [Except.ok.injEq, decide_eq_false_iff_not, decide_eq_true_eq]
  by_cases hcond : 0 ≤ off + (8 - ((p.base : Int) + off) % 8) % 8 ∧
      off + (8 - ((p.base : Int) + off) % 8) % 8 + 8 ≤ p.len
  · rw [if_pos ⟨hne, hcond⟩]
    simp only [Option.isSome_some, Bool.true_eq_false, false_iff, true_iff, not_not]
    constructor <;> omega
  · rw [if_neg (fun h => hcond h.2)]
    simp only [Option.isSome_none, Bool.false_eq_true, false_iff, true_iff]
    constructor <;> omega

/-- What a successful `placeAlignedSpec 8` returns. -/
theorem placeAlignedSpec8_some (p : ByteSlice) (off n : Int) (a : Nat)
    (h : placeAlignedSpec 8 p off = some (n, a)) :
    a % 8 = 0 ∧ (a : Int) = (p.base : Int) + (off + (n - 8)) ∧ 8 ≤ n ∧ n ≤ 15 ∧
      off + n ≤ p.len := by
  unfold placeAlignedSpec at h
  simp only at h
  split at h
  · rename_i hc
    simp only [Option.some.injEq, Prod.mk.injEq] at h
    obtain ⟨hn, ha⟩ := h
    omega
  · exact absurd h (by simp)

/-- On a non-empty slice and for an offset that is not negative, a placement that
computes `placeAlignedSpec 16` aborts exactly when the feasibility test says `false`. -/
theorem place_agrees_with_can16 (p : ByteSlice) (off : Int) (hne : p.bytes ≠ [])
    (h0 : 0 ≤ off) (r : Except String (Int × Nat)) (c : Except String Bool)
    (hr : r.toOption = placeAlignedSpec 16 p off)
    (hc : c = .ok (decide (0 ≤ off ∧ off ≤ p.len ∧
        off + (16 - ((p.base : Int) + off) % 16) % 16 + 16 ≤ p.len))) :
    (Aborts r ↔ c = .ok false) ∧ (Returns r ↔ c = .ok true) := by
  rw [aborts_iff_toOption, returns_iff_toOption, hr, hc]
  unfold placeAlignedSpec
  simp only [Except.ok.injEq, decide_eq_false_iff_not, decide_eq_true_eq]
  by_cases hcond : 0 ≤ off + (16 - ((p.base : Int) + off) % 16) % 16 ∧
      off + (16 - ((p.base : Int) + off) % 16) % 16 + 16 ≤ p.len
  · rw [if_pos ⟨hne, hcond⟩]
    simp only [Option.isSome_some, Bool.true_eq_false, false_iff, true_iff, not_not]
    constructor <;> omega
  · rw [if_neg (fun h => hcond h.2)]
    simp only [Option.isSome_none, Bool.false_eq_true, false_iff, true_iff]
    constructor <;> omega

/-- What a successful `placeAlignedSpec 16` returns. -/
theorem placeAlignedSpec16_some (p : ByteSlice) (off n : Int) (a : Nat)
    (h : placeAlignedSpec 16 p off = some (n, a)) :
    a % 16 = 0 ∧ (a : Int) = (p.base : Int) + (off + (n - 16)) ∧ 16 ≤ n ∧ n ≤ 31 ∧
      off + n ≤ p.len := by
  unfold placeAlignedSpec at h
  simp only at h
  split at h
  · rename_i hc
    simp only [Option.some.injEq, Prod.mk.injEq] at h
    obtain ⟨hn, ha⟩ := h
    omega
  · exact absurd h (by simp)

theorem Int128_Add_step (a : Int128) (deltaLo deltaHi : Int) (fuel : Nat) :
    Int128.Add a deltaLo deltaHi (fuel + 1) =
      some ((toI64 (addU64 a.v.lo (toU64 deltaLo)),
              toI64 (if addU64 a.v.lo (toU64 deltaLo) < a.v.lo
                then addU64 (addU64 a.v.hi (toU64 deltaHi)) 1
                else addU64 a.v.hi (toU64 deltaHi))),
            { v := { lo := addU64 a.v.lo (toU64 deltaLo),
                     hi := if addU64 a.v.lo (toU64 deltaLo) < a.v.lo
                           then addU64 (addU64 a.v.hi (toU64 deltaHi)) 1
                           else addU64 a.v.hi (toU64 deltaHi) } }) := by
  simp [Int128.Add, arch.LoadUint128Relaxed, arch.CasUint128AcqRel, cas128_self]

theorem MemoryOrder_AddUint128_step (o : MemoryOrder) (a : Uint128)
    (deltaLo deltaHi fuel : Nat) :
    o.AddUint128 a deltaLo deltaHi (fuel + 1) =
      some ((a.v.lo, a.v.hi),
            { v := { lo := addU64 a.v.lo deltaLo,
                     hi := if addU64 a.v.lo deltaLo < a.v.lo
                           then addU64 (addU64 a.v.hi deltaHi) 1
                           else addU64 a.v.hi deltaHi } }) := by
  unfold MemoryOrder.AddUint128
  split <;>
    simp [MemoryOrder.AddUint128.loopRelaxed, MemoryOrder.AddUint128.loopAcqRel,
      arch.LoadUint128Relaxed, arch.CasUint128AcqRel, cas128_self]

theorem MemoryOrder_AddInt128_step (o : MemoryOrder) (a : Int128)
    (deltaLo deltaHi : Int) (fuel : Nat) :
    o.AddInt128 a deltaLo deltaHi (fuel + 1) =
      some ((toI64 a.v.lo, toI64 a.v.hi),
            { v := { lo := addU64 a.v.lo (toU64 deltaLo),
                     hi := if addU64 a.v.lo (toU64 deltaLo) < a.v.lo
                           then addU64 (addU64 a.v.hi (toU64 deltaHi)) 1
                           else addU64 a.v.hi (toU64 deltaHi) } }) := by
  unfold MemoryOrder.AddInt128
  split <;>
    simp [MemoryOrder.AddInt128.loopRelaxed, MemoryOrder.AddInt128.loopAcqRel,
      arch.LoadUint128Relaxed, arch.CasUint128AcqRel, cas128_self]

theorem MemoryOrder_SwapUint128_eq (o : MemoryOrder) (a : Uint128) (newLo newHi : Nat) :
    o.SwapUint128 a newLo newHi = ((a.v.lo, a.v.hi), ⟨⟨newLo, newHi⟩⟩) := by
  unfold MemoryOrder.SwapUint128 arch.SwapUint128Acquire arch.SwapUint128Release
    arch.SwapUint128AcqRel arch.SwapUint128Relaxed
  simp only [ite_self]

theorem MemoryOrder_SwapInt128_eq (o : MemoryOrder) (a : Int128) (newLo newHi : Int) :
    o.SwapInt128 a newLo newHi
      = ((toI64 a.v.lo, toI64 a.v.hi), ⟨⟨toU64 newLo, toU64 newHi⟩⟩) := by
  unfold MemoryOrder.SwapInt128 arch.SwapUint128Acquire arch.SwapUint128Release
    arch.SwapUint128AcqRel arch.SwapUint128Relaxed
  simp only [ite_self]

theorem MemoryOrder_LoadUint128_eq (o : MemoryOrder) (a : Uint128) :
    o.LoadUint128 a = (a.v.lo, a.v.hi) := by
  unfold MemoryOrder.LoadUint128 arch.LoadUint128Acquire arch.LoadUint128Relaxed
  simp only [ite_self]

theorem MemoryOrder_LoadInt128_eq (o : MemoryOrder) (a : Int128) :
    o.LoadInt128 a = (toI64 a.v.lo, toI64 a.v.hi) := by
  unfold MemoryOrder.LoadInt128 arch.LoadUint128Acquire arch.LoadUint128Relaxed
  simp only [ite_self]

/-! ## Claims -/

/-- C1: for every well-formed `Uint128` cell `(oldLo, oldHi)` and every delta whose low
word is a `uint64` (the high word is reduced modulo `2^64` by the code), `Add` returns, whatever the fuel given to its loop, a pair of `uint64`
words `(newLo, newHi)` with `newLo + 2^64 * newHi = (old + delta) mod 2^128`, and `Load`
on the cell after the call returns that same pair; from `(2^64 - 1, 0)`, `Add(1, 0)`
yields `(0, 1)`. -/
theorem uint128_add_sum (a : Uint128) (deltaLo deltaHi fuel : Nat)
    (ha : a.WF) (hlo : deltaLo < 2 ^ 64) :
    (∃ newLo newHi a',
      Uint128.Add a deltaLo deltaHi (fuel + 1) = some ((newLo, newHi), a') ∧
      newLo < 2 ^ 64 ∧ newHi < 2 ^ 64 ∧
      newLo + 2 ^ 64 * newHi
        = (a.v.lo + 2 ^ 64 * a.v.hi + deltaLo + 2 ^ 64 * deltaHi) % 2 ^ 128 ∧
      a'.Load = (newLo, newHi)) ∧
    Uint128.Add ⟨⟨2 ^ 64 - 1, 0⟩⟩ 1 0 (fuel + 1) = some ((0, 1), ⟨⟨0, 1⟩⟩) := by
  refine ⟨⟨_, _, _, Uint128_Add_step a deltaLo deltaHi fuel, addU64_lt _ _, ?_, ?_, rfl⟩, ?_⟩
  · split
    · exact addU64_lt _ _
    · exact addU64_lt _ _
  · exact add128_words _ _ _ _ ha.1 hlo
  · rw [Uint128_Add_step]; decide

theorem uint128_add_sum_witness :
    (Uint128.WF ⟨⟨2 ^ 64 - 1, 7⟩⟩ ∧ 5 < 2 ^ 64) ∧
    ((∃ newLo newHi a',
      Uint128.Add ⟨⟨2 ^ 64 - 1, 7⟩⟩ 5 3 (0 + 1) = some ((newLo, newHi), a') ∧
      newLo < 2 ^ 64 ∧ newHi < 2 ^ 64 ∧
      newLo + 2 ^ 64 * newHi
        = ((2 ^ 64 - 1) + 2 ^ 64 * 7 + 5 + 2 ^ 64 * 3) % 2 ^ 128 ∧
      a'.Load = (newLo, newHi)) ∧
    Uint128.Add ⟨⟨2 ^ 64 - 1, 0⟩⟩ 1 0 (0 + 1) = some ((0, 1), ⟨⟨0, 1⟩⟩)) :=
  ⟨by decide, uint128_add_sum ⟨⟨2 ^ 64 - 1, 7⟩⟩ 5 3 0 (by decide) (by decide)⟩

/-- C2: for every well-formed `Uint128` cell and every delta whose low word is a `uint64`
(the high word is reduced modulo `2^64` by the code), `Sub` returns, whatever the fuel given to its loop, `(newLo, newHi)` with
`newLo + 2^64 * newHi = (old - delta) mod 2^128`; the high word is decremented once more
(the borrow) exactly when `oldLo < deltaLo`, hence never when `deltaLo = 0`; `Load` on
the cell after the call returns the same pair; from `(0, 1)`, `Sub(1, 0)` yields
`(2^64 - 1, 0)`. -/
theorem uint128_sub_difference (a : Uint128) (deltaLo deltaHi fuel : Nat)
    (ha : a.WF) (hlo : deltaLo < 2 ^ 64) :
    (∃ newLo newHi a',
      Uint128.Sub a deltaLo deltaHi (fuel + 1) = some ((newLo, newHi), a') ∧
      newLo < 2 ^ 64 ∧ newHi < 2 ^ 64 ∧
      ((newLo + 2 ^ 64 * newHi : Nat) : Int)
        = ((a.v.lo : Int) + 2 ^ 64 * a.v.hi - deltaLo - 2 ^ 64 * deltaHi) % 2 ^ 128 ∧
      newLo = subU64 a.v.lo deltaLo ∧
      newHi = (if a.v.lo < deltaLo then subU64 (subU64 a.v.hi deltaHi) 1
               else subU64 a.v.hi deltaHi) ∧
      a'.Load = (newLo, newHi)) ∧
    Uint128.Sub ⟨⟨0, 1⟩⟩ 1 0 (fuel + 1) = some ((2 ^ 64 - 1, 0), ⟨⟨2 ^ 64 - 1, 0⟩⟩) := by
  have hb : subU64 a.v.lo deltaLo > a.v.lo ↔ a.v.lo < deltaLo :=
    subU64_gt_left_iff _ _ ha.1 hlo
  refine ⟨⟨_, _, _, Uint128_Sub_step a deltaLo deltaHi fuel, subU64_lt _ _, ?_, ?_, rfl, ?_,
    rfl⟩, ?_⟩
  · split
    · exact subU64_lt _ _
    · exact subU64_lt _ _
  · exact sub128_words _ _ _ _ ha.1 hlo
  · by_cases h : a.v.lo < deltaLo
    · rw [if_pos (hb.mpr h), if_pos h]
    · rw [if_neg (fun h' => h (hb.mp h')), if_neg h]
  · rw [Uint128_Sub_step]; decide

theorem uint128_sub_difference_witness :
    (Uint128.WF ⟨⟨3, 7⟩⟩ ∧ 5 < 2 ^ 64) ∧
    ((∃ newLo newHi a',
      Uint128.Sub ⟨⟨3, 7⟩⟩ 5 2 (0 + 1) = some ((newLo, newHi), a') ∧
      newLo < 2 ^ 64 ∧ newHi < 2 ^ 64 ∧
      ((newLo + 2 ^ 64 * newHi : Nat) : Int)
        = (((3 : Nat) : Int) + 2 ^ 64 * ((7 : Nat) : Int) - ((5 : Nat) : Int)
            - 2 ^ 64 * ((2 : Nat) : Int)) % 2 ^ 128 ∧
      newLo = subU64 3 5 ∧
      newHi = (if 3 < 5 then subU64 (subU64 7 2) 1 else subU64 7 2) ∧
      a'.Load = (newLo, newHi)) ∧
    Uint128.Sub ⟨⟨0, 1⟩⟩ 1 0 (0 + 1) = some ((2 ^ 64 - 1, 0), ⟨⟨2 ^ 64 - 1, 0⟩⟩)) :=
  ⟨by decide, uint128_sub_difference ⟨⟨3, 7⟩⟩ 5 2 0 (by decide) (by decide)⟩

/-- C3: for every `Uint128` cell `(curLo, curHi)` and every `(oldLo, oldHi, newLo, newHi)`,
`CompareAndSwap` returns true if and only if `curLo = oldLo` and `curHi = oldHi`; after
a true result `Load` returns `(newLo, newHi)`, after a false result `Load` returns
`(curLo, curHi)` and the cell is unchanged. -/
theorem uint128_compareAndSwap_iff (a : Uint128) (oldLo oldHi newLo newHi : Nat) :
    ((a.CompareAndSwap oldLo oldHi newLo newHi).1 = true ↔
      (a.v.lo = oldLo ∧ a.v.hi = oldHi)) ∧
    (a.CompareAndSwap oldLo oldHi newLo newHi).2.Load =
      (if (a.CompareAndSwap oldLo oldHi newLo newHi).1 then (newLo, newHi)
       else (a.v.lo, a.v.hi)) ∧
    (a.CompareAndSwap oldLo oldHi newLo newHi).2 =
      (if (a.CompareAndSwap oldLo oldHi newLo newHi).1 then ⟨⟨newLo, newHi⟩⟩ else a) := by
  unfold Uint128.CompareAndSwap arch.CasUint128AcqRel arch.CasUint128Relaxed Uint128.Load
    arch.LoadUint128Relaxed
  by_cases h : a.v.lo = oldLo ∧ a.v.hi = oldHi
  · simp [h]
  · simp [h]

/-- C5: for every `Int128` cell whose `Load` returns the signed words `(alo, ahi)` and
every argument `(lo, hi)`, `Less`, `LessOrEqual`, `Greater` and `GreaterOrEqual` return
exactly the truth of `<`, `<=`, `>`, `>=` between the integers
`ahi * 2^64 + (alo mod 2^64)` and `hi * 2^64 + (lo mod 2^64)`, and `Equal` returns true
exactly when `alo = lo` and `ahi = hi`. -/
theorem int128_comparisons (a : Int128) (lo hi : Int) :
    (a.Less lo hi = true ↔
      a.Load.2 * 2 ^ 64 + a.Load.1 % 2 ^ 64 < hi * 2 ^ 64 + lo % 2 ^ 64) ∧
    (a.LessOrEqual lo hi = true ↔
      a.Load.2 * 2 ^ 64 + a.Load.1 % 2 ^ 64 ≤ hi * 2 ^ 64 + lo % 2 ^ 64) ∧
    (a.Greater lo hi = true ↔
      a.Load.2 * 2 ^ 64 + a.Load.1 % 2 ^ 64 > hi * 2 ^ 64 + lo % 2 ^ 64) ∧
    (a.GreaterOrEqual lo hi = true ↔
      a.Load.2 * 2 ^ 64 + a.Load.1 % 2 ^ 64 ≥ hi * 2 ^ 64 + lo % 2 ^ 64) ∧
    (a.Equal lo hi = true ↔ (a.Load.1 = lo ∧ a.Load.2 = hi)) := by
  have h1 : ((toU64 (toI64 a.v.lo) : Nat) : Int) = toI64 a.v.lo % 2 ^ 64 := by
    unfold toU64; omega
  have h2 : ((toU64 lo : Nat) : Int) = lo % 2 ^ 64 := by
    unfold toU64; omega
  simp only [Int128.Less, Int128.LessOrEqual, Int128.Greater, Int128.GreaterOrEqual,
    Int128.Equal, Int128.Load, arch.LoadUint128Acquire, arch.LoadUint128Relaxed,
    Bool.or_eq_true, Bool.and_eq_true, decide_eq_true_eq]
  generalize toI64 a.v.hi = ahi at *
  generalize toI64 a.v.lo = alo at *
  generalize toU64 alo = ua at *
  generalize toU64 lo = ul at *
  refine ⟨?_, ?_, ?_, ?_, trivial⟩ <;> omega


/-- C4: for every `Int32` cell value `cur` and every `old`, `new`, `CompareExchange`
returns, whatever the fuel given to its loop, the pre-call value `cur`, and leaves the
cell holding `new` if `cur = old` and `cur` otherwise; after a first call that succeeded
(the cell held `old`), a second identical call returns the now-current value `new` and
leaves the cell holding `new`. -/
theorem int32_compareExchange_returns_observed (cur old new : Int) (fuel fuel2 : Nat) :
    Int32.CompareExchange ⟨cur⟩ old new (fuel + 1)
      = some (cur, ⟨if cur = old then new else cur⟩) ∧
    ((Int32.CompareExchange ⟨old⟩ old new (fuel + 1)).bind
        fun r => Int32.CompareExchange r.2 old new (fuel2 + 1))
      = some (new, ⟨new⟩) := by
  constructor
  · exact Int32_CompareExchange_step ⟨cur⟩ old new fuel
  · rw [Int32_CompareExchange_step]
    simp only [if_true, Option.some_bind]
    rw [Int32_CompareExchange_step]
    simp

/-- C6 (amended): for every non-empty buffer and every offset that is not negative,
`PlaceAlignedInt32` aborts exactly when `CanPlaceAligned4` on the same buffer and offset
returns false and returns normally exactly when it returns true; the same holds for
`PlaceAlignedUint32` and `PlaceAlignedBool` against `CanPlaceAligned4`, for
`PlaceAlignedInt64`, `PlaceAlignedUint64` and `PlaceAlignedUintptr` against
`CanPlaceAligned8`, and for `PlaceAlignedInt128` and `PlaceAlignedUint128` against
`CanPlaceAligned16`. -/
theorem placeAligned_aborts_iff_cannot_place (p : ByteSlice) (off : Int)
    (hne : p.bytes ≠ []) (hfit : p.Fits) (h0 : 0 ≤ off) (hoff : off < 2 ^ 63) :
    ((Aborts (PlaceAlignedInt32 p off) ↔ CanPlaceAligned4 p off = .ok false) ∧
      (Returns (PlaceAlignedInt32 p off) ↔ CanPlaceAligned4 p off = .ok true)) ∧
    ((Aborts (PlaceAlignedUint32 p off) ↔ CanPlaceAligned4 p off = .ok false) ∧
      (Returns (PlaceAlignedUint32 p off) ↔ CanPlaceAligned4 p off = .ok true)) ∧
    ((Aborts (PlaceAlignedBool p off) ↔ CanPlaceAligned4 p off = .ok false) ∧
      (Returns (PlaceAlignedBool p off) ↔ CanPlaceAligned4 p off = .ok true)) ∧
    ((Aborts (PlaceAlignedInt64 p off) ↔ CanPlaceAligned8 p off = .ok false) ∧
      (Returns (PlaceAlignedInt64 p off) ↔ CanPlaceAligned8 p off = .ok true)) ∧
    ((Aborts (PlaceAlignedUint64 p off) ↔ CanPlaceAligned8 p off = .ok false) ∧
      (Returns (PlaceAlignedUint64 p off) ↔ CanPlaceAligned8 p off = .ok true)) ∧
    ((Aborts (PlaceAlignedUintptr p off) ↔ CanPlaceAligned8 p off = .ok false) ∧
      (Returns (PlaceAlignedUintptr p off) ↔ CanPlaceAligned8 p off = .ok true)) ∧
    ((Aborts (PlaceAlignedInt128 p off) ↔ CanPlaceAligned16 p off = .ok false) ∧
      (Returns (PlaceAlignedInt128 p off) ↔ CanPlaceAligned16 p off = .ok true)) ∧
    ((Aborts (PlaceAlignedUint128 p off) ↔ CanPlaceAligned16 p off = .ok false) ∧
      (Returns (PlaceAlignedUint128 p off) ↔ CanPlaceAligned16 p off = .ok true)) := by
  have hi : IsI64 off := ⟨by omega, hoff⟩
  exact ⟨place_agrees_with_can4 p off hne h0 _ _ (PlaceAlignedInt32_toOption p off hfit hi)
      (CanPlaceAligned4_eq p off hne hfit hi),
    place_agrees_with_can4 p off hne h0 _ _ (PlaceAlignedUint32_toOption p off hfit hi)
      (CanPlaceAligned4_eq p off hne hfit hi),
    place_agrees_with_can4 p off hne h0 _ _ (PlaceAlignedBool_toOption p off hfit hi)
      (CanPlaceAligned4_eq p off hne hfit hi),
    place_agrees_with_can8 p off hne h0 _ _ (PlaceAlignedInt64_toOption p off hfit hi)
      (CanPlaceAligned8_eq p off hne hfit hi),
    place_agrees_with_can8 p off hne h0 _ _ (PlaceAlignedUint64_toOption p off hfit hi)
      (CanPlaceAligned8_eq p off hne hfit hi),
    place_agrees_with_can8 p off hne h0 _ _ (PlaceAlignedUintptr_toOption p off hfit hi)
      (CanPlaceAligned8_eq p off hne hfit hi),
    place_agrees_with_can16 p off hne h0 _ _ (PlaceAlignedInt128_toOption p off hfit hi)
      (CanPlaceAligned16_eq p off hne hfit hi),
    place_agrees_with_can16 p off hne h0 _ _ (PlaceAlignedUint128_toOption p off hfit hi)
      (CanPlaceAligned16_eq p off hne hfit hi)⟩

theorem placeAligned_aborts_iff_cannot_place_witness :
    ((ByteSlice.mk 4096 (List.replicate 8 0)).bytes ≠ [] ∧
      (ByteSlice.mk 4096 (List.replicate 8 0)).Fits ∧ (0 : Int) ≤ 5 ∧ (5 : Int) < 2 ^ 63) ∧
    ((Aborts (PlaceAlignedInt32 ⟨4096, List.replicate 8 0⟩ 5) ↔ CanPlaceAligned4 ⟨4096, List.replicate 8 0⟩ 5 = .ok false) ∧
      (Returns (PlaceAlignedInt32 ⟨4096, List.replicate 8 0⟩ 5) ↔ CanPlaceAligned4 ⟨4096, List.replicate 8 0⟩ 5 = .ok true)) ∧
    ((Aborts (PlaceAlignedUint32 ⟨4096, List.replicate 8 0⟩ 5) ↔ CanPlaceAligned4 ⟨4096, List.replicate 8 0⟩ 5 = .ok false) ∧
      (Returns (PlaceAlignedUint32 ⟨4096, List.replicate 8 0⟩ 5) ↔ CanPlaceAligned4 ⟨4096, List.replicate 8 0⟩ 5 = .ok true)) ∧
    ((Aborts (PlaceAlignedBool ⟨4096, List.replicate 8 0⟩ 5) ↔ CanPlaceAligned4 ⟨4096, List.replicate 8 0⟩ 5 = .ok false) ∧
      (Returns (PlaceAlignedBool ⟨4096, List.replicate 8 0⟩ 5) ↔ CanPlaceAligned4 ⟨4096, List.replicate 8 0⟩ 5 = .ok true)) ∧
    ((Aborts (PlaceAlignedInt64 ⟨4096, List.replicate 8 0⟩ 5) ↔ CanPlaceAligned8 ⟨4096, List.replicate 8 0⟩ 5 = .ok false) ∧
      (Returns (PlaceAlignedInt64 ⟨4096, List.replicate 8 0⟩ 5) ↔ CanPlaceAligned8 ⟨4096, List.replicate 8 0⟩ 5 = .ok true)) ∧
    ((Aborts (PlaceAlignedUint64 ⟨4096, List.replicate 8 0⟩ 5) ↔ CanPlaceAligned8 ⟨4096, List.replicate 8 0⟩ 5 = .ok false) ∧
      (Returns (PlaceAlignedUint64 ⟨4096, List.replicate 8 0⟩ 5) ↔ CanPlaceAligned8 ⟨4096, List.replicate 8 0⟩ 5 = .ok true)) ∧
    ((Aborts (PlaceAlignedUintptr ⟨4096, List.replicate 8 0⟩ 5) ↔ CanPlaceAligned8 ⟨4096, List.replicate 8 0⟩ 5 = .ok false) ∧
      (Returns (PlaceAlignedUintptr ⟨4096, List.replicate 8 0⟩ 5) ↔ CanPlaceAligned8 ⟨4096, List.replicate 8 0⟩ 5 = .ok true)) ∧
    ((Aborts (PlaceAlignedInt128 ⟨4096, List.replicate 8 0⟩ 5) ↔ CanPlaceAligned16 ⟨4096, List.replicate 8 0⟩ 5 = .ok false) ∧
      (Returns (PlaceAlignedInt128 ⟨4096, List.replicate 8 0⟩ 5) ↔ CanPlaceAligned16 ⟨4096, List.replicate 8 0⟩ 5 = .ok true)) ∧
    ((Aborts (PlaceAlignedUint128 ⟨4096, List.replicate 8 0⟩ 5) ↔ CanPlaceAligned16 ⟨4096, List.replicate 8 0⟩ 5 = .ok false) ∧
      (Returns (PlaceAlignedUint128 ⟨4096, List.replicate 8 0⟩ 5) ↔ CanPlaceAligned16 ⟨4096, List.replicate 8 0⟩ 5 = .ok true)) :=
  ⟨by decide, placeAligned_aborts_iff_cannot_place ⟨4096, List.replicate 8 0⟩ 5 (by decide) (by decide) (by decide)
    (by decide)⟩

/-- C6 as stated fails.  At offset `-1` of an 8-byte buffer whose first byte is 4-aligned,
`CanPlaceAligned4` returns false while `PlaceAlignedInt32` returns normally (5 bytes
consumed, the value at `p[0]`); and on an empty buffer `PlaceAlignedInt32` aborts while
`CanPlaceAligned4` does not return false (it aborts as well, at `&p[0]`). -/
theorem placeAligned_returns_where_cannot_place :
    (CanPlaceAligned4 ⟨4096, List.replicate 8 0⟩ (-1) = .ok false ∧
      PlaceAlignedInt32 ⟨4096, List.replicate 8 0⟩ (-1) = .ok (5, 4096) ∧
      ¬ (Aborts (PlaceAlignedInt32 ⟨4096, List.replicate 8 0⟩ (-1)) ↔
          CanPlaceAligned4 ⟨4096, List.replicate 8 0⟩ (-1) = .ok false)) ∧
    (Aborts (PlaceAlignedInt32 ⟨4096, []⟩ 0) ∧ Aborts (CanPlaceAligned4 ⟨4096, []⟩ 0) ∧
      ¬ (Aborts (PlaceAlignedInt32 ⟨4096, []⟩ 0) ↔ CanPlaceAligned4 ⟨4096, []⟩ 0 = .ok false)) := by
  have h1 : CanPlaceAligned4 ⟨4096, List.replicate 8 0⟩ (-1) = .ok false := rfl
  have h2 : PlaceAlignedInt32 ⟨4096, List.replicate 8 0⟩ (-1) = .ok (5, 4096) := rfl
  have h3 : PlaceAlignedInt32 ⟨4096, []⟩ 0 = .error "runtime error: index out of range" := rfl
  have h4 : CanPlaceAligned4 ⟨4096, []⟩ 0 = .error "runtime error: index out of range" := rfl
  refine ⟨⟨h1, h2, ?_⟩, ?_, ?_, ?_⟩
  · rw [h1, h2]; simp [Aborts, Except.isOk, Except.toBool]
  · rw [h3]; rfl
  · rw [h4]; rfl
  · rw [h3, h4]; simp [Aborts, Except.isOk, Except.toBool]

/-- C7: for every non-empty buffer with base address `b` and every offset `off`,
`CanPlaceAligned16` returns normally, and returns true if and only if
`0 <= off <= len(buf)` and `off + pad + 16 <= len(buf)`, where `pad` is the unique
padding in `[0, 16)` with `(b + off + pad) mod 16 = 0`; it returns false for every
negative offset and for every offset greater than `len(buf)`.  The same holds for
`CanPlaceAligned4` and `CanPlaceAligned8` with 4 and 8. -/
theorem canPlaceAligned_iff_padding_fits (p : ByteSlice) (off : Int)
    (hne : p.bytes ≠ []) (hfit : p.Fits) (hoff : IsI64 off) :
    ((∃ pad : Int, (0 ≤ pad ∧ pad < 16 ∧ ((p.base : Int) + off + pad) % 16 = 0) ∧
        (∀ q : Int, 0 ≤ q ∧ q < 16 ∧ ((p.base : Int) + off + q) % 16 = 0 → q = pad) ∧
        CanPlaceAligned16 p off
          = .ok (decide (0 ≤ off ∧ off ≤ p.len ∧ off + pad + 16 ≤ p.len))) ∧
      (off < 0 ∨ p.len < off → CanPlaceAligned16 p off = .ok false)) ∧
    ((∃ pad : Int, (0 ≤ pad ∧ pad < 4 ∧ ((p.base : Int) + off + pad) % 4 = 0) ∧
        (∀ q : Int, 0 ≤ q ∧ q < 4 ∧ ((p.base : Int) + off + q) % 4 = 0 → q = pad) ∧
        CanPlaceAligned4 p off
          = .ok (decide (0 ≤ off ∧ off ≤ p.len ∧ off + pad + 4 ≤ p.len))) ∧
      (off < 0 ∨ p.len < off → CanPlaceAligned4 p off = .ok false)) ∧
    ((∃ pad : Int, (0 ≤ pad ∧ pad < 8 ∧ ((p.base : Int) + off + pad) % 8 = 0) ∧
        (∀ q : Int, 0 ≤ q ∧ q < 8 ∧ ((p.base : Int) + off + q) % 8 = 0 → q = pad) ∧
        CanPlaceAligned8 p off
          = .ok (decide (0 ≤ off ∧ off ≤ p.len ∧ off + pad + 8 ≤ p.len))) ∧
      (off < 0 ∨ p.len < off → CanPlaceAligned8 p off = .ok false)) := by
  refine ⟨⟨?_, ?_⟩, ⟨?_, ?_⟩, ⟨?_, ?_⟩⟩
  · refine ⟨(16 - ((p.base : Int) + off) % 16) % 16, ?_, ?_,
      CanPlaceAligned16_eq p off hne hfit hoff⟩
    · omega
    · intro q hq; omega
  · intro h
    rw [CanPlaceAligned16_eq p off hne hfit hoff]
    congr 1
    rw [decide_eq_false_iff_not]
    omega
  · refine ⟨(4 - ((p.base : Int) + off) % 4) % 4, ?_, ?_,
      CanPlaceAligned4_eq p off hne hfit hoff⟩
    · omega
    · intro q hq; omega
  · intro h
    rw [CanPlaceAligned4_eq p off hne hfit hoff]
    congr 1
    rw [decide_eq_false_iff_not]
    omega
  · refine ⟨(8 - ((p.base : Int) + off) % 8) % 8, ?_, ?_,
      CanPlaceAligned8_eq p off hne hfit hoff⟩
    · omega
    · intro q hq; omega
  · intro h
    rw [CanPlaceAligned8_eq p off hne hfit hoff]
    congr 1
    rw [decide_eq_false_iff_not]
    omega

theorem canPlaceAligned_iff_padding_fits_witness :
    ((ByteSlice.mk 4096 (List.replicate 64 0)).bytes ≠ [] ∧
      (ByteSlice.mk 4096 (List.replicate 64 0)).Fits ∧ IsI64 33) ∧
    ((∃ pad : Int, (0 ≤ pad ∧ pad < 16 ∧
          (((ByteSlice.mk 4096 (List.replicate 64 0)).base : Int) + 33 + pad) % 16 = 0) ∧
        (∀ q : Int, 0 ≤ q ∧ q < 16 ∧
          (((ByteSlice.mk 4096 (List.replicate 64 0)).base : Int) + 33 + q) % 16 = 0 → q = pad) ∧
        CanPlaceAligned16 ⟨4096, List.replicate 64 0⟩ 33
          = .ok (decide ((0 : Int) ≤ 33 ∧
              (33 : Int) ≤ (ByteSlice.mk 4096 (List.replicate 64 0)).len ∧
              33 + pad + 16 ≤ (ByteSlice.mk 4096 (List.replicate 64 0)).len))) ∧
      ((33 : Int) < 0 ∨ (ByteSlice.mk 4096 (List.replicate 64 0)).len < 33 →
        CanPlaceAligned16 ⟨4096, List.replicate 64 0⟩ 33 = .ok false)) ∧
    ((∃ pad : Int, (0 ≤ pad ∧ pad < 4 ∧
          (((ByteSlice.mk 4096 (List.replicate 64 0)).base : Int) + 33 + pad) % 4 = 0) ∧
        (∀ q : Int, 0 ≤ q ∧ q < 4 ∧
          (((ByteSlice.mk 4096 (List.replicate 64 0)).base : Int) + 33 + q) % 4 = 0 → q = pad) ∧
        CanPlaceAligned4 ⟨4096, List.replicate 64 0⟩ 33
          = .ok (decide ((0 : Int) ≤ 33 ∧
              (33 : Int) ≤ (ByteSlice.mk 4096 (List.replicate 64 0)).len ∧
              33 + pad + 4 ≤ (ByteSlice.mk 4096 (List.replicate 64 0)).len))) ∧
      ((33 : Int) < 0 ∨ (ByteSlice.mk 4096 (List.replicate 64 0)).len < 33 →
        CanPlaceAligned4 ⟨4096, List.replicate 64 0⟩ 33 = .ok false)) ∧
    ((∃ pad : Int, (0 ≤ pad ∧ pad < 8 ∧
          (((ByteSlice.mk 4096 (List.replicate 64 0)).base : Int) + 33 + pad) % 8 = 0) ∧
        (∀ q : Int, 0 ≤ q ∧ q < 8 ∧
          (((ByteSlice.mk 4096 (List.replicate 64 0)).base : Int) + 33 + q) % 8 = 0 → q = pad) ∧
        CanPlaceAligned8 ⟨4096, List.replicate 64 0⟩ 33
          = .ok (decide ((0 : Int) ≤ 33 ∧
              (33 : Int) ≤ (ByteSlice.mk 4096 (List.replicate 64 0)).len ∧
              33 + pad + 8 ≤ (ByteSlice.mk 4096 (List.replicate 64 0)).len))) ∧
      ((33 : Int) < 0 ∨ (ByteSlice.mk 4096 (List.replicate 64 0)).len < 33 →
        CanPlaceAligned8 ⟨4096, List.replicate 64 0⟩ 33 = .ok false)) :=
  ⟨by decide, canPlaceAligned_iff_padding_fits ⟨4096, List.replicate 64 0⟩ 33 (by decide) (by decide) (by decide)⟩

/-- C8: whenever `PlaceAlignedUint128(buf, off)` returns `(n, a)`, at an offset
`off >= 0` as at any other offset of type `int`, the
address of `a` is a multiple of 16, `a` is at buffer index `off + (n - 16)`,
`16 <= n <= 31` and `off + n <= len(buf)`; likewise for `PlaceAlignedInt128`; with 4
(`4 <= n <= 7`) for `PlaceAlignedInt32`, `PlaceAlignedUint32` and `PlaceAlignedBool`;
with 8 (`8 <= n <= 15`) for `PlaceAlignedInt64`, `PlaceAlignedUint64` and
`PlaceAlignedUintptr`. -/
theorem placeAligned_result_aligned_inside (p : ByteSlice) (off : Int)
    (hfit : p.Fits) (hoff : IsI64 off) :
    (∀ (n : Int) (a : Nat), PlaceAlignedUint128 p off = .ok (n, a) →
      a % 16 = 0 ∧ (a : Int) = (p.base : Int) + (off + (n - 16)) ∧ 16 ≤ n ∧ n ≤ 31 ∧
        off + n ≤ p.len) ∧
    (∀ (n : Int) (a : Nat), PlaceAlignedInt128 p off = .ok (n, a) →
      a % 16 = 0 ∧ (a : Int) = (p.base : Int) + (off + (n - 16)) ∧ 16 ≤ n ∧ n ≤ 31 ∧
        off + n ≤ p.len) ∧
    (∀ (n : Int) (a : Nat), PlaceAlignedInt32 p off = .ok (n, a) →
      a % 4 = 0 ∧ (a : Int) = (p.base : Int) + (off + (n - 4)) ∧ 4 ≤ n ∧ n ≤ 7 ∧
        off + n ≤ p.len) ∧
    (∀ (n : Int) (a : Nat), PlaceAlignedUint32 p off = .ok (n, a) →
      a % 4 = 0 ∧ (a : Int) = (p.base : Int) + (off + (n - 4)) ∧ 4 ≤ n ∧ n ≤ 7 ∧
        off + n ≤ p.len) ∧
    (∀ (n : Int) (a : Nat), PlaceAlignedBool p off = .ok (n, a) →
      a % 4 = 0 ∧ (a : Int) = (p.base : Int) + (off + (n - 4)) ∧ 4 ≤ n ∧ n ≤ 7 ∧
        off + n ≤ p.len) ∧
    (∀ (n : Int) (a : Nat), PlaceAlignedInt64 p off = .ok (n, a) →
      a % 8 = 0 ∧ (a : Int) = (p.base : Int) + (off + (n - 8)) ∧ 8 ≤ n ∧ n ≤ 15 ∧
        off + n ≤ p.len) ∧
    (∀ (n : Int) (a : Nat), PlaceAlignedUint64 p off = .ok (n, a) →
      a % 8 = 0 ∧ (a : Int) = (p.base : Int) + (off + (n - 8)) ∧ 8 ≤ n ∧ n ≤ 15 ∧
        off + n ≤ p.len) ∧
    (∀ (n : Int) (a : Nat), PlaceAlignedUintptr p off = .ok (n, a) →
      a % 8 = 0 ∧ (a : Int) = (p.base : Int) + (off + (n - 8)) ∧ 8 ≤ n ∧ n ≤ 15 ∧
        off + n ≤ p.len) := by
  have hi : IsI64 off := hoff
  refine ⟨?_, ?_, ?_, ?_, ?_, ?_, ?_, ?_⟩
  · intro n a h
    have h' := toOption_of_ok _ _ h
    rw [PlaceAlignedUint128_toOption p off hfit hi] at h'
    exact placeAlignedSpec16_some p off n a h'
  · intro n a h
    have h' := toOption_of_ok _ _ h
    rw [PlaceAlignedInt128_toOption p off hfit hi] at h'
    exact placeAlignedSpec16_some p off n a h'
  · intro n a h
    have h' := toOption_of_ok _ _ h
    rw [PlaceAlignedInt32_toOption p off hfit hi] at h'
    exact placeAlignedSpec4_some p off n a h'
  · intro n a h
    have h' := toOption_of_ok _ _ h
    rw [PlaceAlignedUint32_toOption p off hfit hi] at h'
    exact placeAlignedSpec4_some p off n a h'
  · intro n a h
    have h' := toOption_of_ok _ _ h
    rw [PlaceAlignedBool_toOption p off hfit hi] at h'
    exact placeAlignedSpec4_some p off n a h'
  · intro n a h
    have h' := toOption_of_ok _ _ h
    rw [PlaceAlignedInt64_toOption p off hfit hi] at h'
    exact placeAlignedSpec8_some p off n a h'
  · intro n a h
    have h' := toOption_of_ok _ _ h
    rw [PlaceAlignedUint64_toOption p off hfit hi] at h'
    exact placeAlignedSpec8_some p off n a h'
  · intro n a h
    have h' := toOption_of_ok _ _ h
    rw [PlaceAlignedUintptr_toOption p off hfit hi] at h'
    exact placeAlignedSpec8_some p off n a h'

theorem placeAligned_result_aligned_inside_witness :
    ((ByteSlice.mk 4096 (List.replicate 64 0)).Fits ∧ IsI64 1) ∧
    (PlaceAlignedUint128 ⟨4096, List.replicate 64 0⟩ 1 = .ok (31, 4112) ∧
      PlaceAlignedInt32 ⟨4096, List.replicate 64 0⟩ 1 = .ok (7, 4100) ∧
      PlaceAlignedInt64 ⟨4096, List.replicate 64 0⟩ 1 = .ok (15, 4104)) ∧
    (∀ (n : Int) (a : Nat), PlaceAlignedUint128 ⟨4096, List.replicate 64 0⟩ 1 = .ok (n, a) →
      a % 16 = 0 ∧
      (a : Int) = ((ByteSlice.mk 4096 (List.replicate 64 0)).base : Int) + (1 + (n - 16)) ∧
      16 ≤ n ∧ n ≤ 31 ∧ 1 + n ≤ (ByteSlice.mk 4096 (List.replicate 64 0)).len) ∧
    (∀ (n : Int) (a : Nat), PlaceAlignedInt128 ⟨4096, List.replicate 64 0⟩ 1 = .ok (n, a) →
      a % 16 = 0 ∧
      (a : Int) = ((ByteSlice.mk 4096 (List.replicate 64 0)).base : Int) + (1 + (n - 16)) ∧
      16 ≤ n ∧ n ≤ 31 ∧ 1 + n ≤ (ByteSlice.mk 4096 (List.replicate 64 0)).len) ∧
    (∀ (n : Int) (a : Nat), PlaceAlignedInt32 ⟨4096, List.replicate 64 0⟩ 1 = .ok (n, a) →
      a % 4 = 0 ∧
      (a : Int) = ((ByteSlice.mk 4096 (List.replicate 64 0)).base : Int) + (1 + (n - 4)) ∧
      4 ≤ n ∧ n ≤ 7 ∧ 1 + n ≤ (ByteSlice.mk 4096 (List.replicate 64 0)).len) ∧
    (∀ (n : Int) (a : Nat), PlaceAlignedUint32 ⟨4096, List.replicate 64 0⟩ 1 = .ok (n, a) →
      a % 4 = 0 ∧
      (a : Int) = ((ByteSlice.mk 4096 (List.replicate 64 0)).base : Int) + (1 + (n - 4)) ∧
      4 ≤ n ∧ n ≤ 7 ∧ 1 + n ≤ (ByteSlice.mk 4096 (List.replicate 64 0)).len) ∧
    (∀ (n : Int) (a : Nat), PlaceAlignedBool ⟨4096, List.replicate 64 0⟩ 1 = .ok (n, a) →
      a % 4 = 0 ∧
      (a : Int) = ((ByteSlice.mk 4096 (List.replicate 64 0)).base : Int) + (1 + (n - 4)) ∧
      4 ≤ n ∧ n ≤ 7 ∧ 1 + n ≤ (ByteSlice.mk 4096 (List.replicate 64 0)).len) ∧
    (∀ (n : Int) (a : Nat), PlaceAlignedInt64 ⟨4096, List.replicate 64 0⟩ 1 = .ok (n, a) →
      a % 8 = 0 ∧
      (a : Int) = ((ByteSlice.mk 4096 (List.replicate 64 0)).base : Int) + (1 + (n - 8)) ∧
      8 ≤ n ∧ n ≤ 15 ∧ 1 + n ≤ (ByteSlice.mk 4096 (List.replicate 64 0)).len) ∧
    (∀ (n : Int) (a : Nat), PlaceAlignedUint64 ⟨4096, List.replicate 64 0⟩ 1 = .ok (n, a) →
      a % 8 = 0 ∧
      (a : Int) = ((ByteSlice.mk 4096 (List.replicate 64 0)).base : Int) + (1 + (n - 8)) ∧
      8 ≤ n ∧ n ≤ 15 ∧ 1 + n ≤ (ByteSlice.mk 4096 (List.replicate 64 0)).len) ∧
    (∀ (n : Int) (a : Nat), PlaceAlignedUintptr ⟨4096, List.replicate 64 0⟩ 1 = .ok (n, a) →
      a % 8 = 0 ∧
      (a : Int) = ((ByteSlice.mk 4096 (List.replicate 64 0)).base : Int) + (1 + (n - 8)) ∧
      8 ≤ n ∧ n ≤ 15 ∧ 1 + n ≤ (ByteSlice.mk 4096 (List.replicate 64 0)).len) :=
  ⟨by decide, ⟨rfl, rfl, rfl⟩,
    placeAligned_result_aligned_inside ⟨4096, List.replicate 64 0⟩ 1 (by decide) (by decide)⟩

/-- C9 (amended): in the typed-wrapper API, `Add` returns the value of the cell after the
addition for `Int32`, `Uint32`, `Int64`, `Uint64`, `Uintptr`, `Uint128` and `Int128`,
while `Swap` (every type) and `And`, `Or`, `Xor`, `Max`, `Min` (the five types that have
them) return the value before the mutation.  In the `MemoryOrder` dispatch API the same
holds, for every ordering, on 32-bit, 64-bit and pointer-sized words, and
`SwapUint128`, `SwapInt128` return the value before; `AddUint128` and `AddInt128`
return the value before the addition. -/
theorem return_value_convention :
    ScalarConvention Int32.Load Int32.Add Int32.Swap Int32.And Int32.Or Int32.Xor Int32.Max Int32.Min ∧
    ScalarConvention Uint32.Load Uint32.Add Uint32.Swap Uint32.And Uint32.Or Uint32.Xor Uint32.Max Uint32.Min ∧
    ScalarConvention Int64.Load Int64.Add Int64.Swap Int64.And Int64.Or Int64.Xor Int64.Max Int64.Min ∧
    ScalarConvention Uint64.Load Uint64.Add Uint64.Swap Uint64.And Uint64.Or Uint64.Xor Uint64.Max Uint64.Min ∧
    ScalarConvention Uintptr.Load Uintptr.Add Uintptr.Swap Uintptr.And Uintptr.Or Uintptr.Xor Uintptr.Max Uintptr.Min ∧
    LoopReturnsNew Uint128.Load (fun a (d : Nat × Nat) => Uint128.Add a d.1 d.2) ∧
    ReturnsOld Uint128.Load (fun a (d : Nat × Nat) => Uint128.Swap a d.1 d.2) ∧
    LoopReturnsNew Int128.Load (fun a (d : Int × Int) => Int128.Add a d.1 d.2) ∧
    ReturnsOld Int128.Load (fun a (d : Int × Int) => Int128.Swap a d.1 d.2) ∧
    (∀ o : MemoryOrder,
      ScalarConvention o.LoadInt32 o.AddInt32 o.SwapInt32 o.AndInt32 o.OrInt32 o.XorInt32 o.MaxInt32
        o.MinInt32 ∧
      ScalarConvention o.LoadUint32 o.AddUint32 o.SwapUint32 o.AndUint32 o.OrUint32 o.XorUint32 o.MaxUint32
        o.MinUint32 ∧
      ScalarConvention o.LoadInt64 o.AddInt64 o.SwapInt64 o.AndInt64 o.OrInt64 o.XorInt64 o.MaxInt64
        o.MinInt64 ∧
      ScalarConvention o.LoadUint64 o.AddUint64 o.SwapUint64 o.AndUint64 o.OrUint64 o.XorUint64 o.MaxUint64
        o.MinUint64 ∧
      ScalarConvention o.LoadUintptr o.AddUintptr o.SwapUintptr o.AndUintptr o.OrUintptr o.XorUintptr o.MaxUintptr
        o.MinUintptr ∧
      ReturnsOld o.LoadUint128 (fun a (d : Nat × Nat) => o.SwapUint128 a d.1 d.2) ∧
      ReturnsOld o.LoadInt128 (fun a (d : Int × Int) => o.SwapInt128 a d.1 d.2) ∧
      LoopReturnsOld o.LoadUint128 (fun a (d : Nat × Nat) => o.AddUint128 a d.1 d.2) ∧
      LoopReturnsOld o.LoadInt128 (fun a (d : Int × Int) => o.AddInt128 a d.1 d.2)) := by
  refine ⟨?_, ?_, ?_, ?_, ?_, ?_, ?_, ?_, ?_, fun o => ⟨?_, ?_, ?_, ?_, ?_, ?_, ?_, ?_, ?_⟩⟩
  · exact ⟨fun _ _ => rfl, fun _ _ => rfl,
      fun s x fuel => ⟨_, Int32_And_step s x fuel⟩, fun s x fuel => ⟨_, Int32_Or_step s x fuel⟩,
      fun s x fuel => ⟨_, Int32_Xor_step s x fuel⟩, fun s x fuel => ⟨_, Int32_Max_step s x fuel⟩,
      fun s x fuel => ⟨_, Int32_Min_step s x fuel⟩⟩
  · exact ⟨fun _ _ => rfl, fun _ _ => rfl,
      fun s x fuel => ⟨_, Uint32_And_step s x fuel⟩, fun s x fuel => ⟨_, Uint32_Or_step s x fuel⟩,
      fun s x fuel => ⟨_, Uint32_Xor_step s x fuel⟩, fun s x fuel => ⟨_, Uint32_Max_step s x fuel⟩,
      fun s x fuel => ⟨_, Uint32_Min_step s x fuel⟩⟩
  · exact ⟨fun _ _ => rfl, fun _ _ => rfl,
      fun s x fuel => ⟨_, Int64_And_step s x fuel⟩, fun s x fuel => ⟨_, Int64_Or_step s x fuel⟩,
      fun s x fuel => ⟨_, Int64_Xor_step s x fuel⟩, fun s x fuel => ⟨_, Int64_Max_step s x fuel⟩,
      fun s x fuel => ⟨_, Int64_Min_step s x fuel⟩⟩
  · exact ⟨fun _ _ => rfl, fun _ _ => rfl,
      fun s x fuel => ⟨_, Uint64_And_step s x fuel⟩, fun s x fuel => ⟨_, Uint64_Or_step s x fuel⟩,
      fun s x fuel => ⟨_, Uint64_Xor_step s x fuel⟩, fun s x fuel => ⟨_, Uint64_Max_step s x fuel⟩,
      fun s x fuel => ⟨_, Uint64_Min_step s x fuel⟩⟩
  · exact ⟨fun _ _ => rfl, fun _ _ => rfl,
      fun s x fuel => ⟨_, Uintptr_And_step s x fuel⟩, fun s x fuel => ⟨_, Uintptr_Or_step s x fuel⟩,
      fun s x fuel => ⟨_, Uintptr_Xor_step s x fuel⟩, fun s x fuel => ⟨_, Uintptr_Max_step s x fuel⟩,
      fun s x fuel => ⟨_, Uintptr_Min_step s x fuel⟩⟩
  · exact fun s x fuel =>
      ⟨⟨⟨addU64 s.v.lo x.1,
          if addU64 s.v.lo x.1 < s.v.lo then addU64 (addU64 s.v.hi x.2) 1
          else addU64 s.v.hi x.2⟩⟩, Uint128_Add_step s x.1 x.2 fuel⟩
  · exact fun _ _ => rfl
  · exact fun s x fuel =>
      ⟨⟨⟨addU64 s.v.lo (toU64 x.1),
          if addU64 s.v.lo (toU64 x.1) < s.v.lo then addU64 (addU64 s.v.hi (toU64 x.2)) 1
          else addU64 s.v.hi (toU64 x.2)⟩⟩, Int128_Add_step s x.1 x.2 fuel⟩
  · exact fun _ _ => rfl
  · refine ⟨fun s x => ?_, fun s x => ?_,
      fun s x fuel => ⟨andI32 s x, ?_⟩, fun s x fuel => ⟨orI32 s x, ?_⟩,
      fun s x fuel => ⟨xorI32 s x, ?_⟩, fun s x fuel => ⟨if s ≥ x then s else x, ?_⟩,
      fun s x fuel => ⟨if s ≤ x then s else x, ?_⟩⟩
    · rw [MemoryOrder_AddInt32_eq, MemoryOrder_LoadInt32_eq]; rfl
    · rw [MemoryOrder_SwapInt32_eq, MemoryOrder_LoadInt32_eq]
    · rw [MemoryOrder_AndInt32_step, MemoryOrder_LoadInt32_eq]
    · rw [MemoryOrder_OrInt32_step, MemoryOrder_LoadInt32_eq]
    · rw [MemoryOrder_XorInt32_step, MemoryOrder_LoadInt32_eq]
    · rw [MemoryOrder_MaxInt32_step, MemoryOrder_LoadInt32_eq]
    · rw [MemoryOrder_MinInt32_step, MemoryOrder_LoadInt32_eq]
  · refine ⟨fun s x => ?_, fun s x => ?_,
      fun s x fuel => ⟨andU32 s x, ?_⟩, fun s x fuel => ⟨orU32 s x, ?_⟩,
      fun s x fuel => ⟨xorU32 s x, ?_⟩, fun s x fuel => ⟨if s ≥ x then s else x, ?_⟩,
      fun s x fuel => ⟨if s ≤ x then s else x, ?_⟩⟩
    · rw [MemoryOrder_AddUint32_eq, MemoryOrder_LoadUint32_eq]; rfl
    · rw [MemoryOrder_SwapUint32_eq, MemoryOrder_LoadUint32_eq]
    · rw [MemoryOrder_AndUint32_step, MemoryOrder_LoadUint32_eq]
    · rw [MemoryOrder_OrUint32_step, MemoryOrder_LoadUint32_eq]
    · rw [MemoryOrder_XorUint32_step, MemoryOrder_LoadUint32_eq]
    · rw [MemoryOrder_MaxUint32_step, MemoryOrder_LoadUint32_eq]
    · rw [MemoryOrder_MinUint32_step, MemoryOrder_LoadUint32_eq]
  · refine ⟨fun s x => ?_, fun s x => ?_,
      fun s x fuel => ⟨andI64 s x, ?_⟩, fun s x fuel => ⟨orI64 s x, ?_⟩,
      fun s x fuel => ⟨xorI64 s x, ?_⟩, fun s x fuel => ⟨if s ≥ x then s else x, ?_⟩,
      fun s x fuel => ⟨if s ≤ x then s else x, ?_⟩⟩
    · rw [MemoryOrder_AddInt64_eq, MemoryOrder_LoadInt64_eq]; rfl
    · rw [MemoryOrder_SwapInt64_eq, MemoryOrder_LoadInt64_eq]
    · rw [MemoryOrder_AndInt64_step, MemoryOrder_LoadInt64_eq]
    · rw [MemoryOrder_OrInt64_step, MemoryOrder_LoadInt64_eq]
    · rw [MemoryOrder_XorInt64_step, MemoryOrder_LoadInt64_eq]
    · rw [MemoryOrder_MaxInt64_step, MemoryOrder_LoadInt64_eq]
    · rw [MemoryOrder_MinInt64_step, MemoryOrder_LoadInt64_eq]
  · refine ⟨fun s x => ?_, fun s x => ?_,
      fun s x fuel => ⟨andU64 s x, ?_⟩, fun s x fuel => ⟨orU64 s x, ?_⟩,
      fun s x fuel => ⟨xorU64 s x, ?_⟩, fun s x fuel => ⟨if s ≥ x then s else x, ?_⟩,
      fun s x fuel => ⟨if s ≤ x then s else x, ?_⟩⟩
    · rw [MemoryOrder_AddUint64_eq, MemoryOrder_LoadUint64_eq]; rfl
    · rw [MemoryOrder_SwapUint64_eq, MemoryOrder_LoadUint64_eq]
    · rw [MemoryOrder_AndUint64_step, MemoryOrder_LoadUint64_eq]
    · rw [MemoryOrder_OrUint64_step, MemoryOrder_LoadUint64_eq]
    · rw [MemoryOrder_XorUint64_step, MemoryOrder_LoadUint64_eq]
    · rw [MemoryOrder_MaxUint64_step, MemoryOrder_LoadUint64_eq]
    · rw [MemoryOrder_MinUint64_step, MemoryOrder_LoadUint64_eq]
  · refine ⟨fun s x => ?_, fun s x => ?_,
      fun s x fuel => ⟨andU64 s x, ?_⟩, fun s x fuel => ⟨orU64 s x, ?_⟩,
      fun s x fuel => ⟨xorU64 s x, ?_⟩, fun s x fuel => ⟨if s ≥ x then s else x, ?_⟩,
      fun s x fuel => ⟨if s ≤ x then s else x, ?_⟩⟩
    · rw [MemoryOrder_AddUintptr_eq, MemoryOrder_LoadUintptr_eq]; rfl
    · rw [MemoryOrder_SwapUintptr_eq, MemoryOrder_LoadUintptr_eq]
    · rw [MemoryOrder_AndUintptr_step, MemoryOrder_LoadUintptr_eq]
    · rw [MemoryOrder_OrUintptr_step, MemoryOrder_LoadUintptr_eq]
    · rw [MemoryOrder_XorUintptr_step, MemoryOrder_LoadUintptr_eq]
    · rw [MemoryOrder_MaxUintptr_step, MemoryOrder_LoadUintptr_eq]
    · rw [MemoryOrder_MinUintptr_step, MemoryOrder_LoadUintptr_eq]
  · intro s x
    simp only [MemoryOrder_SwapUint128_eq, MemoryOrder_LoadUint128_eq]
  · intro s x
    simp only [MemoryOrder_SwapInt128_eq, MemoryOrder_LoadInt128_eq]
  · intro s x fuel
    refine ⟨⟨⟨addU64 s.v.lo x.1,
        if addU64 s.v.lo x.1 < s.v.lo then addU64 (addU64 s.v.hi x.2) 1
        else addU64 s.v.hi x.2⟩⟩, ?_⟩
    beta_reduce
    rw [MemoryOrder_AddUint128_step, MemoryOrder_LoadUint128_eq]
  · intro s x fuel
    refine ⟨⟨⟨addU64 s.v.lo (toU64 x.1),
        if addU64 s.v.lo (toU64 x.1) < s.v.lo then addU64 (addU64 s.v.hi (toU64 x.2)) 1
        else addU64 s.v.hi (toU64 x.2)⟩⟩, ?_⟩
    beta_reduce
    rw [MemoryOrder_AddInt128_step, MemoryOrder_LoadInt128_eq]

/-- C9 as stated fails for the 128-bit `Add` of the `MemoryOrder` dispatch API: on a cell
holding `(5, 0)`, `Relaxed.AddUint128(addr, 1, 0)` returns `(5, 0)`, the value before
the addition, while the cell holds `(6, 0)` afterwards; so `AddUint128` does not return
the value after the addition. -/
theorem memoryOrder_addUint128_not_new_value :
    Relaxed.AddUint128 ⟨⟨5, 0⟩⟩ 1 0 1 = some ((5, 0), ⟨⟨6, 0⟩⟩) ∧
    Relaxed.LoadUint128 ⟨⟨6, 0⟩⟩ = (6, 0) ∧
    ¬ LoopReturnsNew Relaxed.LoadUint128
        (fun a (d : Nat × Nat) => Relaxed.AddUint128 a d.1 d.2) := by
  refine ⟨by decide, by decide, ?_⟩
  intro h
  obtain ⟨s', hs⟩ := h ⟨⟨5, 0⟩⟩ (1, 0) 0
  have h1 : Relaxed.AddUint128 ⟨⟨5, 0⟩⟩ 1 0 1 = some ((5, 0), ⟨⟨6, 0⟩⟩) := by decide
  simp only [zero_add] at hs
  rw [h1] at hs
  simp only [Option.some.injEq, Prod.mk.injEq] at hs
  obtain ⟨hr, hc⟩ := hs
  rw [← hc] at hr
  revert hr
  decide

/-- C10: for every `MemoryOrder` `o`, named or not, every well-formed `Uint128` cell
`(oldLo, oldHi)` and every delta whose low word is a `uint64`, `o.AddUint128` returns,
whatever the fuel given to its loop, `(oldLo, oldHi)`, the value before the addition,
and leaves a well-formed cell holding `(old + delta) mod 2^128`; from `(2^64 - 1, 0)`,
adding `(1, 0)` returns `(2^64 - 1, 0)` and leaves `(0, 1)`.  `o.AddInt128` returns the
signed words `Load` gave before the call and leaves the cell whose unsigned words hold
the sum, modulo `2^128`, of the old words and the delta's words read unsigned; from
`(-1, 0)`, adding `(1, 0)` returns `(-1, 0)` and leaves `(0, 1)`. -/
theorem memoryOrder_add128_returns_old_and_adds (o : MemoryOrder) (a : Uint128)
    (deltaLo deltaHi fuel : Nat) (b : Int128) (dLo dHi : Int)
    (ha : a.WF) (hlo : deltaLo < 2 ^ 64) (hb : b.WF) :
    (∃ a', o.AddUint128 a deltaLo deltaHi (fuel + 1) = some ((a.v.lo, a.v.hi), a') ∧
      a'.WF ∧ a'.value = (a.value + deltaLo + 2 ^ 64 * deltaHi) % 2 ^ 128) ∧
    o.AddUint128 ⟨⟨2 ^ 64 - 1, 0⟩⟩ 1 0 (fuel + 1) = some ((2 ^ 64 - 1, 0), ⟨⟨0, 1⟩⟩) ∧
    (∃ b', o.AddInt128 b dLo dHi (fuel + 1) = some (b.Load, b') ∧
      b'.WF ∧
      b'.v.lo + 2 ^ 64 * b'.v.hi
        = (b.v.lo + 2 ^ 64 * b.v.hi + toU64 dLo + 2 ^ 64 * toU64 dHi) % 2 ^ 128) ∧
    (∃ b', o.AddInt128 ⟨⟨2 ^ 64 - 1, 0⟩⟩ 1 0 (fuel + 1) = some ((-1, 0), b') ∧
      b'.Load = (0, 1)) := by
  refine ⟨⟨_, MemoryOrder_AddUint128_step o a deltaLo deltaHi fuel, ⟨addU64_lt _ _, ?_⟩, ?_⟩,
    ?_, ⟨_, MemoryOrder_AddInt128_step o b dLo dHi fuel, ⟨addU64_lt _ _, ?_⟩, ?_⟩,
    ⟨_, MemoryOrder_AddInt128_step o _ 1 0 fuel, ?_⟩⟩
  · show (if _ then _ else _) < 2 ^ 64
    split <;> exact addU64_lt _ _
  · unfold Uint128.value
    have := add128_words a.v.lo a.v.hi deltaLo deltaHi ha.1 hlo
    simp only [] at this ⊢
    omega
  · rw [MemoryOrder_AddUint128_step]; decide
  · show (if _ then _ else _) < 2 ^ 64
    split <;> exact addU64_lt _ _
  · exact add128_words b.v.lo b.v.hi (toU64 dLo) (toU64 dHi) hb.1 (toU64_lt _)
  · decide

theorem memoryOrder_add128_returns_old_and_adds_witness :
    (Uint128.WF ⟨⟨2 ^ 64 - 1, 7⟩⟩ ∧ 5 < 2 ^ 64 ∧ Int128.WF ⟨⟨2 ^ 64 - 3, 7⟩⟩) ∧
    ((∃ a', AcqRel.AddUint128 ⟨⟨2 ^ 64 - 1, 7⟩⟩ 5 3 (0 + 1)
        = some (((Uint128.mk ⟨2 ^ 64 - 1, 7⟩).v.lo, (Uint128.mk ⟨2 ^ 64 - 1, 7⟩).v.hi), a') ∧
      a'.WF ∧ a'.value = ((Uint128.mk ⟨2 ^ 64 - 1, 7⟩).value + 5 + 2 ^ 64 * 3) % 2 ^ 128) ∧
    AcqRel.AddUint128 ⟨⟨2 ^ 64 - 1, 0⟩⟩ 1 0 (0 + 1) = some ((2 ^ 64 - 1, 0), ⟨⟨0, 1⟩⟩) ∧
    (∃ b', AcqRel.AddInt128 ⟨⟨2 ^ 64 - 3, 7⟩⟩ 5 (-2) (0 + 1)
        = some ((Int128.mk ⟨2 ^ 64 - 3, 7⟩).Load, b') ∧
      b'.WF ∧
      b'.v.lo + 2 ^ 64 * b'.v.hi
        = ((Int128.mk ⟨2 ^ 64 - 3, 7⟩).v.lo + 2 ^ 64 * (Int128.mk ⟨2 ^ 64 - 3, 7⟩).v.hi
            + toU64 5 + 2 ^ 64 * toU64 (-2)) % 2 ^ 128) ∧
    (∃ b', AcqRel.AddInt128 ⟨⟨2 ^ 64 - 1, 0⟩⟩ 1 0 (0 + 1) = some ((-1, 0), b') ∧
      b'.Load = (0, 1))) :=
  ⟨by decide,
    memoryOrder_add128_returns_old_and_adds AcqRel ⟨⟨2 ^ 64 - 1, 7⟩⟩ 5 3 0 ⟨⟨2 ^ 64 - 3, 7⟩⟩ 5 (-2)
      (by decide) (by decide) (by decide)⟩

/-! ## `Sub` through `Add` -/

theorem notU32_subU32_one (d : Nat) : notU32 (subU32 d 1) = (2 ^ 32 - d % 2 ^ 32) % 2 ^ 32 := by
  unfold notU32 subU32; omega

theorem notU64_subU64_one (d : Nat) : notU64 (subU64 d 1) = (2 ^ 64 - d % 2 ^ 64) % 2 ^ 64 := by
  unfold notU64 subU64; omega

theorem addU32_neg (a d : Nat) :
    ((addU32 a ((2 ^ 32 - d % 2 ^ 32) % 2 ^ 32) : Nat) : Int)
      = ((a : Int) - (d : Int)) % 2 ^ 32 := by
  unfold addU32; omega

theorem addU64_neg (a d : Nat) :
    ((addU64 a ((2 ^ 64 - d % 2 ^ 64) % 2 ^ 64) : Nat) : Int)
      = ((a : Int) - (d : Int)) % 2 ^ 64 := by
  unfold addU64; omega

theorem addU32_lt (a b : Nat) : addU32 a b < 2 ^ 32 := by
  unfold addU32; omega

theorem addU32_zero_neg (a : Nat) : addU32 a ((2 ^ 32 - 0 % 2 ^ 32) % 2 ^ 32) = a % 2 ^ 32 := by
  unfold addU32; omega

theorem addU64_zero_neg (a : Nat) : addU64 a ((2 ^ 64 - 0 % 2 ^ 64) % 2 ^ 64) = a % 2 ^ 64 := by
  unfold addU64; omega

theorem addI32_spec (a b : Int) :
    IsI32 (addI32 a b) ∧ (addI32 a b - (a + b)) % 2 ^ 32 = 0 := by
  unfold IsI32 addI32; omega

theorem addI64_spec (a b : Int) :
    IsI64 (addI64 a b) ∧ (addI64 a b - (a + b)) % 2 ^ 64 = 0 := by
  unfold IsI64 addI64; omega

theorem addI32_negI32 (a d : Int) : (addI32 a (negI32 d) - (a - d)) % 2 ^ 32 = 0 := by
  unfold addI32 negI32; omega

theorem addI64_negI64 (a d : Int) : (addI64 a (negI64 d) - (a - d)) % 2 ^ 64 = 0 := by
  unfold addI64 negI64; omega

theorem negI32_min : negI32 (-(2 ^ 31)) = -(2 ^ 31) := by
  unfold negI32; omega

theorem negI64_min : negI64 (-(2 ^ 63)) = -(2 ^ 63) := by
  unfold negI64; omega

theorem Int32_Add_eq (a : Int32) (delta : Int) :
    a.Add delta = (addI32 a.v delta, ⟨addI32 a.v delta⟩) := rfl

theorem Int32_Load_eq (a : Int32) : a.Load = a.v := rfl

theorem Int64_Add_eq (a : Int64) (delta : Int) :
    a.Add delta = (addI64 a.v delta, ⟨addI64 a.v delta⟩) := rfl

theorem Int64_Load_eq (a : Int64) : a.Load = a.v := rfl

theorem Uint32_Add_eq (a : Uint32) (delta : Nat) :
    a.Add delta = (addU32 a.v delta, ⟨addU32 a.v delta⟩) := rfl

theorem Uint32_Load_eq (a : Uint32) : a.Load = a.v := rfl

theorem Uint64_Add_eq (a : Uint64) (delta : Nat) :
    a.Add delta = (addU64 a.v delta, ⟨addU64 a.v delta⟩) := rfl

theorem Uint64_Load_eq (a : Uint64) : a.Load = a.v := rfl

theorem Uintptr_Add_eq (a : Uintptr) (delta : Nat) :
    a.Add delta = (addU64 a.v delta, ⟨addU64 a.v delta⟩) := rfl

theorem Uintptr_Load_eq (a : Uintptr) : a.Load = a.v := rfl

theorem Int32_Sub_eq_Add (a : Int32) (delta : Int) :
    a.Sub delta = a.Add (negI32 delta) := rfl

theorem Int32_Sub_spec (a : Int32) (delta : Int) :
    a.Sub delta = a.Add (negI32 delta) ∧ IsI32 (a.Sub delta).1 ∧
    ((a.Sub delta).1 - (a.v - delta)) % 2 ^ 32 = 0 ∧
    (a.Sub delta).2.Load = (a.Sub delta).1 ∧
    (a.Sub (-(2 ^ 31))).1 = addI32 a.v (-(2 ^ 31)) := by
  refine ⟨Int32_Sub_eq_Add a delta, ?_, ?_, ?_, ?_⟩
  · rw [Int32_Sub_eq_Add, Int32_Add_eq]; exact (addI32_spec _ _).1
  · rw [Int32_Sub_eq_Add, Int32_Add_eq]; exact addI32_negI32 _ _
  · rw [Int32_Sub_eq_Add, Int32_Add_eq, Int32_Load_eq]
  · rw [Int32_Sub_eq_Add, Int32_Add_eq, negI32_min]

theorem Int64_Sub_eq_Add (a : Int64) (delta : Int) :
    a.Sub delta = a.Add (negI64 delta) := rfl

theorem Int64_Sub_spec (a : Int64) (delta : Int) :
    a.Sub delta = a.Add (negI64 delta) ∧ IsI64 (a.Sub delta).1 ∧
    ((a.Sub delta).1 - (a.v - delta)) % 2 ^ 64 = 0 ∧
    (a.Sub delta).2.Load = (a.Sub delta).1 ∧
    (a.Sub (-(2 ^ 63))).1 = addI64 a.v (-(2 ^ 63)) := by
  refine ⟨Int64_Sub_eq_Add a delta, ?_, ?_, ?_, ?_⟩
  · rw [Int64_Sub_eq_Add, Int64_Add_eq]; exact (addI64_spec _ _).1
  · rw [Int64_Sub_eq_Add, Int64_Add_eq]; exact addI64_negI64 _ _
  · rw [Int64_Sub_eq_Add, Int64_Add_eq, Int64_Load_eq]
  · rw [Int64_Sub_eq_Add, Int64_Add_eq, negI64_min]

theorem Uint32_Sub_eq_Add (a : Uint32) (delta : Nat) :
    a.Sub delta = a.Add (notU32 (subU32 delta 1)) := rfl

theorem Uint32_Sub_spec (a : Uint32) (delta : Nat) :
    a.Sub delta = a.Add (notU32 (subU32 delta 1)) ∧ (a.Sub delta).1 < 2 ^ 32 ∧
    (((a.Sub delta).1 : Nat) : Int) = ((a.v : Int) - (delta : Int)) % 2 ^ 32 ∧
    (a.Sub delta).2.Load = (a.Sub delta).1 ∧
    (a.Sub 0).1 = a.v % 2 ^ 32 := by
  refine ⟨Uint32_Sub_eq_Add a delta, ?_, ?_, ?_, ?_⟩
  · rw [Uint32_Sub_eq_Add, Uint32_Add_eq]; exact addU32_lt _ _
  · rw [Uint32_Sub_eq_Add, Uint32_Add_eq, notU32_subU32_one]; exact addU32_neg _ _
  · rw [Uint32_Sub_eq_Add, Uint32_Add_eq, Uint32_Load_eq]
  · rw [Uint32_Sub_eq_Add, Uint32_Add_eq, notU32_subU32_one]; exact addU32_zero_neg _

theorem Uint64_Sub_eq_Add (a : Uint64) (delta : Nat) :
    a.Sub delta = a.Add (notU64 (subU64 delta 1)) := rfl

theorem Uint64_Sub_spec (a : Uint64) (delta : Nat) :
    a.Sub delta = a.Add (notU64 (subU64 delta 1)) ∧ (a.Sub delta).1 < 2 ^ 64 ∧
    (((a.Sub delta).1 : Nat) : Int) = ((a.v : Int) - (delta : Int)) % 2 ^ 64 ∧
    (a.Sub delta).2.Load = (a.Sub delta).1 ∧
    (a.Sub 0).1 = a.v % 2 ^ 64 := by
  refine ⟨Uint64_Sub_eq_Add a delta, ?_, ?_, ?_, ?_⟩
  · rw [Uint64_Sub_eq_Add, Uint64_Add_eq]; exact addU64_lt _ _
  · rw [Uint64_Sub_eq_Add, Uint64_Add_eq, notU64_subU64_one]; exact addU64_neg _ _
  · rw [Uint64_Sub_eq_Add, Uint64_Add_eq, Uint64_Load_eq]
  · rw [Uint64_Sub_eq_Add, Uint64_Add_eq, notU64_subU64_one]; exact addU64_zero_neg _

theorem Uintptr_Sub_eq_Add (a : Uintptr) (delta : Nat) :
    a.Sub delta = a.Add (notU64 (subU64 delta 1)) := rfl

theorem Uintptr_Sub_spec (a : Uintptr) (delta : Nat) :
    a.Sub delta = a.Add (notU64 (subU64 delta 1)) ∧ (a.Sub delta).1 < 2 ^ 64 ∧
    (((a.Sub delta).1 : Nat) : Int) = ((a.v : Int) - (delta : Int)) % 2 ^ 64 ∧
    (a.Sub delta).2.Load = (a.Sub delta).1 ∧
    (a.Sub 0).1 = a.v % 2 ^ 64 := by
  refine ⟨Uintptr_Sub_eq_Add a delta, ?_, ?_, ?_, ?_⟩
  · rw [Uintptr_Sub_eq_Add, Uintptr_Add_eq]; exact addU64_lt _ _
  · rw [Uintptr_Sub_eq_Add, Uintptr_Add_eq, notU64_subU64_one]; exact addU64_neg _ _
  · rw [Uintptr_Sub_eq_Add, Uintptr_Add_eq, Uintptr_Load_eq]
  · rw [Uintptr_Sub_eq_Add, Uintptr_Add_eq, notU64_subU64_one]; exact addU64_zero_neg _

/-- C11: for every `Int32` cell value `cur` and every `delta`, `Add(delta)` returns the
value of type `int32` that is congruent to `cur + delta` modulo `2^32` (the
two's-complement wrap, not a saturated value), and `Load` on the cell after the call
returns the same value; `Store(2147483647); Add(1)` gives `-2147483648`. -/
theorem int32_add_wraps (a : Int32) (delta : Int) :
    IsI32 (a.Add delta).1 ∧
    ((a.Add delta).1 - (a.v + delta)) % 2 ^ 32 = 0 ∧
    (a.Add delta).2.Load = (a.Add delta).1 ∧
    ((a.Store 2147483647).Add 1).1 = -2147483648 ∧
    ((a.Store 2147483647).Add 1).2.Load = -2147483648 := by
  refine ⟨?_, ?_, ?_, ?_, ?_⟩
  · rw [Int32_Add_eq]; exact (addI32_spec _ _).1
  · rw [Int32_Add_eq]; exact (addI32_spec _ _).2
  · rw [Int32_Add_eq, Int32_Load_eq]
  · rw [Int32_Add_eq]
    show addI32 2147483647 1 = -2147483648
    decide
  · rw [Int32_Add_eq, Int32_Load_eq]
    show addI32 2147483647 1 = -2147483648
    decide

/-- C12: for each of `Int32`, `Int64`, `Uint32`, `Uint64` and `Uintptr`, of width `w`,
every cell value `cur` and every `delta`, `Sub(delta)` has the result and the effect of
`Add(-delta)` (signed types) or `Add(^(delta - 1))` (unsigned types), returns the value
of the type that is congruent to `cur - delta` modulo `2^w`, and leaves that value in
the cell; with `delta = 0` an unsigned `Sub` returns `cur mod 2^w`, and with `delta` the
minimum value a signed `Sub` returns the wrap of `cur + 2^(w-1)`. -/
theorem sub_is_add_of_negation :
    (∀ (a : Int32) (delta : Int),
      a.Sub delta = a.Add (negI32 delta) ∧ IsI32 (a.Sub delta).1 ∧
      ((a.Sub delta).1 - (a.v - delta)) % 2 ^ 32 = 0 ∧
      (a.Sub delta).2.Load = (a.Sub delta).1 ∧
      (a.Sub (-(2 ^ 31))).1 = addI32 a.v (-(2 ^ 31))) ∧
    (∀ (a : Int64) (delta : Int),
      a.Sub delta = a.Add (negI64 delta) ∧ IsI64 (a.Sub delta).1 ∧
      ((a.Sub delta).1 - (a.v - delta)) % 2 ^ 64 = 0 ∧
      (a.Sub delta).2.Load = (a.Sub delta).1 ∧
      (a.Sub (-(2 ^ 63))).1 = addI64 a.v (-(2 ^ 63))) ∧
    (∀ (a : Uint32) (delta : Nat),
      a.Sub delta = a.Add (notU32 (subU32 delta 1)) ∧ (a.Sub delta).1 < 2 ^ 32 ∧
      (((a.Sub delta).1 : Nat) : Int) = ((a.v : Int) - (delta : Int)) % 2 ^ 32 ∧
      (a.Sub delta).2.Load = (a.Sub delta).1 ∧
      (a.Sub 0).1 = a.v % 2 ^ 32) ∧
    (∀ (a : Uint64) (delta : Nat),
      a.Sub delta = a.Add (notU64 (subU64 delta 1)) ∧ (a.Sub delta).1 < 2 ^ 64 ∧
      (((a.Sub delta).1 : Nat) : Int) = ((a.v : Int) - (delta : Int)) % 2 ^ 64 ∧
      (a.Sub delta).2.Load = (a.Sub delta).1 ∧
      (a.Sub 0).1 = a.v % 2 ^ 64) ∧
    (∀ (a : Uintptr) (delta : Nat),
      a.Sub delta = a.Add (notU64 (subU64 delta 1)) ∧ (a.Sub delta).1 < 2 ^ 64 ∧
      (((a.Sub delta).1 : Nat) : Int) = ((a.v : Int) - (delta : Int)) % 2 ^ 64 ∧
      (a.Sub delta).2.Load = (a.Sub delta).1 ∧
      (a.Sub 0).1 = a.v % 2 ^ 64) :=
  ⟨Int32_Sub_spec, Int64_Sub_spec, Uint32_Sub_spec, Uint64_Sub_spec, Uintptr_Sub_spec⟩

/-- C16: for every `int64` value `x`, every word `v` and every pair of `MemoryOrder`
values `(os, ol)`, the sixteen combinations of the named constants among them,
`os.StoreInt64(&v, x)` followed by `ol.LoadInt64(&v)` returns `x`. -/
theorem memoryOrder_int64_store_load (os ol : MemoryOrder) (v x : Int) :
    ol.LoadInt64 (os.StoreInt64 v x) = x := by
  unfold MemoryOrder.LoadInt64 MemoryOrder.StoreInt64 arch.LoadInt64Relaxed
    arch.LoadInt64Acquire arch.StoreInt64Relaxed arch.StoreInt64Release atomic.LoadInt64
    atomic.StoreInt64
  simp only [ite_self]

/-! ## Bytes of a word, and a value read back from a slice -/

theorem u64OfBytes_bytesOfU64 (v : Nat) : u64OfBytes (bytesOfU64 v) = v % 2 ^ 64 := by
  simp only [bytesOfU64, u64OfBytes]
  omega

theorem bytesOfU64_length (v : Nat) : (bytesOfU64 v).length = 8 := rfl

theorem take_drop_middle (pre mid post : List Nat) (k : Nat) (hk : pre.length = k)
    (hm : mid.length = 8) : ((pre ++ mid ++ post).drop k).take 8 = mid := by
  subst hk
  rw [List.append_assoc, List.drop_left, ← hm, List.take_left]

/-- A 128-bit value stored at an address of the slice that leaves room for its sixteen
bytes is read back, each word reduced to 64 bits. -/
theorem Uint128_LoadAt_StoreAt (p : ByteSlice) (ptr lo hi : Nat) (hb : p.base ≤ ptr)
    (hfit : ptr - p.base + 16 ≤ p.bytes.length) :
    Uint128.LoadAt (Uint128.StoreAt p ptr lo hi) ptr = (lo % 2 ^ 64, hi % 2 ^ 64) := by
  have hk : (p.bytes.take (ptr - p.base)).length = ptr - p.base := by
    rw [List.length_take]; omega
  have h1 : (p.bytes.take (ptr - p.base) ++ bytesOfU64 lo ++
      p.bytes.drop (ptr - p.base + 8)).take (ptr + 8 - p.base)
      = p.bytes.take (ptr - p.base) ++ bytesOfU64 lo := by
    have : ptr + 8 - p.base = (p.bytes.take (ptr - p.base) ++ bytesOfU64 lo).length := by
      rw [List.length_append, hk, bytesOfU64_length]; omega
    rw [this, List.take_left]
  have hlen : (p.bytes.take (ptr - p.base) ++ bytesOfU64 lo).length = ptr + 8 - p.base := by
    rw [List.length_append, hk, bytesOfU64_length]; omega
  simp only [Uint128.LoadAt, Uint128.StoreAt, Uint128.Load, Uint128.Store,
    arch.LoadUint128Relaxed, arch.StoreUint128Relaxed, ByteSlice.cell128,
    ByteSlice.setCell128, ByteSlice.readU64, ByteSlice.writeU64, h1]
  congr 1
  · rw [List.append_assoc (List.take (ptr - p.base) p.bytes ++ bytesOfU64 lo),
      take_drop_middle _ _ _ _ hk (bytesOfU64_length lo)]
    exact u64OfBytes_bytesOfU64 lo
  · rw [take_drop_middle _ _ _ _ hlen (bytesOfU64_length hi)]
    exact u64OfBytes_bytesOfU64 hi
theorem ok_of_toOption {α : Type} (r : Except String α) (x : α) (h : r.toOption = some x) :
    r = .ok x := by
  cases r with
  | error e => simp [Except.toOption] at h
  | ok a => simp only [Except.toOption, Option.some.injEq] at h; rw [h]

/-- In a slice of 64 bytes, whatever its base address, `PlaceAlignedUint128` at offset 0
returns, and the sixteen bytes of the value lie inside the slice. -/
theorem PlaceAlignedUint128_in_64_bytes (p : ByteSlice) (hp : p.bytes.length = 64) :
    ∃ (n : Int) (ptr : Nat), PlaceAlignedUint128 p 0 = .ok (n, ptr) ∧ p.base ≤ ptr ∧
      ptr - p.base + 16 ≤ p.bytes.length := by
  have hfit : p.Fits := by
    unfold ByteSlice.Fits ByteSlice.len; rw [hp]; decide
  have hne : p.bytes ≠ [] := by
    intro h; rw [h] at hp; exact absurd hp (by decide)
  have h := PlaceAlignedUint128_toOption p 0 hfit (by decide)
  unfold placeAlignedSpec at h
  have hc : p.bytes ≠ [] ∧ (0 : Int) ≤ 0 + (16 - ((p.base : Int) + 0) % 16) % 16 ∧
      0 + (16 - ((p.base : Int) + 0) % 16) % 16 + 16 ≤ p.len := by
    refine ⟨hne, ?_, ?_⟩
    · omega
    · unfold ByteSlice.len; rw [hp]; omega
  simp only [] at h
  rw [if_pos hc] at h
  refine ⟨_, _, ok_of_toOption _ _ h, ?_, ?_⟩
  · omega
  · rw [hp]; omega

/-- C17: for every pair of `int64` words `(lo, hi)`, negative ones included,
`Int128.Store(lo, hi)` followed by `Load`, and `StoreRelease` followed by `LoadAcquire`,
returns exactly `(lo, hi)`; and in every buffer of 64 bytes `PlaceAlignedUint128` at
offset 0 returns a value on which `Store(0xDEADBEEF, 0xCAFEBABE)` followed by `Load`
returns exactly `(0xDEADBEEF, 0xCAFEBABE)`. -/
theorem int128_store_load_roundtrip (a : Int128) (lo hi : Int) (p : ByteSlice)
    (hlo : IsI64 lo) (hhi : IsI64 hi) (hp : p.bytes.length = 64) :
    (a.Store lo hi).Load = (lo, hi) ∧
    (a.StoreRelease lo hi).LoadAcquire = (lo, hi) ∧
    (∃ (n : Int) (ptr : Nat), PlaceAlignedUint128 p 0 = .ok (n, ptr) ∧
      Uint128.LoadAt (Uint128.StoreAt p ptr 0xDEADBEEF 0xCAFEBABE) ptr
        = (0xDEADBEEF, 0xCAFEBABE)) := by
  refine ⟨?_, ?_, ?_⟩
  · show (toI64 (toU64 lo), toI64 (toU64 hi)) = (lo, hi)
    rw [toI64_toU64 lo hlo, toI64_toU64 hi hhi]
  · show (toI64 (toU64 lo), toI64 (toU64 hi)) = (lo, hi)
    rw [toI64_toU64 lo hlo, toI64_toU64 hi hhi]
  · obtain ⟨n, ptr, hok, hb, hin⟩ := PlaceAlignedUint128_in_64_bytes p hp
    exact ⟨n, ptr, hok, Uint128_LoadAt_StoreAt p ptr _ _ hb hin⟩

theorem int128_store_load_roundtrip_witness :
    (IsI64 (-5) ∧ IsI64 (-(2 ^ 63)) ∧
      (ByteSlice.mk 4104 (List.replicate 64 0)).bytes.length = 64) ∧
    ((Int128.mk ⟨0, 0⟩).Store (-5) (-(2 ^ 63))).Load = (-5, -(2 ^ 63)) ∧
    ((Int128.mk ⟨0, 0⟩).StoreRelease (-5) (-(2 ^ 63))).LoadAcquire = (-5, -(2 ^ 63)) ∧
    (∃ (n : Int) (ptr : Nat),
      PlaceAlignedUint128 (ByteSlice.mk 4104 (List.replicate 64 0)) 0 = .ok (n, ptr) ∧
      Uint128.LoadAt
          (Uint128.StoreAt (ByteSlice.mk 4104 (List.replicate 64 0)) ptr 0xDEADBEEF 0xCAFEBABE)
          ptr
        = (0xDEADBEEF, 0xCAFEBABE)) :=
  ⟨by decide,
    int128_store_load_roundtrip ⟨⟨0, 0⟩⟩ (-5) (-(2 ^ 63)) ⟨4104, List.replicate 64 0⟩
      (by decide) (by decide) (by decide)⟩

/-- C19: for every `Uint128` cell whose `Load` returns the `uint64` words `(alo, ahi)` and
every argument `(lo, hi)` with `lo` a `uint64`, `Less`, `LessOrEqual`, `Greater` and
`GreaterOrEqual` return exactly the truth of `<`, `<=`, `>`, `>=` between
`ahi * 2^64 + alo` and `hi * 2^64 + lo`, and `Equal` returns true exactly when
`alo = lo` and `ahi = hi`. -/
theorem uint128_comparisons (a : Uint128) (lo hi : Nat) (ha : a.WF) (hlo : lo < 2 ^ 64) :
    (a.Less lo hi = true ↔ a.Load.2 * 2 ^ 64 + a.Load.1 < hi * 2 ^ 64 + lo) ∧
    (a.LessOrEqual lo hi = true ↔ a.Load.2 * 2 ^ 64 + a.Load.1 ≤ hi * 2 ^ 64 + lo) ∧
    (a.Greater lo hi = true ↔ a.Load.2 * 2 ^ 64 + a.Load.1 > hi * 2 ^ 64 + lo) ∧
    (a.GreaterOrEqual lo hi = true ↔ a.Load.2 * 2 ^ 64 + a.Load.1 ≥ hi * 2 ^ 64 + lo) ∧
    (a.Equal lo hi = true ↔ (a.Load.1 = lo ∧ a.Load.2 = hi)) := by
  have h1 := ha.1
  simp only [Uint128.Less, Uint128.LessOrEqual, Uint128.Greater, Uint128.GreaterOrEqual,
    Uint128.Equal, Uint128.Load, arch.LoadUint128Acquire, arch.LoadUint128Relaxed,
    Bool.or_eq_true, Bool.and_eq_true, decide_eq_true_eq]
  generalize a.v.hi = ahi at *
  generalize a.v.lo = alo at *
  refine ⟨?_, ?_, ?_, ?_, trivial⟩ <;> omega

theorem uint128_comparisons_witness :
    (Uint128.WF ⟨⟨2 ^ 64 - 1, 3⟩⟩ ∧ 0 < 2 ^ 64) ∧
    (((Uint128.mk ⟨2 ^ 64 - 1, 3⟩).Less 0 4 = true ↔
      (Uint128.mk ⟨2 ^ 64 - 1, 3⟩).Load.2 * 2 ^ 64 + (Uint128.mk ⟨2 ^ 64 - 1, 3⟩).Load.1
        < 4 * 2 ^ 64 + 0) ∧
    ((Uint128.mk ⟨2 ^ 64 - 1, 3⟩).LessOrEqual 0 4 = true ↔
      (Uint128.mk ⟨2 ^ 64 - 1, 3⟩).Load.2 * 2 ^ 64 + (Uint128.mk ⟨2 ^ 64 - 1, 3⟩).Load.1
        ≤ 4 * 2 ^ 64 + 0) ∧
    ((Uint128.mk ⟨2 ^ 64 - 1, 3⟩).Greater 0 4 = true ↔
      (Uint128.mk ⟨2 ^ 64 - 1, 3⟩).Load.2 * 2 ^ 64 + (Uint128.mk ⟨2 ^ 64 - 1, 3⟩).Load.1
        > 4 * 2 ^ 64 + 0) ∧
    ((Uint128.mk ⟨2 ^ 64 - 1, 3⟩).GreaterOrEqual 0 4 = true ↔
      (Uint128.mk ⟨2 ^ 64 - 1, 3⟩).Load.2 * 2 ^ 64 + (Uint128.mk ⟨2 ^ 64 - 1, 3⟩).Load.1
        ≥ 4 * 2 ^ 64 + 0) ∧
    ((Uint128.mk ⟨2 ^ 64 - 1, 3⟩).Equal 0 4 = true ↔
      ((Uint128.mk ⟨2 ^ 64 - 1, 3⟩).Load.1 = 0 ∧ (Uint128.mk ⟨2 ^ 64 - 1, 3⟩).Load.2 = 4))) :=
  ⟨by decide, uint128_comparisons ⟨⟨2 ^ 64 - 1, 3⟩⟩ 0 4 (by decide) (by decide)⟩

/-! ## The boolean word -/

theorem MemoryOrder_LoadBool_eq (o : MemoryOrder) (w : Nat) :
    o.LoadBool w = decide (w ≠ 0) := by
  unfold MemoryOrder.LoadBool arch.LoadUint32Relaxed arch.LoadUint32Acquire atomic.LoadUint32
  simp only [ite_self]

theorem MemoryOrder_CompareAndSwapBool_eq (o : MemoryOrder) (w : Nat) (old new : Bool) :
    o.CompareAndSwapBool w old new =
      if w = (if old then 1 else 0) then (true, if new then 1 else 0) else (false, w) := by
  unfold MemoryOrder.CompareAndSwapBool arch.CasUint32Relaxed arch.CasUint32Acquire
    arch.CasUint32Release arch.CasUint32AcqRel atomic.CompareAndSwapUint32
  simp only [ite_self]

/-- C18 (amended): for every word `w` that is 0 or 1, every `MemoryOrder` `o` and every
booleans `old`, `new`, `o.CompareAndSwapBool(addr, old, new)` returns true if and only if
`o.LoadBool(addr)` evaluated before the call equals `old`; after a true result
`LoadBool` returns `new` and the word is 0 or 1 again, and after a false result the word
is unchanged. -/
theorem memoryOrder_compareAndSwapBool_iff (o : MemoryOrder) (w : Nat) (old new : Bool)
    (hw : w = 0 ∨ w = 1) :
    ((o.CompareAndSwapBool w old new).1 = true ↔ o.LoadBool w = old) ∧
    o.LoadBool (o.CompareAndSwapBool w old new).2
      = (if (o.CompareAndSwapBool w old new).1 then new else o.LoadBool w) ∧
    (o.CompareAndSwapBool w old new).2
      = (if (o.CompareAndSwapBool w old new).1 then (if new then 1 else 0) else w) := by
  simp only [MemoryOrder_CompareAndSwapBool_eq, MemoryOrder_LoadBool_eq]
  rcases hw with h | h <;> subst h <;> cases old <;> cases new <;> decide

theorem memoryOrder_compareAndSwapBool_iff_witness :
    ((1 : Nat) = 0 ∨ (1 : Nat) = 1) ∧
    (((Acquire.CompareAndSwapBool 1 true false).1 = true ↔ Acquire.LoadBool 1 = true) ∧
    Acquire.LoadBool (Acquire.CompareAndSwapBool 1 true false).2
      = (if (Acquire.CompareAndSwapBool 1 true false).1 then false else Acquire.LoadBool 1) ∧
    (Acquire.CompareAndSwapBool 1 true false).2
      = (if (Acquire.CompareAndSwapBool 1 true false).1 then (if false then 1 else 0)
          else 1)) :=
  ⟨by decide, memoryOrder_compareAndSwapBool_iff Acquire 1 true false (by decide)⟩

/-- C18 as stated fails on a word that is neither 0 nor 1: with the word 2, `LoadBool`
returns true, yet `CompareAndSwapBool(addr, true, false)` compares the word with 1,
returns false and leaves the word 2. -/
theorem memoryOrder_compareAndSwapBool_word_two :
    AcqRel.LoadBool 2 = true ∧
    AcqRel.CompareAndSwapBool 2 true false = (false, 2) ∧
    ¬ ((AcqRel.CompareAndSwapBool 2 true false).1 = true ↔ AcqRel.LoadBool 2 = true) := by
  decide

/-! ## The allocator -/

theorem Allocator_Skip_eq (a : Allocator) (n : Int) (h : IsI64 (a.off + n)) :
    a.Skip n = if a.off + n > a.buf.len then .error "atomix: skip beyond buffer"
      else .ok { buf := a.buf, off := a.off + n } := by
  have e : addI64 a.off n = a.off + n := by
    unfold IsI64 at h; unfold addI64; omega
  unfold Allocator.Skip
  rw [e]

/-- When `off + n` is an `int`, `Skip(n)` aborts exactly when `off + n` exceeds the length
of the buffer, and otherwise moves the offset to `off + n` and leaves the buffer as it
was. -/
theorem Allocator_Skip_spec (a : Allocator) (n : Int) (h : IsI64 (a.off + n)) :
    (Aborts (a.Skip n) ↔ a.off + n > a.buf.len) ∧
    (¬ a.off + n > a.buf.len → ∃ b, a.Skip n = .ok b ∧ b.Offset = a.off + n ∧ b.buf = a.buf) := by
  rw [Allocator_Skip_eq a n h]
  by_cases hc : a.off + n > a.buf.len
  · rw [if_pos hc]
    exact ⟨⟨fun _ => hc, fun _ => rfl⟩, fun h' => absurd hc h'⟩
  · rw [if_neg hc]
    refine ⟨⟨fun h' => ?_, fun h' => absurd h' hc⟩, fun _ => ⟨_, rfl, rfl, rfl⟩⟩
    simp [Aborts, Except.isOk, Except.toBool] at h'

/-- C20 fails on the code: with offset 1 in a buffer of 64 bytes, `Skip(2^63 - 1)` does not
abort although `off + n = 2^63` exceeds the length 64; the sum `a.off + n` wraps to
`-2^63`, the test `a.off+n > len(a.buf)` is false, and the call returns with the offset
`-2^63`. -/
theorem allocator_skip_wraps_past_length :
    (1 : Int) + (2 ^ 63 - 1) > (ByteSlice.mk 4096 (List.replicate 64 0)).len ∧
    Allocator.Skip ⟨⟨4096, List.replicate 64 0⟩, 1⟩ (2 ^ 63 - 1)
      = .ok ⟨⟨4096, List.replicate 64 0⟩, -(2 ^ 63)⟩ ∧
    Returns (Allocator.Skip ⟨⟨4096, List.replicate 64 0⟩, 1⟩ (2 ^ 63 - 1)) :=
  ⟨by decide, rfl, by decide⟩

/-! ## The allocator: `Align`, the typed allocations, sequences of calls -/

/-! ### Powers of two and the padding to a multiple -/

/-- A positive number that shares no bit with its predecessor is a power of two. -/
theorem pow_two_of_and_pred (n : Nat) (hn : 0 < n) (h : n &&& (n - 1) = 0) :
    ∃ j, n = 2 ^ j := by
  induction n using Nat.strong_induction_on with
  | _ n ih =>
    have hd : n / 2 &&& (n - 1) / 2 = 0 := by
      rw [← Nat.and_div_two, h]
    by_cases hodd : n % 2 = 1
    · have e : (n - 1) / 2 = n / 2 := by omega
      rw [e, Nat.and_self] at hd
      exact ⟨0, by omega⟩
    · have e : (n - 1) / 2 = n / 2 - 1 := by omega
      rw [e] at hd
      obtain ⟨j, hj⟩ := ih (n / 2) (by omega) (by omega) hd
      refine ⟨j + 1, ?_⟩
      rw [pow_succ, ← hj]
      omega

/-- A power of two shares no bit with its predecessor. -/
theorem and_pred_of_pow_two (j : Nat) : 2 ^ j &&& (2 ^ j - 1) = 0 := by
  rw [Nat.and_pow_two_sub_one_eq_mod, Nat.mod_self]

/-- The padding `(k - x mod k) mod k` brings `x` to a multiple of `k`, lies in `[0, k)`
and is the least such number. -/
theorem pad_least (k x : Int) (hk : 0 < k) :
    0 ≤ (k - x % k) % k ∧ (k - x % k) % k < k ∧ (x + (k - x % k) % k) % k = 0 ∧
    ∀ q : Int, 0 ≤ q → (x + q) % k = 0 → (k - x % k) % k ≤ q := by
  have hr0 : 0 ≤ x % k := Int.emod_nonneg x (by omega)
  have hrk : x % k < k := Int.emod_lt_of_pos x hk
  have hx : k * (x / k) + x % k = x := Int.ediv_add_emod x k
  by_cases hr : x % k = 0
  · have hp : (k - x % k) % k = 0 := by rw [hr, sub_zero, Int.emod_self]
    rw [hp]
    refine ⟨le_refl _, hk, by rw [add_zero]; exact hr, fun q hq _ => hq⟩
  · have hp : (k - x % k) % k = k - x % k := Int.emod_eq_of_lt (by omega) (by omega)
    rw [hp]
    refine ⟨by omega, by omega, ?_, ?_⟩
    · have e : x + (k - x % k) = k * (x / k + 1) := by
        rw [mul_add, mul_one]; omega
      rw [e, Int.mul_emod_right]
    · intro q hq hz
      by_contra hlt
      have e : x + q = x % k + q + k * (x / k) := by omega
      rw [e, Int.add_mul_emod_self_left, Int.emod_eq_of_lt (by omega) (by omega)] at hz
      omega

/-! ### `Align` -/

/-- The test `alignment <= 0 || (alignment&(alignment-1)) != 0` of `Align` is true exactly
when `alignment` is not a power of two. -/
theorem alignTest_iff (k : Int) (hk : IsI64 k) :
    (k ≤ 0 ∨ andI64 k (subI64 k 1) ≠ 0) ↔ ¬ ∃ j : Nat, k = 2 ^ j := by
  unfold IsI64 at hk
  by_cases h0 : k ≤ 0
  · refine ⟨fun _ hj => ?_, fun _ => Or.inl h0⟩
    obtain ⟨j, hj⟩ := hj
    have : (0 : Int) < 2 ^ j := by positivity
    omega
  · obtain ⟨n, rfl⟩ : ∃ n : Nat, k = n := ⟨k.toNat, by omega⟩
    have e1 : toU64 (n : Int) = n := by unfold toU64; omega
    have e2 : toU64 (subI64 (n : Int) 1) = n - 1 := by unfold toU64 subI64; omega
    have hle : n &&& (n - 1) ≤ n := Nat.and_le_left
    have e3 : toI64 (n &&& (n - 1)) = ((n &&& (n - 1) : Nat) : Int) := by
      generalize n &&& (n - 1) = m at hle
      unfold toI64; omega
    unfold andI64
    rw [e1, e2, e3]
    constructor
    · intro h hj
      obtain ⟨j, hj⟩ := hj
      have hn : n = 2 ^ j := by exact_mod_cast hj
      rcases h with h | h
      · exact h0 h
      · apply h
        rw [hn, and_pred_of_pow_two]
        rfl
    · intro h
      right
      intro hz
      apply h
      have hz' : n &&& (n - 1) = 0 := by exact_mod_cast hz
      obtain ⟨j, hj⟩ := pow_two_of_and_pred n (by omega) hz'
      exact ⟨j, by rw [hj]; push_cast; rfl⟩

/-- The padding `Align` computes for the alignment `2^j`, in terms of the address
`base + off`. -/
theorem alignPad_eq (j : Nat) (hj : j ≤ 62) (b : Nat) (off : Int) :
    toI64 (subU64 (toU64 ((2 : Int) ^ j))
        (addU64 b (toU64 off) &&& toU64 (subI64 ((2 : Int) ^ j) 1))
        &&& toU64 (subI64 ((2 : Int) ^ j) 1))
      = ((2 : Int) ^ j - ((b : Int) + off) % (2 : Int) ^ j) % (2 : Int) ^ j := by
  have hK0 : 0 < 2 ^ j := Nat.two_pow_pos j
  have hK : 2 ^ j ≤ 2 ^ 62 := Nat.pow_le_pow_right (by decide) hj
  have hc : ((2 : Int) ^ j) = ((2 ^ j : Nat) : Int) := by push_cast; rfl
  have hdvd : (((2 ^ j : Nat) : Int)) ∣ 2 ^ 64 := by
    rw [← hc]; exact pow_dvd_pow 2 (by omega)
  rw [hc]
  have e1 : toU64 ((2 ^ j : Nat) : Int) = 2 ^ j := by
    generalize 2 ^ j = K at hK
    unfold toU64; omega
  have e2 : toU64 (subI64 ((2 ^ j : Nat) : Int) 1) = 2 ^ j - 1 := by
    generalize 2 ^ j = K at hK hK0
    unfold toU64 subI64; omega
  rw [e1, e2, Nat.and_pow_two_sub_one_eq_mod, Nat.and_pow_two_sub_one_eq_mod]
  have ea : ((addU64 b (toU64 off) : Nat) : Int) = ((b : Int) + off) % 2 ^ 64 := by
    unfold addU64 toU64; omega
  have er : ((addU64 b (toU64 off) % 2 ^ j : Nat) : Int)
      = ((b : Int) + off) % ((2 ^ j : Nat) : Int) := by
    rw [Int.natCast_mod, ea, Int.emod_emod_of_dvd _ hdvd]
  have hr : addU64 b (toU64 off) % 2 ^ j < 2 ^ j := Nat.mod_lt _ hK0
  rw [← er]
  generalize addU64 b (toU64 off) % 2 ^ j = r at hr
  generalize 2 ^ j = K at hK hK0 hr
  have hs : subU64 K r = K - r := by unfold subU64; omega
  rw [hs]
  have hm : (K - r) % K < K := Nat.mod_lt _ hK0
  have e3 : toI64 ((K - r) % K) = (((K - r) % K : Nat) : Int) := by
    generalize (K - r) % K = m at hm
    unfold toI64; omega
  rw [e3, Int.natCast_mod, Nat.cast_sub hr.le]

/-- `Align` at an alignment that is not a power of two. -/
theorem Allocator_Align_not_pow (a : Allocator) (k : Int) (hk : IsI64 k)
    (h : ¬ ∃ j : Nat, k = 2 ^ j) :
    a.Align k = .error "atomix: alignment must be a power of 2" := by
  unfold Allocator.Align
  rw [if_pos ((alignTest_iff k hk).mpr h)]

/-- `Align` at the alignment `2^j` on a buffer that is not empty: the offset moves by the
least padding that brings the address `base + off` to a multiple of `2^j`, unless that
leaves the buffer. -/
theorem Allocator_Align_pow (a : Allocator) (j : Nat) (hj : j ≤ 62)
    (hne : a.buf.bytes ≠ []) (hlen : a.buf.len ≤ 2 ^ 62) (hoff : IsI64 a.off)
    (hle : a.off ≤ a.buf.len) :
    a.Align (2 ^ j) =
      if a.off + ((2 : Int) ^ j - ((a.buf.base : Int) + a.off) % 2 ^ j) % 2 ^ j > a.buf.len
      then .error "atomix: align beyond buffer"
      else .ok { buf := a.buf,
                 off := a.off +
                   ((2 : Int) ^ j - ((a.buf.base : Int) + a.off) % 2 ^ j) % 2 ^ j } := by
  have hK : (2 : Int) ^ j ≤ 2 ^ 62 := pow_le_pow_right₀ (by decide) hj
  have hK0 : (0 : Int) < 2 ^ j := by positivity
  have hk : IsI64 ((2 : Int) ^ j) := by unfold IsI64; omega
  have ht : ¬ ((2 : Int) ^ j ≤ 0 ∨ andI64 (2 ^ j) (subI64 (2 ^ j) 1) ≠ 0) := by
    rw [alignTest_iff _ hk]
    exact fun h => h ⟨j, rfl⟩
  obtain ⟨hp0, hpk, -, -⟩ := pad_least (2 ^ j) ((a.buf.base : Int) + a.off) hK0
  unfold Allocator.Align
  rw [if_neg ht, ByteSlice_addrOf_zero a.buf hne]
  simp only []
  rw [alignPad_eq j hj]
  unfold IsI64 at hoff
  have e : addI64 a.off (((2 : Int) ^ j - ((a.buf.base : Int) + a.off) % 2 ^ j) % 2 ^ j)
      = a.off + ((2 : Int) ^ j - ((a.buf.base : Int) + a.off) % 2 ^ j) % 2 ^ j := by
    generalize ((2 : Int) ^ j - ((a.buf.base : Int) + a.off) % 2 ^ j) % 2 ^ j = pad at hp0 hpk
    unfold addI64; omega
  rw [e]

/-- When `Align` returns, the alignment is a power of two and the buffer is not empty. -/
theorem Allocator_Align_returns (a b : Allocator) (k : Int) (hk : IsI64 k)
    (h : a.Align k = .ok b) : (∃ j : Nat, j ≤ 62 ∧ k = 2 ^ j) ∧ a.buf.bytes ≠ [] := by
  constructor
  · by_contra hn
    have hn' : ¬ ∃ j : Nat, k = 2 ^ j := by
      intro hj
      obtain ⟨j, hj⟩ := hj
      apply hn
      refine ⟨j, ?_, hj⟩
      by_contra hlt
      have : (2 : Int) ^ 63 ≤ 2 ^ j := pow_le_pow_right₀ (by decide) (by omega)
      unfold IsI64 at hk
      omega
    rw [Allocator_Align_not_pow a k hk hn'] at h
    exact absurd h (by simp)
  · intro he
    unfold Allocator.Align at h
    rw [ByteSlice_addrOf_zero_nil a.buf he] at h
    split at h <;> exact absurd h (by simp)

/-! ### Cache-line placement computes `placeAlignedSpec 64` -/

/-- The padding of the cache-line placements, in terms of the address. -/
theorem padCache_eq (addr : Nat) :
    andI64 (subI64 CacheLineSize (toI64 (addr &&& (CacheLineSize - 1))))
        ((CacheLineSize : Int) - 1)
      = (((64 - addr % 64) % 64 : Nat) : Int) := by
  have h1 : addr &&& (64 - 1) = addr % 64 := Nat.and_pow_two_sub_one_eq_mod addr 6
  have h2 : ∀ x : Nat, x &&& 63 = x % 64 := fun x => Nat.and_pow_two_sub_one_eq_mod x 6
  have h3 : toU64 (((64 : Nat) : Int) - 1) = 63 := by unfold toU64; omega
  unfold CacheLineSize andI64
  rw [h1, h3, h2]
  unfold subI64 toI64 toU64
  omega

/-- `PlaceCacheAlignedInt32` computes `placeAlignedSpec 64`. -/
theorem PlaceCacheAlignedInt32_toOption (p : ByteSlice) (off : Int) (hlen2 : p.len ≤ 2 ^ 62)
    (hoff : IsI64 off) :
    (PlaceCacheAlignedInt32 p off).toOption = placeAlignedSpec 64 p off := by
  unfold PlaceCacheAlignedInt32 placeAlignedSpec
  unfold IsI64 at hoff
  have hlen : 0 ≤ p.len := by unfold ByteSlice.len; omega
  by_cases hne : p.bytes = []
  · rw [ByteSlice_addrOf_zero_nil p hne]
    simp [hne, Except.toOption]
  · rw [ByteSlice_addrOf_zero p hne]
    simp only [padCache_eq, ByteSlice.addrOf]
    have e0 : ((CacheLineSize : Nat) : Int) = 64 := rfl
    have e1 : (((64 - addU64 p.base (toU64 off) % 64) % 64 : Nat) : Int)
        = (64 - ((p.base : Int) + off) % 64) % 64 := by
      unfold addU64 toU64; omega
    rw [e0, e1]
    generalize hpad : (64 - ((p.base : Int) + off) % 64) % 64 = pad
    have hp : 0 ≤ pad ∧ pad < 64 := by omega
    by_cases hc : 0 ≤ off + pad ∧ off + pad + 64 ≤ p.len
    · have e2 : addI64 pad 64 = pad + 64 := by unfold addI64; omega
      have e3 : addI64 off (pad + 64) = off + pad + 64 := by unfold addI64; omega
      have e4 : addI64 off pad = off + pad := by unfold addI64; omega
      rw [e2, e3, e4, if_neg (by omega), if_pos (by omega), if_pos ⟨hne, hc⟩]
      rfl
    · have hr : (if p.bytes ≠ [] ∧ 0 ≤ off + pad ∧ off + pad + 64 ≤ p.len then
          some (pad + 64, p.base + (off + pad).toNat) else none) = none :=
        if_neg (fun h => hc h.2)
      rw [hr]
      by_cases hn : addI64 off (addI64 pad 64) > p.len
      · rw [if_pos hn]; rfl
      · rw [if_neg hn]
        have : ¬ (0 ≤ addI64 off pad ∧ addI64 off pad < p.len) := by
          unfold addI64 at hn ⊢; omega
        rw [if_neg this]; rfl

/-- `PlaceCacheAlignedUint32` computes `placeAlignedSpec 64`. -/
theorem PlaceCacheAlignedUint32_toOption (p : ByteSlice) (off : Int) (hlen2 : p.len ≤ 2 ^ 62)
    (hoff : IsI64 off) :
    (PlaceCacheAlignedUint32 p off).toOption = placeAlignedSpec 64 p off := by
  unfold PlaceCacheAlignedUint32 placeAlignedSpec
  unfold IsI64 at hoff
  have hlen : 0 ≤ p.len := by unfold ByteSlice.len; omega
  by_cases hne : p.bytes = []
  · rw [ByteSlice_addrOf_zero_nil p hne]
    simp [hne, Except.toOption]
  · rw [ByteSlice_addrOf_zero p hne]
    simp only [padCache_eq, ByteSlice.addrOf]
    have e0 : ((CacheLineSize : Nat) : Int) = 64 := rfl
    have e1 : (((64 - addU64 p.base (toU64 off) % 64) % 64 : Nat) : Int)
        = (64 - ((p.base : Int) + off) % 64) % 64 := by
      unfold addU64 toU64; omega
    rw [e0, e1]
    generalize hpad : (64 - ((p.base : Int) + off) % 64) % 64 = pad
    have hp : 0 ≤ pad ∧ pad < 64 := by omega
    by_cases hc : 0 ≤ off + pad ∧ off + pad + 64 ≤ p.len
    · have e2 : addI64 pad 64 = pad + 64 := by unfold addI64; omega
      have e3 : addI64 off (pad + 64) = off + pad + 64 := by unfold addI64; omega
      have e4 : addI64 off pad = off + pad := by unfold addI64; omega
      rw [e2, e3, e4, if_neg (by omega), if_pos (by omega), if_pos ⟨hne, hc⟩]
      rfl
    · have hr : (if p.bytes ≠ [] ∧ 0 ≤ off + pad ∧ off + pad + 64 ≤ p.len then
          some (pad + 64, p.base + (off + pad).toNat) else none) = none :=
        if_neg (fun h => hc h.2)
      rw [hr]
      by_cases hn : addI64 off (addI64 pad 64) > p.len
      · rw [if_pos hn]; rfl
      · rw [if_neg hn]
        have : ¬ (0 ≤ addI64 off pad ∧ addI64 off pad < p.len) := by
          unfold addI64 at hn ⊢; omega
        rw [if_neg this]; rfl

/-- `PlaceCacheAlignedInt64` computes `placeAlignedSpec 64`. -/
theorem PlaceCacheAlignedInt64_toOption (p : ByteSlice) (off : Int) (hlen2 : p.len ≤ 2 ^ 62)
    (hoff : IsI64 off) :
    (PlaceCacheAlignedInt64 p off).toOption = placeAlignedSpec 64 p off := by
  unfold PlaceCacheAlignedInt64 placeAlignedSpec
  unfold IsI64 at hoff
  have hlen : 0 ≤ p.len := by unfold ByteSlice.len; omega
  by_cases hne : p.bytes = []
  · rw [ByteSlice_addrOf_zero_nil p hne]
    simp [hne, Except.toOption]
  · rw [ByteSlice_addrOf_zero p hne]
    simp only [padCache_eq, ByteSlice.addrOf]
    have e0 : ((CacheLineSize : Nat) : Int) = 64 := rfl
    have e1 : (((64 - addU64 p.base (toU64 off) % 64) % 64 : Nat) : Int)
        = (64 - ((p.base : Int) + off) % 64) % 64 := by
      unfold addU64 toU64; omega
    rw [e0, e1]
    generalize hpad : (64 - ((p.base : Int) + off) % 64) % 64 = pad
    have hp : 0 ≤ pad ∧ pad < 64 := by omega
    by_cases hc : 0 ≤ off + pad ∧ off + pad + 64 ≤ p.len
    · have e2 : addI64 pad 64 = pad + 64 := by unfold addI64; omega
      have e3 : addI64 off (pad + 64) = off + pad + 64 := by unfold addI64; omega
      have e4 : addI64 off pad = off + pad := by unfold addI64; omega
      rw [e2, e3, e4, if_neg (by omega), if_pos (by omega), if_pos ⟨hne, hc⟩]
      rfl
    · have hr : (if p.bytes ≠ [] ∧ 0 ≤ off + pad ∧ off + pad + 64 ≤ p.len then
          some (pad + 64, p.base + (off + pad).toNat) else none) = none :=
        if_neg (fun h => hc h.2)
      rw [hr]
      by_cases hn : addI64 off (addI64 pad 64) > p.len
      · rw [if_pos hn]; rfl
      · rw [if_neg hn]
        have : ¬ (0 ≤ addI64 off pad ∧ addI64 off pad < p.len) := by
          unfold addI64 at hn ⊢; omega
        rw [if_neg this]; rfl

/-- `PlaceCacheAlignedUint64` computes `placeAlignedSpec 64`. -/
theorem PlaceCacheAlignedUint64_toOption (p : ByteSlice) (off : Int) (hlen2 : p.len ≤ 2 ^ 62)
    (hoff : IsI64 off) :
    (PlaceCacheAlignedUint64 p off).toOption = placeAlignedSpec 64 p off := by
  unfold PlaceCacheAlignedUint64 placeAlignedSpec
  unfold IsI64 at hoff
  have hlen : 0 ≤ p.len := by unfold ByteSlice.len; omega
  by_cases hne : p.bytes = []
  · rw [ByteSlice_addrOf_zero_nil p hne]
    simp [hne, Except.toOption]
  · rw [ByteSlice_addrOf_zero p hne]
    simp only [padCache_eq, ByteSlice.addrOf]
    have e0 : ((CacheLineSize : Nat) : Int) = 64 := rfl
    have e1 : (((64 - addU64 p.base (toU64 off) % 64) % 64 : Nat) : Int)
        = (64 - ((p.base : Int) + off) % 64) % 64 := by
      unfold addU64 toU64; omega
    rw [e0, e1]
    generalize hpad : (64 - ((p.base : Int) + off) % 64) % 64 = pad
    have hp : 0 ≤ pad ∧ pad < 64 := by omega
    by_cases hc : 0 ≤ off + pad ∧ off + pad + 64 ≤ p.len
    · have e2 : addI64 pad 64 = pad + 64 := by unfold addI64; omega
      have e3 : addI64 off (pad + 64) = off + pad + 64 := by unfold addI64; omega
      have e4 : addI64 off pad = off + pad := by unfold addI64; omega
      rw [e2, e3, e4, if_neg (by omega), if_pos (by omega), if_pos ⟨hne, hc⟩]
      rfl
    · have hr : (if p.bytes ≠ [] ∧ 0 ≤ off + pad ∧ off + pad + 64 ≤ p.len then
          some (pad + 64, p.base + (off + pad).toNat) else none) = none :=
        if_neg (fun h => hc h.2)
      rw [hr]
      by_cases hn : addI64 off (addI64 pad 64) > p.len
      · rw [if_pos hn]; rfl
      · rw [if_neg hn]
        have : ¬ (0 ≤ addI64 off pad ∧ addI64 off pad < p.len) := by
          unfold addI64 at hn ⊢; omega
        rw [if_neg this]; rfl

/-- `PlaceCacheAlignedUintptr` computes `placeAlignedSpec 64`. -/
theorem PlaceCacheAlignedUintptr_toOption (p : ByteSlice) (off : Int) (hlen2 : p.len ≤ 2 ^ 62)
    (hoff : IsI64 off) :
    (PlaceCacheAlignedUintptr p off).toOption = placeAlignedSpec 64 p off := by
  unfold PlaceCacheAlignedUintptr placeAlignedSpec
  unfold IsI64 at hoff
  have hlen : 0 ≤ p.len := by unfold ByteSlice.len; omega
  by_cases hne : p.bytes = []
  · rw [ByteSlice_addrOf_zero_nil p hne]
    simp [hne, Except.toOption]
  · rw [ByteSlice_addrOf_zero p hne]
    simp only [padCache_eq, ByteSlice.addrOf]
    have e0 : ((CacheLineSize : Nat) : Int) = 64 := rfl
    have e1 : (((64 - addU64 p.base (toU64 off) % 64) % 64 : Nat) : Int)
        = (64 - ((p.base : Int) + off) % 64) % 64 := by
      unfold addU64 toU64; omega
    rw [e0, e1]
    generalize hpad : (64 - ((p.base : Int) + off) % 64) % 64 = pad
    have hp : 0 ≤ pad ∧ pad < 64 := by omega
    by_cases hc : 0 ≤ off + pad ∧ off + pad + 64 ≤ p.len
    · have e2 : addI64 pad 64 = pad + 64 := by unfold addI64; omega
      have e3 : addI64 off (pad + 64) = off + pad + 64 := by unfold addI64; omega
      have e4 : addI64 off pad = off + pad := by unfold addI64; omega
      rw [e2, e3, e4, if_neg (by omega), if_pos (by omega), if_pos ⟨hne, hc⟩]
      rfl
    · have hr : (if p.bytes ≠ [] ∧ 0 ≤ off + pad ∧ off + pad + 64 ≤ p.len then
          some (pad + 64, p.base + (off + pad).toNat) else none) = none :=
        if_neg (fun h => hc h.2)
      rw [hr]
      by_cases hn : addI64 off (addI64 pad 64) > p.len
      · rw [if_pos hn]; rfl
      · rw [if_neg hn]
        have : ¬ (0 ≤ addI64 off pad ∧ addI64 off pad < p.len) := by
          unfold addI64 at hn ⊢; omega
        rw [if_neg this]; rfl

/-- `PlaceCacheAlignedBool` computes `placeAlignedSpec 64`. -/
theorem PlaceCacheAlignedBool_toOption (p : ByteSlice) (off : Int) (hlen2 : p.len ≤ 2 ^ 62)
    (hoff : IsI64 off) :
    (PlaceCacheAlignedBool p off).toOption = placeAlignedSpec 64 p off := by
  unfold PlaceCacheAlignedBool placeAlignedSpec
  unfold IsI64 at hoff
  have hlen : 0 ≤ p.len := by unfold ByteSlice.len; omega
  by_cases hne : p.bytes = []
  · rw [ByteSlice_addrOf_zero_nil p hne]
    simp [hne, Except.toOption]
  · rw [ByteSlice_addrOf_zero p hne]
    simp only [padCache_eq, ByteSlice.addrOf]
    have e0 : ((CacheLineSize : Nat) : Int) = 64 := rfl
    have e1 : (((64 - addU64 p.base (toU64 off) % 64) % 64 : Nat) : Int)
        = (64 - ((p.base : Int) + off) % 64) % 64 := by
      unfold addU64 toU64; omega
    rw [e0, e1]
    generalize hpad : (64 - ((p.base : Int) + off) % 64) % 64 = pad
    have hp : 0 ≤ pad ∧ pad < 64 := by omega
    by_cases hc : 0 ≤ off + pad ∧ off + pad + 64 ≤ p.len
    · have e2 : addI64 pad 64 = pad + 64 := by unfold addI64; omega
      have e3 : addI64 off (pad + 64) = off + pad + 64 := by unfold addI64; omega
      have e4 : addI64 off pad = off + pad := by unfold addI64; omega
      rw [e2, e3, e4, if_neg (by omega), if_pos (by omega), if_pos ⟨hne, hc⟩]
      rfl
    · have hr : (if p.bytes ≠ [] ∧ 0 ≤ off + pad ∧ off + pad + 64 ≤ p.len then
          some (pad + 64, p.base + (off + pad).toNat) else none) = none :=
        if_neg (fun h => hc h.2)
      rw [hr]
      by_cases hn : addI64 off (addI64 pad 64) > p.len
      · rw [if_pos hn]; rfl
      · rw [if_neg hn]
        have : ¬ (0 ≤ addI64 off pad ∧ addI64 off pad < p.len) := by
          unfold addI64 at hn ⊢; omega
        rw [if_neg this]; rfl

/-- `PlaceCacheAlignedInt128` computes `placeAlignedSpec 64`. -/
theorem PlaceCacheAlignedInt128_toOption (p : ByteSlice) (off : Int) (hlen2 : p.len ≤ 2 ^ 62)
    (hoff : IsI64 off) :
    (PlaceCacheAlignedInt128 p off).toOption = placeAlignedSpec 64 p off := by
  unfold PlaceCacheAlignedInt128 placeAlignedSpec
  unfold IsI64 at hoff
  have hlen : 0 ≤ p.len := by unfold ByteSlice.len; omega
  by_cases hne : p.bytes = []
  · rw [ByteSlice_addrOf_zero_nil p hne]
    simp [hne, Except.toOption]
  · rw [ByteSlice_addrOf_zero p hne]
    simp only [padCache_eq, ByteSlice.addrOf]
    have e0 : ((CacheLineSize : Nat) : Int) = 64 := rfl
    have e1 : (((64 - addU64 p.base (toU64 off) % 64) % 64 : Nat) : Int)
        = (64 - ((p.base : Int) + off) % 64) % 64 := by
      unfold addU64 toU64; omega
    rw [e0, e1]
    generalize hpad : (64 - ((p.base : Int) + off) % 64) % 64 = pad
    have hp : 0 ≤ pad ∧ pad < 64 := by omega
    by_cases hc : 0 ≤ off + pad ∧ off + pad + 64 ≤ p.len
    · have e2 : addI64 pad 64 = pad + 64 := by unfold addI64; omega
      have e3 : addI64 off (pad + 64) = off + pad + 64 := by unfold addI64; omega
      have e4 : addI64 off pad = off + pad := by unfold addI64; omega
      rw [e2, e3, e4, if_neg (by omega), if_pos (by omega), if_pos ⟨hne, hc⟩]
      rfl
    · have hr : (if p.bytes ≠ [] ∧ 0 ≤ off + pad ∧ off + pad + 64 ≤ p.len then
          some (pad + 64, p.base + (off + pad).toNat) else none) = none :=
        if_neg (fun h => hc h.2)
      rw [hr]
      by_cases hn : addI64 off (addI64 pad 64) > p.len
      · rw [if_pos hn]; rfl
      · rw [if_neg hn]
        have : ¬ (0 ≤ addI64 off pad ∧ addI64 off pad < p.len) := by
          unfold addI64 at hn ⊢; omega
        rw [if_neg this]; rfl

/-- `PlaceCacheAlignedUint128` computes `placeAlignedSpec 64`. -/
theorem PlaceCacheAlignedUint128_toOption (p : ByteSlice) (off : Int) (hlen2 : p.len ≤ 2 ^ 62)
    (hoff : IsI64 off) :
    (PlaceCacheAlignedUint128 p off).toOption = placeAlignedSpec 64 p off := by
  unfold PlaceCacheAlignedUint128 placeAlignedSpec
  unfold IsI64 at hoff
  have hlen : 0 ≤ p.len := by unfold ByteSlice.len; omega
  by_cases hne : p.bytes = []
  · rw [ByteSlice_addrOf_zero_nil p hne]
    simp [hne, Except.toOption]
  · rw [ByteSlice_addrOf_zero p hne]
    simp only [padCache_eq, ByteSlice.addrOf]
    have e0 : ((CacheLineSize : Nat) : Int) = 64 := rfl
    have e1 : (((64 - addU64 p.base (toU64 off) % 64) % 64 : Nat) : Int)
        = (64 - ((p.base : Int) + off) % 64) % 64 := by
      unfold addU64 toU64; omega
    rw [e0, e1]
    generalize hpad : (64 - ((p.base : Int) + off) % 64) % 64 = pad
    have hp : 0 ≤ pad ∧ pad < 64 := by omega
    by_cases hc : 0 ≤ off + pad ∧ off + pad + 64 ≤ p.len
    · have e2 : addI64 pad 64 = pad + 64 := by unfold addI64; omega
      have e3 : addI64 off (pad + 64) = off + pad + 64 := by unfold addI64; omega
      have e4 : addI64 off pad = off + pad := by unfold addI64; omega
      rw [e2, e3, e4, if_neg (by omega), if_pos (by omega), if_pos ⟨hne, hc⟩]
      rfl
    · have hr : (if p.bytes ≠ [] ∧ 0 ≤ off + pad ∧ off + pad + 64 ≤ p.len then
          some (pad + 64, p.base + (off + pad).toNat) else none) = none :=
        if_neg (fun h => hc h.2)
      rw [hr]
      by_cases hn : addI64 off (addI64 pad 64) > p.len
      · rw [if_pos hn]; rfl
      · rw [if_neg hn]
        have : ¬ (0 ≤ addI64 off pad ∧ addI64 off pad < p.len) := by
          unfold addI64 at hn ⊢; omega
        rw [if_neg this]; rfl

/-! ### The typed allocations -/

/-- What a returning placement that computes `placeAlignedSpec k` tells about the number
of bytes it reports. -/
theorem place_ok_spec (k : Int) (hk0 : 0 < k) (hk : k ≤ 64) (p : ByteSlice) (off : Int)
    (hlen : p.len ≤ 2 ^ 62) (r : Except String (Int × Nat))
    (hr : r.toOption = placeAlignedSpec k p off) (n : Int) (ptr : Nat)
    (h : r = .ok (n, ptr)) :
    n = (k - ((p.base : Int) + off) % k) % k + k ∧ addI64 off n = off + n ∧
      off + n ≤ p.len ∧ off < off + n := by
  rw [h] at hr
  unfold placeAlignedSpec at hr
  have hp0 : 0 ≤ (k - ((p.base : Int) + off) % k) % k := Int.emod_nonneg _ (by omega)
  have hpk : (k - ((p.base : Int) + off) % k) % k < k := Int.emod_lt_of_pos _ hk0
  simp only [] at hr
  generalize (k - ((p.base : Int) + off) % k) % k = pad at hr hp0 hpk
  split at hr
  · rename_i hc
    simp only [Except.toOption, Option.some.injEq, Prod.mk.injEq] at hr
    obtain ⟨hn, -⟩ := hr
    unfold addI64
    omega
  · exact absurd hr (by simp [Except.toOption])

/-- An allocate method whose body is `n, ptr := place(a.buf, a.off); a.off += n; return
ptr`, for a placement that computes `placeAlignedSpec k`, combines that placement with
advancing the offset. -/
theorem allocatesWith_of_spec (alloc : Allocator → Except String (Nat × Allocator))
    (place : ByteSlice → Int → Except String (Int × Nat)) (k : Int) (hk0 : 0 < k)
    (hk : k ≤ 64) (a : Allocator) (hlen : a.buf.len ≤ 2 ^ 62)
    (halloc : alloc a = match place a.buf a.off with
      | .error e => .error e
      | .ok (n, ptr) => .ok (ptr, { a with off := addI64 a.off n }))
    (hspec : (place a.buf a.off).toOption = placeAlignedSpec k a.buf a.off) :
    AllocatesWith alloc place k k a := by
  unfold AllocatesWith Allocator.Offset
  constructor
  · intro n ptr h
    obtain ⟨hn, he, -, -⟩ := place_ok_spec k hk0 hk a.buf a.off hlen _ hspec n ptr h
    rw [halloc, h]
    exact ⟨_, rfl, he, rfl, hn⟩
  · intro e h
    rw [halloc, h]

/-! ### The offset along a sequence of calls -/

/-- A returning allocate method whose body is `n, ptr := place(a.buf, a.off); a.off += n;
return ptr` leaves the buffer as it was and the offset greater, inside the buffer. -/
theorem alloc_step_of_spec (alloc : Allocator → Except String (Nat × Allocator))
    (place : ByteSlice → Int → Except String (Int × Nat)) (k : Int) (hk0 : 0 < k)
    (hk : k ≤ 64) (a : Allocator) (hlen : a.buf.len ≤ 2 ^ 62)
    (halloc : alloc a = match place a.buf a.off with
      | .error e => .error e
      | .ok (n, ptr) => .ok (ptr, { a with off := addI64 a.off n }))
    (hspec : (place a.buf a.off).toOption = placeAlignedSpec k a.buf a.off)
    (b : Allocator) (h : (alloc a).map Prod.snd = .ok b) :
    b.buf = a.buf ∧ a.off ≤ b.off ∧ b.off ≤ a.buf.len := by
  rw [halloc] at h
  cases hp : place a.buf a.off with
  | error e =>
    rw [hp] at h
    exact absurd h (by simp [Except.map])
  | ok r =>
    obtain ⟨n, ptr⟩ := r
    obtain ⟨-, he, hle, hlt⟩ := place_ok_spec k hk0 hk a.buf a.off hlen _ hspec n ptr hp
    rw [hp] at h
    simp only [Except.map, Except.ok.injEq] at h
    subst h
    simp only [he]
    exact ⟨trivial, by omega, hle⟩

/-- One returning call that does not ask to go back leaves the buffer as it was and the
offset not smaller, inside the buffer. -/
theorem Allocator_call_step (a b : Allocator) (c : AllocCall) (hlen : a.buf.len ≤ 2 ^ 62)
    (hoff : IsI64 a.off) (hle : a.off ≤ a.buf.len) (hc : c.Forward)
    (h : a.call c = .ok b) :
    b.buf = a.buf ∧ a.off ≤ b.off ∧ b.off ≤ a.buf.len := by
  have hfit : a.buf.Fits := by unfold ByteSlice.Fits; omega
  cases c with
  | Skip n =>
    have hc : 0 ≤ n ∧ n < 2 ^ 62 := hc
    have h : a.Skip n = .ok b := h
    unfold IsI64 at hoff
    have hi : IsI64 (a.off + n) := by unfold IsI64; omega
    rw [Allocator_Skip_eq a n hi] at h
    split at h
    · exact absurd h (by simp)
    · simp only [Except.ok.injEq] at h
      subst h
      exact ⟨rfl, by show a.off ≤ a.off + n; omega, by show a.off + n ≤ a.buf.len; omega⟩
  | Align k =>
    have hc : IsI64 k := hc
    have h : a.Align k = .ok b := h
    obtain ⟨⟨j, hj, rfl⟩, hne⟩ := Allocator_Align_returns a b k hc h
    have hK0 : (0 : Int) < 2 ^ j := by positivity
    obtain ⟨hp0, -, -, -⟩ := pad_least (2 ^ j) ((a.buf.base : Int) + a.off) hK0
    rw [Allocator_Align_pow a j hj hne hlen hoff hle] at h
    split at h
    · exact absurd h (by simp)
    · rename_i hgt
      simp only [Except.ok.injEq] at h
      subst h
      refine ⟨rfl, ?_, ?_⟩
      · show a.off ≤ a.off + _
        omega
      · show a.off + _ ≤ a.buf.len
        omega
  | Int32 =>
    exact alloc_step_of_spec _ _ 4 (by decide) (by decide) a hlen rfl
      (PlaceAlignedInt32_toOption a.buf a.off hfit hoff) b h
  | Uint32 =>
    exact alloc_step_of_spec _ _ 4 (by decide) (by decide) a hlen rfl
      (PlaceAlignedUint32_toOption a.buf a.off hfit hoff) b h
  | Bool =>
    exact alloc_step_of_spec _ _ 4 (by decide) (by decide) a hlen rfl
      (PlaceAlignedBool_toOption a.buf a.off hfit hoff) b h
  | Int64 =>
    exact alloc_step_of_spec _ _ 8 (by decide) (by decide) a hlen rfl
      (PlaceAlignedInt64_toOption a.buf a.off hfit hoff) b h
  | Uint64 =>
    exact alloc_step_of_spec _ _ 8 (by decide) (by decide) a hlen rfl
      (PlaceAlignedUint64_toOption a.buf a.off hfit hoff) b h
  | Uintptr =>
    exact alloc_step_of_spec _ _ 8 (by decide) (by decide) a hlen rfl
      (PlaceAlignedUintptr_toOption a.buf a.off hfit hoff) b h
  | Int128 =>
    exact alloc_step_of_spec _ _ 16 (by decide) (by decide) a hlen rfl
      (PlaceAlignedInt128_toOption a.buf a.off hfit hoff) b h
  | Uint128 =>
    exact alloc_step_of_spec _ _ 16 (by decide) (by decide) a hlen rfl
      (PlaceAlignedUint128_toOption a.buf a.off hfit hoff) b h
  | CacheAlignedInt32 =>
    exact alloc_step_of_spec _ _ 64 (by decide) (by decide) a hlen rfl
      (PlaceCacheAlignedInt32_toOption a.buf a.off hlen hoff) b h
  | CacheAlignedUint32 =>
    exact alloc_step_of_spec _ _ 64 (by decide) (by decide) a hlen rfl
      (PlaceCacheAlignedUint32_toOption a.buf a.off hlen hoff) b h
  | CacheAlignedInt64 =>
    exact alloc_step_of_spec _ _ 64 (by decide) (by decide) a hlen rfl
      (PlaceCacheAlignedInt64_toOption a.buf a.off hlen hoff) b h
  | CacheAlignedUint64 =>
    exact alloc_step_of_spec _ _ 64 (by decide) (by decide) a hlen rfl
      (PlaceCacheAlignedUint64_toOption a.buf a.off hlen hoff) b h
  | CacheAlignedUintptr =>
    exact alloc_step_of_spec _ _ 64 (by decide) (by decide) a hlen rfl
      (PlaceCacheAlignedUintptr_toOption a.buf a.off hlen hoff) b h
  | CacheAlignedBool =>
    exact alloc_step_of_spec _ _ 64 (by decide) (by decide) a hlen rfl
      (PlaceCacheAlignedBool_toOption a.buf a.off hlen hoff) b h
  | CacheAlignedInt128 =>
    exact alloc_step_of_spec _ _ 64 (by decide) (by decide) a hlen rfl
      (PlaceCacheAlignedInt128_toOption a.buf a.off hlen hoff) b h
  | CacheAlignedUint128 =>
    exact alloc_step_of_spec _ _ 64 (by decide) (by decide) a hlen rfl
      (PlaceCacheAlignedUint128_toOption a.buf a.off hlen hoff) b h

/-- Along a sequence of calls none of which asks to go back, each value of `Offset()` is
at least the one before. -/
theorem Allocator_offsets_chain (cs : List AllocCall) :
    ∀ a : Allocator, a.buf.len ≤ 2 ^ 62 → IsI64 a.off → a.off ≤ a.buf.len →
      (∀ c ∈ cs, c.Forward) →
      List.Chain (fun x y : Int => x ≤ y) a.Offset (a.offsets cs) := by
  induction cs with
  | nil => intro a _ _ _ _; exact List.Chain.nil
  | cons c cs ih =>
    intro a hlen hoff hle hcs
    unfold Allocator.offsets
    cases hcall : a.call c with
    | error e => exact List.Chain.nil
    | ok b =>
      obtain ⟨hb, hm, hl⟩ := Allocator_call_step a b c hlen hoff hle
        (hcs c (List.mem_cons_self c cs)) hcall
      have hoff' : IsI64 b.off := by unfold IsI64 at hoff ⊢; omega
      refine List.Chain.cons hm (ih b (by rw [hb]; exact hlen) hoff' (by rw [hb]; exact hl)
        (fun c' hc' => hcs c' (List.mem_cons_of_mem c hc')))

/-! ### References into the buffer -/

/-- The reference of a returning placement that computes `placeAlignedSpec k` and the
`k` bytes after it lie inside the slice. -/
theorem placeAlignedSpec_some_bounds (k : Int) (p : ByteSlice) (off n : Int) (ptr : Nat)
    (h : placeAlignedSpec k p off = some (n, ptr)) :
    p.base ≤ ptr ∧ ((ptr - p.base : Nat) : Int) + k ≤ p.len := by
  unfold placeAlignedSpec at h
  simp only [] at h
  generalize (k - ((p.base : Int) + off) % k) % k = pad at h
  split at h
  · rename_i hc
    simp only [Option.some.injEq, Prod.mk.injEq] at h
    obtain ⟨-, ha⟩ := h
    omega
  · exact absurd h (by simp)

/-! ### The claims on the allocator -/

/-- C21. Take an allocator over a buffer that is not empty (of at most `2^62` bytes, with
an offset `off` that is an `int` not beyond the length, as every call leaves it) and an
`int` `k`.  If `k` is not a positive power of two, `Align(k)` aborts.  If it is, there is
a padding `pad` with `0 ≤ pad < k`, the least non-negative number that brings the address
`b + off` to a multiple of `k`; `Align(k)` aborts when `off + pad` exceeds the length of
the buffer, and otherwise returns with `(b + Offset()) mod k = 0` and
`Offset() - off = pad`, the buffer being the same. -/
theorem allocator_align_spec (a : Allocator) (k : Int) (hne : a.buf.bytes ≠ [])
    (hlen : a.buf.len ≤ 2 ^ 62) (hoff : IsI64 a.off) (hle : a.off ≤ a.buf.len)
    (hk : IsI64 k) :
    ((¬ ∃ j : Nat, k = 2 ^ j) → Aborts (a.Align k)) ∧
    ((∃ j : Nat, k = 2 ^ j) →
      ∃ pad : Int, 0 ≤ pad ∧ pad < k ∧ ((a.buf.base : Int) + a.off + pad) % k = 0 ∧
        (∀ q : Int, 0 ≤ q → ((a.buf.base : Int) + a.off + q) % k = 0 → pad ≤ q) ∧
        (a.off + pad > a.buf.len → Aborts (a.Align k)) ∧
        (¬ a.off + pad > a.buf.len →
          ∃ b, a.Align k = .ok b ∧ b.buf = a.buf ∧
            ((a.buf.base : Int) + b.Offset) % k = 0 ∧ b.Offset - a.off = pad)) := by
  constructor
  · intro h
    rw [Allocator_Align_not_pow a k hk h]
    decide
  · intro h
    obtain ⟨j, rfl⟩ := h
    have hj : j ≤ 62 := by
      by_contra hlt
      have : (2 : Int) ^ 63 ≤ 2 ^ j := pow_le_pow_right₀ (by decide) (by omega)
      unfold IsI64 at hk
      omega
    have hK0 : (0 : Int) < 2 ^ j := by positivity
    obtain ⟨hp0, hpk, hz, hleast⟩ := pad_least (2 ^ j) ((a.buf.base : Int) + a.off) hK0
    refine ⟨_, hp0, hpk, hz, hleast, ?_, ?_⟩
    · intro hgt
      rw [Allocator_Align_pow a j hj hne hlen hoff hle, if_pos hgt]
      decide
    · intro hgt
      rw [Allocator_Align_pow a j hj hne hlen hoff hle, if_neg hgt]
      refine ⟨_, rfl, rfl, ?_, ?_⟩
      · show ((a.buf.base : Int) + (a.off + _)) % 2 ^ j = 0
        rw [← add_assoc]
        exact hz
      · show a.off + _ - a.off = _
        omega

/-- C21, at a concrete allocator: offset 3 in a buffer of 64 bytes at address 4104, aligned
to 16; the padding is 5, to the address 4112. -/
theorem allocator_align_spec_witness :
    ∃ pad : Int, 0 ≤ pad ∧ pad < 16 ∧ (((4104 : Nat) : Int) + 3 + pad) % 16 = 0 ∧
      (∀ q : Int, 0 ≤ q → (((4104 : Nat) : Int) + 3 + q) % 16 = 0 → pad ≤ q) ∧
      (3 + pad > (ByteSlice.mk 4104 (List.replicate 64 0)).len →
        Aborts (Allocator.Align ⟨⟨4104, List.replicate 64 0⟩, 3⟩ 16)) ∧
      (¬ 3 + pad > (ByteSlice.mk 4104 (List.replicate 64 0)).len →
        ∃ b, Allocator.Align ⟨⟨4104, List.replicate 64 0⟩, 3⟩ 16 = .ok b ∧
          b.buf = ⟨4104, List.replicate 64 0⟩ ∧
          (((4104 : Nat) : Int) + b.Offset) % 16 = 0 ∧ b.Offset - 3 = pad) :=
  (allocator_align_spec ⟨⟨4104, List.replicate 64 0⟩, 3⟩ 16 (by decide) (by decide)
    (by decide) (by decide) (by decide)).2 ⟨4, by decide⟩

/-- C22 fails on the code: in a buffer whose first byte is at address 4104 (a multiple
of 8, not of 16), `Align(16)` at offset 0 returns normally with `Offset() = 8`, which is
not a multiple of 16; the address `4104 + 8` is. -/
theorem allocator_align_offset_not_multiple :
    Allocator.Align ⟨⟨4104, List.replicate 64 0⟩, 0⟩ 16
      = .ok ⟨⟨4104, List.replicate 64 0⟩, 8⟩ ∧
    Returns (Allocator.Align ⟨⟨4104, List.replicate 64 0⟩, 0⟩ 16) ∧
    ¬ (Allocator.Offset ⟨⟨4104, List.replicate 64 0⟩, 8⟩) % 16 = 0 ∧
    (4104 + Allocator.Offset ⟨⟨4104, List.replicate 64 0⟩, 8⟩) % 16 = 0 :=
  ⟨rfl, by decide, by decide, by decide⟩

/-- C22, amended. When `Align(alignment)` returns normally (on a buffer of at most `2^62`
bytes, from an offset that is an `int` not beyond the length), the address
`b + Offset()` of the next byte is a multiple of `alignment`, `b` being the address of
the first byte of the buffer: the offset has moved forward by less than `alignment`, to
the first such address.  `Offset()` itself is a multiple of `alignment` exactly when `b`
is. -/
theorem allocator_align_address_multiple (a b : Allocator) (k : Int)
    (hlen : a.buf.len ≤ 2 ^ 62) (hoff : IsI64 a.off) (hle : a.off ≤ a.buf.len)
    (hk : IsI64 k) (h : a.Align k = .ok b) :
    ((a.buf.base : Int) + b.Offset) % k = 0 ∧
    a.Offset ≤ b.Offset ∧ b.Offset - a.Offset < k ∧
    (∀ q : Int, 0 ≤ q → ((a.buf.base : Int) + a.Offset + q) % k = 0 →
      b.Offset - a.Offset ≤ q) ∧
    (b.Offset % k = 0 ↔ (a.buf.base : Int) % k = 0) ∧ b.buf = a.buf := by
  obtain ⟨⟨j, hj, rfl⟩, hne⟩ := Allocator_Align_returns a b k hk h
  have hK0 : (0 : Int) < 2 ^ j := by positivity
  obtain ⟨hp0, hpk, hz, hleast⟩ := pad_least (2 ^ j) ((a.buf.base : Int) + a.off) hK0
  rw [Allocator_Align_pow a j hj hne hlen hoff hle] at h
  split at h
  · exact absurd h (by simp)
  · simp only [Except.ok.injEq] at h
    subst h
    unfold Allocator.Offset
    simp only []
    have hz' : ((a.buf.base : Int) + (a.off + ((2 : Int) ^ j
        - ((a.buf.base : Int) + a.off) % 2 ^ j) % 2 ^ j)) % 2 ^ j = 0 := by
      rw [← add_assoc]; exact hz
    refine ⟨hz', by omega, by omega, ?_, ?_, trivial⟩
    · intro q hq hq0
      have := hleast q hq hq0
      omega
    · generalize a.off + ((2 : Int) ^ j - ((a.buf.base : Int) + a.off) % 2 ^ j) % 2 ^ j
        = o at hz'
      have hd : (2 : Int) ^ j ∣ (a.buf.base : Int) + o := Int.dvd_of_emod_eq_zero hz'
      constructor
      · intro ho
        have hdo : (2 : Int) ^ j ∣ o := Int.dvd_of_emod_eq_zero ho
        exact Int.emod_eq_zero_of_dvd ((Int.dvd_add_left hdo).mp hd)
      · intro hb
        have hdb : (2 : Int) ^ j ∣ (a.buf.base : Int) := Int.dvd_of_emod_eq_zero hb
        exact Int.emod_eq_zero_of_dvd ((Int.dvd_add_right hdb).mp hd)

/-- C22 amended, at a concrete allocator: offset 0 in a buffer at address 4104, aligned
to 16. -/
theorem allocator_align_address_multiple_witness :
    (((4104 : Nat) : Int) + Allocator.Offset ⟨⟨4104, List.replicate 64 0⟩, 8⟩) % 16 = 0 ∧
    Allocator.Offset ⟨⟨4104, List.replicate 64 0⟩, 0⟩
      ≤ Allocator.Offset ⟨⟨4104, List.replicate 64 0⟩, 8⟩ :=
  have h := allocator_align_address_multiple ⟨⟨4104, List.replicate 64 0⟩, 0⟩
    ⟨⟨4104, List.replicate 64 0⟩, 8⟩ 16 (by decide) (by decide) (by decide) (by decide) rfl
  ⟨h.1, h.2.1⟩

/-- C23. The code does not keep the offset from decreasing: on a new allocator over 64
bytes, `Skip(10)` followed by `Skip(-5)` returns both times, and `Offset()` goes from 10
down to 5.  `Skip` tests only `a.off+n > len(a.buf)` and so takes a negative `n`. -/
theorem allocator_skip_negative_decreases :
    Allocator.offsets (NewAllocator ⟨4096, List.replicate 64 0⟩) [.Skip 10, .Skip (-5)]
      = [10, 5] ∧
    ¬ List.Chain (fun x y : Int => x ≤ y)
        (NewAllocator ⟨4096, List.replicate 64 0⟩).Offset
        (Allocator.offsets (NewAllocator ⟨4096, List.replicate 64 0⟩)
          [.Skip 10, .Skip (-5)]) := by
  have h : Allocator.offsets (NewAllocator ⟨4096, List.replicate 64 0⟩)
      [.Skip 10, .Skip (-5)] = [10, 5] := rfl
  refine ⟨h, ?_⟩
  rw [h]
  intro hc
  cases hc with
  | cons _ hc' =>
    cases hc' with
    | cons h2 _ => exact absurd h2 (by decide)

/-- Where no `Skip` is given a negative argument, the offset never decreases.  Take an
allocator over a buffer of at most `2^62` bytes whose offset is an `int` not beyond the
length of the buffer (as `NewAllocator` and every call leave it), and a sequence of
`Skip`, `Align` and typed-allocate calls in which every argument of `Skip` is at least 0
(and below `2^62`).  Then, along the calls made up to the first that panics, each value of
`Offset()` is at least the value before the call. -/
theorem allocator_offset_monotone (a : Allocator) (cs : List AllocCall)
    (hlen : a.buf.len ≤ 2 ^ 62) (hoff : IsI64 a.off) (hle : a.off ≤ a.buf.len)
    (hcs : ∀ c ∈ cs, c.Forward) :
    List.Chain (fun x y : Int => x ≤ y) a.Offset (a.offsets cs) :=
  Allocator_offsets_chain cs a hlen hoff hle hcs

/-- A concrete sequence: on a new allocator over 256 bytes at address 4104, the calls
`Skip(3)`, `Int32()`, `Align(64)`, `CacheAlignedUint64()`, `Uint128()` leave the offsets
3, 8, 56, 120, 136. -/
theorem allocator_offset_monotone_witness :
    Allocator.offsets (NewAllocator ⟨4104, List.replicate 256 0⟩)
        [.Skip 3, .Int32, .Align 64, .CacheAlignedUint64, .Uint128]
      = [3, 8, 56, 120, 136] ∧
    List.Chain (fun x y : Int => x ≤ y) (NewAllocator ⟨4104, List.replicate 256 0⟩).Offset
      (Allocator.offsets (NewAllocator ⟨4104, List.replicate 256 0⟩)
        [.Skip 3, .Int32, .Align 64, .CacheAlignedUint64, .Uint128]) :=
  ⟨rfl, allocator_offset_monotone (NewAllocator ⟨4104, List.replicate 256 0⟩)
    [.Skip 3, .Int32, .Align 64, .CacheAlignedUint64, .Uint128]
    (by decide) (by decide) (by decide) (by
      intro c hc
      simp only [List.mem_cons, List.mem_singleton, List.not_mem_nil, or_false] at hc
      rcases hc with rfl | rfl | rfl | rfl | rfl <;> simp [AllocCall.Forward, IsI64])⟩

/-- C24. In every allocator state (the buffer of at most `2^62` bytes, the offset an
`int`), each typed allocate method combines its placement function with advancing the
offset: where `PlaceAlignedInt32(buf, Offset())` returns `n` and a reference, `Int32()`
returns the same reference and leaves `Offset()` greater by exactly `n`, which is the
padding to the next multiple of 4 plus 4, the buffer being the same; where the placement
panics, `Int32()` panics with the same message.  Likewise the other seven typed methods
with their `PlaceAligned` function and the eight cache-aligned methods with their
`PlaceCacheAligned` function, for which `n` is the padding to the next multiple of 64
plus 64. -/
theorem allocator_typed_allocate_is_place (a : Allocator) (hlen : a.buf.len ≤ 2 ^ 62)
    (hoff : IsI64 a.off) :
    AllocatesWith Allocator.Int32 PlaceAlignedInt32 4 4 a ∧
    AllocatesWith Allocator.Uint32 PlaceAlignedUint32 4 4 a ∧
    AllocatesWith Allocator.Bool PlaceAlignedBool 4 4 a ∧
    AllocatesWith Allocator.Int64 PlaceAlignedInt64 8 8 a ∧
    AllocatesWith Allocator.Uint64 PlaceAlignedUint64 8 8 a ∧
    AllocatesWith Allocator.Uintptr PlaceAlignedUintptr 8 8 a ∧
    AllocatesWith Allocator.Int128 PlaceAlignedInt128 16 16 a ∧
    AllocatesWith Allocator.Uint128 PlaceAlignedUint128 16 16 a ∧
    AllocatesWith Allocator.CacheAlignedInt32 PlaceCacheAlignedInt32 64 64 a ∧
    AllocatesWith Allocator.CacheAlignedUint32 PlaceCacheAlignedUint32 64 64 a ∧
    AllocatesWith Allocator.CacheAlignedInt64 PlaceCacheAlignedInt64 64 64 a ∧
    AllocatesWith Allocator.CacheAlignedUint64 PlaceCacheAlignedUint64 64 64 a ∧
    AllocatesWith Allocator.CacheAlignedUintptr PlaceCacheAlignedUintptr 64 64 a ∧
    AllocatesWith Allocator.CacheAlignedBool PlaceCacheAlignedBool 64 64 a ∧
    AllocatesWith Allocator.CacheAlignedInt128 PlaceCacheAlignedInt128 64 64 a ∧
    AllocatesWith Allocator.CacheAlignedUint128 PlaceCacheAlignedUint128 64 64 a := by
  have hfit : a.buf.Fits := by unfold ByteSlice.Fits; omega
  exact ⟨allocatesWith_of_spec _ _ 4 (by decide) (by decide) a hlen rfl
      (PlaceAlignedInt32_toOption a.buf a.off hfit hoff),
    allocatesWith_of_spec _ _ 4 (by decide) (by decide) a hlen rfl
      (PlaceAlignedUint32_toOption a.buf a.off hfit hoff),
    allocatesWith_of_spec _ _ 4 (by decide) (by decide) a hlen rfl
      (PlaceAlignedBool_toOption a.buf a.off hfit hoff),
    allocatesWith_of_spec _ _ 8 (by decide) (by decide) a hlen rfl
      (PlaceAlignedInt64_toOption a.buf a.off hfit hoff),
    allocatesWith_of_spec _ _ 8 (by decide) (by decide) a hlen rfl
      (PlaceAlignedUint64_toOption a.buf a.off hfit hoff),
    allocatesWith_of_spec _ _ 8 (by decide) (by decide) a hlen rfl
      (PlaceAlignedUintptr_toOption a.buf a.off hfit hoff),
    allocatesWith_of_spec _ _ 16 (by decide) (by decide) a hlen rfl
      (PlaceAlignedInt128_toOption a.buf a.off hfit hoff),
    allocatesWith_of_spec _ _ 16 (by decide) (by decide) a hlen rfl
      (PlaceAlignedUint128_toOption a.buf a.off hfit hoff),
    allocatesWith_of_spec _ _ 64 (by decide) (by decide) a hlen rfl
      (PlaceCacheAlignedInt32_toOption a.buf a.off hlen hoff),
    allocatesWith_of_spec _ _ 64 (by decide) (by decide) a hlen rfl
      (PlaceCacheAlignedUint32_toOption a.buf a.off hlen hoff),
    allocatesWith_of_spec _ _ 64 (by decide) (by decide) a hlen rfl
      (PlaceCacheAlignedInt64_toOption a.buf a.off hlen hoff),
    allocatesWith_of_spec _ _ 64 (by decide) (by decide) a hlen rfl
      (PlaceCacheAlignedUint64_toOption a.buf a.off hlen hoff),
    allocatesWith_of_spec _ _ 64 (by decide) (by decide) a hlen rfl
      (PlaceCacheAlignedUintptr_toOption a.buf a.off hlen hoff),
    allocatesWith_of_spec _ _ 64 (by decide) (by decide) a hlen rfl
      (PlaceCacheAlignedBool_toOption a.buf a.off hlen hoff),
    allocatesWith_of_spec _ _ 64 (by decide) (by decide) a hlen rfl
      (PlaceCacheAlignedInt128_toOption a.buf a.off hlen hoff),
    allocatesWith_of_spec _ _ 64 (by decide) (by decide) a hlen rfl
      (PlaceCacheAlignedUint128_toOption a.buf a.off hlen hoff)⟩

/-- C24, at a concrete allocator: offset 3 in a buffer of 256 bytes at address 4104.
`Int32()` returns the reference 4108 that `PlaceAlignedInt32` returns and moves the offset
by the 5 bytes it reports; `CacheAlignedInt32()` returns the reference 4160 and moves the
offset by 117 bytes. -/
theorem allocator_typed_allocate_is_place_witness :
    (∃ b, Allocator.Int32 ⟨⟨4104, List.replicate 256 0⟩, 3⟩ = .ok (4108, b) ∧
      b.Offset = Allocator.Offset ⟨⟨4104, List.replicate 256 0⟩, 3⟩ + 5 ∧
      b.buf = ⟨4104, List.replicate 256 0⟩ ∧
      (5 : Int) = (4 - (((4104 : Nat) : Int)
        + Allocator.Offset ⟨⟨4104, List.replicate 256 0⟩, 3⟩) % 4) % 4 + 4) ∧
    (∃ b, Allocator.CacheAlignedInt32 ⟨⟨4104, List.replicate 256 0⟩, 3⟩ = .ok (4160, b) ∧
      b.Offset = Allocator.Offset ⟨⟨4104, List.replicate 256 0⟩, 3⟩ + 117 ∧
      b.buf = ⟨4104, List.replicate 256 0⟩ ∧
      (117 : Int) = (64 - (((4104 : Nat) : Int)
        + Allocator.Offset ⟨⟨4104, List.replicate 256 0⟩, 3⟩) % 64) % 64 + 64) :=
  have h := allocator_typed_allocate_is_place ⟨⟨4104, List.replicate 256 0⟩, 3⟩
    (by decide) (by decide)
  ⟨h.1.1 5 4108 rfl, h.2.2.2.2.2.2.2.2.1.1 117 4160 rfl⟩

/-- C25. From every allocator state (the buffer of at most `2^62` bytes, the offset an
`int`), `Reset` leaves `Offset() = 0` and `Remaining() = len(buf)` and the buffer, its
address and every byte, as it was; so a 128-bit value read through any reference into the
buffer is the same before and after `Reset`, and a value stored through the reference
that `Uint128()` returned reads back after `Reset`. -/
theorem allocator_reset_keeps_bytes (a : Allocator) (hlen : a.buf.len ≤ 2 ^ 62)
    (hoff : IsI64 a.off) :
    a.Reset.Offset = 0 ∧ a.Reset.Remaining = a.buf.len ∧ a.Reset.buf = a.buf ∧
    (∀ ptr, Uint128.LoadAt a.Reset.buf ptr = Uint128.LoadAt a.buf ptr) ∧
    (∀ ptr c lo hi, a.Uint128 = .ok (ptr, c) → lo < 2 ^ 64 → hi < 2 ^ 64 →
      Uint128.LoadAt
        (Allocator.Reset { c with buf := Uint128.StoreAt c.buf ptr lo hi }).buf ptr
        = (lo, hi)) := by
  have hl0 : 0 ≤ a.buf.len := by unfold ByteSlice.len; omega
  refine ⟨rfl, ?_, rfl, fun _ => rfl, ?_⟩
  · show subI64 a.buf.len 0 = a.buf.len
    unfold subI64; omega
  · intro ptr c lo hi h hlo hhi
    have hfit : a.buf.Fits := by unfold ByteSlice.Fits; omega
    have hspec := PlaceAlignedUint128_toOption a.buf a.off hfit hoff
    unfold Allocator.Uint128 at h
    cases hp : PlaceAlignedUint128 a.buf a.off with
    | error e =>
      rw [hp] at h
      exact absurd h (by simp)
    | ok r =>
      obtain ⟨n, q⟩ := r
      rw [hp] at h hspec
      simp only [Except.ok.injEq, Prod.mk.injEq] at h
      obtain ⟨hq, hc⟩ := h
      subst hq
      subst hc
      obtain ⟨hb, hin⟩ := placeAlignedSpec_some_bounds 16 a.buf a.off n q hspec.symm
      have hin' : q - a.buf.base + 16 ≤ a.buf.bytes.length := by
        unfold ByteSlice.len at hin; omega
      show Uint128.LoadAt (Uint128.StoreAt a.buf q lo hi) q = (lo, hi)
      rw [Uint128_LoadAt_StoreAt a.buf q lo hi hb hin', Nat.mod_eq_of_lt hlo,
        Nat.mod_eq_of_lt hhi]

/-- C25, at a concrete allocator: after `Uint128()` on a new allocator over 64 bytes at
address 4104, the value `(7, 9)` stored through the returned reference 4112 reads back
after `Reset`. -/
theorem allocator_reset_keeps_bytes_witness :
    Allocator.Uint128 (NewAllocator ⟨4104, List.replicate 64 0⟩)
      = .ok (4112, ⟨⟨4104, List.replicate 64 0⟩, 24⟩) ∧
    Uint128.LoadAt (Allocator.Reset
      { (⟨⟨4104, List.replicate 64 0⟩, 24⟩ : Allocator) with
        buf := Uint128.StoreAt ⟨4104, List.replicate 64 0⟩ 4112 7 9 }).buf 4112 = (7, 9) :=
  ⟨rfl, (allocator_reset_keeps_bytes (NewAllocator ⟨4104, List.replicate 64 0⟩) (by decide)
    (by decide)).2.2.2.2 4112 ⟨⟨4104, List.replicate 64 0⟩, 24⟩ 7 9 rfl (by decide)
    (by decide)⟩

/-! ## Increment, decrement and the relaxed loops of `Uint128`; the bitwise operations of `Int32` -/

theorem Uint128_AddRelaxed_step (a : Uint128) (deltaLo deltaHi fuel : Nat) :
    Uint128.AddRelaxed a deltaLo deltaHi (fuel + 1) =
      some ((addU64 a.v.lo deltaLo,
              if addU64 a.v.lo deltaLo < a.v.lo then addU64 (addU64 a.v.hi deltaHi) 1
              else addU64 a.v.hi deltaHi),
            { v := { lo := addU64 a.v.lo deltaLo,
                     hi := if addU64 a.v.lo deltaLo < a.v.lo
                           then addU64 (addU64 a.v.hi deltaHi) 1
                           else addU64 a.v.hi deltaHi } }) := by
  simp [Uint128.AddRelaxed, arch.LoadUint128Relaxed, cas128_self]

theorem Uint128_SubRelaxed_step (a : Uint128) (deltaLo deltaHi fuel : Nat) :
    Uint128.SubRelaxed a deltaLo deltaHi (fuel + 1) =
      some ((subU64 a.v.lo deltaLo,
              if subU64 a.v.lo deltaLo > a.v.lo then subU64 (subU64 a.v.hi deltaHi) 1
              else subU64 a.v.hi deltaHi),
            { v := { lo := subU64 a.v.lo deltaLo,
                     hi := if subU64 a.v.lo deltaLo > a.v.lo
                           then subU64 (subU64 a.v.hi deltaHi) 1
                           else subU64 a.v.hi deltaHi } }) := by
  simp [Uint128.SubRelaxed, arch.LoadUint128Relaxed, cas128_self]

/-- Subtracting what was added gives back the low word. -/
theorem sub_add_lo (lo dlo : Nat) (h1 : lo < 2 ^ 64) :
    subU64 (addU64 lo dlo) dlo = lo := by
  unfold subU64 addU64; omega

/-- Subtracting what was added gives back the high word: the borrow of the subtraction
undoes the carry of the addition. -/
theorem sub_add_hi (lo hi dlo dhi : Nat) (h1 : lo < 2 ^ 64) (h2 : hi < 2 ^ 64) :
    (if subU64 (addU64 lo dlo) dlo > addU64 lo dlo then
        subU64 (subU64 (if addU64 lo dlo < lo then addU64 (addU64 hi dhi) 1
          else addU64 hi dhi) dhi) 1
      else subU64 (if addU64 lo dlo < lo then addU64 (addU64 hi dhi) 1
          else addU64 hi dhi) dhi) = hi := by
  rw [sub_add_lo lo dlo h1]
  unfold subU64 addU64
  split <;> omega

theorem Uint128_Load_eq (a : Uint128) : a.Load = (a.v.lo, a.v.hi) := rfl

theorem Uint128_Inc_eq (a : Uint128) (fuel : Nat) : a.Inc fuel = a.Add 1 0 fuel := rfl

theorem Uint128_Dec_eq (a : Uint128) (fuel : Nat) : a.Dec fuel = a.Sub 1 0 fuel := rfl

/-- `Inc` on the largest value wraps to zero. -/
theorem Uint128_Inc_max (fuel : Nat) :
    Uint128.Inc { v := { lo := 2 ^ 64 - 1, hi := 2 ^ 64 - 1 } } (fuel + 1)
      = some ((0, 0), { v := { lo := 0, hi := 0 } }) := by
  have e1 : addU64 (2 ^ 64 - 1) 1 = 0 := by unfold addU64; omega
  have e2 : addU64 (addU64 (2 ^ 64 - 1) 0) 1 = 0 := by unfold addU64; omega
  have e3 : (0 : Nat) < 2 ^ 64 - 1 := by omega
  have h := Uint128_Add_step { v := { lo := 2 ^ 64 - 1, hi := 2 ^ 64 - 1 } } 1 0 fuel
  rw [e1, e2, if_pos e3] at h
  rw [Uint128_Inc_eq]
  exact h

theorem toU32_toI32 (n : Nat) : toU32 (toI32 n) = n % 2 ^ 32 := by
  unfold toU32 toI32
  split <;> omega

theorem toI32_isI32 (n : Nat) : IsI32 (toI32 n) := by
  unfold IsI32 toI32
  split <;> omega

/-! ### The claims -/

/-- C26. `Inc` gives the result and the cell of `Add(1, 0)`, and `Dec` those of
`Sub(1, 0)`, and both return at their first iteration.  On a cell of two `uint64` words,
`Inc` returns the value plus one modulo `2^128` and `Dec` the value minus one modulo
`2^128`; `Inc` on `(2^64-1, 2^64-1)` leaves `(0, 0)`; and `Inc` followed by `Dec` leaves
the cell as it was, `Dec` returning the original pair. -/
theorem uint128_inc_dec (a : Uint128) (h : a.WF) (fuel : Nat) :
    a.Inc fuel = a.Add 1 0 fuel ∧ a.Dec fuel = a.Sub 1 0 fuel ∧
    (∃ r, a.Inc (fuel + 1) = some r ∧ r.2.Load = r.1 ∧ r.2.WF ∧
      r.2.value = (a.value + 1) % 2 ^ 128) ∧
    (∃ r, a.Dec (fuel + 1) = some r ∧ r.2.Load = r.1 ∧ r.2.WF ∧
      (r.2.value : Int) = ((a.value : Int) - 1) % 2 ^ 128) ∧
    (Uint128.Inc { v := { lo := 2 ^ 64 - 1, hi := 2 ^ 64 - 1 } } (fuel + 1)
      = some ((0, 0), { v := { lo := 0, hi := 0 } })) ∧
    (∃ r1 r2, a.Inc (fuel + 1) = some r1 ∧ r1.2.Dec (fuel + 1) = some r2 ∧
      r2.2 = a ∧ r2.1 = a.Load) := by
  obtain ⟨⟨lo, hi⟩⟩ := a
  unfold Uint128.WF at h
  simp only at h
  obtain ⟨h1, h2⟩ := h
  have hlo : subU64 (addU64 lo 1) 1 = lo := sub_add_lo lo 1 h1
  have hhi := sub_add_hi lo hi 1 0 h1 h2
  have hI := (Uint128_Inc_eq ⟨⟨lo, hi⟩⟩ (fuel + 1)).trans (Uint128_Add_step _ 1 0 fuel)
  have hD := (Uint128_Dec_eq ⟨⟨lo, hi⟩⟩ (fuel + 1)).trans (Uint128_Sub_step _ 1 0 fuel)
  refine ⟨Uint128_Inc_eq _ _, Uint128_Dec_eq _ _, ⟨_, hI, ?_, ?_, ?_⟩,
    ⟨_, hD, ?_, ?_, ?_⟩, Uint128_Inc_max fuel, ?_⟩
  · rw [Uint128_Load_eq]
  · unfold Uint128.WF
    refine ⟨addU64_lt _ _, ?_⟩
    dsimp only
    split
    · exact addU64_lt _ _
    · exact addU64_lt _ _
  · unfold Uint128.value
    have e := add128_words lo hi 1 0 h1 (by omega)
    dsimp only
    omega
  · rw [Uint128_Load_eq]
  · unfold Uint128.WF
    refine ⟨subU64_lt _ _, ?_⟩
    dsimp only
    split
    · exact subU64_lt _ _
    · exact subU64_lt _ _
  · unfold Uint128.value
    have e := sub128_words lo hi 1 0 h1 (by omega)
    dsimp only
    push_cast at e ⊢
    omega
  · have hD2 := (Uint128_Dec_eq ⟨⟨addU64 lo 1, if addU64 lo 1 < lo then
        addU64 (addU64 hi 0) 1 else addU64 hi 0⟩⟩ (fuel + 1)).trans
        (Uint128_Sub_step _ 1 0 fuel)
    dsimp only at hD2
    rw [hhi, hlo] at hD2
    exact ⟨_, _, hI, hD2, rfl, (Uint128_Load_eq ⟨⟨lo, hi⟩⟩).symm⟩

/-- C26, at a concrete cell: the cell `(2^64-1, 0)`, where `Inc` carries into the high
word. -/
theorem uint128_inc_dec_witness :
    ∃ r1 r2, Uint128.Inc { v := { lo := 2 ^ 64 - 1, hi := 0 } } 1 = some r1 ∧
      r1.2.Dec 1 = some r2 ∧ r2.2 = { v := { lo := 2 ^ 64 - 1, hi := 0 } } ∧
      r2.1 = Uint128.Load { v := { lo := 2 ^ 64 - 1, hi := 0 } } :=
  (uint128_inc_dec { v := { lo := 2 ^ 64 - 1, hi := 0 } } (by decide) 0).2.2.2.2.2

/-- C27. `And(mask)`, `Or(mask)` and `Xor(mask)` on an `Int32` return at the first
iteration of their loop, return the value `old` the cell held and leave the cell at
`old & mask`, `old | mask` and `old ^ mask`: an `int32` whose bit `i` (of the 32 bits of
its two's-complement form) is the conjunction, disjunction and exclusive disjunction of
bit `i` of `old` and bit `i` of `mask`.  `Swap(new)` returns `old` and leaves the cell at
`new`. -/
theorem int32_bitwise_and_swap (a : Int32) (mask new : Int) (fuel : Nat) :
    a.And mask (fuel + 1) = some (a.Load, ⟨andI32 a.Load mask⟩) ∧
    a.Or mask (fuel + 1) = some (a.Load, ⟨orI32 a.Load mask⟩) ∧
    a.Xor mask (fuel + 1) = some (a.Load, ⟨xorI32 a.Load mask⟩) ∧
    a.Swap new = (a.Load, ⟨new⟩) ∧
    IsI32 (andI32 a.Load mask) ∧ IsI32 (orI32 a.Load mask) ∧ IsI32 (xorI32 a.Load mask) ∧
    (∀ i, i < 32 →
      (toU32 (andI32 a.Load mask)).testBit i
        = ((toU32 a.Load).testBit i && (toU32 mask).testBit i) ∧
      (toU32 (orI32 a.Load mask)).testBit i
        = ((toU32 a.Load).testBit i || (toU32 mask).testBit i) ∧
      (toU32 (xorI32 a.Load mask)).testBit i
        = (xor ((toU32 a.Load).testBit i) ((toU32 mask).testBit i))) := by
  rw [Int32_Load_eq]
  refine ⟨Int32_And_step a mask fuel, Int32_Or_step a mask fuel, Int32_Xor_step a mask fuel,
    rfl, toI32_isI32 _, toI32_isI32 _, toI32_isI32 _, ?_⟩
  intro i hi
  unfold andI32 orI32 xorI32
  rw [toU32_toI32, toU32_toI32, toU32_toI32]
  simp only [Nat.testBit_mod_two_pow, Nat.testBit_and, Nat.testBit_or, Nat.testBit_xor, hi,
    decide_True, Bool.true_and, and_self]

/-- C28. On a cell of two `uint64` words and for a delta whose low word is a `uint64`
(the code reduces the high word modulo `2^64`), `AddRelaxed(deltaLo, deltaHi)` returns at
its first iteration, and `SubRelaxed(deltaLo, deltaHi)` on the cell it leaves returns at
its first iteration, leaves the cell as it was before the addition and returns the
original pair; the same holds for `Add` followed by `Sub`.  The cell in between holds the
sum modulo `2^128`, so a carry into the high word and a wrap past `2^128` are covered. -/
theorem uint128_add_sub_roundtrip (a : Uint128) (deltaLo deltaHi : Nat) (h : a.WF)
    (hlo : deltaLo < 2 ^ 64) (fuel : Nat) :
    (∃ r1 r2, a.AddRelaxed deltaLo deltaHi (fuel + 1) = some r1 ∧
      r1.2.value = (a.value + (deltaLo + 2 ^ 64 * deltaHi)) % 2 ^ 128 ∧
      r1.2.SubRelaxed deltaLo deltaHi (fuel + 1) = some r2 ∧ r2.2 = a ∧ r2.1 = a.Load) ∧
    (∃ r1 r2, a.Add deltaLo deltaHi (fuel + 1) = some r1 ∧
      r1.2.value = (a.value + (deltaLo + 2 ^ 64 * deltaHi)) % 2 ^ 128 ∧
      r1.2.Sub deltaLo deltaHi (fuel + 1) = some r2 ∧ r2.2 = a ∧ r2.1 = a.Load) := by
  obtain ⟨⟨lo, hi⟩⟩ := a
  unfold Uint128.WF at h
  simp only at h
  obtain ⟨h1, h2⟩ := h
  have elo : subU64 (addU64 lo deltaLo) deltaLo = lo := sub_add_lo lo deltaLo h1
  have ehi := sub_add_hi lo hi deltaLo deltaHi h1 h2
  have ev := add128_words lo hi deltaLo deltaHi h1 hlo
  have hS := Uint128_Sub_step ⟨⟨addU64 lo deltaLo, if addU64 lo deltaLo < lo then
      addU64 (addU64 hi deltaHi) 1 else addU64 hi deltaHi⟩⟩ deltaLo deltaHi fuel
  have hSR := Uint128_SubRelaxed_step ⟨⟨addU64 lo deltaLo, if addU64 lo deltaLo < lo then
      addU64 (addU64 hi deltaHi) 1 else addU64 hi deltaHi⟩⟩ deltaLo deltaHi fuel
  dsimp only at hS hSR
  rw [ehi, elo] at hS hSR
  have hv : Uint128.value ⟨⟨addU64 lo deltaLo, if addU64 lo deltaLo < lo then
      addU64 (addU64 hi deltaHi) 1 else addU64 hi deltaHi⟩⟩
      = (Uint128.value ⟨⟨lo, hi⟩⟩ + (deltaLo + 2 ^ 64 * deltaHi)) % 2 ^ 128 := by
    unfold Uint128.value
    dsimp only
    omega
  exact ⟨⟨_, _, Uint128_AddRelaxed_step _ deltaLo deltaHi fuel, hv, hSR, rfl,
      (Uint128_Load_eq ⟨⟨lo, hi⟩⟩).symm⟩,
    ⟨_, _, Uint128_Add_step _ deltaLo deltaHi fuel, hv, hS, rfl,
      (Uint128_Load_eq ⟨⟨lo, hi⟩⟩).symm⟩⟩

/-- C28, at a concrete cell: adding `(1, 2^64-1)` to `(2^64-1, 2^64-1)` carries into the
high word and wraps past `2^128`. -/
theorem uint128_add_sub_roundtrip_witness :
    (∃ r1 r2, Uint128.AddRelaxed { v := { lo := 2 ^ 64 - 1, hi := 2 ^ 64 - 1 } } 1
        (2 ^ 64 - 1) 1 = some r1 ∧
      r1.2.value = (Uint128.value { v := { lo := 2 ^ 64 - 1, hi := 2 ^ 64 - 1 } }
        + (1 + 2 ^ 64 * (2 ^ 64 - 1))) % 2 ^ 128 ∧
      r1.2.SubRelaxed 1 (2 ^ 64 - 1) 1 = some r2 ∧
      r2.2 = { v := { lo := 2 ^ 64 - 1, hi := 2 ^ 64 - 1 } } ∧
      r2.1 = Uint128.Load { v := { lo := 2 ^ 64 - 1, hi := 2 ^ 64 - 1 } }) :=
  (uint128_add_sub_roundtrip { v := { lo := 2 ^ 64 - 1, hi := 2 ^ 64 - 1 } } 1 (2 ^ 64 - 1)
    (by decide) (by decide) 0).1

/-! ## The `MemoryOrder` operations on an `int32` and the methods of `Int32` -/

theorem MemoryOrder_CompareAndSwapInt32_eq (o : MemoryOrder) (addr old new : Int) :
    o.CompareAndSwapInt32 addr old new = atomic.CompareAndSwapInt32 addr old new := by
  unfold MemoryOrder.CompareAndSwapInt32 arch.CasInt32Relaxed arch.CasInt32Acquire
    arch.CasInt32Release arch.CasInt32AcqRel
  simp only [ite_self]

theorem MemoryOrder_CompareExchangeInt32_eq (o : MemoryOrder) (addr old new : Int)
    (fuel : Nat) :
    o.CompareExchangeInt32 addr old new fuel = arch.CaxInt32Relaxed addr old new fuel := by
  unfold MemoryOrder.CompareExchangeInt32 arch.CaxInt32Acquire arch.CaxInt32Release
    arch.CaxInt32AcqRel
  simp only [ite_self]

theorem MemoryOrder_AndInt32_eq (o : MemoryOrder) (addr mask : Int) (fuel : Nat) :
    o.AndInt32 addr mask fuel = arch.AndInt32Relaxed addr mask fuel := by
  unfold MemoryOrder.AndInt32 arch.AndInt32Acquire arch.AndInt32Release arch.AndInt32AcqRel
  simp only [ite_self]

theorem MemoryOrder_OrInt32_eq (o : MemoryOrder) (addr mask : Int) (fuel : Nat) :
    o.OrInt32 addr mask fuel = arch.OrInt32Relaxed addr mask fuel := by
  unfold MemoryOrder.OrInt32 arch.OrInt32Acquire arch.OrInt32Release arch.OrInt32AcqRel
  simp only [ite_self]

theorem MemoryOrder_XorInt32_eq (o : MemoryOrder) (addr mask : Int) (fuel : Nat) :
    o.XorInt32 addr mask fuel = arch.XorInt32Relaxed addr mask fuel := by
  unfold MemoryOrder.XorInt32 arch.XorInt32Acquire arch.XorInt32Release arch.XorInt32AcqRel
  simp only [ite_self]

theorem MemoryOrder_MaxInt32_zero (o : MemoryOrder) (addr val : Int) :
    o.MaxInt32 addr val 0 = none := by
  unfold MemoryOrder.MaxInt32
  split <;> rfl

theorem MemoryOrder_MinInt32_zero (o : MemoryOrder) (addr val : Int) :
    o.MinInt32 addr val 0 = none := by
  unfold MemoryOrder.MinInt32
  split <;> rfl

/-- C32. For every `MemoryOrder` value `o` (the four named ones and every other), every
word `v`, every argument and every bound on the iterations of a loop, each operation of
`o` on an `int32` holding `v` gives the result of the method of the same name on an
`Int32` holding `v` and leaves the word that the method leaves in its cell; the
operations that loop return at their first iteration. -/
theorem memoryOrder_int32_same_as_methods (o : MemoryOrder) (v x y : Int) (fuel : Nat) :
    o.SwapInt32 v x = ((Int32.Swap ⟨v⟩ x).1, (Int32.Swap ⟨v⟩ x).2.v) ∧
    o.CompareAndSwapInt32 v x y
      = ((Int32.CompareAndSwap ⟨v⟩ x y).1, (Int32.CompareAndSwap ⟨v⟩ x y).2.v) ∧
    o.CompareExchangeInt32 v x y fuel
      = (Int32.CompareExchange ⟨v⟩ x y fuel).map (fun r => (r.1, r.2.v)) ∧
    o.AddInt32 v x = ((Int32.Add ⟨v⟩ x).1, (Int32.Add ⟨v⟩ x).2.v) ∧
    o.AndInt32 v x fuel = (Int32.And ⟨v⟩ x fuel).map (fun r => (r.1, r.2.v)) ∧
    o.OrInt32 v x fuel = (Int32.Or ⟨v⟩ x fuel).map (fun r => (r.1, r.2.v)) ∧
    o.XorInt32 v x fuel = (Int32.Xor ⟨v⟩ x fuel).map (fun r => (r.1, r.2.v)) ∧
    o.MaxInt32 v x fuel = (Int32.Max ⟨v⟩ x fuel).map (fun r => (r.1, r.2.v)) ∧
    o.MinInt32 v x fuel = (Int32.Min ⟨v⟩ x fuel).map (fun r => (r.1, r.2.v)) ∧
    (o.CompareExchangeInt32 v x y (fuel + 1)).isSome = true ∧
    (o.AndInt32 v x (fuel + 1)).isSome = true ∧ (o.OrInt32 v x (fuel + 1)).isSome = true ∧
    (o.XorInt32 v x (fuel + 1)).isSome = true ∧ (o.MaxInt32 v x (fuel + 1)).isSome = true ∧
    (o.MinInt32 v x (fuel + 1)).isSome = true := by
  refine ⟨MemoryOrder_SwapInt32_eq o v x, MemoryOrder_CompareAndSwapInt32_eq o v x y, ?_,
    MemoryOrder_AddInt32_eq o v x, ?_, ?_, ?_, ?_, ?_, ?_, ?_, ?_, ?_, ?_, ?_⟩
  · rw [MemoryOrder_CompareExchangeInt32_eq]
    unfold Int32.CompareExchange arch.CaxInt32AcqRel
    cases arch.CaxInt32Relaxed v x y fuel <;> rfl
  · rw [MemoryOrder_AndInt32_eq]
    unfold Int32.And arch.AndInt32AcqRel
    cases arch.AndInt32Relaxed v x fuel <;> rfl
  · rw [MemoryOrder_OrInt32_eq]
    unfold Int32.Or arch.OrInt32AcqRel
    cases arch.OrInt32Relaxed v x fuel <;> rfl
  · rw [MemoryOrder_XorInt32_eq]
    unfold Int32.Xor arch.XorInt32AcqRel
    cases arch.XorInt32Relaxed v x fuel <;> rfl
  · cases fuel with
    | zero => rw [MemoryOrder_MaxInt32_zero]; rfl
    | succ n =>
      rw [MemoryOrder_MaxInt32_step, Int32_Max_step]
      by_cases h : v ≥ x
      · simp only [if_pos h, Option.map]
      · simp only [if_neg h, Option.map]
  · cases fuel with
    | zero => rw [MemoryOrder_MinInt32_zero]; rfl
    | succ n =>
      rw [MemoryOrder_MinInt32_step, Int32_Min_step]
      by_cases h : v ≤ x
      · simp only [if_pos h, Option.map]
      · simp only [if_neg h, Option.map]
  · rw [MemoryOrder_CompareExchangeInt32_eq, arch_CaxInt32Relaxed_step]; rfl
  · rw [MemoryOrder_AndInt32_step]; rfl
  · rw [MemoryOrder_OrInt32_step]; rfl
  · rw [MemoryOrder_XorInt32_step]; rfl
  · rw [MemoryOrder_MaxInt32_step]; rfl
  · rw [MemoryOrder_MinInt32_step]; rfl

/-! ## `Int128.Add` and `Int128.Sub` are `Uint128.Add` and `Uint128.Sub` on the same bits -/

theorem Int128_Sub_step (a : Int128) (deltaLo deltaHi : Int) (fuel : Nat) :
    Int128.Sub a deltaLo deltaHi (fuel + 1) =
      some ((toI64 (subU64 a.v.lo (toU64 deltaLo)),
              toI64 (if subU64 a.v.lo (toU64 deltaLo) > a.v.lo
                then subU64 (subU64 a.v.hi (toU64 deltaHi)) 1
                else subU64 a.v.hi (toU64 deltaHi))),
            { v := { lo := subU64 a.v.lo (toU64 deltaLo),
                     hi := if subU64 a.v.lo (toU64 deltaLo) > a.v.lo
                           then subU64 (subU64 a.v.hi (toU64 deltaHi)) 1
                           else subU64 a.v.hi (toU64 deltaHi) } }) := by
  simp [Int128.Sub, arch.LoadUint128Relaxed, arch.CasUint128AcqRel, cas128_self]

/-- The signed value of two words that hold a sum modulo `2^128`. -/
theorem signed128_of_words (lo hi : Nat) (s : Int) (hlo : lo < 2 ^ 64)
    (h : ((lo + 2 ^ 64 * hi : Nat) : Int) = s % 2 ^ 128) :
    toI64 hi * 2 ^ 64 + ((lo % 2 ^ 64 : Nat) : Int) = (s + 2 ^ 127) % 2 ^ 128 - 2 ^ 127 := by
  unfold toI64
  split <;> omega

/-- The signed value of a cell, in terms of its unsigned value. -/
theorem signed128_eq (lo hi : Nat) (hlo : lo < 2 ^ 64) (hhi : hi < 2 ^ 64) :
    ∃ q : Int, toI64 hi * 2 ^ 64 + ((lo % 2 ^ 64 : Nat) : Int)
      = ((lo + 2 ^ 64 * hi : Nat) : Int) + 2 ^ 128 * q := by
  unfold toI64
  split
  · exact ⟨0, by omega⟩
  · exact ⟨-1, by omega⟩

/-- C33. On the same sixteen bytes, `Int128.Add` is `Uint128.Add` of the delta words read
as unsigned, its result read as signed: for every bound on the iterations the two loops
agree, and at their first iteration both return, the signed pair holding the bits of the
unsigned pair and the cell being left with the same two words.  On a cell of two `uint64`
words the signed value left (and returned) is the two's-complement wrap of the sum of the
signed value of the cell and the signed value `deltaHi * 2^64 + uint64(deltaLo)` of the
delta.  The same holds for `Int128.Sub`, `Uint128.Sub` and the difference. -/
theorem int128_add_sub_as_uint128 (a : Int128) (deltaLo deltaHi : Int) (h : a.WF)
    (fuel : Nat) :
    Int128.Add a deltaLo deltaHi fuel
      = (Uint128.Add ⟨a.v⟩ (toU64 deltaLo) (toU64 deltaHi) fuel).map
          (fun r => ((toI64 r.1.1, toI64 r.1.2), ⟨r.2.v⟩)) ∧
    Int128.Sub a deltaLo deltaHi fuel
      = (Uint128.Sub ⟨a.v⟩ (toU64 deltaLo) (toU64 deltaHi) fuel).map
          (fun r => ((toI64 r.1.1, toI64 r.1.2), ⟨r.2.v⟩)) ∧
    (∃ ri ru, Int128.Add a deltaLo deltaHi (fuel + 1) = some ri ∧
      Uint128.Add ⟨a.v⟩ (toU64 deltaLo) (toU64 deltaHi) (fuel + 1) = some ru ∧
      (toU64 ri.1.1, toU64 ri.1.2) = ru.1 ∧ ri.2.v = ru.2.v ∧ ri.2.Load = ri.1 ∧
      ri.2.value
        = (a.value + (deltaHi * 2 ^ 64 + (toU64 deltaLo : Int)) + 2 ^ 127) % 2 ^ 128
          - 2 ^ 127) ∧
    (∃ ri ru, Int128.Sub a deltaLo deltaHi (fuel + 1) = some ri ∧
      Uint128.Sub ⟨a.v⟩ (toU64 deltaLo) (toU64 deltaHi) (fuel + 1) = some ru ∧
      (toU64 ri.1.1, toU64 ri.1.2) = ru.1 ∧ ri.2.v = ru.2.v ∧ ri.2.Load = ri.1 ∧
      ri.2.value
        = (a.value - (deltaHi * 2 ^ 64 + (toU64 deltaLo : Int)) + 2 ^ 127) % 2 ^ 128
          - 2 ^ 127) := by
  obtain ⟨⟨lo, hi⟩⟩ := a
  unfold Int128.WF at h
  dsimp only at h
  obtain ⟨h1, h2⟩ := h
  have hdl : toU64 deltaLo < 2 ^ 64 := toU64_lt deltaLo
  have hA := Int128_Add_step ⟨⟨lo, hi⟩⟩ deltaLo deltaHi fuel
  have hS := Int128_Sub_step ⟨⟨lo, hi⟩⟩ deltaLo deltaHi fuel
  have hUA := Uint128_Add_step ⟨⟨lo, hi⟩⟩ (toU64 deltaLo) (toU64 deltaHi) fuel
  have hUS := Uint128_Sub_step ⟨⟨lo, hi⟩⟩ (toU64 deltaLo) (toU64 deltaHi) fuel
  dsimp only at hA hS hUA hUS
  have hAhi : (if addU64 lo (toU64 deltaLo) < lo
      then addU64 (addU64 hi (toU64 deltaHi)) 1 else addU64 hi (toU64 deltaHi)) < 2 ^ 64 := by
    split
    · exact addU64_lt _ _
    · exact addU64_lt _ _
  have hShi : (if subU64 lo (toU64 deltaLo) > lo
      then subU64 (subU64 hi (toU64 deltaHi)) 1 else subU64 hi (toU64 deltaHi)) < 2 ^ 64 := by
    split
    · exact subU64_lt _ _
    · exact subU64_lt _ _
  obtain ⟨q, hq⟩ := signed128_eq lo hi h1 h2
  have hdh : ((toU64 deltaHi : Nat) : Int) = deltaHi % 2 ^ 64 := by
    unfold toU64; omega
  refine ⟨?_, ?_, ⟨_, _, hA, hUA, ?_, rfl, ?_, ?_⟩, ⟨_, _, hS, hUS, ?_, rfl, ?_, ?_⟩⟩
  · cases fuel with
    | zero => rfl
    | succ n =>
      rw [Int128_Add_step, Uint128_Add_step]
      simp only [Option.map]
  · cases fuel with
    | zero => rfl
    | succ n =>
      rw [Int128_Sub_step, Uint128_Sub_step]
      simp only [Option.map]
  · dsimp only
    rw [toU64_toI64, toU64_toI64, Nat.mod_eq_of_lt (addU64_lt lo (toU64 deltaLo)),
      Nat.mod_eq_of_lt hAhi]
  · unfold Int128.Load arch.LoadUint128Relaxed
    dsimp only
  · unfold Int128.value
    dsimp only
    have e := add128_words lo hi (toU64 deltaLo) (toU64 deltaHi) h1 hdl
    refine signed128_of_words _ _ _ (addU64_lt _ _) ?_
    rw [e]
    push_cast
    omega
  · dsimp only
    rw [toU64_toI64, toU64_toI64, Nat.mod_eq_of_lt (subU64_lt lo (toU64 deltaLo)),
      Nat.mod_eq_of_lt hShi]
  · unfold Int128.Load arch.LoadUint128Relaxed
    dsimp only
  · unfold Int128.value
    dsimp only
    have e := sub128_words lo hi (toU64 deltaLo) (toU64 deltaHi) h1 hdl
    refine signed128_of_words _ _ _ (subU64_lt _ _) ?_
    rw [e]
    omega

/-- C33, at a concrete cell: the largest signed value `(2^64-1, 2^63-1)` plus `(1, 0)`
wraps to the smallest, the words `(0, 2^63)`. -/
theorem int128_add_sub_as_uint128_witness :
    ∃ ri ru, Int128.Add ⟨⟨2 ^ 64 - 1, 2 ^ 63 - 1⟩⟩ 1 0 (0 + 1) = some ri ∧
      Uint128.Add ⟨(Int128.mk ⟨2 ^ 64 - 1, 2 ^ 63 - 1⟩).v⟩ (toU64 1) (toU64 0) (0 + 1)
        = some ru ∧
      (toU64 ri.1.1, toU64 ri.1.2) = ru.1 ∧ ri.2.v = ru.2.v ∧ ri.2.Load = ri.1 ∧
      ri.2.value
        = (Int128.value ⟨⟨2 ^ 64 - 1, 2 ^ 63 - 1⟩⟩ + (0 * 2 ^ 64 + (toU64 1 : Int))
            + 2 ^ 127) % 2 ^ 128 - 2 ^ 127 :=
  (int128_add_sub_as_uint128 ⟨⟨2 ^ 64 - 1, 2 ^ 63 - 1⟩⟩ 1 0 (by decide) 0).2.2.1

/-! ## The feasibility tests on an empty buffer -/

/-- `CanPlaceAligned4` aborts exactly on an empty slice at offset 0. -/
theorem CanPlaceAligned4_aborts_iff (p : ByteSlice) (off : Int) :
    Aborts (CanPlaceAligned4 p off) ↔ (p.bytes = [] ∧ off = 0) := by
  unfold CanPlaceAligned4
  have hl : p.len = (p.bytes.length : Int) := rfl
  by_cases hne : p.bytes = []
  · have h0 : p.len = 0 := by rw [hl, hne]; rfl
    rw [ByteSlice_addrOf_zero_nil p hne, h0]
    by_cases hoff : off = 0
    · subst hoff
      simp [Aborts, Except.isOk, Except.toBool, hne]
    · have : off < 0 ∨ off > 0 := by omega
      simp [Aborts, Except.isOk, Except.toBool, this, hoff]
  · rw [ByteSlice_addrOf_zero p hne]
    have : ¬ (p.bytes = [] ∧ off = 0) := fun h => hne h.1
    split <;> simp [Aborts, Except.isOk, Except.toBool, this]

/-- `CanPlaceAligned8` aborts exactly on an empty slice at offset 0. -/
theorem CanPlaceAligned8_aborts_iff (p : ByteSlice) (off : Int) :
    Aborts (CanPlaceAligned8 p off) ↔ (p.bytes = [] ∧ off = 0) := by
  unfold CanPlaceAligned8
  have hl : p.len = (p.bytes.length : Int) := rfl
  by_cases hne : p.bytes = []
  · have h0 : p.len = 0 := by rw [hl, hne]; rfl
    rw [ByteSlice_addrOf_zero_nil p hne, h0]
    by_cases hoff : off = 0
    · subst hoff
      simp [Aborts, Except.isOk, Except.toBool, hne]
    · have : off < 0 ∨ off > 0 := by omega
      simp [Aborts, Except.isOk, Except.toBool, this, hoff]
  · rw [ByteSlice_addrOf_zero p hne]
    have : ¬ (p.bytes = [] ∧ off = 0) := fun h => hne h.1
    split <;> simp [Aborts, Except.isOk, Except.toBool, this]

/-- `CanPlaceAligned16` aborts exactly on an empty slice at offset 0. -/
theorem CanPlaceAligned16_aborts_iff (p : ByteSlice) (off : Int) :
    Aborts (CanPlaceAligned16 p off) ↔ (p.bytes = [] ∧ off = 0) := by
  unfold CanPlaceAligned16
  have hl : p.len = (p.bytes.length : Int) := rfl
  by_cases hne : p.bytes = []
  · have h0 : p.len = 0 := by rw [hl, hne]; rfl
    rw [ByteSlice_addrOf_zero_nil p hne, h0]
    by_cases hoff : off = 0
    · subst hoff
      simp [Aborts, Except.isOk, Except.toBool, hne]
    · have : off < 0 ∨ off > 0 := by omega
      simp [Aborts, Except.isOk, Except.toBool, this, hoff]
  · rw [ByteSlice_addrOf_zero p hne]
    have : ¬ (p.bytes = [] ∧ off = 0) := fun h => hne h.1
    split <;> simp [Aborts, Except.isOk, Except.toBool, this]

/-- `CanPlaceCacheAligned` aborts exactly on an empty slice at offset 0. -/
theorem CanPlaceCacheAligned_aborts_iff (p : ByteSlice) (off size : Int) :
    Aborts (CanPlaceCacheAligned p off size) ↔ (p.bytes = [] ∧ off = 0) := by
  unfold CanPlaceCacheAligned
  have hl : p.len = (p.bytes.length : Int) := rfl
  by_cases hne : p.bytes = []
  · have h0 : p.len = 0 := by rw [hl, hne]; rfl
    rw [ByteSlice_addrOf_zero_nil p hne, h0]
    by_cases hoff : off = 0
    · subst hoff
      simp [Aborts, Except.isOk, Except.toBool, hne]
    · have : off < 0 ∨ off > 0 := by omega
      simp [Aborts, Except.isOk, Except.toBool, this, hoff]
  · rw [ByteSlice_addrOf_zero p hne]
    have : ¬ (p.bytes = [] ∧ off = 0) := fun h => hne h.1
    split <;> simp [Aborts, Except.isOk, Except.toBool, this]

/-- C34. On a zero-length buffer at offset 0 each of the four feasibility tests aborts
with the index panic of `&p[0]` and returns no boolean; at every other offset of a
zero-length buffer they return false. -/
theorem canPlace_aborts_on_empty_buffer :
    CanPlaceAligned4 ⟨4096, []⟩ 0 = .error "runtime error: index out of range" ∧
    CanPlaceAligned8 ⟨4096, []⟩ 0 = .error "runtime error: index out of range" ∧
    CanPlaceAligned16 ⟨4096, []⟩ 0 = .error "runtime error: index out of range" ∧
    CanPlaceCacheAligned ⟨4096, []⟩ 0 64 = .error "runtime error: index out of range" ∧
    Aborts (CanPlaceAligned4 ⟨4096, []⟩ 0) ∧ Aborts (CanPlaceAligned8 ⟨4096, []⟩ 0) ∧
    Aborts (CanPlaceAligned16 ⟨4096, []⟩ 0) ∧
    Aborts (CanPlaceCacheAligned ⟨4096, []⟩ 0 64) ∧
    CanPlaceAligned4 ⟨4096, []⟩ 1 = .ok false ∧ CanPlaceAligned4 ⟨4096, []⟩ (-1) = .ok false :=
  ⟨rfl, rfl, rfl, rfl, by decide, by decide, by decide, by decide, rfl, rfl⟩

/-! ## The bounds of the offset -/

/-- One returning call that does not ask to go back, made where `0 ≤ Offset() ≤ len(buf)`,
leaves `0 ≤ Offset() ≤ len(buf)`, `Remaining() ≥ 0` and `Offset() + Remaining() =
len(buf)`; so does `Reset`. -/
theorem Allocator_bounds_step (a b : Allocator) (c : AllocCall) (hlen : a.buf.len ≤ 2 ^ 62)
    (h0 : 0 ≤ a.off) (hle : a.off ≤ a.buf.len) (hc : c.Forward) (h : a.call c = .ok b) :
    (0 ≤ b.Offset ∧ b.Offset ≤ b.buf.len ∧ 0 ≤ b.Remaining ∧
      b.Offset + b.Remaining = b.buf.len ∧ b.buf = a.buf) ∧
    (0 ≤ a.Reset.Offset ∧ a.Reset.Offset ≤ a.Reset.buf.len ∧ 0 ≤ a.Reset.Remaining ∧
      a.Reset.Offset + a.Reset.Remaining = a.Reset.buf.len ∧ a.Reset.buf = a.buf) := by
  have hoff : IsI64 a.off := by unfold IsI64; omega
  obtain ⟨hb, hm, hl⟩ := Allocator_call_step a b c hlen hoff hle hc h
  have hl0 : 0 ≤ a.buf.len := by unfold ByteSlice.len; omega
  constructor
  · unfold Allocator.Remaining Allocator.Offset
    rw [hb]
    have e : subI64 a.buf.len b.off = a.buf.len - b.off := by unfold subI64; omega
    rw [e]
    refine ⟨by omega, hl, by omega, by omega, rfl⟩
  · unfold Allocator.Remaining Allocator.Offset Allocator.Reset
    dsimp only
    have e : subI64 a.buf.len 0 = a.buf.len := by unfold subI64; omega
    rw [e]
    refine ⟨le_refl _, hl0, hl0, by omega, rfl⟩

/-- C35. The bounds do not hold on the code: on a new allocator over 64 bytes, `Skip(1)`
and then `Skip(2^63 - 1)`, both with `n >= 0`, return normally; the sum `a.off + n` of the
second wraps, and the allocator is left with `Offset() = -2^63 < 0`, `Remaining() =
64 - 2^63 < 0` and `Offset() + Remaining()` different from `len(buf) = 64`. -/
theorem allocator_offset_negative_after_skip :
    Allocator.Skip (NewAllocator ⟨4096, List.replicate 64 0⟩) 1
      = .ok ⟨⟨4096, List.replicate 64 0⟩, 1⟩ ∧
    Allocator.Skip ⟨⟨4096, List.replicate 64 0⟩, 1⟩ (2 ^ 63 - 1)
      = .ok ⟨⟨4096, List.replicate 64 0⟩, -(2 ^ 63)⟩ ∧
    Allocator.Offset ⟨⟨4096, List.replicate 64 0⟩, -(2 ^ 63)⟩ = -(2 ^ 63) ∧
    Allocator.Remaining ⟨⟨4096, List.replicate 64 0⟩, -(2 ^ 63)⟩ = 64 - 2 ^ 63 ∧
    ¬ (0 ≤ Allocator.Offset ⟨⟨4096, List.replicate 64 0⟩, -(2 ^ 63)⟩) ∧
    ¬ (0 ≤ Allocator.Remaining ⟨⟨4096, List.replicate 64 0⟩, -(2 ^ 63)⟩) ∧
    ¬ (Allocator.Offset ⟨⟨4096, List.replicate 64 0⟩, -(2 ^ 63)⟩
        + Allocator.Remaining ⟨⟨4096, List.replicate 64 0⟩, -(2 ^ 63)⟩
        = (ByteSlice.mk 4096 (List.replicate 64 0)).len) :=
  ⟨rfl, rfl, rfl, by decide, by decide, by decide, by decide⟩

/-! ## The bytes handed out by two allocations in a row -/

/-- A returning allocate method whose body is `n, ptr := place(a.buf, a.off); a.off += n;
return ptr`, for a placement that computes `placeAlignedSpec k`: the reference is at or
after the address of the offset, the `k` bytes of the value end at the address of the new
offset, and the new offset is inside the buffer. -/
theorem alloc_ok_of_spec (alloc : Allocator → Except String (Nat × Allocator))
    (place : ByteSlice → Int → Except String (Int × Nat)) (k : Int) (hk0 : 0 < k)
    (hk : k ≤ 64) (a : Allocator) (hlen : a.buf.len ≤ 2 ^ 62)
    (halloc : alloc a = match place a.buf a.off with
      | .error e => .error e
      | .ok (n, ptr) => .ok (ptr, { a with off := addI64 a.off n }))
    (hspec : (place a.buf a.off).toOption = placeAlignedSpec k a.buf a.off)
    (ptr : Nat) (b : Allocator) (h : alloc a = .ok (ptr, b)) :
    b.buf = a.buf ∧ (a.buf.base : Int) + a.off ≤ ptr ∧
      (ptr : Int) + k = (a.buf.base : Int) + b.off ∧ b.off ≤ a.buf.len ∧
      a.buf.base ≤ ptr := by
  rw [halloc] at h
  cases hp : place a.buf a.off with
  | error e =>
    rw [hp] at h
    exact absurd h (by simp)
  | ok r =>
    obtain ⟨n, q⟩ := r
    obtain ⟨hn, he, hle, -⟩ := place_ok_spec k hk0 hk a.buf a.off hlen _ hspec n q hp
    rw [hp] at h hspec
    simp only [Except.ok.injEq, Prod.mk.injEq] at h
    obtain ⟨hq, hb⟩ := h
    subst hq
    subst hb
    have hp0 : 0 ≤ (k - ((a.buf.base : Int) + a.off) % k) % k :=
      Int.emod_nonneg _ (by omega)
    unfold placeAlignedSpec at hspec
    simp only [] at hspec
    generalize (k - ((a.buf.base : Int) + a.off) % k) % k = pad at hspec hn hp0
    split at hspec
    · rename_i hc
      simp only [Except.toOption, Option.some.injEq, Prod.mk.injEq] at hspec
      obtain ⟨-, hq⟩ := hspec
      simp only [he]
      refine ⟨trivial, ?_, ?_, hle, ?_⟩ <;> omega
    · exact absurd hspec (by simp [Except.toOption])

/-- Every typed or cache-aligned allocate method hands out bytes that begin at or after
the address of the offset and end at the address of the new offset, inside the buffer. -/
theorem typedAllocations_spec (m : (Allocator → Except String (Nat × Allocator)) × Nat)
    (hm : m ∈ typedAllocations) (a : Allocator) (hlen : a.buf.len ≤ 2 ^ 62)
    (hoff : IsI64 a.off) (ptr : Nat) (b : Allocator) (h : m.1 a = .ok (ptr, b)) :
    b.buf = a.buf ∧ (a.buf.base : Int) + a.off ≤ ptr ∧
      (ptr : Int) + (m.2 : Int) = (a.buf.base : Int) + b.off ∧ b.off ≤ a.buf.len ∧
      a.buf.base ≤ ptr := by
  have hfit : a.buf.Fits := by unfold ByteSlice.Fits; omega
  simp only [typedAllocations, List.mem_cons, List.mem_singleton, List.not_mem_nil,
    or_false] at hm
  rcases hm with rfl | rfl | rfl | rfl | rfl | rfl | rfl | rfl | rfl | rfl | rfl | rfl |
    rfl | rfl | rfl | rfl
  · exact alloc_ok_of_spec _ _ 4 (by decide) (by decide) a hlen rfl
      (PlaceAlignedInt32_toOption a.buf a.off hfit hoff) ptr b h
  · exact alloc_ok_of_spec _ _ 4 (by decide) (by decide) a hlen rfl
      (PlaceAlignedUint32_toOption a.buf a.off hfit hoff) ptr b h
  · exact alloc_ok_of_spec _ _ 4 (by decide) (by decide) a hlen rfl
      (PlaceAlignedBool_toOption a.buf a.off hfit hoff) ptr b h
  · exact alloc_ok_of_spec _ _ 8 (by decide) (by decide) a hlen rfl
      (PlaceAlignedInt64_toOption a.buf a.off hfit hoff) ptr b h
  · exact alloc_ok_of_spec _ _ 8 (by decide) (by decide) a hlen rfl
      (PlaceAlignedUint64_toOption a.buf a.off hfit hoff) ptr b h
  · exact alloc_ok_of_spec _ _ 8 (by decide) (by decide) a hlen rfl
      (PlaceAlignedUintptr_toOption a.buf a.off hfit hoff) ptr b h
  · exact alloc_ok_of_spec _ _ 16 (by decide) (by decide) a hlen rfl
      (PlaceAlignedInt128_toOption a.buf a.off hfit hoff) ptr b h
  · exact alloc_ok_of_spec _ _ 16 (by decide) (by decide) a hlen rfl
      (PlaceAlignedUint128_toOption a.buf a.off hfit hoff) ptr b h
  · exact alloc_ok_of_spec _ _ 64 (by decide) (by decide) a hlen rfl
      (PlaceCacheAlignedInt32_toOption a.buf a.off hlen hoff) ptr b h
  · exact alloc_ok_of_spec _ _ 64 (by decide) (by decide) a hlen rfl
      (PlaceCacheAlignedUint32_toOption a.buf a.off hlen hoff) ptr b h
  · exact alloc_ok_of_spec _ _ 64 (by decide) (by decide) a hlen rfl
      (PlaceCacheAlignedInt64_toOption a.buf a.off hlen hoff) ptr b h
  · exact alloc_ok_of_spec _ _ 64 (by decide) (by decide) a hlen rfl
      (PlaceCacheAlignedUint64_toOption a.buf a.off hlen hoff) ptr b h
  · exact alloc_ok_of_spec _ _ 64 (by decide) (by decide) a hlen rfl
      (PlaceCacheAlignedUintptr_toOption a.buf a.off hlen hoff) ptr b h
  · exact alloc_ok_of_spec _ _ 64 (by decide) (by decide) a hlen rfl
      (PlaceCacheAlignedBool_toOption a.buf a.off hlen hoff) ptr b h
  · exact alloc_ok_of_spec _ _ 64 (by decide) (by decide) a hlen rfl
      (PlaceCacheAlignedInt128_toOption a.buf a.off hlen hoff) ptr b h
  · exact alloc_ok_of_spec _ _ 64 (by decide) (by decide) a hlen rfl
      (PlaceCacheAlignedUint128_toOption a.buf a.off hlen hoff) ptr b h

/-- C36. Take two typed or cache-aligned allocations made one after the other on one
allocator (over a buffer of at most `2^62` bytes, the offset an `int`), both returning.
The bytes of the first value begin inside the buffer, the second value begins at or after
the first byte past the end of the first, and the bytes of the second end inside the
buffer: the two ranges are disjoint and lie in the buffer. -/
theorem allocations_disjoint (m1 m2 : (Allocator → Except String (Nat × Allocator)) × Nat)
    (hm1 : m1 ∈ typedAllocations) (hm2 : m2 ∈ typedAllocations) (a b c : Allocator)
    (hlen : a.buf.len ≤ 2 ^ 62) (hoff : IsI64 a.off) (p1 p2 : Nat)
    (h1 : m1.1 a = .ok (p1, b)) (h2 : m2.1 b = .ok (p2, c)) :
    a.buf.base ≤ p1 ∧ p1 + m1.2 ≤ p2 ∧
      (p2 : Int) + (m2.2 : Int) ≤ (a.buf.base : Int) + a.buf.len ∧
      c.buf = a.buf ∧ 0 < m1.2 ∧ 0 < m2.2 := by
  obtain ⟨hb, hlo1, hhi1, hle1, hbase1⟩ := typedAllocations_spec m1 hm1 a hlen hoff p1 b h1
  have hoffb : IsI64 b.off := by
    unfold IsI64 at hoff ⊢
    omega
  obtain ⟨hc, hlo2, hhi2, hle2, -⟩ :=
    typedAllocations_spec m2 hm2 b (by rw [hb]; exact hlen) hoffb p2 c h2
  rw [hb] at hlo2 hhi2 hle2 hc
  have hpos : ∀ m ∈ typedAllocations, 0 < m.2 := by
    intro m hm
    simp only [typedAllocations, List.mem_cons, List.mem_singleton, List.not_mem_nil,
      or_false] at hm
    rcases hm with rfl | rfl | rfl | rfl | rfl | rfl | rfl | rfl | rfl | rfl | rfl | rfl |
      rfl | rfl | rfl | rfl <;> decide
  refine ⟨hbase1, ?_, ?_, hc, hpos m1 hm1, hpos m2 hm2⟩ <;> omega

/-- C36, at a concrete allocator: on a new allocator over 256 bytes at address 4104,
`Int32()` hands out the 4 bytes at 4104 and `CacheAlignedUint64()` after it the 64 bytes
at 4160. -/
theorem allocations_disjoint_witness :
    Allocator.Int32 (NewAllocator ⟨4104, List.replicate 256 0⟩)
      = .ok (4104, ⟨⟨4104, List.replicate 256 0⟩, 4⟩) ∧
    Allocator.CacheAlignedUint64 ⟨⟨4104, List.replicate 256 0⟩, 4⟩
      = .ok (4160, ⟨⟨4104, List.replicate 256 0⟩, 120⟩) ∧
    (4104 : Nat) ≤ 4104 ∧ 4104 + 4 ≤ 4160 ∧
      ((4160 : Nat) : Int) + ((CacheLineSize : Nat) : Int)
        ≤ ((4104 : Nat) : Int) + (ByteSlice.mk 4104 (List.replicate 256 0)).len :=
  have h := allocations_disjoint (Allocator.Int32, 4)
    (Allocator.CacheAlignedUint64, CacheLineSize)
    (by simp [typedAllocations]) (by simp [typedAllocations])
    (NewAllocator ⟨4104, List.replicate 256 0⟩) ⟨⟨4104, List.replicate 256 0⟩, 4⟩
    ⟨⟨4104, List.replicate 256 0⟩, 120⟩ (by decide) (by decide) 4104 4160 rfl rfl
  ⟨rfl, rfl, h.1, h.2.1, h.2.2.1⟩

/-! ## The word of a `Bool` -/

theorem b2u_cases (b : Bool) : b2u b = 0 ∨ b2u b = 1 := by
  cases b
  · exact Or.inl rfl
  · exact Or.inr rfl

theorem MemoryOrder_StoreBool_eq (o : MemoryOrder) (w : Nat) (val : Bool) :
    o.StoreBool w val = b2u val := by
  unfold MemoryOrder.StoreBool arch.StoreUint32Relaxed arch.StoreUint32Release
    atomic.StoreUint32 b2u
  simp only [ite_self]

theorem MemoryOrder_SwapBool_eq (o : MemoryOrder) (w : Nat) (new : Bool) :
    o.SwapBool w new = (decide (w ≠ 0), b2u new) := by
  unfold MemoryOrder.SwapBool arch.SwapUint32Relaxed arch.SwapUint32Acquire
    arch.SwapUint32Release arch.SwapUint32AcqRel atomic.SwapUint32 b2u
  simp only [ite_self]

/-- One call leaves the word 0 or 1 when it was. -/
theorem AtomixBool_call_word (a : AtomixBool) (c : BoolCall) (h : a.v = 0 ∨ a.v = 1) :
    (a.call c).v = 0 ∨ (a.call c).v = 1 := by
  have hcas : ∀ old new : Bool,
      (atomic.CompareAndSwapUint32 a.v (b2u old) (b2u new)).2 = 0 ∨
      (atomic.CompareAndSwapUint32 a.v (b2u old) (b2u new)).2 = 1 := by
    intro old new
    unfold atomic.CompareAndSwapUint32
    split
    · exact b2u_cases new
    · exact h
  cases c with
  | Store val => exact b2u_cases val
  | StoreRelaxed val => exact b2u_cases val
  | StoreRelease val => exact b2u_cases val
  | Swap new => exact b2u_cases new
  | SwapRelaxed new => exact b2u_cases new
  | SwapAcquire new => exact b2u_cases new
  | SwapRelease new => exact b2u_cases new
  | SwapAcqRel new => exact b2u_cases new
  | CompareAndSwap old new => exact hcas old new
  | CompareAndSwapRelaxed old new => exact hcas old new
  | CompareAndSwapAcquire old new => exact hcas old new
  | CompareAndSwapRelease old new => exact hcas old new
  | CompareAndSwapAcqRel old new => exact hcas old new
  | OrderStore o val =>
    show o.StoreBool a.v val = 0 ∨ o.StoreBool a.v val = 1
    rw [MemoryOrder_StoreBool_eq]
    exact b2u_cases val
  | OrderSwap o new =>
    show (o.SwapBool a.v new).2 = 0 ∨ (o.SwapBool a.v new).2 = 1
    rw [MemoryOrder_SwapBool_eq]
    exact b2u_cases new
  | OrderCompareAndSwap o old new =>
    show (o.CompareAndSwapBool a.v old new).2 = 0 ∨ (o.CompareAndSwapBool a.v old new).2 = 1
    rw [MemoryOrder_CompareAndSwapBool_eq]
    rcases h with h | h <;> cases old <;> cases new <;> simp [h]

/-- A sequence of calls leaves the word 0 or 1 when it was. -/
theorem AtomixBool_run_word (cs : List BoolCall) :
    ∀ a : AtomixBool, (a.v = 0 ∨ a.v = 1) → ((a.run cs).v = 0 ∨ (a.run cs).v = 1) := by
  induction cs with
  | nil => intro a h; exact h
  | cons c cs ih =>
    intro a h
    exact ih (a.call c) (AtomixBool_call_word a c h)

/-- On a word that is 0 or 1, `CompareAndSwap` succeeds exactly when the boolean the word
stands for is `old`. -/
theorem cas_bool_word (w : Nat) (old new : Bool) (h : w = 0 ∨ w = 1) :
    ((atomic.CompareAndSwapUint32 w (b2u old) (b2u new)).1 = true ↔ decide (w ≠ 0) = old) ∧
    (atomic.CompareAndSwapUint32 w (b2u old) (b2u new)).2
      = (if decide (w ≠ 0) = old then b2u new else w) := by
  unfold atomic.CompareAndSwapUint32 b2u
  rcases h with rfl | rfl <;> cases old <;> simp

/-- C37. Take the `Bool` left by any sequence of `Store`, `Swap` and `CompareAndSwap`
calls, in any ordering variant of the methods or through any `MemoryOrder`, made on the
zero value.  Its word is 0 or 1; `Load`, `LoadRelaxed` and `LoadAcquire` return true
exactly when the word is 1; and `CompareAndSwap(old, new)`, in each ordering variant,
returns true exactly when `Load()` equals `old`, leaving the word of `new` then and the
word as it was otherwise. -/
theorem bool_word_is_zero_or_one (cs : List BoolCall) (old new : Bool) :
    ((AtomixBool.zero.run cs).v = 0 ∨ (AtomixBool.zero.run cs).v = 1) ∧
    ((AtomixBool.zero.run cs).Load = true ↔ (AtomixBool.zero.run cs).v = 1) ∧
    ((AtomixBool.zero.run cs).LoadRelaxed = true ↔ (AtomixBool.zero.run cs).v = 1) ∧
    ((AtomixBool.zero.run cs).LoadAcquire = true ↔ (AtomixBool.zero.run cs).v = 1) ∧
    (((AtomixBool.zero.run cs).CompareAndSwap old new).1 = true
      ↔ (AtomixBool.zero.run cs).Load = old) ∧
    (((AtomixBool.zero.run cs).CompareAndSwapRelaxed old new).1 = true
      ↔ (AtomixBool.zero.run cs).Load = old) ∧
    (((AtomixBool.zero.run cs).CompareAndSwapAcquire old new).1 = true
      ↔ (AtomixBool.zero.run cs).Load = old) ∧
    (((AtomixBool.zero.run cs).CompareAndSwapRelease old new).1 = true
      ↔ (AtomixBool.zero.run cs).Load = old) ∧
    (((AtomixBool.zero.run cs).CompareAndSwapAcqRel old new).1 = true
      ↔ (AtomixBool.zero.run cs).Load = old) ∧
    ((AtomixBool.zero.run cs).CompareAndSwap old new).2.v
      = (if (AtomixBool.zero.run cs).Load = old then b2u new
         else (AtomixBool.zero.run cs).v) := by
  have hw := AtomixBool_run_word cs AtomixBool.zero (Or.inl rfl)
  generalize AtomixBool.zero.run cs = a at hw
  obtain ⟨hc1, hc2⟩ := cas_bool_word a.v old new hw
  have hl : decide (a.v ≠ 0) = true ↔ a.v = 1 := by
    rcases hw with h | h <;> simp [h]
  exact ⟨hw, hl, hl, hl, hc1, hc1, hc1, hc1, hc1, hc2⟩

/-! ## The allocator after a call that aborts -/

/-- A typed allocation with the body `n, ptr := place(a.buf, a.off); a.off += n; return
ptr`: when it aborts the allocator is as before, and its outcome is that of the
definition that gives the allocator only when the call returns. -/
theorem alloc_exec_spec (a : Allocator) (r : Except String (Int × Nat)) :
    let e : Except String Nat × Allocator :=
      match r with
      | .error e => (.error e, a)
      | .ok (n, ptr) => (.ok ptr, { a with off := addI64 a.off n })
    let c : Except String (Nat × Allocator) :=
      match r with
      | .error e => .error e
      | .ok (n, ptr) => .ok (ptr, { a with off := addI64 a.off n })
    (Aborts (e.1.map (fun _ => ())) → e.2 = a) ∧
    (Aborts (e.1.map (fun _ => ())) ↔ Aborts (c.map Prod.snd)) ∧
    (∀ b, c.map Prod.snd = .ok b → (e.1.map (fun _ => ()), e.2) = (.ok (), b)) := by
  cases r with
  | error e => simp [Aborts, Except.isOk, Except.toBool, Except.map]
  | ok x =>
    obtain ⟨n, ptr⟩ := x
    simp [Aborts, Except.isOk, Except.toBool, Except.map]

/-- For every call: when it aborts the allocator is as before the call; it aborts exactly
when `Allocator.call` says so, and when it returns it leaves the allocator that
`Allocator.call` gives. -/
theorem Allocator_exec_spec (a : Allocator) (c : AllocCall) :
    (Aborts (a.exec c).1 → (a.exec c).2 = a) ∧
    (Aborts (a.exec c).1 ↔ Aborts (a.call c)) ∧
    (∀ b, a.call c = .ok b → a.exec c = (.ok (), b)) := by
  cases c with
  | Skip n =>
    show (Aborts (Allocator.Skip.exec a n).1 → (Allocator.Skip.exec a n).2 = a) ∧
      (Aborts (Allocator.Skip.exec a n).1 ↔ Aborts (a.Skip n)) ∧
      (∀ b, a.Skip n = .ok b → Allocator.Skip.exec a n = (.ok (), b))
    unfold Allocator.Skip.exec Allocator.Skip
    split <;> simp [Aborts, Except.isOk, Except.toBool]
  | Align k =>
    show (Aborts (Allocator.Align.exec a k).1 → (Allocator.Align.exec a k).2 = a) ∧
      (Aborts (Allocator.Align.exec a k).1 ↔ Aborts (a.Align k)) ∧
      (∀ b, a.Align k = .ok b → Allocator.Align.exec a k = (.ok (), b))
    unfold Allocator.Align.exec Allocator.Align
    split
    · simp [Aborts, Except.isOk, Except.toBool]
    · cases a.buf.addrOf 0 with
      | error e => simp [Aborts, Except.isOk, Except.toBool]
      | ok p0 =>
        dsimp only
        split <;> simp [Aborts, Except.isOk, Except.toBool]
  | Int32 => exact alloc_exec_spec a (PlaceAlignedInt32 a.buf a.off)
  | Uint32 => exact alloc_exec_spec a (PlaceAlignedUint32 a.buf a.off)
  | Bool => exact alloc_exec_spec a (PlaceAlignedBool a.buf a.off)
  | Int64 => exact alloc_exec_spec a (PlaceAlignedInt64 a.buf a.off)
  | Uint64 => exact alloc_exec_spec a (PlaceAlignedUint64 a.buf a.off)
  | Uintptr => exact alloc_exec_spec a (PlaceAlignedUintptr a.buf a.off)
  | Int128 => exact alloc_exec_spec a (PlaceAlignedInt128 a.buf a.off)
  | Uint128 => exact alloc_exec_spec a (PlaceAlignedUint128 a.buf a.off)
  | CacheAlignedInt32 => exact alloc_exec_spec a (PlaceCacheAlignedInt32 a.buf a.off)
  | CacheAlignedUint32 => exact alloc_exec_spec a (PlaceCacheAlignedUint32 a.buf a.off)
  | CacheAlignedInt64 => exact alloc_exec_spec a (PlaceCacheAlignedInt64 a.buf a.off)
  | CacheAlignedUint64 => exact alloc_exec_spec a (PlaceCacheAlignedUint64 a.buf a.off)
  | CacheAlignedUintptr => exact alloc_exec_spec a (PlaceCacheAlignedUintptr a.buf a.off)
  | CacheAlignedBool => exact alloc_exec_spec a (PlaceCacheAlignedBool a.buf a.off)
  | CacheAlignedInt128 => exact alloc_exec_spec a (PlaceCacheAlignedInt128 a.buf a.off)
  | CacheAlignedUint128 => exact alloc_exec_spec a (PlaceCacheAlignedUint128 a.buf a.off)

/-- C38. Whenever `Skip`, `Align` or a typed or cache-aligned allocate method aborts, the
allocator at the end of the call, its offset included, is the allocator before the call;
the call aborts in the embedding that tracks the allocator through a panic exactly when
it does in the one that gives the allocator of a returning call. -/
theorem allocator_abort_keeps_offset (a : Allocator) (c : AllocCall)
    (h : Aborts (a.exec c).1) :
    (a.exec c).2 = a ∧ (a.exec c).2.Offset = a.Offset ∧ Aborts (a.call c) := by
  obtain ⟨h1, h2, -⟩ := Allocator_exec_spec a c
  have e := h1 h
  exact ⟨e, by rw [e], h2.mp h⟩

/-- C38, at concrete calls on an allocator at offset 5 of a buffer of 16 bytes: `Skip(12)`,
`Align(3)`, `Align(64)`, `Uint128()` and `CacheAlignedInt32()` all abort and leave the
offset 5. -/
theorem allocator_abort_keeps_offset_witness :
    (Allocator.exec ⟨⟨4096, List.replicate 16 0⟩, 5⟩ (.Skip 12)).2.Offset = 5 ∧
    (Allocator.exec ⟨⟨4096, List.replicate 16 0⟩, 5⟩ (.Align 3)).2.Offset = 5 ∧
    (Allocator.exec ⟨⟨4096, List.replicate 16 0⟩, 5⟩ (.Align 64)).2.Offset = 5 ∧
    (Allocator.exec ⟨⟨4096, List.replicate 16 0⟩, 5⟩ .Uint128).2.Offset = 5 ∧
    (Allocator.exec ⟨⟨4096, List.replicate 16 0⟩, 5⟩ .CacheAlignedInt32).2.Offset = 5 :=
  ⟨(allocator_abort_keeps_offset ⟨⟨4096, List.replicate 16 0⟩, 5⟩ (.Skip 12) (by decide)).2.1,
    (allocator_abort_keeps_offset ⟨⟨4096, List.replicate 16 0⟩, 5⟩ (.Align 3) (by decide)).2.1,
    (allocator_abort_keeps_offset ⟨⟨4096, List.replicate 16 0⟩, 5⟩ (.Align 64)
      (by decide)).2.1,
    (allocator_abort_keeps_offset ⟨⟨4096, List.replicate 16 0⟩, 5⟩ .Uint128 (by decide)).2.1,
    (allocator_abort_keeps_offset ⟨⟨4096, List.replicate 16 0⟩, 5⟩ .CacheAlignedInt32
      (by decide)).2.1⟩

/-! ## `Max` and `Min` of `Int32` applied twice -/

/-- C39. On an `Int32` holding `cur` (no other writer), `Max(a)` then `Max(b)` and `Max(b)`
then `Max(a)` both return at the first iteration of each loop and leave the same cell,
holding the maximum of `cur`, `a` and `b`; `Max(a)` applied twice leaves the cell that one
`Max(a)` leaves, the second call returning the maximum of `cur` and `a`.  The same holds
for `Min` with the minimum. -/
theorem int32_max_min_commute_idempotent (c : Int32) (a b : Int) (fuel : Nat) :
    (∃ r1 r2 s1 s2, c.Max a (fuel + 1) = some r1 ∧ r1.2.Max b (fuel + 1) = some r2 ∧
      c.Max b (fuel + 1) = some s1 ∧ s1.2.Max a (fuel + 1) = some s2 ∧
      r2.2 = s2.2 ∧ r2.2.Load = max c.Load (max a b)) ∧
    (∃ r1 r2, c.Max a (fuel + 1) = some r1 ∧ r1.2.Max a (fuel + 1) = some r2 ∧
      r2.2 = r1.2 ∧ r2.1 = max c.Load a ∧ r1.1 = c.Load) ∧
    (∃ r1 r2 s1 s2, c.Min a (fuel + 1) = some r1 ∧ r1.2.Min b (fuel + 1) = some r2 ∧
      c.Min b (fuel + 1) = some s1 ∧ s1.2.Min a (fuel + 1) = some s2 ∧
      r2.2 = s2.2 ∧ r2.2.Load = min c.Load (min a b)) ∧
    (∃ r1 r2, c.Min a (fuel + 1) = some r1 ∧ r1.2.Min a (fuel + 1) = some r2 ∧
      r2.2 = r1.2 ∧ r2.1 = min c.Load a ∧ r1.1 = c.Load) := by
  obtain ⟨v⟩ := c
  have hmax : ∀ (x y : Int), (if x ≥ y then (⟨x⟩ : Int32) else ⟨y⟩) = ⟨max x y⟩ := by
    intro x y
    by_cases h : x ≥ y
    · rw [if_pos h, max_eq_left h]
    · rw [if_neg h, max_eq_right (by omega)]
  have hmin : ∀ (x y : Int), (if x ≤ y then (⟨x⟩ : Int32) else ⟨y⟩) = ⟨min x y⟩ := by
    intro x y
    by_cases h : x ≤ y
    · rw [if_pos h, min_eq_left h]
    · rw [if_neg h, min_eq_right (by omega)]
  have hM : ∀ (x y : Int), Int32.Max ⟨x⟩ y (fuel + 1) = some (x, ⟨max x y⟩) := by
    intro x y
    rw [Int32_Max_step, hmax]
  have hm : ∀ (x y : Int), Int32.Min ⟨x⟩ y (fuel + 1) = some (x, ⟨min x y⟩) := by
    intro x y
    rw [Int32_Min_step, hmin]
  refine ⟨⟨_, _, _, _, hM v a, hM (max v a) b, hM v b, hM (max v b) a, ?_, ?_⟩,
    ⟨_, _, hM v a, hM (max v a) a, ?_, rfl, rfl⟩,
    ⟨_, _, _, _, hm v a, hm (min v a) b, hm v b, hm (min v b) a, ?_, ?_⟩,
    ⟨_, _, hm v a, hm (min v a) a, ?_, rfl, rfl⟩⟩
  · show (⟨max (max v a) b⟩ : Int32) = ⟨max (max v b) a⟩
    rw [max_assoc, max_assoc, max_comm a b]
  · show max (max v a) b = max v (max a b)
    rw [max_assoc]
  · show (⟨max (max v a) a⟩ : Int32) = ⟨max v a⟩
    rw [max_assoc, max_self]
  · show (⟨min (min v a) b⟩ : Int32) = ⟨min (min v b) a⟩
    rw [min_assoc, min_assoc, min_comm a b]
  · show min (min v a) b = min v (min a b)
    rw [min_assoc]
  · show (⟨min (min v a) a⟩ : Int32) = ⟨min v a⟩
    rw [min_assoc, min_self]

/-! ## The calls of the typed wrappers

The second embedding of a method returns the result of the first one and the calls to
`internal/arch` made on the way. -/

/-! ### `Max` and `Min`: one iteration -/

theorem Int32_Max_traced_step (a : Int32) (val : Int) (fuel : Nat) :
    Int32.Max.traced a val (fuel + 1) =
      (some (a.v, if a.v ≥ val then a else ⟨val⟩),
        ⟨⟨.Load, .Int32, .Relaxed⟩, []⟩ ::
          (if a.v ≥ val then [] else [⟨⟨.Cas, .Int32, .AcqRel⟩, [a.v, val]⟩])) := by
  by_cases h : a.v ≥ val <;>
    simp [Int32.Max.traced, arch.LoadInt32Relaxed.traced, arch.CasInt32AcqRel.traced,
      arch.LoadInt32Relaxed, arch.CasInt32AcqRel, atomic.LoadInt32, atomic.CompareAndSwapInt32, h]

theorem Int32_Max_traced_fst (a : Int32) (val : Int) (fuel : Nat) :
    (Int32.Max.traced a val fuel).1 = Int32.Max a val fuel := by
  cases fuel with
  | zero => rfl
  | succ n => rw [Int32_Max_traced_step, Int32_Max_step]

theorem Int32_Min_traced_step (a : Int32) (val : Int) (fuel : Nat) :
    Int32.Min.traced a val (fuel + 1) =
      (some (a.v, if a.v ≤ val then a else ⟨val⟩),
        ⟨⟨.Load, .Int32, .Relaxed⟩, []⟩ ::
          (if a.v ≤ val then [] else [⟨⟨.Cas, .Int32, .AcqRel⟩, [a.v, val]⟩])) := by
  by_cases h : a.v ≤ val <;>
    simp [Int32.Min.traced, arch.LoadInt32Relaxed.traced, arch.CasInt32AcqRel.traced,
      arch.LoadInt32Relaxed, arch.CasInt32AcqRel, atomic.LoadInt32, atomic.CompareAndSwapInt32, h]

theorem Int32_Min_traced_fst (a : Int32) (val : Int) (fuel : Nat) :
    (Int32.Min.traced a val fuel).1 = Int32.Min a val fuel := by
  cases fuel with
  | zero => rfl
  | succ n => rw [Int32_Min_traced_step, Int32_Min_step]

theorem Uint32_Max_traced_step (a : Uint32) (val : Nat) (fuel : Nat) :
    Uint32.Max.traced a val (fuel + 1) =
      (some (a.v, if a.v ≥ val then a else ⟨val⟩),
        ⟨⟨.Load, .Uint32, .Relaxed⟩, []⟩ ::
          (if a.v ≥ val then [] else [⟨⟨.Cas, .Uint32, .AcqRel⟩, [(a.v : Int), (val : Int)]⟩])) := by
  by_cases h : a.v ≥ val <;>
    simp [Uint32.Max.traced, arch.LoadUint32Relaxed.traced, arch.CasUint32AcqRel.traced,
      arch.LoadUint32Relaxed, arch.CasUint32AcqRel, atomic.LoadUint32, atomic.CompareAndSwapUint32, h]

theorem Uint32_Max_traced_fst (a : Uint32) (val : Nat) (fuel : Nat) :
    (Uint32.Max.traced a val fuel).1 = Uint32.Max a val fuel := by
  cases fuel with
  | zero => rfl
  | succ n => rw [Uint32_Max_traced_step, Uint32_Max_step]

theorem Uint32_Min_traced_step (a : Uint32) (val : Nat) (fuel : Nat) :
    Uint32.Min.traced a val (fuel + 1) =
      (some (a.v, if a.v ≤ val then a else ⟨val⟩),
        ⟨⟨.Load, .Uint32, .Relaxed⟩, []⟩ ::
          (if a.v ≤ val then [] else [⟨⟨.Cas, .Uint32, .AcqRel⟩, [(a.v : Int), (val : Int)]⟩])) := by
  by_cases h : a.v ≤ val <;>
    simp [Uint32.Min.traced, arch.LoadUint32Relaxed.traced, arch.CasUint32AcqRel.traced,
      arch.LoadUint32Relaxed, arch.CasUint32AcqRel, atomic.LoadUint32, atomic.CompareAndSwapUint32, h]

theorem Uint32_Min_traced_fst (a : Uint32) (val : Nat) (fuel : Nat) :
    (Uint32.Min.traced a val fuel).1 = Uint32.Min a val fuel := by
  cases fuel with
  | zero => rfl
  | succ n => rw [Uint32_Min_traced_step, Uint32_Min_step]

theorem Int64_Max_traced_step (a : Int64) (val : Int) (fuel : Nat) :
    Int64.Max.traced a val (fuel + 1) =
      (some (a.v, if a.v ≥ val then a else ⟨val⟩),
        ⟨⟨.Load, .Int64, .Relaxed⟩, []⟩ ::
          (if a.v ≥ val then [] else [⟨⟨.Cas, .Int64, .AcqRel⟩, [a.v, val]⟩])) := by
  by_cases h : a.v ≥ val <;>
    simp [Int64.Max.traced, arch.LoadInt64Relaxed.traced, arch.CasInt64AcqRel.traced,
      arch.LoadInt64Relaxed, arch.CasInt64AcqRel, atomic.LoadInt64, atomic.CompareAndSwapInt64, h]

theorem Int64_Max_traced_fst (a : Int64) (val : Int) (fuel : Nat) :
    (Int64.Max.traced a val fuel).1 = Int64.Max a val fuel := by
  cases fuel with
  | zero => rfl
  | succ n => rw [Int64_Max_traced_step, Int64_Max_step]

theorem Int64_Min_traced_step (a : Int64) (val : Int) (fuel : Nat) :
    Int64.Min.traced a val (fuel + 1) =
      (some (a.v, if a.v ≤ val then a else ⟨val⟩),
        ⟨⟨.Load, .Int64, .Relaxed⟩, []⟩ ::
          (if a.v ≤ val then [] else [⟨⟨.Cas, .Int64, .AcqRel⟩, [a.v, val]⟩])) := by
  by_cases h : a.v ≤ val <;>
    simp [Int64.Min.traced, arch.LoadInt64Relaxed.traced, arch.CasInt64AcqRel.traced,
      arch.LoadInt64Relaxed, arch.CasInt64AcqRel, atomic.LoadInt64, atomic.CompareAndSwapInt64, h]

theorem Int64_Min_traced_fst (a : Int64) (val : Int) (fuel : Nat) :
    (Int64.Min.traced a val fuel).1 = Int64.Min a val fuel := by
  cases fuel with
  | zero => rfl
  | succ n => rw [Int64_Min_traced_step, Int64_Min_step]

theorem Uint64_Max_traced_step (a : Uint64) (val : Nat) (fuel : Nat) :
    Uint64.Max.traced a val (fuel + 1) =
      (some (a.v, if a.v ≥ val then a else ⟨val⟩),
        ⟨⟨.Load, .Uint64, .Relaxed⟩, []⟩ ::
          (if a.v ≥ val then [] else [⟨⟨.Cas, .Uint64, .AcqRel⟩, [(a.v : Int), (val : Int)]⟩])) := by
  by_cases h : a.v ≥ val <;>
    simp [Uint64.Max.traced, arch.LoadUint64Relaxed.traced, arch.CasUint64AcqRel.traced,
      arch.LoadUint64Relaxed, arch.CasUint64AcqRel, atomic.LoadUint64, atomic.CompareAndSwapUint64, h]

theorem Uint64_Max_traced_fst (a : Uint64) (val : Nat) (fuel : Nat) :
    (Uint64.Max.traced a val fuel).1 = Uint64.Max a val fuel := by
  cases fuel with
  | zero => rfl
  | succ n => rw [Uint64_Max_traced_step, Uint64_Max_step]

theorem Uint64_Min_traced_step (a : Uint64) (val : Nat) (fuel : Nat) :
    Uint64.Min.traced a val (fuel + 1) =
      (some (a.v, if a.v ≤ val then a else ⟨val⟩),
        ⟨⟨.Load, .Uint64, .Relaxed⟩, []⟩ ::
          (if a.v ≤ val then [] else [⟨⟨.Cas, .Uint64, .AcqRel⟩, [(a.v : Int), (val : Int)]⟩])) := by
  by_cases h : a.v ≤ val <;>
    simp [Uint64.Min.traced, arch.LoadUint64Relaxed.traced, arch.CasUint64AcqRel.traced,
      arch.LoadUint64Relaxed, arch.CasUint64AcqRel, atomic.LoadUint64, atomic.CompareAndSwapUint64, h]

theorem Uint64_Min_traced_fst (a : Uint64) (val : Nat) (fuel : Nat) :
    (Uint64.Min.traced a val fuel).1 = Uint64.Min a val fuel := by
  cases fuel with
  | zero => rfl
  | succ n => rw [Uint64_Min_traced_step, Uint64_Min_step]

theorem Uintptr_Max_traced_step (a : Uintptr) (val : Nat) (fuel : Nat) :
    Uintptr.Max.traced a val (fuel + 1) =
      (some (a.v, if a.v ≥ val then a else ⟨val⟩),
        ⟨⟨.Load, .Uintptr, .Relaxed⟩, []⟩ ::
          (if a.v ≥ val then [] else [⟨⟨.Cas, .Uintptr, .AcqRel⟩, [(a.v : Int), (val : Int)]⟩])) := by
  by_cases h : a.v ≥ val <;>
    simp [Uintptr.Max.traced, arch.LoadUintptrRelaxed.traced, arch.CasUintptrAcqRel.traced,
      arch.LoadUintptrRelaxed, arch.CasUintptrAcqRel, atomic.LoadUintptr, atomic.CompareAndSwapUintptr, h]

theorem Uintptr_Max_traced_fst (a : Uintptr) (val : Nat) (fuel : Nat) :
    (Uintptr.Max.traced a val fuel).1 = Uintptr.Max a val fuel := by
  cases fuel with
  | zero => rfl
  | succ n => rw [Uintptr_Max_traced_step, Uintptr_Max_step]

theorem Uintptr_Min_traced_step (a : Uintptr) (val : Nat) (fuel : Nat) :
    Uintptr.Min.traced a val (fuel + 1) =
      (some (a.v, if a.v ≤ val then a else ⟨val⟩),
        ⟨⟨.Load, .Uintptr, .Relaxed⟩, []⟩ ::
          (if a.v ≤ val then [] else [⟨⟨.Cas, .Uintptr, .AcqRel⟩, [(a.v : Int), (val : Int)]⟩])) := by
  by_cases h : a.v ≤ val <;>
    simp [Uintptr.Min.traced, arch.LoadUintptrRelaxed.traced, arch.CasUintptrAcqRel.traced,
      arch.LoadUintptrRelaxed, arch.CasUintptrAcqRel, atomic.LoadUintptr, atomic.CompareAndSwapUintptr, h]

theorem Uintptr_Min_traced_fst (a : Uintptr) (val : Nat) (fuel : Nat) :
    (Uintptr.Min.traced a val fuel).1 = Uintptr.Min a val fuel := by
  cases fuel with
  | zero => rfl
  | succ n => rw [Uintptr_Min_traced_step, Uintptr_Min_step]

/-! ### The 128-bit add and subtract loops: one iteration -/

theorem Int128_AddRelaxed_step (a : Int128) (deltaLo deltaHi : Int) (fuel : Nat) :
    Int128.AddRelaxed a deltaLo deltaHi (fuel + 1) =
      some ((toI64 (addU64 a.v.lo (toU64 deltaLo)),
            toI64 (if addU64 a.v.lo (toU64 deltaLo) < a.v.lo
              then addU64 (addU64 a.v.hi (toU64 deltaHi)) 1
              else addU64 a.v.hi (toU64 deltaHi))),
          { v := { lo := addU64 a.v.lo (toU64 deltaLo),
                   hi := if addU64 a.v.lo (toU64 deltaLo) < a.v.lo
              then addU64 (addU64 a.v.hi (toU64 deltaHi)) 1
              else addU64 a.v.hi (toU64 deltaHi) } }) := by
  simp [Int128.AddRelaxed, arch.LoadUint128Relaxed, cas128_self]

theorem Int128_SubRelaxed_step (a : Int128) (deltaLo deltaHi : Int) (fuel : Nat) :
    Int128.SubRelaxed a deltaLo deltaHi (fuel + 1) =
      some ((toI64 (subU64 a.v.lo (toU64 deltaLo)),
            toI64 (if subU64 a.v.lo (toU64 deltaLo) > a.v.lo
              then subU64 (subU64 a.v.hi (toU64 deltaHi)) 1
              else subU64 a.v.hi (toU64 deltaHi))),
          { v := { lo := subU64 a.v.lo (toU64 deltaLo),
                   hi := if subU64 a.v.lo (toU64 deltaLo) > a.v.lo
              then subU64 (subU64 a.v.hi (toU64 deltaHi)) 1
              else subU64 a.v.hi (toU64 deltaHi) } }) := by
  simp [Int128.SubRelaxed, arch.LoadUint128Relaxed, cas128_self]

theorem Uint128_Add_traced_step (a : Uint128) (deltaLo deltaHi fuel : Nat) :
    Uint128.Add.traced a deltaLo deltaHi (fuel + 1) =
      (some ((addU64 a.v.lo deltaLo,
            if addU64 a.v.lo deltaLo < a.v.lo
              then addU64 (addU64 a.v.hi deltaHi) 1
              else addU64 a.v.hi deltaHi),
          { v := { lo := addU64 a.v.lo deltaLo,
                   hi := if addU64 a.v.lo deltaLo < a.v.lo
              then addU64 (addU64 a.v.hi deltaHi) 1
              else addU64 a.v.hi deltaHi } }),
        [⟨⟨.Load, .Uint128, .Relaxed⟩, []⟩,
         ⟨⟨.Cas, .Uint128, .AcqRel⟩,
          [(a.v.lo : Int), (a.v.hi : Int), ((addU64 a.v.lo deltaLo : Nat) : Int),
            (((if addU64 a.v.lo deltaLo < a.v.lo
              then addU64 (addU64 a.v.hi deltaHi) 1
              else addU64 a.v.hi deltaHi) : Nat) : Int)]⟩]) := by
  simp [Uint128.Add.traced, arch.LoadUint128Relaxed.traced, arch.CasUint128AcqRel.traced,
    arch.LoadUint128Relaxed, arch.CasUint128AcqRel, cas128_self]

theorem Uint128_Add_traced_fst (a : Uint128) (deltaLo deltaHi fuel : Nat) :
    (Uint128.Add.traced a deltaLo deltaHi fuel).1 = Uint128.Add a deltaLo deltaHi fuel := by
  cases fuel with
  | zero => rfl
  | succ n => rw [Uint128_Add_traced_step, Uint128_Add_step]

theorem Uint128_AddRelaxed_traced_step (a : Uint128) (deltaLo deltaHi fuel : Nat) :
    Uint128.AddRelaxed.traced a deltaLo deltaHi (fuel + 1) =
      (some ((addU64 a.v.lo deltaLo,
            if addU64 a.v.lo deltaLo < a.v.lo
              then addU64 (addU64 a.v.hi deltaHi) 1
              else addU64 a.v.hi deltaHi),
          { v := { lo := addU64 a.v.lo deltaLo,
                   hi := if addU64 a.v.lo deltaLo < a.v.lo
              then addU64 (addU64 a.v.hi deltaHi) 1
              else addU64 a.v.hi deltaHi } }),
        [⟨⟨.Load, .Uint128, .Relaxed⟩, []⟩,
         ⟨⟨.Cas, .Uint128, .Relaxed⟩,
          [(a.v.lo : Int), (a.v.hi : Int), ((addU64 a.v.lo deltaLo : Nat) : Int),
            (((if addU64 a.v.lo deltaLo < a.v.lo
              then addU64 (addU64 a.v.hi deltaHi) 1
              else addU64 a.v.hi deltaHi) : Nat) : Int)]⟩]) := by
  simp [Uint128.AddRelaxed.traced, arch.LoadUint128Relaxed.traced, arch.CasUint128Relaxed.traced,
    arch.LoadUint128Relaxed, arch.CasUint128AcqRel, cas128_self]

theorem Uint128_AddRelaxed_traced_fst (a : Uint128) (deltaLo deltaHi fuel : Nat) :
    (Uint128.AddRelaxed.traced a deltaLo deltaHi fuel).1 = Uint128.AddRelaxed a deltaLo deltaHi fuel := by
  cases fuel with
  | zero => rfl
  | succ n => rw [Uint128_AddRelaxed_traced_step, Uint128_AddRelaxed_step]

theorem Uint128_Sub_traced_step (a : Uint128) (deltaLo deltaHi fuel : Nat) :
    Uint128.Sub.traced a deltaLo deltaHi (fuel + 1) =
      (some ((subU64 a.v.lo deltaLo,
            if subU64 a.v.lo deltaLo > a.v.lo
              then subU64 (subU64 a.v.hi deltaHi) 1
              else subU64 a.v.hi deltaHi),
          { v := { lo := subU64 a.v.lo deltaLo,
                   hi := if subU64 a.v.lo deltaLo > a.v.lo
              then subU64 (subU64 a.v.hi deltaHi) 1
              else subU64 a.v.hi deltaHi } }),
        [⟨⟨.Load, .Uint128, .Relaxed⟩, []⟩,
         ⟨⟨.Cas, .Uint128, .AcqRel⟩,
          [(a.v.lo : Int), (a.v.hi : Int), ((subU64 a.v.lo deltaLo : Nat) : Int),
            (((if subU64 a.v.lo deltaLo > a.v.lo
              then subU64 (subU64 a.v.hi deltaHi) 1
              else subU64 a.v.hi deltaHi) : Nat) : Int)]⟩]) := by
  simp [Uint128.Sub.traced, arch.LoadUint128Relaxed.traced, arch.CasUint128AcqRel.traced,
    arch.LoadUint128Relaxed, arch.CasUint128AcqRel, cas128_self]

theorem Uint128_Sub_traced_fst (a : Uint128) (deltaLo deltaHi fuel : Nat) :
    (Uint128.Sub.traced a deltaLo deltaHi fuel).1 = Uint128.Sub a deltaLo deltaHi fuel := by
  cases fuel with
  | zero => rfl
  | succ n => rw [Uint128_Sub_traced_step, Uint128_Sub_step]

theorem Uint128_SubRelaxed_traced_step (a : Uint128) (deltaLo deltaHi fuel : Nat) :
    Uint128.SubRelaxed.traced a deltaLo deltaHi (fuel + 1) =
      (some ((subU64 a.v.lo deltaLo,
            if subU64 a.v.lo deltaLo > a.v.lo
              then subU64 (subU64 a.v.hi deltaHi) 1
              else subU64 a.v.hi deltaHi),
          { v := { lo := subU64 a.v.lo deltaLo,
                   hi := if subU64 a.v.lo deltaLo > a.v.lo
              then subU64 (subU64 a.v.hi deltaHi) 1
              else subU64 a.v.hi deltaHi } }),
        [⟨⟨.Load, .Uint128, .Relaxed⟩, []⟩,
         ⟨⟨.Cas, .Uint128, .Relaxed⟩,
          [(a.v.lo : Int), (a.v.hi : Int), ((subU64 a.v.lo deltaLo : Nat) : Int),
            (((if subU64 a.v.lo deltaLo > a.v.lo
              then subU64 (subU64 a.v.hi deltaHi) 1
              else subU64 a.v.hi deltaHi) : Nat) : Int)]⟩]) := by
  simp [Uint128.SubRelaxed.traced, arch.LoadUint128Relaxed.traced, arch.CasUint128Relaxed.traced,
    arch.LoadUint128Relaxed, arch.CasUint128AcqRel, cas128_self]

theorem Uint128_SubRelaxed_traced_fst (a : Uint128) (deltaLo deltaHi fuel : Nat) :
    (Uint128.SubRelaxed.traced a deltaLo deltaHi fuel).1 = Uint128.SubRelaxed a deltaLo deltaHi fuel := by
  cases fuel with
  | zero => rfl
  | succ n => rw [Uint128_SubRelaxed_traced_step, Uint128_SubRelaxed_step]

theorem MemoryOrder_AddUint128_traced_step (o : MemoryOrder) (a : Uint128) (deltaLo deltaHi fuel : Nat) :
    MemoryOrder.AddUint128.traced o a deltaLo deltaHi (fuel + 1) =
      (some ((a.v.lo, a.v.hi),
          { v := { lo := addU64 a.v.lo deltaLo,
                   hi := if addU64 a.v.lo deltaLo < a.v.lo
              then addU64 (addU64 a.v.hi deltaHi) 1
              else addU64 a.v.hi deltaHi } }),
        [⟨⟨.Load, .Uint128, .Relaxed⟩, []⟩,
         ⟨⟨.Cas, .Uint128, o.casOrder128⟩,
          [(a.v.lo : Int), (a.v.hi : Int), ((addU64 a.v.lo deltaLo : Nat) : Int),
            (((if addU64 a.v.lo deltaLo < a.v.lo
              then addU64 (addU64 a.v.hi deltaHi) 1
              else addU64 a.v.hi deltaHi) : Nat) : Int)]⟩]) := by
  unfold MemoryOrder.AddUint128.traced MemoryOrder.casOrder128
  split <;>
    simp [MemoryOrder.AddUint128.loopRelaxed.traced, MemoryOrder.AddUint128.loopAcqRel.traced,
      arch.LoadUint128Relaxed.traced, arch.CasUint128Relaxed.traced,
      arch.CasUint128AcqRel.traced, arch.LoadUint128Relaxed, arch.CasUint128AcqRel, cas128_self]

theorem MemoryOrder_AddUint128_traced_fst (o : MemoryOrder) (a : Uint128) (deltaLo deltaHi fuel : Nat) :
    (MemoryOrder.AddUint128.traced o a deltaLo deltaHi fuel).1 = o.AddUint128 a deltaLo deltaHi fuel := by
  cases fuel with
  | zero =>
    unfold MemoryOrder.AddUint128.traced MemoryOrder.AddUint128
    split <;> rfl
  | succ n => rw [MemoryOrder_AddUint128_traced_step, MemoryOrder_AddUint128_step]

theorem Int128_Add_traced_step (a : Int128) (deltaLo deltaHi : Int) (fuel : Nat) :
    Int128.Add.traced a deltaLo deltaHi (fuel + 1) =
      (some ((toI64 (addU64 a.v.lo (toU64 deltaLo)),
            toI64 (if addU64 a.v.lo (toU64 deltaLo) < a.v.lo
              then addU64 (addU64 a.v.hi (toU64 deltaHi)) 1
              else addU64 a.v.hi (toU64 deltaHi))),
          { v := { lo := addU64 a.v.lo (toU64 deltaLo),
                   hi := if addU64 a.v.lo (toU64 deltaLo) < a.v.lo
              then addU64 (addU64 a.v.hi (toU64 deltaHi)) 1
              else addU64 a.v.hi (toU64 deltaHi) } }),
        [⟨⟨.Load, .Uint128, .Relaxed⟩, []⟩,
         ⟨⟨.Cas, .Uint128, .AcqRel⟩,
          [(a.v.lo : Int), (a.v.hi : Int), ((addU64 a.v.lo (toU64 deltaLo) : Nat) : Int),
            (((if addU64 a.v.lo (toU64 deltaLo) < a.v.lo
              then addU64 (addU64 a.v.hi (toU64 deltaHi)) 1
              else addU64 a.v.hi (toU64 deltaHi)) : Nat) : Int)]⟩]) := by
  simp [Int128.Add.traced, arch.LoadUint128Relaxed.traced, arch.CasUint128AcqRel.traced,
    arch.LoadUint128Relaxed, arch.CasUint128AcqRel, cas128_self]

theorem Int128_Add_traced_fst (a : Int128) (deltaLo deltaHi : Int) (fuel : Nat) :
    (Int128.Add.traced a deltaLo deltaHi fuel).1 = Int128.Add a deltaLo deltaHi fuel := by
  cases fuel with
  | zero => rfl
  | succ n => rw [Int128_Add_traced_step, Int128_Add_step]

theorem Int128_AddRelaxed_traced_step (a : Int128) (deltaLo deltaHi : Int) (fuel : Nat) :
    Int128.AddRelaxed.traced a deltaLo deltaHi (fuel + 1) =
      (some ((toI64 (addU64 a.v.lo (toU64 deltaLo)),
            toI64 (if addU64 a.v.lo (toU64 deltaLo) < a.v.lo
              then addU64 (addU64 a.v.hi (toU64 deltaHi)) 1
              else addU64 a.v.hi (toU64 deltaHi))),
          { v := { lo := addU64 a.v.lo (toU64 deltaLo),
                   hi := if addU64 a.v.lo (toU64 deltaLo) < a.v.lo
              then addU64 (addU64 a.v.hi (toU64 deltaHi)) 1
              else addU64 a.v.hi (toU64 deltaHi) } }),
        [⟨⟨.Load, .Uint128, .Relaxed⟩, []⟩,
         ⟨⟨.Cas, .Uint128, .Relaxed⟩,
          [(a.v.lo : Int), (a.v.hi : Int), ((addU64 a.v.lo (toU64 deltaLo) : Nat) : Int),
            (((if addU64 a.v.lo (toU64 deltaLo) < a.v.lo
              then addU64 (addU64 a.v.hi (toU64 deltaHi)) 1
              else addU64 a.v.hi (toU64 deltaHi)) : Nat) : Int)]⟩]) := by
  simp [Int128.AddRelaxed.traced, arch.LoadUint128Relaxed.traced, arch.CasUint128Relaxed.traced,
    arch.LoadUint128Relaxed, arch.CasUint128AcqRel, cas128_self]

theorem Int128_AddRelaxed_traced_fst (a : Int128) (deltaLo deltaHi : Int) (fuel : Nat) :
    (Int128.AddRelaxed.traced a deltaLo deltaHi fuel).1 = Int128.AddRelaxed a deltaLo deltaHi fuel := by
  cases fuel with
  | zero => rfl
  | succ n => rw [Int128_AddRelaxed_traced_step, Int128_AddRelaxed_step]

theorem Int128_Sub_traced_step (a : Int128) (deltaLo deltaHi : Int) (fuel : Nat) :
    Int128.Sub.traced a deltaLo deltaHi (fuel + 1) =
      (some ((toI64 (subU64 a.v.lo (toU64 deltaLo)),
            toI64 (if subU64 a.v.lo (toU64 deltaLo) > a.v.lo
              then subU64 (subU64 a.v.hi (toU64 deltaHi)) 1
              else subU64 a.v.hi (toU64 deltaHi))),
          { v := { lo := subU64 a.v.lo (toU64 deltaLo),
                   hi := if subU64 a.v.lo (toU64 deltaLo) > a.v.lo
              then subU64 (subU64 a.v.hi (toU64 deltaHi)) 1
              else subU64 a.v.hi (toU64 deltaHi) } }),
        [⟨⟨.Load, .Uint128, .Relaxed⟩, []⟩,
         ⟨⟨.Cas, .Uint128, .AcqRel⟩,
          [(a.v.lo : Int), (a.v.hi : Int), ((subU64 a.v.lo (toU64 deltaLo) : Nat) : Int),
            (((if subU64 a.v.lo (toU64 deltaLo) > a.v.lo
              then subU64 (subU64 a.v.hi (toU64 deltaHi)) 1
              else subU64 a.v.hi (toU64 deltaHi)) : Nat) : Int)]⟩]) := by
  simp [Int128.Sub.traced, arch.LoadUint128Relaxed.traced, arch.CasUint128AcqRel.traced,
    arch.LoadUint128Relaxed, arch.CasUint128AcqRel, cas128_self]

theorem Int128_Sub_traced_fst (a : Int128) (deltaLo deltaHi : Int) (fuel : Nat) :
    (Int128.Sub.traced a deltaLo deltaHi fuel).1 = Int128.Sub a deltaLo deltaHi fuel := by
  cases fuel with
  | zero => rfl
  | succ n => rw [Int128_Sub_traced_step, Int128_Sub_step]

theorem Int128_SubRelaxed_traced_step (a : Int128) (deltaLo deltaHi : Int) (fuel : Nat) :
    Int128.SubRelaxed.traced a deltaLo deltaHi (fuel + 1) =
      (some ((toI64 (subU64 a.v.lo (toU64 deltaLo)),
            toI64 (if subU64 a.v.lo (toU64 deltaLo) > a.v.lo
              then subU64 (subU64 a.v.hi (toU64 deltaHi)) 1
              else subU64 a.v.hi (toU64 deltaHi))),
          { v := { lo := subU64 a.v.lo (toU64 deltaLo),
                   hi := if subU64 a.v.lo (toU64 deltaLo) > a.v.lo
              then subU64 (subU64 a.v.hi (toU64 deltaHi)) 1
              else subU64 a.v.hi (toU64 deltaHi) } }),
        [⟨⟨.Load, .Uint128, .Relaxed⟩, []⟩,
         ⟨⟨.Cas, .Uint128, .Relaxed⟩,
          [(a.v.lo : Int), (a.v.hi : Int), ((subU64 a.v.lo (toU64 deltaLo) : Nat) : Int),
            (((if subU64 a.v.lo (toU64 deltaLo) > a.v.lo
              then subU64 (subU64 a.v.hi (toU64 deltaHi)) 1
              else subU64 a.v.hi (toU64 deltaHi)) : Nat) : Int)]⟩]) := by
  simp [Int128.SubRelaxed.traced, arch.LoadUint128Relaxed.traced, arch.CasUint128Relaxed.traced,
    arch.LoadUint128Relaxed, arch.CasUint128AcqRel, cas128_self]

theorem Int128_SubRelaxed_traced_fst (a : Int128) (deltaLo deltaHi : Int) (fuel : Nat) :
    (Int128.SubRelaxed.traced a deltaLo deltaHi fuel).1 = Int128.SubRelaxed a deltaLo deltaHi fuel := by
  cases fuel with
  | zero => rfl
  | succ n => rw [Int128_SubRelaxed_traced_step, Int128_SubRelaxed_step]

theorem MemoryOrder_AddInt128_traced_step (o : MemoryOrder) (a : Int128) (deltaLo deltaHi : Int) (fuel : Nat) :
    MemoryOrder.AddInt128.traced o a deltaLo deltaHi (fuel + 1) =
      (some ((toI64 a.v.lo, toI64 a.v.hi),
          { v := { lo := addU64 a.v.lo (toU64 deltaLo),
                   hi := if addU64 a.v.lo (toU64 deltaLo) < a.v.lo
              then addU64 (addU64 a.v.hi (toU64 deltaHi)) 1
              else addU64 a.v.hi (toU64 deltaHi) } }),
        [⟨⟨.Load, .Uint128, .Relaxed⟩, []⟩,
         ⟨⟨.Cas, .Uint128, o.casOrder128⟩,
          [(a.v.lo : Int), (a.v.hi : Int), ((addU64 a.v.lo (toU64 deltaLo) : Nat) : Int),
            (((if addU64 a.v.lo (toU64 deltaLo) < a.v.lo
              then addU64 (addU64 a.v.hi (toU64 deltaHi)) 1
              else addU64 a.v.hi (toU64 deltaHi)) : Nat) : Int)]⟩]) := by
  unfold MemoryOrder.AddInt128.traced MemoryOrder.casOrder128
  split <;>
    simp [MemoryOrder.AddInt128.loopRelaxed.traced, MemoryOrder.AddInt128.loopAcqRel.traced,
      arch.LoadUint128Relaxed.traced, arch.CasUint128Relaxed.traced,
      arch.CasUint128AcqRel.traced, arch.LoadUint128Relaxed, arch.CasUint128AcqRel, cas128_self]

theorem MemoryOrder_AddInt128_traced_fst (o : MemoryOrder) (a : Int128) (deltaLo deltaHi : Int) (fuel : Nat) :
    (MemoryOrder.AddInt128.traced o a deltaLo deltaHi fuel).1 = o.AddInt128 a deltaLo deltaHi fuel := by
  cases fuel with
  | zero =>
    unfold MemoryOrder.AddInt128.traced MemoryOrder.AddInt128
    split <;> rfl
  | succ n => rw [MemoryOrder_AddInt128_traced_step, MemoryOrder_AddInt128_step]

/-! ## Claims on the calls made -/

/-- C13: for every `Int64` cell value `cur` and every `val`, negative values included,
`Max(val)` returns `cur`, whatever the fuel given to its loop, and leaves the cell equal
to the signed maximum of `cur` and `val`.  The calls it makes are the load alone when
`cur >= val`, so that no store is attempted, and the load followed by one
`CasInt64AcqRel(cur, val)` otherwise; the method with its calls returns what `Max`
returns, for every fuel.  `Min(val)` likewise with the signed minimum and `cur <= val`. -/
theorem int64_max_min_return_old (a : Int64) (val : Int) (fuel : Nat) :
    a.Max val (fuel + 1) = some (a.v, ⟨max a.v val⟩) ∧
    Int64.Max.traced a val (fuel + 1) =
      (a.Max val (fuel + 1),
        ⟨⟨.Load, .Int64, .Relaxed⟩, []⟩ ::
          (if a.v ≥ val then [] else [⟨⟨.Cas, .Int64, .AcqRel⟩, [a.v, val]⟩])) ∧
    (Int64.Max.traced a val fuel).1 = a.Max val fuel ∧
    a.Min val (fuel + 1) = some (a.v, ⟨min a.v val⟩) ∧
    Int64.Min.traced a val (fuel + 1) =
      (a.Min val (fuel + 1),
        ⟨⟨.Load, .Int64, .Relaxed⟩, []⟩ ::
          (if a.v ≤ val then [] else [⟨⟨.Cas, .Int64, .AcqRel⟩, [a.v, val]⟩])) ∧
    (Int64.Min.traced a val fuel).1 = a.Min val fuel := by
  refine ⟨?_, ?_, Int64_Max_traced_fst a val fuel, ?_, ?_, Int64_Min_traced_fst a val fuel⟩
  · rw [Int64_Max_step]
    by_cases h : a.v ≥ val
    · rw [if_pos h, max_eq_left h]
    · rw [if_neg h, max_eq_right (by omega)]
  · rw [Int64_Max_traced_step, Int64_Max_step]
  · rw [Int64_Min_step]
    by_cases h : a.v ≤ val
    · rw [if_pos h, min_eq_left h]
    · rw [if_neg h, min_eq_right (by omega)]
  · rw [Int64_Min_traced_step, Int64_Min_step]

/-- C14: for every `MemoryOrder` value `o`, also outside the four named constants,
`LoadInt32` returns its result through the Relaxed load primitive if `o = Relaxed` and
through the Acquire one for every other value; `StoreInt32` calls the Relaxed store
primitive if `o = Relaxed` and the Release one for every other value; `SwapInt32`,
`CompareAndSwapInt32`, `CompareExchangeInt32`, `AddInt32`, `AndInt32`, `OrInt32` and
`XorInt32` call the primitive of `o` when `o` is `Relaxed`, `Acquire` or `Release` and
the AcqRel primitive for every other value.  Each makes exactly that one call, with the
arguments it was given, and returns what the call returns; `MemoryOrder(99)` loads with
Acquire, stores with Release and modifies with AcqRel. -/
theorem memoryOrder_int32_primitive_choice (o : MemoryOrder)
    (addr val old new delta mask : Int) (fuel : Nat) :
    MemoryOrder.LoadInt32.traced o addr =
      (o.LoadInt32 addr, [⟨⟨.Load, .Int32, o.loadOrder⟩, []⟩]) ∧
    MemoryOrder.StoreInt32.traced o addr val =
      (o.StoreInt32 addr val, [⟨⟨.Store, .Int32, o.storeOrder⟩, [val]⟩]) ∧
    MemoryOrder.SwapInt32.traced o addr new =
      (o.SwapInt32 addr new, [⟨⟨.Swap, .Int32, o.rmwOrder⟩, [new]⟩]) ∧
    MemoryOrder.CompareAndSwapInt32.traced o addr old new =
      (o.CompareAndSwapInt32 addr old new, [⟨⟨.Cas, .Int32, o.rmwOrder⟩, [old, new]⟩]) ∧
    MemoryOrder.CompareExchangeInt32.traced o addr old new fuel =
      (o.CompareExchangeInt32 addr old new fuel, [⟨⟨.Cax, .Int32, o.rmwOrder⟩, [old, new]⟩]) ∧
    MemoryOrder.AddInt32.traced o addr delta =
      (o.AddInt32 addr delta, [⟨⟨.Add, .Int32, o.rmwOrder⟩, [delta]⟩]) ∧
    MemoryOrder.AndInt32.traced o addr mask fuel =
      (o.AndInt32 addr mask fuel, [⟨⟨.And, .Int32, o.rmwOrder⟩, [mask]⟩]) ∧
    MemoryOrder.OrInt32.traced o addr mask fuel =
      (o.OrInt32 addr mask fuel, [⟨⟨.Or, .Int32, o.rmwOrder⟩, [mask]⟩]) ∧
    MemoryOrder.XorInt32.traced o addr mask fuel =
      (o.XorInt32 addr mask fuel, [⟨⟨.Xor, .Int32, o.rmwOrder⟩, [mask]⟩]) ∧
    (o.loadOrder = .Relaxed ↔ o = Relaxed) ∧ (o.loadOrder = .Acquire ↔ o ≠ Relaxed) ∧
    (o.storeOrder = .Relaxed ↔ o = Relaxed) ∧ (o.storeOrder = .Release ↔ o ≠ Relaxed) ∧
    (o.rmwOrder = .Relaxed ↔ o = Relaxed) ∧ (o.rmwOrder = .Acquire ↔ o = Acquire) ∧
    (o.rmwOrder = .Release ↔ o = Release) ∧
    (o.rmwOrder = .AcqRel ↔ (o ≠ Relaxed ∧ o ≠ Acquire ∧ o ≠ Release)) ∧
    MemoryOrder.LoadInt32.traced (MemoryOrder.mk 99) addr =
      ((MemoryOrder.mk 99).LoadInt32 addr, [⟨⟨.Load, .Int32, .Acquire⟩, []⟩]) ∧
    MemoryOrder.StoreInt32.traced (MemoryOrder.mk 99) addr val =
      ((MemoryOrder.mk 99).StoreInt32 addr val, [⟨⟨.Store, .Int32, .Release⟩, [val]⟩]) ∧
    MemoryOrder.SwapInt32.traced (MemoryOrder.mk 99) addr new =
      ((MemoryOrder.mk 99).SwapInt32 addr new, [⟨⟨.Swap, .Int32, .AcqRel⟩, [new]⟩]) ∧
    (MemoryOrder.mk 99).loadOrder = .Acquire ∧ (MemoryOrder.mk 99).storeOrder = .Release ∧
    (MemoryOrder.mk 99).rmwOrder = .AcqRel ∧ AcqRel.rmwOrder = .AcqRel := by
  have hAR : Acquire ≠ Relaxed := by decide
  have hRR : Release ≠ Relaxed := by decide
  have hRA : Release ≠ Acquire := by decide
  have hRAc : Relaxed ≠ Acquire := by decide
  have hRRe : Relaxed ≠ Release := by decide
  have hARe : Acquire ≠ Release := by decide
  refine ⟨?_, ?_, ?_, ?_, ?_, ?_, ?_, ?_, ?_, ?_, ?_, ?_, ?_, ?_, ?_, ?_, ?_,
    rfl, rfl, rfl, by decide, by decide, by decide, by decide⟩
  · unfold MemoryOrder.LoadInt32.traced MemoryOrder.LoadInt32 MemoryOrder.loadOrder
    split <;> rfl
  · unfold MemoryOrder.StoreInt32.traced MemoryOrder.StoreInt32 MemoryOrder.storeOrder
    split <;> rfl
  · unfold MemoryOrder.SwapInt32.traced MemoryOrder.SwapInt32 MemoryOrder.rmwOrder
    split_ifs <;> rfl
  · unfold MemoryOrder.CompareAndSwapInt32.traced MemoryOrder.CompareAndSwapInt32 MemoryOrder.rmwOrder
    split_ifs <;> rfl
  · unfold MemoryOrder.CompareExchangeInt32.traced MemoryOrder.CompareExchangeInt32 MemoryOrder.rmwOrder
    split_ifs <;> rfl
  · unfold MemoryOrder.AddInt32.traced MemoryOrder.AddInt32 MemoryOrder.rmwOrder
    split_ifs <;> rfl
  · unfold MemoryOrder.AndInt32.traced MemoryOrder.AndInt32 MemoryOrder.rmwOrder
    split_ifs <;> rfl
  · unfold MemoryOrder.OrInt32.traced MemoryOrder.OrInt32 MemoryOrder.rmwOrder
    split_ifs <;> rfl
  · unfold MemoryOrder.XorInt32.traced MemoryOrder.XorInt32 MemoryOrder.rmwOrder
    split_ifs <;> rfl
  · unfold MemoryOrder.loadOrder; split_ifs <;> simp [*]
  · unfold MemoryOrder.loadOrder; split_ifs <;> simp [*]
  · unfold MemoryOrder.storeOrder; split_ifs <;> simp [*]
  · unfold MemoryOrder.storeOrder; split_ifs <;> simp [*]
  · unfold MemoryOrder.rmwOrder; split_ifs <;> simp_all
  · unfold MemoryOrder.rmwOrder; split_ifs <;> simp_all
  · unfold MemoryOrder.rmwOrder; split_ifs <;> simp_all
  · unfold MemoryOrder.rmwOrder; split_ifs <;> simp_all

/-- C15: for every typed wrapper (`Int32`, `Uint32`, `Int64`, `Uint64`, `Uintptr`, `Bool`,
`Pointer`, `Int128`, `Uint128`), the unsuffixed `Load` and `Store` make the one call that
`LoadRelaxed` and `StoreRelaxed` make, to the Relaxed primitive, and the unsuffixed
`Swap`, `CompareAndSwap`, `CompareExchange`, `Add`, `Sub`, `And`, `Or` and `Xor`, where
the type has them, make the one call that their `AcqRel` variants make, to the AcqRel
primitive with the same arguments; each method returns what that call returns.  `Max`
and `Min` load with the Relaxed primitive and, when the value has to change, call the
AcqRel compare-and-swap with the value loaded and the argument. -/
theorem unsuffixed_methods_same_primitive (i32 : Int32) (u32 : Uint32) (i64 : Int64)
    (u64 : Uint64) (up : Uintptr) (b : AtomixBool) (p : Pointer) (i128 : Int128)
    (u128 : Uint128) (x y xl xh yl yh : Int) (n m nl nh ml mh : Nat) (c d : Bool)
    (fuel : Nat) :
    Int32.Load.traced i32 = (Int32.Load i32, [⟨⟨.Load, .Int32, .Relaxed⟩, []⟩]) ∧
    Int32.LoadRelaxed.traced i32 = (Int32.LoadRelaxed i32, [⟨⟨.Load, .Int32, .Relaxed⟩, []⟩]) ∧
    Int32.Store.traced i32 x = (Int32.Store i32 x, [⟨⟨.Store, .Int32, .Relaxed⟩, [x]⟩]) ∧
    Int32.StoreRelaxed.traced i32 x =
      (Int32.StoreRelaxed i32 x, [⟨⟨.Store, .Int32, .Relaxed⟩, [x]⟩]) ∧
    Int32.Swap.traced i32 x = (Int32.Swap i32 x, [⟨⟨.Swap, .Int32, .AcqRel⟩, [x]⟩]) ∧
    Int32.SwapAcqRel.traced i32 x = (Int32.SwapAcqRel i32 x, [⟨⟨.Swap, .Int32, .AcqRel⟩, [x]⟩]) ∧
    Int32.CompareAndSwap.traced i32 x y =
      (Int32.CompareAndSwap i32 x y, [⟨⟨.Cas, .Int32, .AcqRel⟩, [x, y]⟩]) ∧
    Int32.CompareAndSwapAcqRel.traced i32 x y =
      (Int32.CompareAndSwapAcqRel i32 x y, [⟨⟨.Cas, .Int32, .AcqRel⟩, [x, y]⟩]) ∧
    Int32.CompareExchange.traced i32 x y fuel =
      (Int32.CompareExchange i32 x y fuel, [⟨⟨.Cax, .Int32, .AcqRel⟩, [x, y]⟩]) ∧
    Int32.CompareExchangeAcqRel.traced i32 x y fuel =
      (Int32.CompareExchangeAcqRel i32 x y fuel, [⟨⟨.Cax, .Int32, .AcqRel⟩, [x, y]⟩]) ∧
    Int32.Add.traced i32 x = (Int32.Add i32 x, [⟨⟨.Add, .Int32, .AcqRel⟩, [x]⟩]) ∧
    Int32.AddAcqRel.traced i32 x = (Int32.AddAcqRel i32 x, [⟨⟨.Add, .Int32, .AcqRel⟩, [x]⟩]) ∧
    Int32.Sub.traced i32 x = (Int32.Sub i32 x, [⟨⟨.Add, .Int32, .AcqRel⟩, [negI32 x]⟩]) ∧
    Int32.SubAcqRel.traced i32 x = (Int32.SubAcqRel i32 x, [⟨⟨.Add, .Int32, .AcqRel⟩, [negI32 x]⟩]) ∧
    Int32.And.traced i32 x fuel = (Int32.And i32 x fuel, [⟨⟨.And, .Int32, .AcqRel⟩, [x]⟩]) ∧
    Int32.AndAcqRel.traced i32 x fuel =
      (Int32.AndAcqRel i32 x fuel, [⟨⟨.And, .Int32, .AcqRel⟩, [x]⟩]) ∧
    Int32.Or.traced i32 x fuel = (Int32.Or i32 x fuel, [⟨⟨.Or, .Int32, .AcqRel⟩, [x]⟩]) ∧
    Int32.OrAcqRel.traced i32 x fuel = (Int32.OrAcqRel i32 x fuel, [⟨⟨.Or, .Int32, .AcqRel⟩, [x]⟩]) ∧
    Int32.Xor.traced i32 x fuel = (Int32.Xor i32 x fuel, [⟨⟨.Xor, .Int32, .AcqRel⟩, [x]⟩]) ∧
    Int32.XorAcqRel.traced i32 x fuel =
      (Int32.XorAcqRel i32 x fuel, [⟨⟨.Xor, .Int32, .AcqRel⟩, [x]⟩]) ∧
    Uint32.Load.traced u32 = (Uint32.Load u32, [⟨⟨.Load, .Uint32, .Relaxed⟩, []⟩]) ∧
    Uint32.LoadRelaxed.traced u32 = (Uint32.LoadRelaxed u32, [⟨⟨.Load, .Uint32, .Relaxed⟩, []⟩]) ∧
    Uint32.Store.traced u32 n = (Uint32.Store u32 n, [⟨⟨.Store, .Uint32, .Relaxed⟩, [(n : Int)]⟩]) ∧
    Uint32.StoreRelaxed.traced u32 n =
      (Uint32.StoreRelaxed u32 n, [⟨⟨.Store, .Uint32, .Relaxed⟩, [(n : Int)]⟩]) ∧
    Uint32.Swap.traced u32 n = (Uint32.Swap u32 n, [⟨⟨.Swap, .Uint32, .AcqRel⟩, [(n : Int)]⟩]) ∧
    Uint32.SwapAcqRel.traced u32 n =
      (Uint32.SwapAcqRel u32 n, [⟨⟨.Swap, .Uint32, .AcqRel⟩, [(n : Int)]⟩]) ∧
    Uint32.CompareAndSwap.traced u32 n m =
      (Uint32.CompareAndSwap u32 n m, [⟨⟨.Cas, .Uint32, .AcqRel⟩, [(n : Int), (m : Int)]⟩]) ∧
    Uint32.CompareAndSwapAcqRel.traced u32 n m =
      (Uint32.CompareAndSwapAcqRel u32 n m, [⟨⟨.Cas, .Uint32, .AcqRel⟩, [(n : Int), (m : Int)]⟩]) ∧
    Uint32.CompareExchange.traced u32 n m fuel =
      (Uint32.CompareExchange u32 n m fuel, [⟨⟨.Cax, .Uint32, .AcqRel⟩, [(n : Int), (m : Int)]⟩]) ∧
    Uint32.CompareExchangeAcqRel.traced u32 n m fuel =
      (Uint32.CompareExchangeAcqRel u32 n m fuel, [⟨⟨.Cax, .Uint32, .AcqRel⟩, [(n : Int), (m : Int)]⟩]) ∧
    Uint32.Add.traced u32 n = (Uint32.Add u32 n, [⟨⟨.Add, .Uint32, .AcqRel⟩, [(n : Int)]⟩]) ∧
    Uint32.AddAcqRel.traced u32 n =
      (Uint32.AddAcqRel u32 n, [⟨⟨.Add, .Uint32, .AcqRel⟩, [(n : Int)]⟩]) ∧
    Uint32.Sub.traced u32 n =
      (Uint32.Sub u32 n, [⟨⟨.Add, .Uint32, .AcqRel⟩, [((notU32 (subU32 n 1) : Nat) : Int)]⟩]) ∧
    Uint32.SubAcqRel.traced u32 n =
      (Uint32.SubAcqRel u32 n, [⟨⟨.Add, .Uint32, .AcqRel⟩, [((notU32 (subU32 n 1) : Nat) : Int)]⟩]) ∧
    Uint32.And.traced u32 n fuel =
      (Uint32.And u32 n fuel, [⟨⟨.And, .Uint32, .AcqRel⟩, [(n : Int)]⟩]) ∧
    Uint32.AndAcqRel.traced u32 n fuel =
      (Uint32.AndAcqRel u32 n fuel, [⟨⟨.And, .Uint32, .AcqRel⟩, [(n : Int)]⟩]) ∧
    Uint32.Or.traced u32 n fuel = (Uint32.Or u32 n fuel, [⟨⟨.Or, .Uint32, .AcqRel⟩, [(n : Int)]⟩]) ∧
    Uint32.OrAcqRel.traced u32 n fuel =
      (Uint32.OrAcqRel u32 n fuel, [⟨⟨.Or, .Uint32, .AcqRel⟩, [(n : Int)]⟩]) ∧
    Uint32.Xor.traced u32 n fuel =
      (Uint32.Xor u32 n fuel, [⟨⟨.Xor, .Uint32, .AcqRel⟩, [(n : Int)]⟩]) ∧
    Uint32.XorAcqRel.traced u32 n fuel =
      (Uint32.XorAcqRel u32 n fuel, [⟨⟨.Xor, .Uint32, .AcqRel⟩, [(n : Int)]⟩]) ∧
    Int64.Load.traced i64 = (Int64.Load i64, [⟨⟨.Load, .Int64, .Relaxed⟩, []⟩]) ∧
    Int64.LoadRelaxed.traced i64 = (Int64.LoadRelaxed i64, [⟨⟨.Load, .Int64, .Relaxed⟩, []⟩]) ∧
    Int64.Store.traced i64 x = (Int64.Store i64 x, [⟨⟨.Store, .Int64, .Relaxed⟩, [x]⟩]) ∧
    Int64.StoreRelaxed.traced i64 x =
      (Int64.StoreRelaxed i64 x, [⟨⟨.Store, .Int64, .Relaxed⟩, [x]⟩]) ∧
    Int64.Swap.traced i64 x = (Int64.Swap i64 x, [⟨⟨.Swap, .Int64, .AcqRel⟩, [x]⟩]) ∧
    Int64.SwapAcqRel.traced i64 x = (Int64.SwapAcqRel i64 x, [⟨⟨.Swap, .Int64, .AcqRel⟩, [x]⟩]) ∧
    Int64.CompareAndSwap.traced i64 x y =
      (Int64.CompareAndSwap i64 x y, [⟨⟨.Cas, .Int64, .AcqRel⟩, [x, y]⟩]) ∧
    Int64.CompareAndSwapAcqRel.traced i64 x y =
      (Int64.CompareAndSwapAcqRel i64 x y, [⟨⟨.Cas, .Int64, .AcqRel⟩, [x, y]⟩]) ∧
    Int64.CompareExchange.traced i64 x y fuel =
      (Int64.CompareExchange i64 x y fuel, [⟨⟨.Cax, .Int64, .AcqRel⟩, [x, y]⟩]) ∧
    Int64.CompareExchangeAcqRel.traced i64 x y fuel =
      (Int64.CompareExchangeAcqRel i64 x y fuel, [⟨⟨.Cax, .Int64, .AcqRel⟩, [x, y]⟩]) ∧
    Int64.Add.traced i64 x = (Int64.Add i64 x, [⟨⟨.Add, .Int64, .AcqRel⟩, [x]⟩]) ∧
    Int64.AddAcqRel.traced i64 x = (Int64.AddAcqRel i64 x, [⟨⟨.Add, .Int64, .AcqRel⟩, [x]⟩]) ∧
    Int64.Sub.traced i64 x = (Int64.Sub i64 x, [⟨⟨.Add, .Int64, .AcqRel⟩, [negI64 x]⟩]) ∧
    Int64.SubAcqRel.traced i64 x = (Int64.SubAcqRel i64 x, [⟨⟨.Add, .Int64, .AcqRel⟩, [negI64 x]⟩]) ∧
    Int64.And.traced i64 x fuel = (Int64.And i64 x fuel, [⟨⟨.And, .Int64, .AcqRel⟩, [x]⟩]) ∧
    Int64.AndAcqRel.traced i64 x fuel =
      (Int64.AndAcqRel i64 x fuel, [⟨⟨.And, .Int64, .AcqRel⟩, [x]⟩]) ∧
    Int64.Or.traced i64 x fuel = (Int64.Or i64 x fuel, [⟨⟨.Or, .Int64, .AcqRel⟩, [x]⟩]) ∧
    Int64.OrAcqRel.traced i64 x fuel = (Int64.OrAcqRel i64 x fuel, [⟨⟨.Or, .Int64, .AcqRel⟩, [x]⟩]) ∧
    Int64.Xor.traced i64 x fuel = (Int64.Xor i64 x fuel, [⟨⟨.Xor, .Int64, .AcqRel⟩, [x]⟩]) ∧
    Int64.XorAcqRel.traced i64 x fuel =
      (Int64.XorAcqRel i64 x fuel, [⟨⟨.Xor, .Int64, .AcqRel⟩, [x]⟩]) ∧
    Uint64.Load.traced u64 = (Uint64.Load u64, [⟨⟨.Load, .Uint64, .Relaxed⟩, []⟩]) ∧
    Uint64.LoadRelaxed.traced u64 = (Uint64.LoadRelaxed u64, [⟨⟨.Load, .Uint64, .Relaxed⟩, []⟩]) ∧
    Uint64.Store.traced u64 n = (Uint64.Store u64 n, [⟨⟨.Store, .Uint64, .Relaxed⟩, [(n : Int)]⟩]) ∧
    Uint64.StoreRelaxed.traced u64 n =
      (Uint64.StoreRelaxed u64 n, [⟨⟨.Store, .Uint64, .Relaxed⟩, [(n : Int)]⟩]) ∧
    Uint64.Swap.traced u64 n = (Uint64.Swap u64 n, [⟨⟨.Swap, .Uint64, .AcqRel⟩, [(n : Int)]⟩]) ∧
    Uint64.SwapAcqRel.traced u64 n =
      (Uint64.SwapAcqRel u64 n, [⟨⟨.Swap, .Uint64, .AcqRel⟩, [(n : Int)]⟩]) ∧
    Uint64.CompareAndSwap.traced u64 n m =
      (Uint64.CompareAndSwap u64 n m, [⟨⟨.Cas, .Uint64, .AcqRel⟩, [(n : Int), (m : Int)]⟩]) ∧
    Uint64.CompareAndSwapAcqRel.traced u64 n m =
      (Uint64.CompareAndSwapAcqRel u64 n m, [⟨⟨.Cas, .Uint64, .AcqRel⟩, [(n : Int), (m : Int)]⟩]) ∧
    Uint64.CompareExchange.traced u64 n m fuel =
      (Uint64.CompareExchange u64 n m fuel, [⟨⟨.Cax, .Uint64, .AcqRel⟩, [(n : Int), (m : Int)]⟩]) ∧
    Uint64.CompareExchangeAcqRel.traced u64 n m fuel =
      (Uint64.CompareExchangeAcqRel u64 n m fuel, [⟨⟨.Cax, .Uint64, .AcqRel⟩, [(n : Int), (m : Int)]⟩]) ∧
    Uint64.Add.traced u64 n = (Uint64.Add u64 n, [⟨⟨.Add, .Uint64, .AcqRel⟩, [(n : Int)]⟩]) ∧
    Uint64.AddAcqRel.traced u64 n =
      (Uint64.AddAcqRel u64 n, [⟨⟨.Add, .Uint64, .AcqRel⟩, [(n : Int)]⟩]) ∧
    Uint64.Sub.traced u64 n =
      (Uint64.Sub u64 n, [⟨⟨.Add, .Uint64, .AcqRel⟩, [((notU64 (subU64 n 1) : Nat) : Int)]⟩]) ∧
    Uint64.SubAcqRel.traced u64 n =
      (Uint64.SubAcqRel u64 n, [⟨⟨.Add, .Uint64, .AcqRel⟩, [((notU64 (subU64 n 1) : Nat) : Int)]⟩]) ∧
    Uint64.And.traced u64 n fuel =
      (Uint64.And u64 n fuel, [⟨⟨.And, .Uint64, .AcqRel⟩, [(n : Int)]⟩]) ∧
    Uint64.AndAcqRel.traced u64 n fuel =
      (Uint64.AndAcqRel u64 n fuel, [⟨⟨.And, .Uint64, .AcqRel⟩, [(n : Int)]⟩]) ∧
    Uint64.Or.traced u64 n fuel = (Uint64.Or u64 n fuel, [⟨⟨.Or, .Uint64, .AcqRel⟩, [(n : Int)]⟩]) ∧
    Uint64.OrAcqRel.traced u64 n fuel =
      (Uint64.OrAcqRel u64 n fuel, [⟨⟨.Or, .Uint64, .AcqRel⟩, [(n : Int)]⟩]) ∧
    Uint64.Xor.traced u64 n fuel =
      (Uint64.Xor u64 n fuel, [⟨⟨.Xor, .Uint64, .AcqRel⟩, [(n : Int)]⟩]) ∧
    Uint64.XorAcqRel.traced u64 n fuel =
      (Uint64.XorAcqRel u64 n fuel, [⟨⟨.Xor, .Uint64, .AcqRel⟩, [(n : Int)]⟩]) ∧
    Uintptr.Load.traced up = (Uintptr.Load up, [⟨⟨.Load, .Uintptr, .Relaxed⟩, []⟩]) ∧
    Uintptr.LoadRelaxed.traced up = (Uintptr.LoadRelaxed up, [⟨⟨.Load, .Uintptr, .Relaxed⟩, []⟩]) ∧
    Uintptr.Store.traced up n = (Uintptr.Store up n, [⟨⟨.Store, .Uintptr, .Relaxed⟩, [(n : Int)]⟩]) ∧
    Uintptr.StoreRelaxed.traced up n =
      (Uintptr.StoreRelaxed up n, [⟨⟨.Store, .Uintptr, .Relaxed⟩, [(n : Int)]⟩]) ∧
    Uintptr.Swap.traced up n = (Uintptr.Swap up n, [⟨⟨.Swap, .Uintptr, .AcqRel⟩, [(n : Int)]⟩]) ∧
    Uintptr.SwapAcqRel.traced up n =
      (Uintptr.SwapAcqRel up n, [⟨⟨.Swap, .Uintptr, .AcqRel⟩, [(n : Int)]⟩]) ∧
    Uintptr.CompareAndSwap.traced up n m =
      (Uintptr.CompareAndSwap up n m, [⟨⟨.Cas, .Uintptr, .AcqRel⟩, [(n : Int), (m : Int)]⟩]) ∧
    Uintptr.CompareAndSwapAcqRel.traced up n m =
      (Uintptr.CompareAndSwapAcqRel up n m, [⟨⟨.Cas, .Uintptr, .AcqRel⟩, [(n : Int), (m : Int)]⟩]) ∧
    Uintptr.CompareExchange.traced up n m fuel =
      (Uintptr.CompareExchange up n m fuel, [⟨⟨.Cax, .Uintptr, .AcqRel⟩, [(n : Int), (m : Int)]⟩]) ∧
    Uintptr.CompareExchangeAcqRel.traced up n m fuel =
      (Uintptr.CompareExchangeAcqRel up n m fuel, [⟨⟨.Cax, .Uintptr, .AcqRel⟩, [(n : Int), (m : Int)]⟩]) ∧
    Uintptr.Add.traced up n = (Uintptr.Add up n, [⟨⟨.Add, .Uintptr, .AcqRel⟩, [(n : Int)]⟩]) ∧
    Uintptr.AddAcqRel.traced up n =
      (Uintptr.AddAcqRel up n, [⟨⟨.Add, .Uintptr, .AcqRel⟩, [(n : Int)]⟩]) ∧
    Uintptr.Sub.traced up n =
      (Uintptr.Sub up n, [⟨⟨.Add, .Uintptr, .AcqRel⟩, [((notU64 (subU64 n 1) : Nat) : Int)]⟩]) ∧
    Uintptr.SubAcqRel.traced up n =
      (Uintptr.SubAcqRel up n, [⟨⟨.Add, .Uintptr, .AcqRel⟩, [((notU64 (subU64 n 1) : Nat) : Int)]⟩]) ∧
    Uintptr.And.traced up n fuel =
      (Uintptr.And up n fuel, [⟨⟨.And, .Uintptr, .AcqRel⟩, [(n : Int)]⟩]) ∧
    Uintptr.AndAcqRel.traced up n fuel =
      (Uintptr.AndAcqRel up n fuel, [⟨⟨.And, .Uintptr, .AcqRel⟩, [(n : Int)]⟩]) ∧
    Uintptr.Or.traced up n fuel = (Uintptr.Or up n fuel, [⟨⟨.Or, .Uintptr, .AcqRel⟩, [(n : Int)]⟩]) ∧
    Uintptr.OrAcqRel.traced up n fuel =
      (Uintptr.OrAcqRel up n fuel, [⟨⟨.Or, .Uintptr, .AcqRel⟩, [(n : Int)]⟩]) ∧
    Uintptr.Xor.traced up n fuel =
      (Uintptr.Xor up n fuel, [⟨⟨.Xor, .Uintptr, .AcqRel⟩, [(n : Int)]⟩]) ∧
    Uintptr.XorAcqRel.traced up n fuel =
      (Uintptr.XorAcqRel up n fuel, [⟨⟨.Xor, .Uintptr, .AcqRel⟩, [(n : Int)]⟩]) ∧
    AtomixBool.Load.traced b = (AtomixBool.Load b, [⟨⟨.Load, .Uint32, .Relaxed⟩, []⟩]) ∧
    AtomixBool.LoadRelaxed.traced b = (AtomixBool.LoadRelaxed b, [⟨⟨.Load, .Uint32, .Relaxed⟩, []⟩]) ∧
    AtomixBool.Store.traced b c =
      (AtomixBool.Store b c, [⟨⟨.Store, .Uint32, .Relaxed⟩, [((b2u c : Nat) : Int)]⟩]) ∧
    AtomixBool.StoreRelaxed.traced b c =
      (AtomixBool.StoreRelaxed b c, [⟨⟨.Store, .Uint32, .Relaxed⟩, [((b2u c : Nat) : Int)]⟩]) ∧
    AtomixBool.Swap.traced b c =
      (AtomixBool.Swap b c, [⟨⟨.Swap, .Uint32, .AcqRel⟩, [((b2u c : Nat) : Int)]⟩]) ∧
    AtomixBool.SwapAcqRel.traced b c =
      (AtomixBool.SwapAcqRel b c, [⟨⟨.Swap, .Uint32, .AcqRel⟩, [((b2u c : Nat) : Int)]⟩]) ∧
    AtomixBool.CompareAndSwap.traced b c d =
      (AtomixBool.CompareAndSwap b c d, [⟨⟨.Cas, .Uint32, .AcqRel⟩, [((b2u c : Nat) : Int), ((b2u d : Nat) : Int)]⟩]) ∧
    AtomixBool.CompareAndSwapAcqRel.traced b c d =
      (AtomixBool.CompareAndSwapAcqRel b c d, [⟨⟨.Cas, .Uint32, .AcqRel⟩, [((b2u c : Nat) : Int), ((b2u d : Nat) : Int)]⟩]) ∧
    Pointer.Load.traced p = (Pointer.Load p, [⟨⟨.Load, .Pointer, .Relaxed⟩, []⟩]) ∧
    Pointer.LoadRelaxed.traced p = (Pointer.LoadRelaxed p, [⟨⟨.Load, .Pointer, .Relaxed⟩, []⟩]) ∧
    Pointer.Store.traced p n = (Pointer.Store p n, [⟨⟨.Store, .Pointer, .Relaxed⟩, [(n : Int)]⟩]) ∧
    Pointer.StoreRelaxed.traced p n =
      (Pointer.StoreRelaxed p n, [⟨⟨.Store, .Pointer, .Relaxed⟩, [(n : Int)]⟩]) ∧
    Pointer.Swap.traced p n = (Pointer.Swap p n, [⟨⟨.Swap, .Pointer, .AcqRel⟩, [(n : Int)]⟩]) ∧
    Pointer.SwapAcqRel.traced p n =
      (Pointer.SwapAcqRel p n, [⟨⟨.Swap, .Pointer, .AcqRel⟩, [(n : Int)]⟩]) ∧
    Pointer.CompareAndSwap.traced p n m =
      (Pointer.CompareAndSwap p n m, [⟨⟨.Cas, .Pointer, .AcqRel⟩, [(n : Int), (m : Int)]⟩]) ∧
    Pointer.CompareAndSwapAcqRel.traced p n m =
      (Pointer.CompareAndSwapAcqRel p n m, [⟨⟨.Cas, .Pointer, .AcqRel⟩, [(n : Int), (m : Int)]⟩]) ∧
    Pointer.CompareExchange.traced p n m fuel =
      (Pointer.CompareExchange p n m fuel, [⟨⟨.Cax, .Pointer, .AcqRel⟩, [(n : Int), (m : Int)]⟩]) ∧
    Pointer.CompareExchangeAcqRel.traced p n m fuel =
      (Pointer.CompareExchangeAcqRel p n m fuel, [⟨⟨.Cax, .Pointer, .AcqRel⟩, [(n : Int), (m : Int)]⟩]) ∧
    Int128.Load.traced i128 = (Int128.Load i128, [⟨⟨.Load, .Uint128, .Relaxed⟩, []⟩]) ∧
    Int128.LoadRelaxed.traced i128 = (Int128.LoadRelaxed i128, [⟨⟨.Load, .Uint128, .Relaxed⟩, []⟩]) ∧
    Int128.Store.traced i128 xl xh =
      (Int128.Store i128 xl xh, [⟨⟨.Store, .Uint128, .Relaxed⟩, [((toU64 xl : Nat) : Int), ((toU64 xh : Nat) : Int)]⟩]) ∧
    Int128.StoreRelaxed.traced i128 xl xh =
      (Int128.StoreRelaxed i128 xl xh, [⟨⟨.Store, .Uint128, .Relaxed⟩, [((toU64 xl : Nat) : Int), ((toU64 xh : Nat) : Int)]⟩]) ∧
    Int128.Swap.traced i128 xl xh =
      (Int128.Swap i128 xl xh, [⟨⟨.Swap, .Uint128, .AcqRel⟩, [((toU64 xl : Nat) : Int), ((toU64 xh : Nat) : Int)]⟩]) ∧
    Int128.SwapAcqRel.traced i128 xl xh =
      (Int128.SwapAcqRel i128 xl xh, [⟨⟨.Swap, .Uint128, .AcqRel⟩, [((toU64 xl : Nat) : Int), ((toU64 xh : Nat) : Int)]⟩]) ∧
    Int128.CompareAndSwap.traced i128 xl xh yl yh =
      (Int128.CompareAndSwap i128 xl xh yl yh, [⟨⟨.Cas, .Uint128, .AcqRel⟩, [((toU64 xl : Nat) : Int), ((toU64 xh : Nat) : Int), ((toU64 yl : Nat) : Int), ((toU64 yh : Nat) : Int)]⟩]) ∧
    Int128.CompareAndSwapAcqRel.traced i128 xl xh yl yh =
      (Int128.CompareAndSwapAcqRel i128 xl xh yl yh, [⟨⟨.Cas, .Uint128, .AcqRel⟩, [((toU64 xl : Nat) : Int), ((toU64 xh : Nat) : Int), ((toU64 yl : Nat) : Int), ((toU64 yh : Nat) : Int)]⟩]) ∧
    Int128.CompareExchange.traced i128 xl xh yl yh =
      (Int128.CompareExchange i128 xl xh yl yh, [⟨⟨.Cax, .Uint128, .AcqRel⟩, [((toU64 xl : Nat) : Int), ((toU64 xh : Nat) : Int), ((toU64 yl : Nat) : Int), ((toU64 yh : Nat) : Int)]⟩]) ∧
    Int128.CompareExchangeAcqRel.traced i128 xl xh yl yh =
      (Int128.CompareExchangeAcqRel i128 xl xh yl yh, [⟨⟨.Cax, .Uint128, .AcqRel⟩, [((toU64 xl : Nat) : Int), ((toU64 xh : Nat) : Int), ((toU64 yl : Nat) : Int), ((toU64 yh : Nat) : Int)]⟩]) ∧
    Uint128.Load.traced u128 = (Uint128.Load u128, [⟨⟨.Load, .Uint128, .Relaxed⟩, []⟩]) ∧
    Uint128.LoadRelaxed.traced u128 =
      (Uint128.LoadRelaxed u128, [⟨⟨.Load, .Uint128, .Relaxed⟩, []⟩]) ∧
    Uint128.Store.traced u128 nl nh =
      (Uint128.Store u128 nl nh, [⟨⟨.Store, .Uint128, .Relaxed⟩, [(nl : Int), (nh : Int)]⟩]) ∧
    Uint128.StoreRelaxed.traced u128 nl nh =
      (Uint128.StoreRelaxed u128 nl nh, [⟨⟨.Store, .Uint128, .Relaxed⟩, [(nl : Int), (nh : Int)]⟩]) ∧
    Uint128.Swap.traced u128 nl nh =
      (Uint128.Swap u128 nl nh, [⟨⟨.Swap, .Uint128, .AcqRel⟩, [(nl : Int), (nh : Int)]⟩]) ∧
    Uint128.SwapAcqRel.traced u128 nl nh =
      (Uint128.SwapAcqRel u128 nl nh, [⟨⟨.Swap, .Uint128, .AcqRel⟩, [(nl : Int), (nh : Int)]⟩]) ∧
    Uint128.CompareAndSwap.traced u128 nl nh ml mh =
      (Uint128.CompareAndSwap u128 nl nh ml mh, [⟨⟨.Cas, .Uint128, .AcqRel⟩, [(nl : Int), (nh : Int), (ml : Int), (mh : Int)]⟩]) ∧
    Uint128.CompareAndSwapAcqRel.traced u128 nl nh ml mh =
      (Uint128.CompareAndSwapAcqRel u128 nl nh ml mh, [⟨⟨.Cas, .Uint128, .AcqRel⟩, [(nl : Int), (nh : Int), (ml : Int), (mh : Int)]⟩]) ∧
    Uint128.CompareExchange.traced u128 nl nh ml mh =
      (Uint128.CompareExchange u128 nl nh ml mh, [⟨⟨.Cax, .Uint128, .AcqRel⟩, [(nl : Int), (nh : Int), (ml : Int), (mh : Int)]⟩]) ∧
    Uint128.CompareExchangeAcqRel.traced u128 nl nh ml mh =
      (Uint128.CompareExchangeAcqRel u128 nl nh ml mh, [⟨⟨.Cax, .Uint128, .AcqRel⟩, [(nl : Int), (nh : Int), (ml : Int), (mh : Int)]⟩]) ∧
    Int32.Max.traced i32 x (fuel + 1) =
      (Int32.Max i32 x (fuel + 1),
        ⟨⟨.Load, .Int32, .Relaxed⟩, []⟩ ::
          (if i32.v ≥ x then []
           else [⟨⟨.Cas, .Int32, .AcqRel⟩, [i32.v, x]⟩])) ∧
    Int32.Min.traced i32 x (fuel + 1) =
      (Int32.Min i32 x (fuel + 1),
        ⟨⟨.Load, .Int32, .Relaxed⟩, []⟩ ::
          (if i32.v ≤ x then []
           else [⟨⟨.Cas, .Int32, .AcqRel⟩, [i32.v, x]⟩])) ∧
    Uint32.Max.traced u32 n (fuel + 1) =
      (Uint32.Max u32 n (fuel + 1),
        ⟨⟨.Load, .Uint32, .Relaxed⟩, []⟩ ::
          (if u32.v ≥ n then []
           else [⟨⟨.Cas, .Uint32, .AcqRel⟩, [(u32.v : Int), (n : Int)]⟩])) ∧
    Uint32.Min.traced u32 n (fuel + 1) =
      (Uint32.Min u32 n (fuel + 1),
        ⟨⟨.Load, .Uint32, .Relaxed⟩, []⟩ ::
          (if u32.v ≤ n then []
           else [⟨⟨.Cas, .Uint32, .AcqRel⟩, [(u32.v : Int), (n : Int)]⟩])) ∧
    Int64.Max.traced i64 x (fuel + 1) =
      (Int64.Max i64 x (fuel + 1),
        ⟨⟨.Load, .Int64, .Relaxed⟩, []⟩ ::
          (if i64.v ≥ x then []
           else [⟨⟨.Cas, .Int64, .AcqRel⟩, [i64.v, x]⟩])) ∧
    Int64.Min.traced i64 x (fuel + 1) =
      (Int64.Min i64 x (fuel + 1),
        ⟨⟨.Load, .Int64, .Relaxed⟩, []⟩ ::
          (if i64.v ≤ x then []
           else [⟨⟨.Cas, .Int64, .AcqRel⟩, [i64.v, x]⟩])) ∧
    Uint64.Max.traced u64 n (fuel + 1) =
      (Uint64.Max u64 n (fuel + 1),
        ⟨⟨.Load, .Uint64, .Relaxed⟩, []⟩ ::
          (if u64.v ≥ n then []
           else [⟨⟨.Cas, .Uint64, .AcqRel⟩, [(u64.v : Int), (n : Int)]⟩])) ∧
    Uint64.Min.traced u64 n (fuel + 1) =
      (Uint64.Min u64 n (fuel + 1),
        ⟨⟨.Load, .Uint64, .Relaxed⟩, []⟩ ::
          (if u64.v ≤ n then []
           else [⟨⟨.Cas, .Uint64, .AcqRel⟩, [(u64.v : Int), (n : Int)]⟩])) ∧
    Uintptr.Max.traced up n (fuel + 1) =
      (Uintptr.Max up n (fuel + 1),
        ⟨⟨.Load, .Uintptr, .Relaxed⟩, []⟩ ::
          (if up.v ≥ n then []
           else [⟨⟨.Cas, .Uintptr, .AcqRel⟩, [(up.v : Int), (n : Int)]⟩])) ∧
    Uintptr.Min.traced up n (fuel + 1) =
      (Uintptr.Min up n (fuel + 1),
        ⟨⟨.Load, .Uintptr, .Relaxed⟩, []⟩ ::
          (if up.v ≤ n then []
           else [⟨⟨.Cas, .Uintptr, .AcqRel⟩, [(up.v : Int), (n : Int)]⟩])) := by
  refine ⟨rfl, rfl, rfl, rfl, rfl, rfl, rfl, rfl, rfl, rfl, rfl, rfl, rfl, rfl, rfl, rfl, rfl, rfl, rfl,
    rfl, rfl, rfl, rfl, rfl, rfl, rfl, rfl, rfl, rfl, rfl, rfl, rfl, rfl, rfl, rfl, rfl, rfl, rfl,
    rfl, rfl, rfl, rfl, rfl, rfl, rfl, rfl, rfl, rfl, rfl, rfl, rfl, rfl, rfl, rfl, rfl, rfl, rfl,
    rfl, rfl, rfl, rfl, rfl, rfl, rfl, rfl, rfl, rfl, rfl, rfl, rfl, rfl, rfl, rfl, rfl, rfl, rfl,
    rfl, rfl, rfl, rfl, rfl, rfl, rfl, rfl, rfl, rfl, rfl, rfl, rfl, rfl, rfl, rfl, rfl, rfl, rfl,
    rfl, rfl, rfl, rfl, rfl, rfl, rfl, rfl, rfl, rfl, rfl, rfl, rfl, rfl, rfl, rfl, rfl, rfl, rfl,
    rfl, rfl, rfl, rfl, rfl, rfl, rfl, rfl, rfl, rfl, rfl, rfl, rfl, rfl, rfl, rfl, rfl, rfl, rfl,
    rfl, rfl, rfl, rfl, rfl, ?_, ?_, ?_, ?_, ?_, ?_, ?_, ?_, ?_, ?_⟩
  · rw [Int32_Max_traced_step, Int32_Max_step]
  · rw [Int32_Min_traced_step, Int32_Min_step]
  · rw [Uint32_Max_traced_step, Uint32_Max_step]
  · rw [Uint32_Min_traced_step, Uint32_Min_step]
  · rw [Int64_Max_traced_step, Int64_Max_step]
  · rw [Int64_Min_traced_step, Int64_Min_step]
  · rw [Uint64_Max_traced_step, Uint64_Max_step]
  · rw [Uint64_Min_traced_step, Uint64_Min_step]
  · rw [Uintptr_Max_traced_step, Uintptr_Max_step]
  · rw [Uintptr_Min_traced_step, Uintptr_Min_step]

/-- C31: every 128-bit add and subtract loop loads the pair with `LoadUint128Relaxed` and
then calls one compare-and-swap primitive: `CasUint128AcqRel` in `Add`, `Sub`, `Inc` and
`Dec` of `Uint128` and `Int128`; `CasUint128Relaxed` in `AddRelaxed`, `SubRelaxed`,
`IncRelaxed` and `DecRelaxed`; and in `MemoryOrder.AddUint128` and
`MemoryOrder.AddInt128` the Relaxed one when `o = Relaxed` and the AcqRel one for every
other `o`: Acquire, Release, AcqRel and every unknown value such as `MemoryOrder(99)`.
The loop with its calls returns what the loop returns, for every fuel. -/
theorem add128_loops_primitive_choice (o : MemoryOrder) (u : Uint128) (i : Int128)
    (ulo uhi : Nat) (ilo ihi : Int) (fuel : Nat) :
    (Uint128.Add.traced u ulo uhi fuel).1 = Uint128.Add u ulo uhi fuel ∧
    (Uint128.Add.traced u ulo uhi (fuel + 1)).2.map Call.prim
      = [⟨.Load, .Uint128, .Relaxed⟩, ⟨.Cas, .Uint128, .AcqRel⟩] ∧
    (Uint128.AddRelaxed.traced u ulo uhi fuel).1 = Uint128.AddRelaxed u ulo uhi fuel ∧
    (Uint128.AddRelaxed.traced u ulo uhi (fuel + 1)).2.map Call.prim
      = [⟨.Load, .Uint128, .Relaxed⟩, ⟨.Cas, .Uint128, .Relaxed⟩] ∧
    (Uint128.Sub.traced u ulo uhi fuel).1 = Uint128.Sub u ulo uhi fuel ∧
    (Uint128.Sub.traced u ulo uhi (fuel + 1)).2.map Call.prim
      = [⟨.Load, .Uint128, .Relaxed⟩, ⟨.Cas, .Uint128, .AcqRel⟩] ∧
    (Uint128.SubRelaxed.traced u ulo uhi fuel).1 = Uint128.SubRelaxed u ulo uhi fuel ∧
    (Uint128.SubRelaxed.traced u ulo uhi (fuel + 1)).2.map Call.prim
      = [⟨.Load, .Uint128, .Relaxed⟩, ⟨.Cas, .Uint128, .Relaxed⟩] ∧
    (Uint128.Inc.traced u fuel).1 = Uint128.Inc u fuel ∧
    (Uint128.Inc.traced u (fuel + 1)).2.map Call.prim
      = [⟨.Load, .Uint128, .Relaxed⟩, ⟨.Cas, .Uint128, .AcqRel⟩] ∧
    (Uint128.IncRelaxed.traced u fuel).1 = Uint128.IncRelaxed u fuel ∧
    (Uint128.IncRelaxed.traced u (fuel + 1)).2.map Call.prim
      = [⟨.Load, .Uint128, .Relaxed⟩, ⟨.Cas, .Uint128, .Relaxed⟩] ∧
    (Uint128.Dec.traced u fuel).1 = Uint128.Dec u fuel ∧
    (Uint128.Dec.traced u (fuel + 1)).2.map Call.prim
      = [⟨.Load, .Uint128, .Relaxed⟩, ⟨.Cas, .Uint128, .AcqRel⟩] ∧
    (Uint128.DecRelaxed.traced u fuel).1 = Uint128.DecRelaxed u fuel ∧
    (Uint128.DecRelaxed.traced u (fuel + 1)).2.map Call.prim
      = [⟨.Load, .Uint128, .Relaxed⟩, ⟨.Cas, .Uint128, .Relaxed⟩] ∧
    (Int128.Add.traced i ilo ihi fuel).1 = Int128.Add i ilo ihi fuel ∧
    (Int128.Add.traced i ilo ihi (fuel + 1)).2.map Call.prim
      = [⟨.Load, .Uint128, .Relaxed⟩, ⟨.Cas, .Uint128, .AcqRel⟩] ∧
    (Int128.AddRelaxed.traced i ilo ihi fuel).1 = Int128.AddRelaxed i ilo ihi fuel ∧
    (Int128.AddRelaxed.traced i ilo ihi (fuel + 1)).2.map Call.prim
      = [⟨.Load, .Uint128, .Relaxed⟩, ⟨.Cas, .Uint128, .Relaxed⟩] ∧
    (Int128.Sub.traced i ilo ihi fuel).1 = Int128.Sub i ilo ihi fuel ∧
    (Int128.Sub.traced i ilo ihi (fuel + 1)).2.map Call.prim
      = [⟨.Load, .Uint128, .Relaxed⟩, ⟨.Cas, .Uint128, .AcqRel⟩] ∧
    (Int128.SubRelaxed.traced i ilo ihi fuel).1 = Int128.SubRelaxed i ilo ihi fuel ∧
    (Int128.SubRelaxed.traced i ilo ihi (fuel + 1)).2.map Call.prim
      = [⟨.Load, .Uint128, .Relaxed⟩, ⟨.Cas, .Uint128, .Relaxed⟩] ∧
    (Int128.Inc.traced i fuel).1 = Int128.Inc i fuel ∧
    (Int128.Inc.traced i (fuel + 1)).2.map Call.prim
      = [⟨.Load, .Uint128, .Relaxed⟩, ⟨.Cas, .Uint128, .AcqRel⟩] ∧
    (Int128.IncRelaxed.traced i fuel).1 = Int128.IncRelaxed i fuel ∧
    (Int128.IncRelaxed.traced i (fuel + 1)).2.map Call.prim
      = [⟨.Load, .Uint128, .Relaxed⟩, ⟨.Cas, .Uint128, .Relaxed⟩] ∧
    (Int128.Dec.traced i fuel).1 = Int128.Dec i fuel ∧
    (Int128.Dec.traced i (fuel + 1)).2.map Call.prim
      = [⟨.Load, .Uint128, .Relaxed⟩, ⟨.Cas, .Uint128, .AcqRel⟩] ∧
    (Int128.DecRelaxed.traced i fuel).1 = Int128.DecRelaxed i fuel ∧
    (Int128.DecRelaxed.traced i (fuel + 1)).2.map Call.prim
      = [⟨.Load, .Uint128, .Relaxed⟩, ⟨.Cas, .Uint128, .Relaxed⟩] ∧
    (MemoryOrder.AddUint128.traced o u ulo uhi fuel).1 = o.AddUint128 u ulo uhi fuel ∧
    (MemoryOrder.AddUint128.traced o u ulo uhi (fuel + 1)).2.map Call.prim
      = [⟨.Load, .Uint128, .Relaxed⟩, ⟨.Cas, .Uint128, o.casOrder128⟩] ∧
    (MemoryOrder.AddInt128.traced o i ilo ihi fuel).1 = o.AddInt128 i ilo ihi fuel ∧
    (MemoryOrder.AddInt128.traced o i ilo ihi (fuel + 1)).2.map Call.prim
      = [⟨.Load, .Uint128, .Relaxed⟩, ⟨.Cas, .Uint128, o.casOrder128⟩] ∧
    (o.casOrder128 = .Relaxed ↔ o = Relaxed) ∧
    (o.casOrder128 = .AcqRel ↔ o ≠ Relaxed) ∧
    Acquire.casOrder128 = .AcqRel ∧
    Release.casOrder128 = .AcqRel ∧
    AcqRel.casOrder128 = .AcqRel ∧
    (MemoryOrder.mk 99).casOrder128 = .AcqRel := by
  refine ⟨?_, ?_, ?_, ?_, ?_, ?_, ?_, ?_, ?_, ?_, ?_, ?_, ?_, ?_, ?_, ?_, ?_, ?_, ?_, ?_, ?_, ?_, ?_, ?_,
    ?_, ?_, ?_, ?_, ?_, ?_, ?_, ?_, ?_, ?_, ?_, ?_, ?_, ?_,
    by decide, by decide, by decide, by decide⟩
  · exact Uint128_Add_traced_fst u ulo uhi fuel
  · rw [Uint128_Add_traced_step]; rfl
  · exact Uint128_AddRelaxed_traced_fst u ulo uhi fuel
  · rw [Uint128_AddRelaxed_traced_step]; rfl
  · exact Uint128_Sub_traced_fst u ulo uhi fuel
  · rw [Uint128_Sub_traced_step]; rfl
  · exact Uint128_SubRelaxed_traced_fst u ulo uhi fuel
  · rw [Uint128_SubRelaxed_traced_step]; rfl
  · exact Uint128_Add_traced_fst u 1 0 fuel
  · unfold Uint128.Inc.traced
    rw [Uint128_Add_traced_step]; rfl
  · exact Uint128_AddRelaxed_traced_fst u 1 0 fuel
  · unfold Uint128.IncRelaxed.traced
    rw [Uint128_AddRelaxed_traced_step]; rfl
  · exact Uint128_Sub_traced_fst u 1 0 fuel
  · unfold Uint128.Dec.traced
    rw [Uint128_Sub_traced_step]; rfl
  · exact Uint128_SubRelaxed_traced_fst u 1 0 fuel
  · unfold Uint128.DecRelaxed.traced
    rw [Uint128_SubRelaxed_traced_step]; rfl
  · exact Int128_Add_traced_fst i ilo ihi fuel
  · rw [Int128_Add_traced_step]; rfl
  · exact Int128_AddRelaxed_traced_fst i ilo ihi fuel
  · rw [Int128_AddRelaxed_traced_step]; rfl
  · exact Int128_Sub_traced_fst i ilo ihi fuel
  · rw [Int128_Sub_traced_step]; rfl
  · exact Int128_SubRelaxed_traced_fst i ilo ihi fuel
  · rw [Int128_SubRelaxed_traced_step]; rfl
  · exact Int128_Add_traced_fst i 1 0 fuel
  · unfold Int128.Inc.traced
    rw [Int128_Add_traced_step]; rfl
  · exact Int128_AddRelaxed_traced_fst i 1 0 fuel
  · unfold Int128.IncRelaxed.traced
    rw [Int128_AddRelaxed_traced_step]; rfl
  · exact Int128_Sub_traced_fst i 1 0 fuel
  · unfold Int128.Dec.traced
    rw [Int128_Sub_traced_step]; rfl
  · exact Int128_SubRelaxed_traced_fst i 1 0 fuel
  · unfold Int128.DecRelaxed.traced
    rw [Int128_SubRelaxed_traced_step]; rfl
  · exact MemoryOrder_AddUint128_traced_fst o u ulo uhi fuel
  · rw [MemoryOrder_AddUint128_traced_step]; rfl
  · exact MemoryOrder_AddInt128_traced_fst o i ilo ihi fuel
  · rw [MemoryOrder_AddInt128_traced_step]; rfl
  · unfold MemoryOrder.casOrder128
    split <;> simp_all
  · unfold MemoryOrder.casOrder128
    split <;> simp_all

end Atomix
